import Mathlib

/-!
# stam: grid storage (package vektor) and the fluid model (package stam)

A shallow embedding of `vektor/vektor.go`, `stam/stam.go` and the grid factory of
`game/game.go`.

Modelling conventions:
* Go `int` is the unbounded `Int`: 64-bit wrap-around is not modelled, so arguments at
  the 64-bit limits (where `i + dim*j` or a loop counter would wrap) are outside the
  model.
* Go `float64` has two models. The exact model takes it as the rationals `ℚ` (no
  rounding, no NaN, no infinities) and a slice `[]float64` as a `List ℚ`; it carries
  the statements about storage, panics and which expression a routine evaluates. The
  float64 model (`F64`, namespace `IEEE`) rounds every operation to binary64 and has
  NaN and the infinities; it carries the statements about bounds, signs and fixed
  points of the solver, where rounding and overflow decide the outcome.
* Every `ifc.Gridder` in the repository is a `*vektor.Vektor`, so the interface is
  modelled by `Vektor` itself; the six grids of a fluid are six distinct objects and
  are passed and returned as values.
* A Go `panic` is an `Outcome.panicked` that records the message and the state at the
  moment of the panic.
-/

set_option autoImplicit false

namespace Stam

/-! ## Outcomes of code that may panic -/

/-- Result of running code that may panic: either it completes in state `s`, or it
panics with a message, leaving the state `s` it had reached. -/
inductive Outcome (σ : Type) where
  | done (s : σ) : Outcome σ
  | panicked (msg : String) (s : σ) : Outcome σ
  deriving DecidableEq

/-- Sequencing: continue with `k` after a completed run, stay panicked otherwise. -/
def Outcome.andThen {σ : Type} (o : Outcome σ) (k : σ → Outcome σ) : Outcome σ :=
  match o with
  | Outcome.done s => k s
  | Outcome.panicked msg s => Outcome.panicked msg s

/-- Embed the state of a sub-computation into a larger state. -/
def Outcome.mapState {σ τ : Type} (f : σ → τ) (o : Outcome σ) : Outcome τ :=
  match o with
  | Outcome.done s => Outcome.done (f s)
  | Outcome.panicked msg s => Outcome.panicked msg (f s)

/-- The state an outcome ends in. -/
def Outcome.state {σ : Type} (o : Outcome σ) : σ :=
  match o with
  | Outcome.done s => s
  | Outcome.panicked _ s => s

/-! ## Loops -/

/-- Values taken by the loop variable of `for i := lo; i <= hi; i++`. -/
def loopRange (lo hi : Int) : List Int :=
  (List.range (hi + 1 - lo).toNat).map (fun (k : Nat) => lo + (k : Int))

/-- The loop `for i := lo; i <= hi; i++ { s = body i s }`. -/
def forRange {σ : Type} (lo hi : Int) (body : Int → σ → σ) (s : σ) : σ :=
  (loopRange lo hi).foldl (fun acc i => body i acc) s

/-- The loop `for k := 0; k < n; k++ { s = body s }` whose body ignores `k`. -/
def repeatN {σ : Type} : Nat → (σ → σ) → σ → σ
  | 0, _, s => s
  | n + 1, body, s => repeatN n body (body s)

/-! ## package vektor -/

/-- The struct `Vektor`: `dim` and the value slice `vals`. -/
structure Vektor where
  dim : Int
  vals : List ℚ
  deriving DecidableEq

namespace Vektor

/-- `New(dim)`: a slice of `dim*dim` zeros. -/
def New (dim : Int) : Vektor :=
  { dim := dim, vals := List.replicate (dim * dim).toNat 0 }

/-- `index(i, j)`: `n = i + dim*j`, replaced by `-1` when `n >= dim*dim`. -/
def index (vk : Vektor) (i j : Int) : Int :=
  let n := i + vk.dim * j
  if n ≥ vk.dim * vk.dim then -1 else n

/-- `Get(i, j)`: zero when `index` is negative, otherwise `vals[n]`.
(For `vals.length = dim*dim` the index is always inside the slice.) -/
def Get (vk : Vektor) (i j : Int) : ℚ :=
  let n := vk.index i j
  if n < 0 then 0 else vk.vals.getD n.toNat 0

/-- `Set(i, j, val)`: nothing when `index` is negative, otherwise `vals[n] = val`. -/
def Set (vk : Vektor) (i j : Int) (val : ℚ) : Vektor :=
  let n := vk.index i j
  if n < 0 then vk else { vk with vals := vk.vals.set n.toNat val }

/-- `vk.Swap(ov)`: panics when the dimensions differ, otherwise the two value slices
are exchanged. The result is the pair (receiver, argument). -/
def Swap (vk ov : Vektor) : Outcome (Vektor × Vektor) :=
  if vk.dim ≠ ov.dim then
    Outcome.panicked "will not swap vectors of differing dimentions" (vk, ov)
  else
    Outcome.done ({ vk with vals := ov.vals }, { ov with vals := vk.vals })

/-- The slice of a vektor holds `dim*dim` values, as `New` makes it. -/
def WF (vk : Vektor) : Prop :=
  (vk.vals.length : Int) = vk.dim * vk.dim

instance decidableWF (vk : Vektor) : Decidable vk.WF :=
  inferInstanceAs (Decidable ((vk.vals.length : Int) = vk.dim * vk.dim))

/-- A vektor of dimension `D` whose slice holds `D*D` values. -/
def Shape (vk : Vektor) (D : Int) : Prop :=
  vk.dim = D ∧ vk.WF

instance decidableShape (vk : Vektor) (D : Int) : Decidable (vk.Shape D) :=
  inferInstanceAs (Decidable (vk.dim = D ∧ vk.WF))

end Vektor

/-! ## package game: the grid factory -/

/-- The function `factory` of `game/game.go`: `vektor.New(size)`. -/
def factory (size : Int) : Vektor :=
  Vektor.New size

/-! ## package stam -/

/-- The struct `Fluid`. -/
structure Fluid where
  size : Int
  dt : ℚ
  Visc : ℚ
  Diff : ℚ
  d0 : Vektor
  dd : Vektor
  u0 : Vektor
  uu : Vektor
  v0 : Vektor
  vv : Vektor
  deriving DecidableEq

/-- `NewFluid(gridSize, visc, diff, dt, factory)`: the factory is called six times
with `count = (gridSize+2)*(gridSize+2)`. -/
def NewFluid (gridSize : Int) (visc diff dt : ℚ) (factory : Int → Vektor) : Fluid :=
  let count := (gridSize + 2) * (gridSize + 2)
  { size := gridSize
    Visc := visc
    Diff := diff
    dt := dt
    d0 := factory count
    u0 := factory count
    v0 := factory count
    dd := factory count
    uu := factory count
    vv := factory count }

/-- Go's conversion `int(x)` of a float: truncation toward zero. -/
def truncToInt (x : ℚ) : Int :=
  if 0 ≤ x then Int.floor x else Int.ceil x

namespace Fluid

/-- `Density(i, j)`. -/
def Density (fluid : Fluid) (i j : Int) : ℚ :=
  fluid.dd.Get i j

/-- `Velocity(i, j)`. -/
def Velocity (fluid : Fluid) (i j : Int) : ℚ × ℚ :=
  (fluid.uu.Get i j, fluid.vv.Get i j)

/-- `Min()`: the running minimum starts at 99999 and is lowered by every interior
density below it. -/
def Min (fl : Fluid) : ℚ :=
  forRange 1 fl.size (fun i min =>
    forRange 1 fl.size (fun j min =>
      let dd := fl.dd.Get i j
      if min > dd then dd else min) min) 99999

/-- `Max()`: the running maximum starts at 0 (the zero value of the named result) and
is raised by every interior density above it. -/
def Max (fl : Fluid) : ℚ :=
  forRange 1 fl.size (fun i max =>
    forRange 1 fl.size (fun j max =>
      let dd := fl.dd.Get i j
      if max < dd then dd else max) max) 0

/-- The factor `setBnd(bnd, ·)` applies on the pair of edges that the code `code`
negates: `-1` when `bnd = code`, `+1` otherwise. -/
def bndSign (bnd code : Int) : ℚ :=
  if bnd = code then -1 else 1

/-- The body of the loop of `setBnd`, for loop variable `i`: the cells `(0,i)` and
`(size+1,i)` of the two boundary columns, then the cells `(i,0)` and `(i,size+1)` of
the two boundary rows. -/
def setBndEdges (fl : Fluid) (bnd : Int) (i : Int) (xx : Vektor) : Vektor :=
  let xx :=
    if bnd = 1 then
      let xx := xx.Set 0 i (-xx.Get 1 i)
      xx.Set (fl.size + 1) i (-xx.Get fl.size i)
    else
      let xx := xx.Set 0 i (xx.Get 1 i)
      xx.Set (fl.size + 1) i (xx.Get fl.size i)
  if bnd = 2 then
    let xx := xx.Set i 0 (-xx.Get i 1)
    xx.Set i (fl.size + 1) (-xx.Get i fl.size)
  else
    let xx := xx.Set i 0 (xx.Get i 1)
    xx.Set i (fl.size + 1) (xx.Get i fl.size)

/-- `setBnd(bnd, xx)`: the loop over the boundary ring (`setBndEdges`), then the four
corners are averaged. -/
def setBnd (fl : Fluid) (bnd : Int) (xx : Vektor) : Vektor :=
  let xx := forRange 1 fl.size (fun i xx => fl.setBndEdges bnd i xx) xx
  let xx := xx.Set 0 0 (0.5 * (xx.Get 1 0 + xx.Get 0 1))
  let xx := xx.Set 0 (fl.size + 1) (0.5 * (xx.Get 1 (fl.size + 1) + xx.Get 0 fl.size))
  let xx := xx.Set (fl.size + 1) 0 (0.5 * (xx.Get fl.size 0 + xx.Get (fl.size + 1) 1))
  xx.Set (fl.size + 1) (fl.size + 1)
    (0.5 * (xx.Get fl.size (fl.size + 1) + xx.Get (fl.size + 1) fl.size))

/-- `zero(xx)`: every interior cell is set to 0, then `setBnd(0, xx)`. -/
def zero (fl : Fluid) (xx : Vektor) : Vektor :=
  let xx := forRange 1 fl.size (fun i xx =>
    forRange 1 fl.size (fun j xx => xx.Set i j 0) xx) xx
  fl.setBnd 0 xx

/-- `AddVelocity(i, j, n, u, v)`. -/
def AddVelocity (fluid : Fluid) (i j n : Int) (u v : ℚ) : Fluid :=
  let u0 := fluid.zero fluid.u0
  let v0 := fluid.zero fluid.v0
  let s := forRange (-n) n (fun l s =>
    forRange (-n) n (fun m (s : Vektor × Vektor) =>
      (s.1.Set (i + l) (j + m) u, s.2.Set (i + l) (j + m) v)) s) (u0, v0)
  { fluid with u0 := s.1, v0 := s.2 }

/-- `AddDensity(i, j, n, d)`. -/
def AddDensity (fluid : Fluid) (i j n : Int) (d : ℚ) : Fluid :=
  let d0 := fluid.zero fluid.d0
  let d0 := forRange (-n) n (fun l d0 =>
    forRange (-n) n (fun m d0 => d0.Set (i + l) (j + m) d) d0) d0
  { fluid with d0 := d0 }

/-- `Level(min)`. -/
def Level (fl : Fluid) (min : ℚ) : Fluid :=
  let threshold : ℚ := 0.0001
  if min < threshold then fl
  else
    let dd := forRange 1 fl.size (fun i dd =>
      forRange 1 fl.size (fun j dd =>
        let result := dd.Get i j - 4 * min
        let result := if result < threshold then 0 else result
        dd.Set i j result) dd) fl.dd
    { fl with dd := fl.setBnd 0 dd }

/-- `addSource(dst, src)`; the result is the new `dst`. -/
def addSource (fl : Fluid) (dst src : Vektor) : Vektor :=
  forRange 1 fl.size (fun i dst =>
    forRange 1 fl.size (fun j dst =>
      let val := dst.Get i j + fl.dt * src.Get i j
      dst.Set i j val) dst) dst

/-- One sweep of the relaxation loop of `diffuse` over the interior of `xx`, in place:
a cell already updated in this sweep is read with its new value. -/
def diffuseSweep (fl : Fluid) (a : ℚ) (xx x0 : Vektor) : Vektor :=
  forRange 1 fl.size (fun i xx =>
    forRange 1 fl.size (fun j xx =>
      let num := x0.Get i j
        + a * (xx.Get (i - 1) j + xx.Get (i + 1) j + xx.Get i (j - 1) + xx.Get i (j + 1))
      let result := num / (1 + 4 * a)
      xx.Set i j result) xx) xx

/-- `diffuse(bnd, diff, xx, x0)`; the result is the new `xx`: twenty times
`diffuseSweep` followed by `setBnd(bnd, xx)`. The quotient by `1 + 4*a` is the rational
one, which agrees with the source whenever `1 + 4*a ≠ 0` (in particular for `a ≥ 0`). -/
def diffuse (fl : Fluid) (bnd : Int) (diff : ℚ) (xx x0 : Vektor) : Vektor :=
  let a := fl.dt * diff * ((fl.size * fl.size : Int) : ℚ)
  repeatN 20 (fun xx =>
    let xx := fl.diffuseSweep a xx x0
    fl.setBnd bnd xx) xx

/-- `advect(bnd, dd, d0, uu, vv)`; the result is the new `dd`. -/
def advect (fl : Fluid) (bnd : Int) (dd d0 uu vv : Vektor) : Vektor :=
  let nf : ℚ := (fl.size : ℚ)
  let dt0 := fl.dt * nf
  let dd := forRange 1 fl.size (fun i dd =>
    forRange 1 fl.size (fun j dd =>
      let x : ℚ := (i : ℚ) - dt0 * uu.Get i j
      let y : ℚ := (j : ℚ) - dt0 * vv.Get i j
      let x := if x < 0.5 then 0.5 else x
      let x := if x > nf + 0.5 then nf + 0.5 else x
      let i0 := truncToInt x
      let i1 := i0 + 1
      let y := if y < 0.5 then 0.5 else y
      let y := if y > nf + 0.5 then nf + 0.5 else y
      let j0 := truncToInt y
      let j1 := j0 + 1
      let s1 := x - (i0 : ℚ)
      let s0 := 1 - s1
      let t1 := y - (j0 : ℚ)
      let t0 := 1 - t1
      let result := s0 * (t0 * d0.Get i0 j0 + t1 * d0.Get i0 j1)
        + s1 * (t0 * d0.Get i1 j0 + t1 * d0.Get i1 j1)
      dd.Set i j result) dd) dd
  fl.setBnd bnd dd

/-- The four grids `project` works on. -/
structure ProjGrids where
  u : Vektor
  v : Vektor
  p : Vektor
  div : Vektor
  deriving DecidableEq

/-- All four grids have dimension `D` and hold `D*D` values each. -/
def ProjGrids.Shaped (g : ProjGrids) (D : Int) : Prop :=
  g.u.Shape D ∧ g.v.Shape D ∧ g.p.Shape D ∧ g.div.Shape D

instance ProjGrids.decidableShaped (g : ProjGrids) (D : Int) : Decidable (g.Shaped D) :=
  inferInstanceAs (Decidable (g.u.Shape D ∧ g.v.Shape D ∧ g.p.Shape D ∧ g.div.Shape D))

/-- First loop of `project`: the scaled divergence of `(u, v)` goes to `div` and `p` is
cleared, cell by cell over the interior. -/
def projectDiv (fl : Fluid) (h : ℚ) (g : ProjGrids) : ProjGrids :=
  forRange 1 fl.size (fun i g =>
    forRange 1 fl.size (fun j (g : ProjGrids) =>
      let result := -0.05 * h
        * (g.u.Get (i + 1) j - g.u.Get (i - 1) j + g.v.Get i (j + 1) - g.v.Get i (j - 1))
      let g := { g with div := g.div.Set i j result }
      { g with p := g.p.Set i j 0 }) g) g

/-- One sweep of the relaxation loop of `project` over the interior of `p`. -/
def projectRelax (fl : Fluid) (g : ProjGrids) : ProjGrids :=
  forRange 1 fl.size (fun i g =>
    forRange 1 fl.size (fun j (g : ProjGrids) =>
      let result := (g.div.Get i j + g.p.Get (i - 1) j + g.p.Get (i + 1) j
        + g.p.Get i (j - 1) + g.p.Get i (j + 1)) / 4
      { g with p := g.p.Set i j result }) g) g

/-- Last loop of `project`: the gradient of `p` is subtracted from `u` and `v`. -/
def projectSubtract (fl : Fluid) (h : ℚ) (g : ProjGrids) : ProjGrids :=
  forRange 1 fl.size (fun i g =>
    forRange 1 fl.size (fun j (g : ProjGrids) =>
      let result := g.u.Get i j - 0.5 * (g.p.Get (i + 1) j - g.p.Get (i - 1) j) / h
      let g := { g with u := g.u.Set i j result }
      let result := g.v.Get i j - 0.5 * (g.p.Get i (j + 1) - g.p.Get i (j - 1)) / h
      { g with v := g.v.Set i j result }) g) g

/-- `project(u, v, p, div)`; the result holds the new four grids. Its three loops are
`projectDiv`, twenty times `projectRelax` followed by `setBnd(0, p)`, and
`projectSubtract`. The quotients by `h = 1/size` are rational ones, which agree with
the source whenever `size ≠ 0`. -/
def project (fl : Fluid) (u v p div : Vektor) : ProjGrids :=
  let h : ℚ := 1.0 / (fl.size : ℚ)
  let g := fl.projectDiv h { u := u, v := v, p := p, div := div }
  let g := { g with div := fl.setBnd 0 g.div }
  let g := { g with p := fl.setBnd 0 g.p }
  let g := repeatN 20 (fun g =>
    let g := fl.projectRelax g
    { g with p := fl.setBnd 0 g.p }) g
  let g := fl.projectSubtract h g
  let g := { g with u := fl.setBnd 1 g.u }
  { g with v := fl.setBnd 2 g.v }

/-- The call `fl.uu.Swap(fl.u0)`. -/
def swapUU (fl : Fluid) : Outcome Fluid :=
  (fl.uu.Swap fl.u0).mapState (fun s => { fl with uu := s.1, u0 := s.2 })

/-- The call `fl.vv.Swap(fl.v0)`. -/
def swapVV (fl : Fluid) : Outcome Fluid :=
  (fl.vv.Swap fl.v0).mapState (fun s => { fl with vv := s.1, v0 := s.2 })

/-- The call `fl.dd.Swap(fl.d0)`. -/
def swapDD (fl : Fluid) : Outcome Fluid :=
  (fl.dd.Swap fl.d0).mapState (fun s => { fl with dd := s.1, d0 := s.2 })

/-- The call `fl.project(fl.uu, fl.vv, fl.u0, fl.v0)`. -/
def projectVel (fl : Fluid) : Fluid :=
  let g := fl.project fl.uu fl.vv fl.u0 fl.v0
  { fl with uu := g.u, vv := g.v, u0 := g.p, v0 := g.div }

/-- `Step()`: the statements of one timestep in order, one per line; a panicking
`Swap` stops the pipeline. -/
def Step (fl : Fluid) : Outcome Fluid :=
  Outcome.done fl
  |>.andThen (fun fl => Outcome.done { fl with uu := fl.addSource fl.uu fl.u0 })
  |>.andThen (fun fl => Outcome.done { fl with vv := fl.addSource fl.vv fl.v0 })
  |>.andThen swapUU
  |>.andThen swapVV
  |>.andThen (fun fl => Outcome.done { fl with uu := fl.diffuse 1 fl.Visc fl.uu fl.u0 })
  |>.andThen (fun fl => Outcome.done { fl with vv := fl.diffuse 2 fl.Visc fl.vv fl.v0 })
  |>.andThen (fun fl => Outcome.done fl.projectVel)
  |>.andThen swapUU
  |>.andThen swapVV
  |>.andThen (fun fl => Outcome.done { fl with uu := fl.advect 1 fl.uu fl.u0 fl.u0 fl.v0 })
  |>.andThen (fun fl => Outcome.done { fl with vv := fl.advect 2 fl.vv fl.v0 fl.u0 fl.v0 })
  |>.andThen (fun fl => Outcome.done fl.projectVel)
  |>.andThen (fun fl => Outcome.done { fl with dd := fl.addSource fl.dd fl.d0 })
  |>.andThen swapDD
  |>.andThen (fun fl => Outcome.done { fl with dd := fl.diffuse 0 fl.Diff fl.dd fl.d0 })
  |>.andThen swapDD
  |>.andThen (fun fl => Outcome.done { fl with dd := fl.advect 0 fl.dd fl.d0 fl.uu fl.vv })

/-- A call of one of the mutating entry points of a fluid. -/
inductive Call where
  | addDensity (i j n : Int) (d : ℚ) : Call
  | addVelocity (i j n : Int) (u v : ℚ) : Call
  | level (min : ℚ) : Call
  | step : Call
  deriving DecidableEq

/-- Perform one call. -/
def perform (fl : Fluid) : Call → Outcome Fluid
  | Call.addDensity i j n d => Outcome.done (fl.AddDensity i j n d)
  | Call.addVelocity i j n u v => Outcome.done (fl.AddVelocity i j n u v)
  | Call.level min => Outcome.done (fl.Level min)
  | Call.step => fl.Step

/-- Perform a sequence of calls, stopping at the first panic. -/
def run (fl : Fluid) : List Call → Outcome Fluid
  | [] => Outcome.done fl
  | c :: cs => (fl.perform c).andThen (fun fl => run fl cs)

/-- All six grids have the same dimension. -/
def SameDim (fl : Fluid) : Prop :=
  fl.d0.dim = fl.dd.dim ∧ fl.u0.dim = fl.dd.dim ∧ fl.uu.dim = fl.dd.dim
    ∧ fl.v0.dim = fl.dd.dim ∧ fl.vv.dim = fl.dd.dim

instance decidableSameDim (fl : Fluid) : Decidable fl.SameDim :=
  inferInstanceAs (Decidable (fl.d0.dim = fl.dd.dim ∧ fl.u0.dim = fl.dd.dim
    ∧ fl.uu.dim = fl.dd.dim ∧ fl.v0.dim = fl.dd.dim ∧ fl.vv.dim = fl.dd.dim))

/-- All six grids have dimension `D` and hold `D*D` values each. -/
def Shaped (fl : Fluid) (D : Int) : Prop :=
  fl.d0.Shape D ∧ fl.dd.Shape D ∧ fl.u0.Shape D ∧ fl.uu.Shape D
    ∧ fl.v0.Shape D ∧ fl.vv.Shape D

instance decidableShaped (fl : Fluid) (D : Int) : Decidable (fl.Shaped D) :=
  inferInstanceAs (Decidable (fl.d0.Shape D ∧ fl.dd.Shape D ∧ fl.u0.Shape D ∧ fl.uu.Shape D
    ∧ fl.v0.Shape D ∧ fl.vv.Shape D))

/-- A fluid of resolution 2 on the grids `NewFluid` makes with the factory of package
game, whose four interior densities are 1, 10, 3 and 7. -/
def exampleFluid : Fluid :=
  { NewFluid 2 (1/100) (1/10000) (1/1000) factory with
    dd := ((((Vektor.New 16).Set 1 1 1).Set 1 2 10).Set 2 1 3).Set 2 2 7 }

/-- A horizontal velocity grid for `exampleFluid` whose discrete divergence at (1,1) is
1: `setBnd(1, ·)` of the grid that holds 1 at (1,1) and 0 elsewhere. -/
def divergentU : Vektor :=
  exampleFluid.setBnd 1 ((Vektor.New 16).Set 1 1 1)

/-- The vertical velocity grid that goes with `divergentU`: `setBnd(2, ·)` of the zero
grid. -/
def divergentV : Vektor :=
  exampleFluid.setBnd 2 (Vektor.New 16)

end Fluid

/-! ## Float64 arithmetic

IEEE 754 binary64 as Go uses it on amd64: every operation is computed exactly and then
rounded to nearest, ties to even; no fused multiply-add.

* A finite value is the rational it denotes. The two zeros are one value `fin 0`: the
  program never divides by a zero that could be negative (the divisors are `1 + 4*a`,
  which is `+0` when it is zero, `h = 1/N` and `4`), and comparisons do not tell the
  zeros apart.
* `int(x)` truncates toward zero. For a NaN, an infinity or a value outside the range of
  `int64` Go leaves the result to the implementation; the model takes the amd64 result
  `-2^63`. The theorems below apply `int` to values in range only, except the
  counterexample to C1 with viscosity `1e200`, where the weights are NaN and so is the
  value written, whichever cells are read.
-/

/-- Two to the power `e`, for an integer exponent of either sign. -/
def pow2 (e : Int) : ℚ :=
  if 0 ≤ e then ((2 ^ e.toNat : Nat) : ℚ) else 1 / ((2 ^ (-e).toNat : Nat) : ℚ)

/-- Floor of the binary logarithm of a natural number, by repeated halving; `fuel`
bounds the number of halvings. -/
def log2Fuel : Nat → Nat → Nat
  | 0, _ => 0
  | fuel + 1, n => if n < 2 then 0 else log2Fuel fuel (n / 2) + 1

/-- Floor of the binary logarithm of a positive natural number. -/
def natLog2 (n : Nat) : Nat :=
  log2Fuel n n

/-- Floor of the binary logarithm of a positive rational. -/
def ilog2 (q : ℚ) : Int :=
  let e : Int := (natLog2 q.num.natAbs : Int) - (natLog2 q.den : Int)
  if pow2 e ≤ q then e else e - 1

/-- Rounding of a rational to the nearest integer, ties to the even one. -/
def roundHalfEven (r : ℚ) : Int :=
  let f := Int.floor r
  if r - (f : ℚ) < 1 / 2 then f
  else if 1 / 2 < r - (f : ℚ) then f + 1
  else if f % 2 = 0 then f else f + 1

/-- The binary64 value nearest to a positive rational `q`, ties to even, with the
exponent unbounded above: 53 significant bits, and a spacing of `2^(-1074)` below
`2^(-1022)`. -/
def rnePos (q : ℚ) : ℚ :=
  let u : ℚ := pow2 (max (ilog2 q) (-1022) - 52)
  (roundHalfEven (q / u) : ℚ) * u

/-- Rounding to nearest, ties to even, of any rational. -/
def rne (q : ℚ) : ℚ :=
  if 0 < q then rnePos q else if q < 0 then -rnePos (-q) else 0

/-- A rational that binary64 represents exactly, apart from the upper limit on the
exponent: an integer of magnitude below `2^53` times a power of two not below
`2^(-1074)`. -/
def Rep (q : ℚ) : Prop :=
  ∃ k j : Int, |k| < 2 ^ 53 ∧ -1074 ≤ j ∧ q = (k : ℚ) * (2 : ℚ) ^ j

/-- A float64 value: not-a-number, an infinity with its sign (`neg = true` for `-Inf`),
or a finite number. -/
inductive F64 where
  | nan : F64
  | inf (neg : Bool) : F64
  | fin (q : ℚ) : F64
  deriving DecidableEq

namespace F64

/-- The float64 result of an operation whose exact result is `q`: the nearest binary64
value, or an infinity when that is `2^1024` or more in magnitude. -/
def round (q : ℚ) : F64 :=
  let r := rne q
  if pow2 1024 ≤ |r| then inf (decide (r < 0)) else fin r

/-- Negation. -/
def neg : F64 → F64
  | nan => nan
  | inf s => inf (!s)
  | fin q => fin (-q)

/-- Addition: NaN propagates, `Inf + (-Inf)` is NaN. -/
def add : F64 → F64 → F64
  | nan, _ => nan
  | _, nan => nan
  | inf s, inf t => if s = t then inf s else nan
  | inf s, fin _ => inf s
  | fin _, inf t => inf t
  | fin a, fin b => round (a + b)

/-- Subtraction `x - y`, which IEEE 754 defines as `x + (-y)`. -/
def sub (x y : F64) : F64 :=
  add x (neg y)

/-- Multiplication: NaN propagates, `Inf * 0` is NaN. -/
def mul : F64 → F64 → F64
  | nan, _ => nan
  | _, nan => nan
  | inf s, inf t => inf (s != t)
  | inf s, fin b => if b = 0 then nan else inf (s != decide (b < 0))
  | fin a, inf t => if a = 0 then nan else inf (decide (a < 0) != t)
  | fin a, fin b => round (a * b)

/-- Division: NaN propagates, `Inf / Inf` and `0 / 0` are NaN, a nonzero finite value
over zero is an infinity, a finite value over an infinity is zero. -/
def div : F64 → F64 → F64
  | nan, _ => nan
  | _, nan => nan
  | inf _, inf _ => nan
  | inf s, fin b => inf (s != decide (b < 0))
  | fin _, inf _ => fin 0
  | fin a, fin b =>
    if b = 0 then (if a = 0 then nan else inf (decide (a < 0))) else round (a / b)

/-- The comparison `x < y`: false whenever an operand is NaN. -/
def lt : F64 → F64 → Bool
  | fin a, fin b => decide (a < b)
  | inf true, fin _ => true
  | inf true, inf false => true
  | fin _, inf false => true
  | _, _ => false

/-- The conversion `float64(i)` of an integer. -/
def ofInt (i : Int) : F64 :=
  round (i : ℚ)

/-- The conversion `int(x)`: truncation toward zero, and `-2^63` for a NaN, an infinity
or a value outside the range of `int64`. -/
def toInt : F64 → Int
  | fin q =>
    let t := if 0 ≤ q then Int.floor q else Int.ceil q
    if -(2 ^ 63 : Int) ≤ t ∧ t < 2 ^ 63 then t else -(2 ^ 63)
  | _ => -(2 ^ 63)

instance instAdd : Add F64 :=
  ⟨add⟩

instance instSub : Sub F64 :=
  ⟨sub⟩

instance instMul : Mul F64 :=
  ⟨mul⟩

instance instDiv : Div F64 :=
  ⟨div⟩

instance instNeg : Neg F64 :=
  ⟨neg⟩

instance instLT : LT F64 :=
  ⟨fun x y => lt x y = true⟩

instance decidableLT (x y : F64) : Decidable (x < y) :=
  inferInstanceAs (Decidable (lt x y = true))

/-- A decimal literal is the float64 nearest to it. -/
instance instOfScientific : OfScientific F64 :=
  ⟨fun m s e => round (Rat.ofScientific m s e)⟩

/-- An integer literal is the float64 nearest to it. -/
instance instOfNat (n : Nat) : OfNat F64 n :=
  ⟨round (n : ℚ)⟩

/-- The float64 value `x` is finite and of absolute value at most `M`. -/
def Bounded (M : ℚ) (x : F64) : Prop :=
  ∃ q, x = fin q ∧ |q| ≤ M

/-- The float64 value `x` is finite and representable, and lies in `[lo, hi]`. -/
def Within (lo hi : ℚ) (x : F64) : Prop :=
  ∃ q, x = fin q ∧ Rep q ∧ lo ≤ q ∧ q ≤ hi

end F64

/-- The rational value of the float64 sum `q1 + q2 + q3 + q4`, added left to right,
when no addition overflows. -/
def sum4Q (q1 q2 q3 q4 : ℚ) : ℚ :=
  rne (rne (rne (q1 + q2) + q3) + q4)

/-- The rational value of the float64 expression `1 + 4*a`, when it does not
overflow. -/
def denomQ (aq : ℚ) : ℚ :=
  rne (1 + rne (4 * aq))

/-- The rational value of the float64 relaxation step
`(x0 + a*(q1 + q2 + q3 + q4)) / (1 + 4*a)` of `diffuse`, when no operation overflows. -/
def relaxQ (aq q0 q1 q2 q3 q4 : ℚ) : ℚ :=
  rne (rne (q0 + rne (aq * sum4Q q1 q2 q3 q4)) / denomQ aq)

/-- A pair of interpolation weights: multiples of `2^(-53)` in `[0,1]` that sum to 1. -/
def Weights (w0 w1 : ℚ) : Prop :=
  ∃ m0 m1 : Int, 0 ≤ m0 ∧ 0 ≤ m1 ∧ m0 + m1 = 2 ^ 53
    ∧ w0 = (m0 : ℚ) / 2 ^ 53 ∧ w1 = (m1 : ℚ) / 2 ^ 53

/-! ## The solver over float64

The routines of `stam.go` that the numerical statements are about, and the part of
`vektor.go` they call, with every `float64` operation rounded: `Vektor`, `NewFluid`,
`setBnd`, `addSource`, `diffuse`, `advect`, `project`, `Step`. The definitions are those
of the exact model above with `ℚ` replaced by `F64`; `bndSign` gives a sign to apply
instead of a factor `±1`, since negation is exact and a float64 product is rounded. -/

namespace IEEE

/-- The struct `Vektor` with float64 values. -/
structure Vektor where
  dim : Int
  vals : List F64
  deriving DecidableEq

namespace Vektor

/-- `New(dim)`: a slice of `dim*dim` zeros. -/
def New (dim : Int) : Vektor :=
  { dim := dim, vals := List.replicate (dim * dim).toNat 0 }

/-- `index(i, j)`: `n = i + dim*j`, replaced by `-1` when `n >= dim*dim`. -/
def index (vk : Vektor) (i j : Int) : Int :=
  let n := i + vk.dim * j
  if n ≥ vk.dim * vk.dim then -1 else n

/-- `Get(i, j)`: zero when `index` is negative, otherwise `vals[n]`. -/
def Get (vk : Vektor) (i j : Int) : F64 :=
  let n := vk.index i j
  if n < 0 then 0 else vk.vals.getD n.toNat 0

/-- `Set(i, j, val)`: nothing when `index` is negative, otherwise `vals[n] = val`. -/
def Set (vk : Vektor) (i j : Int) (val : F64) : Vektor :=
  let n := vk.index i j
  if n < 0 then vk else { vk with vals := vk.vals.set n.toNat val }

/-- `vk.Swap(ov)`: panics when the dimensions differ, otherwise the two value slices
are exchanged. The result is the pair (receiver, argument). -/
def Swap (vk ov : Vektor) : Outcome (Vektor × Vektor) :=
  if vk.dim ≠ ov.dim then
    Outcome.panicked "will not swap vectors of differing dimentions" (vk, ov)
  else
    Outcome.done ({ vk with vals := ov.vals }, { ov with vals := vk.vals })

/-- The slice of a vektor holds `dim*dim` values, as `New` makes it. -/
def WF (vk : Vektor) : Prop :=
  (vk.vals.length : Int) = vk.dim * vk.dim

instance decidableWF (vk : Vektor) : Decidable vk.WF :=
  inferInstanceAs (Decidable ((vk.vals.length : Int) = vk.dim * vk.dim))

/-- A vektor of dimension `D` whose slice holds `D*D` values. -/
def Shape (vk : Vektor) (D : Int) : Prop :=
  vk.dim = D ∧ vk.WF

instance decidableShape (vk : Vektor) (D : Int) : Decidable (vk.Shape D) :=
  inferInstanceAs (Decidable (vk.dim = D ∧ vk.WF))

/-- Every stored value is 0. -/
def AllZero (vk : Vektor) : Prop :=
  ∀ x ∈ vk.vals, x = 0

instance decidableAllZero (vk : Vektor) : Decidable vk.AllZero :=
  inferInstanceAs (Decidable (∀ x ∈ vk.vals, x = 0))

end Vektor

/-- The function `factory` of `game/game.go`: `vektor.New(size)`. -/
def factory (size : Int) : Vektor :=
  Vektor.New size

/-- The struct `Fluid` with float64 parameters and grids. -/
structure Fluid where
  size : Int
  dt : F64
  Visc : F64
  Diff : F64
  d0 : Vektor
  dd : Vektor
  u0 : Vektor
  uu : Vektor
  v0 : Vektor
  vv : Vektor
  deriving DecidableEq

/-- `NewFluid(gridSize, visc, diff, dt, factory)`. -/
def NewFluid (gridSize : Int) (visc diff dt : F64) (factory : Int → Vektor) : Fluid :=
  let count := (gridSize + 2) * (gridSize + 2)
  { size := gridSize
    Visc := visc
    Diff := diff
    dt := dt
    d0 := factory count
    u0 := factory count
    v0 := factory count
    dd := factory count
    uu := factory count
    vv := factory count }

namespace Fluid

/-- `Density(i, j)`. -/
def Density (fluid : Fluid) (i j : Int) : F64 :=
  fluid.dd.Get i j

/-- `Velocity(i, j)`. -/
def Velocity (fluid : Fluid) (i j : Int) : F64 × F64 :=
  (fluid.uu.Get i j, fluid.vv.Get i j)

/-- The sign `setBnd` gives the value it copies into an edge cell. -/
inductive Sign where
  | keep : Sign
  | flip : Sign
  deriving DecidableEq

/-- A float64 value with a sign applied: itself, or its negation. -/
def Sign.apply : Sign → F64 → F64
  | Sign.keep, x => x
  | Sign.flip, x => -x

instance : HMul Sign F64 F64 := ⟨Sign.apply⟩

/-- The sign `setBnd(bnd, ·)` applies on the pair of edges that the code `code` negates:
a flip when `bnd = code`, none otherwise. -/
def bndSign (bnd code : Int) : Sign :=
  if bnd = code then Sign.flip else Sign.keep

/-- The body of the loop of `setBnd`, for loop variable `i`. -/
def setBndEdges (fl : Fluid) (bnd : Int) (i : Int) (xx : Vektor) : Vektor :=
  let xx :=
    if bnd = 1 then
      let xx := xx.Set 0 i (-xx.Get 1 i)
      xx.Set (fl.size + 1) i (-xx.Get fl.size i)
    else
      let xx := xx.Set 0 i (xx.Get 1 i)
      xx.Set (fl.size + 1) i (xx.Get fl.size i)
  if bnd = 2 then
    let xx := xx.Set i 0 (-xx.Get i 1)
    xx.Set i (fl.size + 1) (-xx.Get i fl.size)
  else
    let xx := xx.Set i 0 (xx.Get i 1)
    xx.Set i (fl.size + 1) (xx.Get i fl.size)

/-- `setBnd(bnd, xx)`. -/
def setBnd (fl : Fluid) (bnd : Int) (xx : Vektor) : Vektor :=
  let xx := forRange 1 fl.size (fun i xx => fl.setBndEdges bnd i xx) xx
  let xx := xx.Set 0 0 (0.5 * (xx.Get 1 0 + xx.Get 0 1))
  let xx := xx.Set 0 (fl.size + 1) (0.5 * (xx.Get 1 (fl.size + 1) + xx.Get 0 fl.size))
  let xx := xx.Set (fl.size + 1) 0 (0.5 * (xx.Get fl.size 0 + xx.Get (fl.size + 1) 1))
  xx.Set (fl.size + 1) (fl.size + 1)
    (0.5 * (xx.Get fl.size (fl.size + 1) + xx.Get (fl.size + 1) fl.size))

/-- `addSource(dst, src)`; the result is the new `dst`. -/
def addSource (fl : Fluid) (dst src : Vektor) : Vektor :=
  forRange 1 fl.size (fun i dst =>
    forRange 1 fl.size (fun j dst =>
      let val := dst.Get i j + fl.dt * src.Get i j
      dst.Set i j val) dst) dst

/-- One sweep of the relaxation loop of `diffuse` over the interior of `xx`, in place. -/
def diffuseSweep (fl : Fluid) (a : F64) (xx x0 : Vektor) : Vektor :=
  forRange 1 fl.size (fun i xx =>
    forRange 1 fl.size (fun j xx =>
      let num := x0.Get i j
        + a * (xx.Get (i - 1) j + xx.Get (i + 1) j + xx.Get i (j - 1) + xx.Get i (j + 1))
      let result := num / (1 + 4 * a)
      xx.Set i j result) xx) xx

/-- `diffuse(bnd, diff, xx, x0)`; the result is the new `xx`. -/
def diffuse (fl : Fluid) (bnd : Int) (diff : F64) (xx x0 : Vektor) : Vektor :=
  let a := fl.dt * diff * F64.ofInt (fl.size * fl.size)
  repeatN 20 (fun xx =>
    let xx := fl.diffuseSweep a xx x0
    fl.setBnd bnd xx) xx

/-- `advect(bnd, dd, d0, uu, vv)`; the result is the new `dd`. -/
def advect (fl : Fluid) (bnd : Int) (dd d0 uu vv : Vektor) : Vektor :=
  let nf : F64 := F64.ofInt fl.size
  let dt0 := fl.dt * nf
  let dd := forRange 1 fl.size (fun i dd =>
    forRange 1 fl.size (fun j dd =>
      let x : F64 := F64.ofInt i - dt0 * uu.Get i j
      let y : F64 := F64.ofInt j - dt0 * vv.Get i j
      let x := if x < 0.5 then 0.5 else x
      let x := if x > nf + 0.5 then nf + 0.5 else x
      let i0 := F64.toInt x
      let i1 := i0 + 1
      let y := if y < 0.5 then 0.5 else y
      let y := if y > nf + 0.5 then nf + 0.5 else y
      let j0 := F64.toInt y
      let j1 := j0 + 1
      let s1 := x - F64.ofInt i0
      let s0 := 1 - s1
      let t1 := y - F64.ofInt j0
      let t0 := 1 - t1
      let result := s0 * (t0 * d0.Get i0 j0 + t1 * d0.Get i0 j1)
        + s1 * (t0 * d0.Get i1 j0 + t1 * d0.Get i1 j1)
      dd.Set i j result) dd) dd
  fl.setBnd bnd dd

/-- The two clamping statements `advect` applies to a traced coordinate `x`:
`if x < 0.5 { x = 0.5 }` and `if x > nf+0.5 { x = nf + 0.5 }`. -/
def clampTrace (nf x : F64) : F64 :=
  let x := if x < 0.5 then 0.5 else x
  if x > nf + 0.5 then nf + 0.5 else x

/-- The `result` the loop body of `advect` computes for the cell `(i, j)`: the bilinear
interpolation of `d0` at the clamped traced point. -/
def advectValue (fl : Fluid) (d0 uu vv : Vektor) (i j : Int) : F64 :=
  let x := clampTrace (F64.ofInt fl.size) (F64.ofInt i - fl.dt * F64.ofInt fl.size * uu.Get i j)
  let y := clampTrace (F64.ofInt fl.size) (F64.ofInt j - fl.dt * F64.ofInt fl.size * vv.Get i j)
  let i0 := F64.toInt x
  let j0 := F64.toInt y
  let s1 := x - F64.ofInt i0
  let t1 := y - F64.ofInt j0
  (1 - s1) * ((1 - t1) * d0.Get i0 j0 + t1 * d0.Get i0 (j0 + 1))
    + s1 * ((1 - t1) * d0.Get (i0 + 1) j0 + t1 * d0.Get (i0 + 1) (j0 + 1))

/-- The four grids `project` works on. -/
structure ProjGrids where
  u : Vektor
  v : Vektor
  p : Vektor
  div : Vektor
  deriving DecidableEq

/-- First loop of `project`. -/
def projectDiv (fl : Fluid) (h : F64) (g : ProjGrids) : ProjGrids :=
  forRange 1 fl.size (fun i g =>
    forRange 1 fl.size (fun j (g : ProjGrids) =>
      let result := -0.05 * h
        * (g.u.Get (i + 1) j - g.u.Get (i - 1) j + g.v.Get i (j + 1) - g.v.Get i (j - 1))
      let g := { g with div := g.div.Set i j result }
      { g with p := g.p.Set i j 0 }) g) g

/-- One sweep of the relaxation loop of `project` over the interior of `p`. -/
def projectRelax (fl : Fluid) (g : ProjGrids) : ProjGrids :=
  forRange 1 fl.size (fun i g =>
    forRange 1 fl.size (fun j (g : ProjGrids) =>
      let result := (g.div.Get i j + g.p.Get (i - 1) j + g.p.Get (i + 1) j
        + g.p.Get i (j - 1) + g.p.Get i (j + 1)) / 4
      { g with p := g.p.Set i j result }) g) g

/-- Last loop of `project`. -/
def projectSubtract (fl : Fluid) (h : F64) (g : ProjGrids) : ProjGrids :=
  forRange 1 fl.size (fun i g =>
    forRange 1 fl.size (fun j (g : ProjGrids) =>
      let result := g.u.Get i j - 0.5 * (g.p.Get (i + 1) j - g.p.Get (i - 1) j) / h
      let g := { g with u := g.u.Set i j result }
      let result := g.v.Get i j - 0.5 * (g.p.Get i (j + 1) - g.p.Get i (j - 1)) / h
      { g with v := g.v.Set i j result }) g) g

/-- `project(u, v, p, div)`; the result holds the new four grids. -/
def project (fl : Fluid) (u v p div : Vektor) : ProjGrids :=
  let h : F64 := 1.0 / F64.ofInt fl.size
  let g := fl.projectDiv h { u := u, v := v, p := p, div := div }
  let g := { g with div := fl.setBnd 0 g.div }
  let g := { g with p := fl.setBnd 0 g.p }
  let g := repeatN 20 (fun g =>
    let g := fl.projectRelax g
    { g with p := fl.setBnd 0 g.p }) g
  let g := fl.projectSubtract h g
  let g := { g with u := fl.setBnd 1 g.u }
  { g with v := fl.setBnd 2 g.v }

/-- The call `fl.uu.Swap(fl.u0)`. -/
def swapUU (fl : Fluid) : Outcome Fluid :=
  (fl.uu.Swap fl.u0).mapState (fun s => { fl with uu := s.1, u0 := s.2 })

/-- The call `fl.vv.Swap(fl.v0)`. -/
def swapVV (fl : Fluid) : Outcome Fluid :=
  (fl.vv.Swap fl.v0).mapState (fun s => { fl with vv := s.1, v0 := s.2 })

/-- The call `fl.dd.Swap(fl.d0)`. -/
def swapDD (fl : Fluid) : Outcome Fluid :=
  (fl.dd.Swap fl.d0).mapState (fun s => { fl with dd := s.1, d0 := s.2 })

/-- The call `fl.project(fl.uu, fl.vv, fl.u0, fl.v0)`. -/
def projectVel (fl : Fluid) : Fluid :=
  let g := fl.project fl.uu fl.vv fl.u0 fl.v0
  { fl with uu := g.u, vv := g.v, u0 := g.p, v0 := g.div }

/-- `Step()`: the statements of one timestep in order. -/
def Step (fl : Fluid) : Outcome Fluid :=
  Outcome.done fl
  |>.andThen (fun fl => Outcome.done { fl with uu := fl.addSource fl.uu fl.u0 })
  |>.andThen (fun fl => Outcome.done { fl with vv := fl.addSource fl.vv fl.v0 })
  |>.andThen swapUU
  |>.andThen swapVV
  |>.andThen (fun fl => Outcome.done { fl with uu := fl.diffuse 1 fl.Visc fl.uu fl.u0 })
  |>.andThen (fun fl => Outcome.done { fl with vv := fl.diffuse 2 fl.Visc fl.vv fl.v0 })
  |>.andThen (fun fl => Outcome.done fl.projectVel)
  |>.andThen swapUU
  |>.andThen swapVV
  |>.andThen (fun fl => Outcome.done { fl with uu := fl.advect 1 fl.uu fl.u0 fl.u0 fl.v0 })
  |>.andThen (fun fl => Outcome.done { fl with vv := fl.advect 2 fl.vv fl.v0 fl.u0 fl.v0 })
  |>.andThen (fun fl => Outcome.done fl.projectVel)
  |>.andThen (fun fl => Outcome.done { fl with dd := fl.addSource fl.dd fl.d0 })
  |>.andThen swapDD
  |>.andThen (fun fl => Outcome.done { fl with dd := fl.diffuse 0 fl.Diff fl.dd fl.d0 })
  |>.andThen swapDD
  |>.andThen (fun fl => Outcome.done { fl with dd := fl.advect 0 fl.dd fl.d0 fl.uu fl.vv })

/-- All six grids have the same dimension. -/
def SameDim (fl : Fluid) : Prop :=
  fl.d0.dim = fl.dd.dim ∧ fl.u0.dim = fl.dd.dim ∧ fl.uu.dim = fl.dd.dim
    ∧ fl.v0.dim = fl.dd.dim ∧ fl.vv.dim = fl.dd.dim

instance decidableSameDim (fl : Fluid) : Decidable fl.SameDim :=
  inferInstanceAs (Decidable (fl.d0.dim = fl.dd.dim ∧ fl.u0.dim = fl.dd.dim
    ∧ fl.uu.dim = fl.dd.dim ∧ fl.v0.dim = fl.dd.dim ∧ fl.vv.dim = fl.dd.dim))

/-- All six grids hold 0 in every cell. -/
def AllZero (fl : Fluid) : Prop :=
  fl.dd.AllZero ∧ fl.d0.AllZero ∧ fl.uu.AllZero ∧ fl.u0.AllZero
    ∧ fl.vv.AllZero ∧ fl.v0.AllZero

instance decidableAllZero (fl : Fluid) : Decidable fl.AllZero :=
  inferInstanceAs (Decidable (fl.dd.AllZero ∧ fl.d0.AllZero ∧ fl.uu.AllZero ∧ fl.u0.AllZero
    ∧ fl.vv.AllZero ∧ fl.v0.AllZero))

/-- The call `Step()` repeated `k` times. -/
def stepN (fl : Fluid) : Nat → Outcome Fluid
  | 0 => Outcome.done fl
  | k + 1 => fl.Step.andThen (fun fl => stepN fl k)

/-- A float64 fluid of resolution 1 with `dt = 1`. -/
def unitFluid : Fluid :=
  NewFluid 1 0 0 1 factory

/-- A source grid for `unitFluid`: 27.263 at the interior cell (1,1), 0 elsewhere. -/
def unitSource : Vektor :=
  (Vektor.New 9).Set 1 1 27.263

/-- A float64 fluid of resolution 2 with the parameters of `game.go`. -/
def spikeFluid : Fluid :=
  NewFluid 2 0.01 0.0001 0.001 factory

/-- A source grid for `spikeFluid`: 5 at the interior cell (1,1), 0 elsewhere. -/
def spikeSource : Vektor :=
  (Vektor.New 16).Set 1 1 5

/-- A float64 fluid of resolution 2 with `dt = 0.001`. -/
def traceFluid : Fluid :=
  NewFluid 2 0 0 0.001 factory

/-- A source grid for `traceFluid` holding 1.3 in every cell. -/
def traceSource : Vektor :=
  { dim := 16, vals := List.replicate 256 1.3 }

/-- A horizontal velocity grid for `traceFluid`: 47 at (1,1), 0 elsewhere. -/
def traceU : Vektor :=
  (Vektor.New 16).Set 1 1 47

/-- A vertical velocity grid for `traceFluid`: -1 at (1,1), 0 elsewhere. -/
def traceV : Vektor :=
  (Vektor.New 16).Set 1 1 (-1)

end Fluid

end IEEE

/-! ## Basic facts about loops -/

theorem forRange_fixed {σ : Type} (lo hi : Int) (body : Int → σ → σ) (s : σ)
    (h : ∀ i, body i s = s) : forRange lo hi body s = s := by
  unfold forRange
  induction loopRange lo hi with
  | nil => rfl
  | cons x xs ih => simp [List.foldl_cons, h x, ih]

theorem forRange_invariant {σ : Type} (P : σ → Prop) (lo hi : Int) (body : Int → σ → σ)
    (s : σ) (h0 : P s) (hstep : ∀ i t, P t → P (body i t)) : P (forRange lo hi body s) := by
  unfold forRange
  induction loopRange lo hi generalizing s with
  | nil => simpa using h0
  | cons x xs ih => simpa [List.foldl_cons] using ih (body x s) (hstep x s h0)

theorem repeatN_fixed {σ : Type} (n : Nat) (body : σ → σ) (s : σ) (h : body s = s) :
    repeatN n body s = s := by
  induction n with
  | zero => rfl
  | succ n ih => simp [repeatN, h, ih]

theorem repeatN_invariant {σ : Type} (P : σ → Prop) (n : Nat) (body : σ → σ) (s : σ)
    (h0 : P s) (hstep : ∀ t, P t → P (body t)) : P (repeatN n body s) := by
  induction n generalizing s with
  | zero => simpa [repeatN] using h0
  | succ n ih => simpa [repeatN] using ih (body s) (hstep s h0)

theorem mem_loopRange (lo hi i : Int) : i ∈ loopRange lo hi ↔ lo ≤ i ∧ i ≤ hi := by
  unfold loopRange
  simp only [List.mem_map, List.mem_range]
  constructor
  · rintro ⟨k, hk, rfl⟩
    omega
  · rintro ⟨h1, h2⟩
    refine ⟨(i - lo).toNat, ?_, ?_⟩ <;> omega

theorem foldl_invariant_mem {σ : Type} (P : σ → Prop) (R : Int → Prop)
    (body : Int → σ → σ) (L : List Int) (hL : ∀ i ∈ L, R i) (s : σ) (h0 : P s)
    (hstep : ∀ i t, R i → P t → P (body i t)) :
    P (L.foldl (fun acc i => body i acc) s) := by
  induction L generalizing s with
  | nil => simpa using h0
  | cons x xs ih =>
    simp only [List.foldl_cons]
    exact ih (fun i hi => hL i (List.mem_cons_of_mem _ hi)) (body x s)
      (hstep x s (hL x (List.mem_cons_self _ _)) h0)

/-- An invariant of a loop whose body keeps it for every value of the loop variable
in the range. -/
theorem forRange_invariant_mem {σ : Type} (P : σ → Prop) (lo hi : Int)
    (body : Int → σ → σ) (s : σ) (h0 : P s)
    (hstep : ∀ i t, lo ≤ i → i ≤ hi → P t → P (body i t)) :
    P (forRange lo hi body s) := by
  unfold forRange
  apply foldl_invariant_mem P (fun i => lo ≤ i ∧ i ≤ hi) body _ _ s h0
  · intro i t hi ht
    exact hstep i t hi.1 hi.2 ht
  · intro i hmem
    exact (mem_loopRange lo hi i).1 hmem

theorem foldl_establish {σ : Type} (Q P : σ → Prop) (R : Int → Prop)
    (body : Int → σ → σ) (i0 : Int) (L : List Int) (hL : ∀ i ∈ L, R i) (hmem : i0 ∈ L)
    (s : σ) (hQ0 : Q s) (hQ : ∀ i t, R i → Q t → Q (body i t))
    (hest : ∀ t, Q t → P (body i0 t))
    (hpres : ∀ i t, R i → Q t → P t → P (body i t)) :
    Q (L.foldl (fun acc i => body i acc) s) ∧ P (L.foldl (fun acc i => body i acc) s) := by
  induction L generalizing s with
  | nil => simp at hmem
  | cons x xs ih =>
    simp only [List.foldl_cons]
    have hRx : R x := hL x (List.mem_cons_self _ _)
    have hLxs : ∀ i ∈ xs, R i := fun i hi => hL i (List.mem_cons_of_mem _ hi)
    rcases List.mem_cons.1 hmem with heq | hin
    · subst heq
      exact foldl_invariant_mem (fun t => Q t ∧ P t) R body xs hLxs (body i0 s)
        ⟨hQ i0 s hRx hQ0, hest s hQ0⟩
        (fun i t hi ht => ⟨hQ i t hi ht.1, hpres i t hi ht.1 ht.2⟩)
    · exact ih hLxs hin (body x s) (hQ x s hRx hQ0)

/-- A property that the iteration `i0` of a loop establishes and every iteration keeps
holds after the loop; `Q` is an invariant the iterations may rely on. -/
theorem forRange_establish {σ : Type} (Q P : σ → Prop) (lo hi i0 : Int)
    (body : Int → σ → σ) (s : σ) (hlo : lo ≤ i0) (hhi : i0 ≤ hi) (hQ0 : Q s)
    (hQ : ∀ i t, lo ≤ i → i ≤ hi → Q t → Q (body i t))
    (hest : ∀ t, Q t → P (body i0 t))
    (hpres : ∀ i t, lo ≤ i → i ≤ hi → Q t → P t → P (body i t)) :
    Q (forRange lo hi body s) ∧ P (forRange lo hi body s) := by
  unfold forRange
  exact foldl_establish Q P (fun i => lo ≤ i ∧ i ≤ hi) body i0 _
    (fun i hmem => (mem_loopRange lo hi i).1 hmem) ((mem_loopRange lo hi i0).2 ⟨hlo, hhi⟩)
    s hQ0 (fun i t hi ht => hQ i t hi.1 hi.2 ht) hest
    (fun i t hi hq hp => hpres i t hi.1 hi.2 hq hp)

/-- Two runs of loops over the same range stay related when their bodies keep the
relation. -/
theorem forRange_related {σ τ : Type} (Rel : σ → τ → Prop) (lo hi : Int)
    (body : Int → σ → σ) (body2 : Int → τ → τ) (s : σ) (t : τ) (h0 : Rel s t)
    (hstep : ∀ i s t, Rel s t → Rel (body i s) (body2 i t)) :
    Rel (forRange lo hi body s) (forRange lo hi body2 t) := by
  unfold forRange
  induction loopRange lo hi generalizing s t with
  | nil => simpa using h0
  | cons x xs ih =>
    simp only [List.foldl_cons]
    exact ih (body x s) (body2 x t) (hstep x s t h0)

/-! ## Basic facts about `Vektor` -/

namespace Vektor

@[simp] theorem Set_dim (vk : Vektor) (i j : Int) (x : ℚ) : (vk.Set i j x).dim = vk.dim := by
  simp only [Set]
  split <;> rfl

@[simp] theorem Set_length (vk : Vektor) (i j : Int) (x : ℚ) :
    (vk.Set i j x).vals.length = vk.vals.length := by
  simp only [Set]
  split <;> simp

theorem Set_WF (vk : Vektor) (i j : Int) (x : ℚ) (h : vk.WF) : (vk.Set i j x).WF := by
  unfold WF at *
  simpa using h

@[simp] theorem index_Set (vk : Vektor) (i j : Int) (x : ℚ) (a b : Int) :
    (vk.Set i j x).index a b = vk.index a b := by
  simp [index]

/-- For an in-bounds cell the index is `i + dim*j`, inside `[0, dim*dim)`. -/
theorem index_inBounds (vk : Vektor) (i j : Int) (hi0 : 0 ≤ i) (hi : i < vk.dim)
    (hj0 : 0 ≤ j) (hj : j < vk.dim) :
    vk.index i j = i + vk.dim * j ∧ 0 ≤ i + vk.dim * j ∧ i + vk.dim * j < vk.dim * vk.dim := by
  have h1 : 0 ≤ vk.dim * j := mul_nonneg (by omega) hj0
  have h2 : vk.dim * (j + 1) ≤ vk.dim * vk.dim := by
    apply mul_le_mul_of_nonneg_left <;> omega
  have h3 : i + vk.dim * j < vk.dim * vk.dim := by nlinarith
  refine ⟨?_, by omega, h3⟩
  unfold index
  simp only [ge_iff_le]
  rw [if_neg (by omega)]

/-- On a vektor holding `dim*dim` values, a non-negative index is inside the slice:
the slice accesses of `Get` and `Set` cannot go out of range. -/
theorem index_in_slice (vk : Vektor) (h : vk.WF) (i j : Int) :
    vk.index i j < 0 ∨ (vk.index i j).toNat < vk.vals.length := by
  unfold WF at h
  unfold index
  simp only [ge_iff_le]
  split
  · left
    omega
  · omega

/-- The linearization `i + dim*j` is injective on in-bounds cells. -/
theorem index_injective (vk : Vektor) (i j a b : Int) (hi0 : 0 ≤ i) (hi : i < vk.dim)
    (hj0 : 0 ≤ j) (hj : j < vk.dim) (ha0 : 0 ≤ a) (ha : a < vk.dim)
    (hb0 : 0 ≤ b) (hb : b < vk.dim) (h : vk.index i j = vk.index a b) : i = a ∧ j = b := by
  rw [(index_inBounds vk i j hi0 hi hj0 hj).1, (index_inBounds vk a b ha0 ha hb0 hb).1] at h
  have hjb : j = b := by
    rcases lt_trichotomy j b with hlt | heq | hgt
    · have : vk.dim * (j + 1) ≤ vk.dim * b := by
        apply mul_le_mul_of_nonneg_left <;> omega
      nlinarith
    · exact heq
    · have : vk.dim * (b + 1) ≤ vk.dim * j := by
        apply mul_le_mul_of_nonneg_left <;> omega
      nlinarith
  subst hjb
  exact ⟨by omega, rfl⟩

/-- What `Get` reads after a `Set`, for arbitrary coordinates. -/
theorem Get_Set (vk : Vektor) (i j : Int) (x : ℚ) (a b : Int) :
    (vk.Set i j x).Get a b =
      if 0 ≤ vk.index i j ∧ vk.index a b = vk.index i j
          ∧ (vk.index i j).toNat < vk.vals.length then x
      else vk.Get a b := by
  simp only [Get, index_Set]
  simp only [Set]
  by_cases hn : vk.index i j < 0
  · have hc : ¬ (0 ≤ vk.index i j ∧ vk.index a b = vk.index i j
        ∧ (vk.index i j).toNat < vk.vals.length) := fun h => by omega
    rw [if_pos hn, if_neg hc]
  · rw [if_neg hn]
    by_cases hm : vk.index a b < 0
    · have hc : ¬ (0 ≤ vk.index i j ∧ vk.index a b = vk.index i j
          ∧ (vk.index i j).toNat < vk.vals.length) := fun h => by omega
      simp only [if_pos hm, if_neg hc]
    · simp only [if_neg hm]
      by_cases heq : vk.index a b = vk.index i j
      · rw [heq]
        by_cases hlen : (vk.index i j).toNat < vk.vals.length
        · rw [if_pos ⟨by omega, rfl, hlen⟩]
          simp [List.getD_eq_getElem?_getD, List.getElem?_set, hlen]
        · rw [if_neg (by tauto)]
          rw [List.set_eq_of_length_le (by omega)]
      · rw [if_neg (by tauto)]
        have hne : (vk.index i j).toNat ≠ (vk.index a b).toNat := by omega
        simp [List.getD_eq_getElem?_getD, List.getElem?_set, hne]

/-- Writing 0 somewhere keeps every cell that reads 0. -/
theorem Get_Set_zero_keep (vk : Vektor) (i j a b : Int) (h : vk.Get a b = 0) :
    (vk.Set i j 0).Get a b = 0 := by
  rw [Get_Set]
  split
  · rfl
  · exact h

/-- An in-bounds cell reads what was just written to it. -/
theorem Get_Set_self (vk : Vektor) (D : Int) (i j : Int) (x : ℚ) (hs : vk.dim = D ∧ vk.WF)
    (hi0 : 0 ≤ i) (hi : i < D) (hj0 : 0 ≤ j) (hj : j < D) :
    (vk.Set i j x).Get i j = x := by
  obtain ⟨hd, hwf⟩ := hs
  subst hd
  obtain ⟨hidx, h0, hlt⟩ := index_inBounds vk i j hi0 hi hj0 hj
  unfold WF at hwf
  rw [Get_Set, if_pos ⟨by omega, rfl, by omega⟩]

/-- Writing `x` somewhere keeps every cell that reads `x`. -/
theorem Get_Set_same_value (vk : Vektor) (i j a b : Int) (x : ℚ) (h : vk.Get a b = x) :
    (vk.Set i j x).Get a b = x := by
  rw [Get_Set]
  split
  · rfl
  · exact h

/-- Reads and writes of in-bounds cells behave like a two-dimensional array. -/
theorem Get_Set_inBounds (vk : Vektor) (D : Int) (i j a b : Int) (x : ℚ)
    (hs : vk.dim = D ∧ vk.WF) (hi0 : 0 ≤ i) (hi : i < D) (hj0 : 0 ≤ j) (hj : j < D)
    (ha0 : 0 ≤ a) (ha : a < D) (hb0 : 0 ≤ b) (hb : b < D) :
    (vk.Set i j x).Get a b = if a = i ∧ b = j then x else vk.Get a b := by
  by_cases h : a = i ∧ b = j
  · obtain ⟨rfl, rfl⟩ := h
    rw [if_pos ⟨rfl, rfl⟩]
    exact Get_Set_self vk D a b x hs hi0 hi hj0 hj
  · rw [if_neg h, Get_Set, if_neg]
    rintro ⟨_, heq, _⟩
    obtain ⟨hd, _⟩ := hs
    subst hd
    exact h (index_injective vk a b i j ha0 ha hb0 hb hi0 hi hj0 hj heq)

/-- A write at `(c,e)`, anywhere, leaves the in-bounds cell `(a,b)` alone when the
columns `c` and `a` are less than `dim` apart and the cells differ. -/
theorem Get_Set_no_alias (vk : Vektor) (c e a b : Int) (x : ℚ)
    (ha0 : 0 ≤ a) (ha : a < vk.dim) (hb0 : 0 ≤ b) (hb : b < vk.dim)
    (hc1 : a - vk.dim < c) (hc2 : c < a + vk.dim) (hne : ¬ (c = a ∧ e = b)) :
    (vk.Set c e x).Get a b = vk.Get a b := by
  rw [Get_Set, if_neg]
  rintro ⟨h0, heq, _⟩
  rw [(index_inBounds vk a b ha0 ha hb0 hb).1] at heq
  have hce : vk.index c e = c + vk.dim * e := by
    unfold index at h0 ⊢
    simp only [ge_iff_le] at h0 ⊢
    by_cases hge : vk.dim * vk.dim ≤ c + vk.dim * e
    · rw [if_pos hge] at h0
      omega
    · rw [if_neg hge]
  rw [hce] at heq
  have hbe : b = e := by
    rcases lt_trichotomy b e with hlt | heq2 | hgt
    · have : vk.dim * (b + 1) ≤ vk.dim * e := by
        apply mul_le_mul_of_nonneg_left <;> omega
      nlinarith
    · exact heq2
    · have : vk.dim * (e + 1) ≤ vk.dim * b := by
        apply mul_le_mul_of_nonneg_left <;> omega
      nlinarith
  subst hbe
  exact hne ⟨by omega, rfl⟩

/-- With the column `i` in range, a row `j` outside `[0, dim)` is rejected by `index`:
the read gives 0 and the write changes nothing. -/
theorem Get_Set_row_outside (vk : Vektor) (i j : Int) (hi0 : 0 ≤ i) (hi : i < vk.dim)
    (hj : j < 0 ∨ vk.dim ≤ j) : vk.Get i j = 0 ∧ ∀ x, vk.Set i j x = vk := by
  have hidx : vk.index i j < 0 := by
    unfold index
    simp only [ge_iff_le]
    split
    · omega
    · rename_i hlt
      rcases hj with hj | hj
      · have : vk.dim * j ≤ vk.dim * (-1) := by
          apply mul_le_mul_of_nonneg_left <;> omega
        omega
      · have : vk.dim * vk.dim ≤ vk.dim * j := by
          apply mul_le_mul_of_nonneg_left <;> omega
        omega
  refine ⟨?_, ?_⟩
  · simp only [Get]
    rw [if_pos hidx]
  · intro x
    simp only [Set]
    rw [if_pos hidx]

end Vektor

/-! ## Dimensions are preserved -/

theorem Outcome.andThen_preserves {σ : Type} (P : σ → Prop) (o : Outcome σ)
    (k : σ → Outcome σ) (ho : ∃ s, o = Outcome.done s ∧ P s)
    (hk : ∀ s, P s → ∃ t, k s = Outcome.done t ∧ P t) :
    ∃ t, o.andThen k = Outcome.done t ∧ P t := by
  obtain ⟨s, rfl, hs⟩ := ho
  exact hk s hs

namespace Vektor

theorem Set_Shape (vk : Vektor) (i j : Int) (x : ℚ) (D : Int) (h : vk.Shape D) :
    (vk.Set i j x).Shape D := by
  unfold Shape WF at *
  simpa using h

theorem New_Shape (D : Int) : (Vektor.New D).Shape D := by
  unfold Shape WF New
  simp only [List.length_replicate, true_and]
  exact Int.toNat_of_nonneg (mul_self_nonneg D)

end Vektor

namespace Fluid

theorem forRange_Shape (D : Int) (lo hi : Int) (body : Int → Vektor → Vektor) (s : Vektor)
    (h0 : s.Shape D) (hstep : ∀ i t, t.Shape D → (body i t).Shape D) :
    (forRange lo hi body s).Shape D :=
  forRange_invariant (fun v : Vektor => v.Shape D) lo hi body s h0 hstep

theorem repeatN_Shape (D : Int) (n : Nat) (body : Vektor → Vektor) (s : Vektor)
    (h0 : s.Shape D) (hstep : ∀ t, t.Shape D → (body t).Shape D) :
    (repeatN n body s).Shape D :=
  repeatN_invariant (fun v : Vektor => v.Shape D) n body s h0 hstep

theorem setBnd_Shape (fl : Fluid) (bnd : Int) (xx : Vektor) (D : Int) (h : xx.Shape D) :
    (fl.setBnd bnd xx).Shape D := by
  unfold setBnd
  simp only []
  repeat apply Vektor.Set_Shape
  apply forRange_Shape D _ _ _ _ h
  intro i t ht
  unfold setBndEdges
  simp only []
  split_ifs <;> (repeat apply Vektor.Set_Shape) <;> exact ht

theorem zero_Shape (fl : Fluid) (xx : Vektor) (D : Int) (h : xx.Shape D) :
    (fl.zero xx).Shape D := by
  unfold zero
  apply setBnd_Shape
  apply forRange_Shape D _ _ _ _ h
  intro i t ht
  apply forRange_Shape D _ _ _ _ ht
  intro j t2 ht2
  exact Vektor.Set_Shape _ _ _ _ _ ht2

theorem addSource_Shape (fl : Fluid) (dst src : Vektor) (D : Int) (h : dst.Shape D) :
    (fl.addSource dst src).Shape D := by
  unfold addSource
  apply forRange_Shape D _ _ _ _ h
  intro i t ht
  apply forRange_Shape D _ _ _ _ ht
  intro j t2 ht2
  exact Vektor.Set_Shape _ _ _ _ _ ht2

theorem diffuseSweep_Shape (fl : Fluid) (a : ℚ) (xx x0 : Vektor) (D : Int)
    (h : xx.Shape D) : (fl.diffuseSweep a xx x0).Shape D := by
  unfold diffuseSweep
  apply forRange_Shape D _ _ _ _ h
  intro i t1 ht1
  apply forRange_Shape D _ _ _ _ ht1
  intro j t2 ht2
  exact Vektor.Set_Shape _ _ _ _ _ ht2

theorem diffuse_Shape (fl : Fluid) (bnd : Int) (diff : ℚ) (xx x0 : Vektor) (D : Int)
    (h : xx.Shape D) : (fl.diffuse bnd diff xx x0).Shape D := by
  unfold diffuse
  exact repeatN_Shape D _ _ _ h
    (fun t ht => setBnd_Shape fl bnd _ D (diffuseSweep_Shape fl _ t x0 D ht))

theorem advect_Shape (fl : Fluid) (bnd : Int) (dd d0 uu vv : Vektor) (D : Int)
    (h : dd.Shape D) : (fl.advect bnd dd d0 uu vv).Shape D := by
  unfold advect
  simp only []
  apply setBnd_Shape
  apply forRange_Shape D _ _ _ _ h
  intro i t1 ht1
  apply forRange_Shape D _ _ _ _ ht1
  intro j t2 ht2
  exact Vektor.Set_Shape _ _ _ _ _ ht2

theorem project_loop_Shaped (N D : Int) (body : Int → Int → ProjGrids → ProjGrids)
    (g : ProjGrids) (hg : g.Shaped D)
    (hb : ∀ i j (t : ProjGrids), t.Shaped D → (body i j t).Shaped D) :
    (forRange 1 N (fun i g => forRange 1 N (fun j g => body i j g) g) g).Shaped D := by
  apply forRange_invariant (fun t : ProjGrids => t.Shaped D) _ _ _ _ hg
  intro i t ht
  apply forRange_invariant (fun t : ProjGrids => t.Shaped D) _ _ _ _ ht
  intro j t2 ht2
  exact hb i j t2 ht2

theorem projectDiv_Shaped (fl : Fluid) (h : ℚ) (g : ProjGrids) (D : Int) (hg : g.Shaped D) :
    (fl.projectDiv h g).Shaped D := by
  unfold projectDiv
  apply project_loop_Shaped _ _ _ _ hg
  rintro i j t ⟨h1, h2, h3, h4⟩
  exact ⟨h1, h2, Vektor.Set_Shape _ _ _ _ _ h3, Vektor.Set_Shape _ _ _ _ _ h4⟩

theorem projectRelax_Shaped (fl : Fluid) (g : ProjGrids) (D : Int) (hg : g.Shaped D) :
    (fl.projectRelax g).Shaped D := by
  unfold projectRelax
  apply project_loop_Shaped _ _ _ _ hg
  rintro i j t ⟨h1, h2, h3, h4⟩
  exact ⟨h1, h2, Vektor.Set_Shape _ _ _ _ _ h3, h4⟩

theorem projectSubtract_Shaped (fl : Fluid) (h : ℚ) (g : ProjGrids) (D : Int)
    (hg : g.Shaped D) : (fl.projectSubtract h g).Shaped D := by
  unfold projectSubtract
  apply project_loop_Shaped _ _ _ _ hg
  rintro i j t ⟨h1, h2, h3, h4⟩
  exact ⟨Vektor.Set_Shape _ _ _ _ _ h1, Vektor.Set_Shape _ _ _ _ _ h2, h3, h4⟩

theorem project_Shape (fl : Fluid) (u v p div : Vektor) (D : Int)
    (hu : u.Shape D) (hv : v.Shape D) (hp : p.Shape D) (hd : div.Shape D) :
    (fl.project u v p div).Shaped D := by
  have hsetp : ∀ g : ProjGrids, g.Shaped D →
      ProjGrids.Shaped { g with p := fl.setBnd 0 g.p } D :=
    fun g hg => ⟨hg.1, hg.2.1, setBnd_Shape _ _ _ _ hg.2.2.1, hg.2.2.2⟩
  have hsetd : ∀ g : ProjGrids, g.Shaped D →
      ProjGrids.Shaped { g with div := fl.setBnd 0 g.div } D :=
    fun g hg => ⟨hg.1, hg.2.1, hg.2.2.1, setBnd_Shape _ _ _ _ hg.2.2.2⟩
  have hsetu : ∀ g : ProjGrids, g.Shaped D →
      ProjGrids.Shaped { g with u := fl.setBnd 1 g.u } D :=
    fun g hg => ⟨setBnd_Shape _ _ _ _ hg.1, hg.2.1, hg.2.2.1, hg.2.2.2⟩
  have hsetv : ∀ g : ProjGrids, g.Shaped D →
      ProjGrids.Shaped { g with v := fl.setBnd 2 g.v } D :=
    fun g hg => ⟨hg.1, setBnd_Shape _ _ _ _ hg.2.1, hg.2.2.1, hg.2.2.2⟩
  unfold project
  exact hsetv _ (hsetu _ (projectSubtract_Shaped fl _ _ D
    (repeatN_invariant (fun t : ProjGrids => t.Shaped D) 20 _ _
      (hsetp _ (hsetd _ (projectDiv_Shaped fl _ _ D ⟨hu, hv, hp, hd⟩)))
      (fun t ht => hsetp _ (projectRelax_Shaped fl t D ht)))))

theorem Level_Shaped (fl : Fluid) (min : ℚ) (D : Int) (h : fl.Shaped D) :
    (fl.Level min).Shaped D := by
  unfold Level
  simp only []
  split_ifs
  · exact h
  · obtain ⟨h1, h2, h3, h4, h5, h6⟩ := h
    refine ⟨h1, ?_, h3, h4, h5, h6⟩
    apply setBnd_Shape
    apply forRange_Shape D _ _ _ _ h2
    intro i t1 ht1
    apply forRange_Shape D _ _ _ _ ht1
    intro j t2 ht2
    exact Vektor.Set_Shape _ _ _ _ _ ht2

theorem AddDensity_Shaped (fl : Fluid) (i j n : Int) (d : ℚ) (D : Int) (h : fl.Shaped D) :
    (fl.AddDensity i j n d).Shaped D := by
  unfold AddDensity
  obtain ⟨h1, h2, h3, h4, h5, h6⟩ := h
  refine ⟨?_, h2, h3, h4, h5, h6⟩
  apply forRange_Shape D _ _ _ _ (zero_Shape fl _ D h1)
  intro l t1 ht1
  apply forRange_Shape D _ _ _ _ ht1
  intro m t2 ht2
  exact Vektor.Set_Shape _ _ _ _ _ ht2

theorem AddVelocity_Shaped (fl : Fluid) (i j n : Int) (u v : ℚ) (D : Int)
    (h : fl.Shaped D) : (fl.AddVelocity i j n u v).Shaped D := by
  unfold AddVelocity
  obtain ⟨h1, h2, h3, h4, h5, h6⟩ := h
  have hs : (forRange (-n) n (fun l s =>
      forRange (-n) n (fun m (s : Vektor × Vektor) =>
        (s.1.Set (i + l) (j + m) u, s.2.Set (i + l) (j + m) v)) s)
        (fl.zero fl.u0, fl.zero fl.v0)).1.Shape D
      ∧ (forRange (-n) n (fun l s =>
      forRange (-n) n (fun m (s : Vektor × Vektor) =>
        (s.1.Set (i + l) (j + m) u, s.2.Set (i + l) (j + m) v)) s)
        (fl.zero fl.u0, fl.zero fl.v0)).2.Shape D := by
    apply forRange_invariant (fun s : Vektor × Vektor => s.1.Shape D ∧ s.2.Shape D)
    · exact ⟨zero_Shape fl _ D h3, zero_Shape fl _ D h5⟩
    · intro l t1 ht1
      apply forRange_invariant (fun s : Vektor × Vektor => s.1.Shape D ∧ s.2.Shape D) _ _ _ _ ht1
      intro m t2 ht2
      exact ⟨Vektor.Set_Shape _ _ _ _ _ ht2.1, Vektor.Set_Shape _ _ _ _ _ ht2.2⟩
  exact ⟨h1, h2, hs.1, h4, hs.2, h6⟩

theorem Swap_done (vk ov : Vektor) (h : vk.dim = ov.dim) :
    vk.Swap ov = Outcome.done ({ vk with vals := ov.vals }, { ov with vals := vk.vals }) := by
  unfold Vektor.Swap
  rw [if_neg (fun hne => hne h)]

theorem Shape_withVals (a b : Vektor) (D : Int) (ha : a.Shape D) (hb : b.Shape D) :
    Vektor.Shape { a with vals := b.vals } D := by
  refine ⟨ha.1, ?_⟩
  show (b.vals.length : Int) = a.dim * a.dim
  rw [ha.1, ← hb.1]
  exact hb.2

theorem swapUU_Shaped (fl : Fluid) (D : Int) (h : fl.Shaped D) :
    ∃ t, fl.swapUU = Outcome.done t ∧ t.Shaped D := by
  obtain ⟨h1, h2, h3, h4, h5, h6⟩ := h
  refine ⟨{ fl with uu := { fl.uu with vals := fl.u0.vals },
                    u0 := { fl.u0 with vals := fl.uu.vals } }, ?_, ?_⟩
  · unfold swapUU
    rw [Swap_done _ _ (by rw [h4.1, h3.1])]
    rfl
  · exact ⟨h1, h2, Shape_withVals _ _ D h3 h4, Shape_withVals _ _ D h4 h3, h5, h6⟩

theorem swapVV_Shaped (fl : Fluid) (D : Int) (h : fl.Shaped D) :
    ∃ t, fl.swapVV = Outcome.done t ∧ t.Shaped D := by
  obtain ⟨h1, h2, h3, h4, h5, h6⟩ := h
  refine ⟨{ fl with vv := { fl.vv with vals := fl.v0.vals },
                    v0 := { fl.v0 with vals := fl.vv.vals } }, ?_, ?_⟩
  · unfold swapVV
    rw [Swap_done _ _ (by rw [h6.1, h5.1])]
    rfl
  · exact ⟨h1, h2, h3, h4, Shape_withVals _ _ D h5 h6, Shape_withVals _ _ D h6 h5⟩

theorem swapDD_Shaped (fl : Fluid) (D : Int) (h : fl.Shaped D) :
    ∃ t, fl.swapDD = Outcome.done t ∧ t.Shaped D := by
  obtain ⟨h1, h2, h3, h4, h5, h6⟩ := h
  refine ⟨{ fl with dd := { fl.dd with vals := fl.d0.vals },
                    d0 := { fl.d0 with vals := fl.dd.vals } }, ?_, ?_⟩
  · unfold swapDD
    rw [Swap_done _ _ (by rw [h2.1, h1.1])]
    rfl
  · exact ⟨Shape_withVals _ _ D h1 h2, Shape_withVals _ _ D h2 h1, h3, h4, h5, h6⟩

theorem projectVel_Shaped (fl : Fluid) (D : Int) (h : fl.Shaped D) :
    fl.projectVel.Shaped D := by
  obtain ⟨h1, h2, h3, h4, h5, h6⟩ := h
  obtain ⟨p1, p2, p3, p4⟩ := project_Shape fl fl.uu fl.vv fl.u0 fl.v0 D h4 h6 h3 h5
  exact ⟨h1, h2, p3, p1, p4, p2⟩

theorem Step_Shaped (fl : Fluid) (D : Int) (h : fl.Shaped D) :
    ∃ t, fl.Step = Outcome.done t ∧ t.Shaped D := by
  unfold Step
  iterate 17 apply Outcome.andThen_preserves (fun s : Fluid => s.Shaped D)
  · exact ⟨fl, rfl, h⟩
  · rintro s ⟨h1, h2, h3, h4, h5, h6⟩
    exact ⟨_, rfl, h1, h2, h3, addSource_Shape _ _ _ _ h4, h5, h6⟩
  · rintro s ⟨h1, h2, h3, h4, h5, h6⟩
    exact ⟨_, rfl, h1, h2, h3, h4, h5, addSource_Shape _ _ _ _ h6⟩
  · exact fun s hs => swapUU_Shaped s D hs
  · exact fun s hs => swapVV_Shaped s D hs
  · rintro s ⟨h1, h2, h3, h4, h5, h6⟩
    exact ⟨_, rfl, h1, h2, h3, diffuse_Shape _ _ _ _ _ _ h4, h5, h6⟩
  · rintro s ⟨h1, h2, h3, h4, h5, h6⟩
    exact ⟨_, rfl, h1, h2, h3, h4, h5, diffuse_Shape _ _ _ _ _ _ h6⟩
  · exact fun s hs => ⟨_, rfl, projectVel_Shaped s D hs⟩
  · exact fun s hs => swapUU_Shaped s D hs
  · exact fun s hs => swapVV_Shaped s D hs
  · rintro s ⟨h1, h2, h3, h4, h5, h6⟩
    exact ⟨_, rfl, h1, h2, h3, advect_Shape _ _ _ _ _ _ _ h4, h5, h6⟩
  · rintro s ⟨h1, h2, h3, h4, h5, h6⟩
    exact ⟨_, rfl, h1, h2, h3, h4, h5, advect_Shape _ _ _ _ _ _ _ h6⟩
  · exact fun s hs => ⟨_, rfl, projectVel_Shaped s D hs⟩
  · rintro s ⟨h1, h2, h3, h4, h5, h6⟩
    exact ⟨_, rfl, h1, addSource_Shape _ _ _ _ h2, h3, h4, h5, h6⟩
  · exact fun s hs => swapDD_Shaped s D hs
  · rintro s ⟨h1, h2, h3, h4, h5, h6⟩
    exact ⟨_, rfl, h1, diffuse_Shape _ _ _ _ _ _ h2, h3, h4, h5, h6⟩
  · exact fun s hs => swapDD_Shaped s D hs
  · rintro s ⟨h1, h2, h3, h4, h5, h6⟩
    exact ⟨_, rfl, h1, advect_Shape _ _ _ _ _ _ _ h2, h3, h4, h5, h6⟩

theorem perform_Shaped (fl : Fluid) (c : Call) (D : Int) (h : fl.Shaped D) :
    ∃ t, fl.perform c = Outcome.done t ∧ t.Shaped D := by
  cases c with
  | addDensity i j n d => exact ⟨_, rfl, AddDensity_Shaped fl i j n d D h⟩
  | addVelocity i j n u v => exact ⟨_, rfl, AddVelocity_Shaped fl i j n u v D h⟩
  | level min => exact ⟨_, rfl, Level_Shaped fl min D h⟩
  | step => exact Step_Shaped fl D h

theorem run_Shaped (calls : List Call) (fl : Fluid) (D : Int) (h : fl.Shaped D) :
    ∃ t, fl.run calls = Outcome.done t ∧ t.Shaped D := by
  induction calls generalizing fl with
  | nil => exact ⟨fl, rfl, h⟩
  | cons c cs ih =>
    unfold run
    exact Outcome.andThen_preserves (fun s : Fluid => s.Shaped D) _ _
      (perform_Shaped fl c D h) (fun s hs => ih s hs)

theorem NewFluid_Shaped (N : Int) (visc diff dt : ℚ) :
    (NewFluid N visc diff dt factory).Shaped ((N + 2) * (N + 2)) := by
  unfold NewFluid factory
  exact ⟨Vektor.New_Shape _, Vektor.New_Shape _, Vektor.New_Shape _, Vektor.New_Shape _,
    Vektor.New_Shape _, Vektor.New_Shape _⟩

end Fluid

/-! ## Resetting a source grid -/

namespace Fluid

/-- The first loop of `zero`: afterwards every interior cell reads 0. -/
theorem zero_loop_interior (N D : Int) (xx : Vektor) (hs : xx.Shape D) (hD : N + 2 ≤ D)
    (a b : Int) (ha1 : 1 ≤ a) (ha : a ≤ N) (hb1 : 1 ≤ b) (hb : b ≤ N) :
    (forRange 1 N (fun i xx => forRange 1 N (fun j xx => xx.Set i j 0) xx) xx).Get a b
      = 0 := by
  refine (forRange_establish (fun t : Vektor => t.Shape D) (fun t : Vektor => t.Get a b = 0)
    1 N a _ xx ha1 ha hs ?_ ?_ ?_).2
  · intro i t _ _ ht
    exact forRange_Shape D _ _ _ _ ht (fun j t2 ht2 => Vektor.Set_Shape _ _ _ _ _ ht2)
  · intro t ht
    refine (forRange_establish (fun t : Vektor => t.Shape D)
      (fun t : Vektor => t.Get a b = 0) 1 N b _ t hb1 hb ht ?_ ?_ ?_).2
    · intro j t2 _ _ ht2
      exact Vektor.Set_Shape _ _ _ _ _ ht2
    · intro t2 ht2
      exact Vektor.Get_Set_self t2 D a b 0 ht2 (by omega) (by omega) (by omega) (by omega)
    · intro j t2 _ _ _ hp
      exact Vektor.Get_Set_zero_keep t2 a j a b hp
  · intro i t _ _ _ hp
    exact forRange_invariant (fun t : Vektor => t.Get a b = 0) _ _ _ _ hp
      (fun j t2 hp2 => Vektor.Get_Set_zero_keep t2 i j a b hp2)

/-- One iteration of the loop of `setBnd(0, ·)` on a grid whose interior reads 0: the
four writes all store 0. -/
theorem setBndEdges_zero (fl : Fluid) (t : Vektor) (i : Int)
    (hint : ∀ a b, 1 ≤ a → a ≤ fl.size → 1 ≤ b → b ≤ fl.size → t.Get a b = 0)
    (hN : 1 ≤ fl.size) (hi1 : 1 ≤ i) (hi : i ≤ fl.size) :
    fl.setBndEdges 0 i t
      = (((t.Set 0 i 0).Set (fl.size + 1) i 0).Set i 0 0).Set i (fl.size + 1) 0 := by
  unfold setBndEdges
  simp only [Int.reduceEq, if_false]
  have h1 : t.Get 1 i = 0 := hint 1 i (by omega) (by omega) hi1 hi
  rw [h1]
  have h2 : (t.Set 0 i 0).Get fl.size i = 0 :=
    Vektor.Get_Set_zero_keep _ _ _ _ _ (hint fl.size i (by omega) (by omega) hi1 hi)
  rw [h2]
  have h3 : ((t.Set 0 i 0).Set (fl.size + 1) i 0).Get i 1 = 0 :=
    Vektor.Get_Set_zero_keep _ _ _ _ _
      (Vektor.Get_Set_zero_keep _ _ _ _ _ (hint i 1 hi1 hi (by omega) (by omega)))
  rw [h3]
  have h4 : (((t.Set 0 i 0).Set (fl.size + 1) i 0).Set i 0 0).Get i fl.size = 0 :=
    Vektor.Get_Set_zero_keep _ _ _ _ _ (Vektor.Get_Set_zero_keep _ _ _ _ _
      (Vektor.Get_Set_zero_keep _ _ _ _ _ (hint i fl.size hi1 hi (by omega) (by omega))))
  rw [h4]

/-- The loop of `setBnd(0, ·)` on a grid whose interior reads 0: the shape and the zero
interior are kept, and a cell reads 0 afterwards if it did before or if it is one of
the boundary-ring cells the loop writes. -/
theorem setBnd_loop_zero (fl : Fluid) (xx : Vektor) (D : Int)
    (hs : xx.Shape D) (hN : 1 ≤ fl.size) (hD : fl.size + 2 ≤ D)
    (hint : ∀ a b, 1 ≤ a → a ≤ fl.size → 1 ≤ b → b ≤ fl.size → xx.Get a b = 0)
    (c d : Int)
    (hcd : xx.Get c d = 0
      ∨ (∃ k, 1 ≤ k ∧ k ≤ fl.size ∧ ((c = 0 ∧ d = k) ∨ (c = fl.size + 1 ∧ d = k)
          ∨ (c = k ∧ d = 0) ∨ (c = k ∧ d = fl.size + 1)))) :
    ((forRange 1 fl.size (fun i xx => fl.setBndEdges 0 i xx) xx).Shape D
      ∧ ∀ a b, 1 ≤ a → a ≤ fl.size → 1 ≤ b → b ≤ fl.size →
        (forRange 1 fl.size (fun i xx => fl.setBndEdges 0 i xx) xx).Get a b = 0)
      ∧ (forRange 1 fl.size (fun i xx => fl.setBndEdges 0 i xx) xx).Get c d = 0 := by
  have hQ : ∀ i (t : Vektor), 1 ≤ i → i ≤ fl.size →
      (t.Shape D ∧ ∀ a b, 1 ≤ a → a ≤ fl.size → 1 ≤ b → b ≤ fl.size → t.Get a b = 0) →
      ((fl.setBndEdges 0 i t).Shape D
        ∧ ∀ a b, 1 ≤ a → a ≤ fl.size → 1 ≤ b → b ≤ fl.size →
          (fl.setBndEdges 0 i t).Get a b = 0) := by
    intro i t hi1 hi ht
    rw [setBndEdges_zero fl t i ht.2 hN hi1 hi]
    refine ⟨?_, ?_⟩
    · repeat apply Vektor.Set_Shape
      exact ht.1
    · intro a b h1 h2 h3 h4
      iterate 4 apply Vektor.Get_Set_zero_keep
      exact ht.2 a b h1 h2 h3 h4
  rcases hcd with h0 | ⟨k, hk1, hk, hcell⟩
  · refine forRange_invariant_mem (fun t : Vektor =>
      (t.Shape D ∧ ∀ a b, 1 ≤ a → a ≤ fl.size → 1 ≤ b → b ≤ fl.size → t.Get a b = 0)
        ∧ t.Get c d = 0) 1 fl.size _ xx ⟨⟨hs, hint⟩, h0⟩ ?_
    intro i t hi1 hi ht
    refine ⟨hQ i t hi1 hi ht.1, ?_⟩
    rw [setBndEdges_zero fl t i ht.1.2 hN hi1 hi]
    iterate 4 apply Vektor.Get_Set_zero_keep
    exact ht.2
  · refine forRange_establish (fun t : Vektor =>
      (t.Shape D ∧ ∀ a b, 1 ≤ a → a ≤ fl.size → 1 ≤ b → b ≤ fl.size → t.Get a b = 0))
      (fun t : Vektor => t.Get c d = 0) 1 fl.size k _ xx hk1 hk ⟨hs, hint⟩ ?_ ?_ ?_
    · intro i t hi1 hi ht
      exact hQ i t hi1 hi ht
    · intro t ht
      rw [setBndEdges_zero fl t k ht.2 hN hk1 hk]
      have s1 : (t.Set 0 k 0).Shape D := Vektor.Set_Shape _ _ _ _ _ ht.1
      have s2 : ((t.Set 0 k 0).Set (fl.size + 1) k 0).Shape D :=
        Vektor.Set_Shape _ _ _ _ _ s1
      have s3 : (((t.Set 0 k 0).Set (fl.size + 1) k 0).Set k 0 0).Shape D :=
        Vektor.Set_Shape _ _ _ _ _ s2
      rcases hcell with ⟨rfl, rfl⟩ | ⟨rfl, rfl⟩ | ⟨rfl, rfl⟩ | ⟨rfl, rfl⟩
      · iterate 3 apply Vektor.Get_Set_zero_keep
        exact Vektor.Get_Set_self t D _ _ 0 ht.1 (by omega) (by omega) (by omega) (by omega)
      · iterate 2 apply Vektor.Get_Set_zero_keep
        exact Vektor.Get_Set_self _ D _ _ 0 s1 (by omega) (by omega) (by omega) (by omega)
      · apply Vektor.Get_Set_zero_keep
        exact Vektor.Get_Set_self _ D _ _ 0 s2 (by omega) (by omega) (by omega) (by omega)
      · exact Vektor.Get_Set_self _ D _ _ 0 s3 (by omega) (by omega) (by omega) (by omega)
    · intro i t hi1 hi ht hp
      rw [setBndEdges_zero fl t i ht.2 hN hi1 hi]
      iterate 4 apply Vektor.Get_Set_zero_keep
      exact hp

/-- The four corner writes of `setBnd` on a grid `L` that reads 0 at every cell of
`[0,N+1] × [0,N+1]` other than the corners: afterwards the whole grid reads 0. -/
theorem setBnd_corners_zero (N D : Int) (L : Vektor) (hs : L.Shape D) (hN : 1 ≤ N)
    (hD : N + 2 ≤ D)
    (hgrid : ∀ a b, 0 ≤ a → a ≤ N + 1 → 0 ≤ b → b ≤ N + 1 →
      ¬ ((a = 0 ∨ a = N + 1) ∧ (b = 0 ∨ b = N + 1)) → L.Get a b = 0)
    (a b : Int) (ha0 : 0 ≤ a) (ha : a ≤ N + 1) (hb0 : 0 ≤ b) (hb : b ≤ N + 1) :
    (let t2 := L.Set 0 0 (0.5 * (L.Get 1 0 + L.Get 0 1))
     let t3 := t2.Set 0 (N + 1) (0.5 * (t2.Get 1 (N + 1) + t2.Get 0 N))
     let t4 := t3.Set (N + 1) 0 (0.5 * (t3.Get N 0 + t3.Get (N + 1) 1))
     t4.Set (N + 1) (N + 1) (0.5 * (t4.Get N (N + 1) + t4.Get (N + 1) N))).Get a b = 0 := by
  have e1 : L.Get 1 0 = 0 := hgrid 1 0 (by omega) (by omega) (by omega) (by omega) (by omega)
  have e2 : L.Get 0 1 = 0 := hgrid 0 1 (by omega) (by omega) (by omega) (by omega) (by omega)
  have e3 : L.Get 1 (N + 1) = 0 :=
    hgrid 1 (N + 1) (by omega) (by omega) (by omega) (by omega) (by omega)
  have e4 : L.Get 0 N = 0 := hgrid 0 N (by omega) (by omega) (by omega) (by omega) (by omega)
  have e5 : L.Get N 0 = 0 := hgrid N 0 (by omega) (by omega) (by omega) (by omega) (by omega)
  have e6 : L.Get (N + 1) 1 = 0 :=
    hgrid (N + 1) 1 (by omega) (by omega) (by omega) (by omega) (by omega)
  have e7 : L.Get N (N + 1) = 0 :=
    hgrid N (N + 1) (by omega) (by omega) (by omega) (by omega) (by omega)
  have e8 : L.Get (N + 1) N = 0 :=
    hgrid (N + 1) N (by omega) (by omega) (by omega) (by omega) (by omega)
  have c1 : (0.5 : ℚ) * (L.Get 1 0 + L.Get 0 1) = 0 := by rw [e1, e2]; norm_num
  have s2 : (L.Set 0 0 0).Shape D := Vektor.Set_Shape _ _ _ _ _ hs
  have c2 : (0.5 : ℚ) * ((L.Set 0 0 0).Get 1 (N + 1) + (L.Set 0 0 0).Get 0 N) = 0 := by
    rw [Vektor.Get_Set_zero_keep _ _ _ _ _ e3, Vektor.Get_Set_zero_keep _ _ _ _ _ e4]
    norm_num
  have s3 : ((L.Set 0 0 0).Set 0 (N + 1) 0).Shape D := Vektor.Set_Shape _ _ _ _ _ s2
  have c3 : (0.5 : ℚ) * (((L.Set 0 0 0).Set 0 (N + 1) 0).Get N 0
      + ((L.Set 0 0 0).Set 0 (N + 1) 0).Get (N + 1) 1) = 0 := by
    rw [Vektor.Get_Set_zero_keep _ _ _ _ _ (Vektor.Get_Set_zero_keep _ _ _ _ _ e5),
      Vektor.Get_Set_zero_keep _ _ _ _ _ (Vektor.Get_Set_zero_keep _ _ _ _ _ e6)]
    norm_num
  have s4 : (((L.Set 0 0 0).Set 0 (N + 1) 0).Set (N + 1) 0 0).Shape D :=
    Vektor.Set_Shape _ _ _ _ _ s3
  have c4 : (0.5 : ℚ) * ((((L.Set 0 0 0).Set 0 (N + 1) 0).Set (N + 1) 0 0).Get N (N + 1)
      + (((L.Set 0 0 0).Set 0 (N + 1) 0).Set (N + 1) 0 0).Get (N + 1) N) = 0 := by
    rw [Vektor.Get_Set_zero_keep _ _ _ _ _ (Vektor.Get_Set_zero_keep _ _ _ _ _
        (Vektor.Get_Set_zero_keep _ _ _ _ _ e7)),
      Vektor.Get_Set_zero_keep _ _ _ _ _ (Vektor.Get_Set_zero_keep _ _ _ _ _
        (Vektor.Get_Set_zero_keep _ _ _ _ _ e8))]
    norm_num
  simp only []
  rw [c1, c2, c3, c4]
  by_cases h4 : a = N + 1 ∧ b = N + 1
  · obtain ⟨rfl, rfl⟩ := h4
    exact Vektor.Get_Set_self _ D _ _ 0 s4 (by omega) (by omega) (by omega) (by omega)
  apply Vektor.Get_Set_zero_keep
  by_cases h3 : a = N + 1 ∧ b = 0
  · obtain ⟨rfl, rfl⟩ := h3
    exact Vektor.Get_Set_self _ D _ _ 0 s3 (by omega) (by omega) (by omega) (by omega)
  apply Vektor.Get_Set_zero_keep
  by_cases h2 : a = 0 ∧ b = N + 1
  · obtain ⟨rfl, rfl⟩ := h2
    exact Vektor.Get_Set_self _ D _ _ 0 s2 (by omega) (by omega) (by omega) (by omega)
  apply Vektor.Get_Set_zero_keep
  by_cases h1 : a = 0 ∧ b = 0
  · obtain ⟨rfl, rfl⟩ := h1
    exact Vektor.Get_Set_self _ D _ _ 0 hs (by omega) (by omega) (by omega) (by omega)
  apply Vektor.Get_Set_zero_keep
  exact hgrid a b ha0 ha hb0 hb (by omega)

/-- On a grid whose interior reads 0 everywhere, `setBnd(0, xx)` leaves every cell of
the grid `[0,N+1] × [0,N+1]` reading 0. -/
theorem setBnd_zero_of_interior_zero (fl : Fluid) (xx : Vektor) (D : Int)
    (hs : xx.Shape D) (hN : 1 ≤ fl.size) (hD : fl.size + 2 ≤ D)
    (hint : ∀ a b, 1 ≤ a → a ≤ fl.size → 1 ≤ b → b ≤ fl.size → xx.Get a b = 0)
    (a b : Int) (ha0 : 0 ≤ a) (ha : a ≤ fl.size + 1) (hb0 : 0 ≤ b) (hb : b ≤ fl.size + 1) :
    (fl.setBnd 0 xx).Get a b = 0 ∧ (fl.setBnd 0 xx).Shape D := by
  refine ⟨?_, setBnd_Shape fl 0 xx D hs⟩
  have hL := setBnd_loop_zero fl xx D hs hN hD hint
  refine setBnd_corners_zero fl.size D
    (forRange 1 fl.size (fun i xx => fl.setBndEdges 0 i xx) xx)
    (hL 1 1 (Or.inl (hint 1 1 (by omega) (by omega) (by omega) (by omega)))).1.1 hN hD
    ?_ a b ha0 ha hb0 hb
  intro c d hc0 hc hd0 hd hnc
  by_cases hci : 1 ≤ c ∧ c ≤ fl.size
  · by_cases hdi : 1 ≤ d ∧ d ≤ fl.size
    · exact (hL c d (Or.inl (hint c d hci.1 hci.2 hdi.1 hdi.2))).2
    · by_cases hd00 : d = 0
      · exact (hL c d (Or.inr ⟨c, hci.1, hci.2, Or.inr (Or.inr (Or.inl ⟨rfl, hd00⟩))⟩)).2
      · exact (hL c d (Or.inr ⟨c, hci.1, hci.2,
          Or.inr (Or.inr (Or.inr ⟨rfl, by omega⟩))⟩)).2
  · have hdi : 1 ≤ d ∧ d ≤ fl.size := by omega
    by_cases hc00 : c = 0
    · exact (hL c d (Or.inr ⟨d, hdi.1, hdi.2, Or.inl ⟨hc00, rfl⟩⟩)).2
    · exact (hL c d (Or.inr ⟨d, hdi.1, hdi.2, Or.inr (Or.inl ⟨by omega, rfl⟩)⟩)).2

/-- After `zero(xx)` every cell of the grid `[0,N+1] × [0,N+1]` reads 0. -/
theorem zero_Get (fl : Fluid) (xx : Vektor) (D : Int) (hs : xx.Shape D)
    (hN : 1 ≤ fl.size) (hD : fl.size + 2 ≤ D)
    (a b : Int) (ha0 : 0 ≤ a) (ha : a ≤ fl.size + 1) (hb0 : 0 ≤ b) (hb : b ≤ fl.size + 1) :
    (fl.zero xx).Get a b = 0 := by
  unfold zero
  refine (setBnd_zero_of_interior_zero fl _ D ?_ hN hD ?_ a b ha0 ha hb0 hb).1
  · exact forRange_Shape D _ _ _ _ hs (fun i t ht =>
      forRange_Shape D _ _ _ _ ht (fun j t2 ht2 => Vektor.Set_Shape _ _ _ _ _ ht2))
  · intro c d hc1 hc hd1 hd
    exact zero_loop_interior fl.size D xx hs hD c d hc1 hc hd1 hd

/-- The same write applied to two vektors of equal dimension and length keeps them
equal at any cell where they were equal. -/
theorem Set_related (v w : Vektor) (i j : Int) (x : ℚ) (a b : Int)
    (h : v.dim = w.dim ∧ v.vals.length = w.vals.length ∧ v.Get a b = w.Get a b) :
    (v.Set i j x).dim = (w.Set i j x).dim
      ∧ (v.Set i j x).vals.length = (w.Set i j x).vals.length
      ∧ (v.Set i j x).Get a b = (w.Set i j x).Get a b := by
  obtain ⟨hd, hl, hg⟩ := h
  refine ⟨by simpa using hd, by simpa using hl, ?_⟩
  rw [Vektor.Get_Set, Vektor.Get_Set]
  simp only [Vektor.index, hd, hl, hg]

/-- The filling loop of `AddDensity` keeps two grids equal at a cell. -/
theorem fill_related (i j n : Int) (d : ℚ) (v w : Vektor) (a b : Int)
    (h : v.dim = w.dim ∧ v.vals.length = w.vals.length ∧ v.Get a b = w.Get a b) :
    (forRange (-n) n (fun l d0 =>
        forRange (-n) n (fun m d0 => d0.Set (i + l) (j + m) d) d0) v).Get a b
      = (forRange (-n) n (fun l d0 =>
        forRange (-n) n (fun m d0 => d0.Set (i + l) (j + m) d) d0) w).Get a b := by
  refine (forRange_related (fun s t : Vektor =>
    s.dim = t.dim ∧ s.vals.length = t.vals.length ∧ s.Get a b = t.Get a b)
    (-n) n _ _ v w h ?_).2.2
  intro l s t hst
  refine forRange_related (fun s t : Vektor =>
    s.dim = t.dim ∧ s.vals.length = t.vals.length ∧ s.Get a b = t.Get a b)
    (-n) n _ _ s t hst ?_
  intro m s2 t2 hst2
  exact Set_related s2 t2 _ _ d a b hst2

/-- The filling loop of `AddVelocity` keeps two pairs of grids equal at a cell. -/
theorem fill2_related (i j n : Int) (u v : ℚ) (p q : Vektor × Vektor) (a b : Int)
    (h1 : p.1.dim = q.1.dim ∧ p.1.vals.length = q.1.vals.length ∧ p.1.Get a b = q.1.Get a b)
    (h2 : p.2.dim = q.2.dim ∧ p.2.vals.length = q.2.vals.length
      ∧ p.2.Get a b = q.2.Get a b) :
    (forRange (-n) n (fun l s =>
        forRange (-n) n (fun m (s : Vektor × Vektor) =>
          (s.1.Set (i + l) (j + m) u, s.2.Set (i + l) (j + m) v)) s) p).1.Get a b
      = (forRange (-n) n (fun l s =>
        forRange (-n) n (fun m (s : Vektor × Vektor) =>
          (s.1.Set (i + l) (j + m) u, s.2.Set (i + l) (j + m) v)) s) q).1.Get a b
    ∧ (forRange (-n) n (fun l s =>
        forRange (-n) n (fun m (s : Vektor × Vektor) =>
          (s.1.Set (i + l) (j + m) u, s.2.Set (i + l) (j + m) v)) s) p).2.Get a b
      = (forRange (-n) n (fun l s =>
        forRange (-n) n (fun m (s : Vektor × Vektor) =>
          (s.1.Set (i + l) (j + m) u, s.2.Set (i + l) (j + m) v)) s) q).2.Get a b := by
  have key := forRange_related (fun s t : Vektor × Vektor =>
    (s.1.dim = t.1.dim ∧ s.1.vals.length = t.1.vals.length ∧ s.1.Get a b = t.1.Get a b)
      ∧ (s.2.dim = t.2.dim ∧ s.2.vals.length = t.2.vals.length ∧ s.2.Get a b = t.2.Get a b))
    (-n) n
    (fun l s => forRange (-n) n (fun m (s : Vektor × Vektor) =>
      (s.1.Set (i + l) (j + m) u, s.2.Set (i + l) (j + m) v)) s)
    (fun l s => forRange (-n) n (fun m (s : Vektor × Vektor) =>
      (s.1.Set (i + l) (j + m) u, s.2.Set (i + l) (j + m) v)) s)
    p q ⟨h1, h2⟩ (by
      intro l s t hst
      refine forRange_related (fun s t : Vektor × Vektor =>
        (s.1.dim = t.1.dim ∧ s.1.vals.length = t.1.vals.length ∧ s.1.Get a b = t.1.Get a b)
          ∧ (s.2.dim = t.2.dim ∧ s.2.vals.length = t.2.vals.length
            ∧ s.2.Get a b = t.2.Get a b))
        (-n) n _ _ s t hst ?_
      intro m s2 t2 hst2
      exact ⟨Set_related s2.1 t2.1 _ _ u a b hst2.1, Set_related s2.2 t2.2 _ _ v a b hst2.2⟩)
  exact ⟨key.1.2.2, key.2.2.2⟩

/-- Two freshly reset grids of the same shape agree at every grid cell. -/
theorem zero_related (fl fl2 : Fluid) (xx yy : Vektor) (D : Int) (hsize : fl2.size = fl.size)
    (hx : xx.Shape D) (hy : yy.Shape D) (hN : 1 ≤ fl.size) (hD : fl.size + 2 ≤ D)
    (a b : Int) (ha0 : 0 ≤ a) (ha : a ≤ fl.size + 1) (hb0 : 0 ≤ b) (hb : b ≤ fl.size + 1) :
    (fl2.zero yy).dim = (fl.zero xx).dim
      ∧ (fl2.zero yy).vals.length = (fl.zero xx).vals.length
      ∧ (fl2.zero yy).Get a b = (fl.zero xx).Get a b := by
  have sx := zero_Shape fl xx D hx
  have sy := zero_Shape fl2 yy D hy
  refine ⟨by rw [sx.1, sy.1], ?_, ?_⟩
  · have e1 := sx.2
    have e2 := sy.2
    unfold Vektor.WF at e1 e2
    rw [sx.1] at e1
    rw [sy.1] at e2
    omega
  · rw [zero_Get fl xx D hx hN hD a b ha0 ha hb0 hb,
      zero_Get fl2 yy D hy (by omega) (by omega) a b ha0 (by omega) hb0 (by omega)]

/-- What `AddDensity` leaves in `d0` when no write of the square can alias a grid cell:
if every column `i+l` of the square is less than `D` away from every grid column
(`N + 1 - D < i - n` and `i + n < D`), then each grid cell `(a,b)` of
`[0,N+1] × [0,N+1]` holds `d` inside the square and 0 outside it. -/
theorem AddDensity_fills_square (fl : Fluid) (D : Int) (hN : 1 ≤ fl.size)
    (hs : fl.d0.Shape D) (hD : fl.size + 2 ≤ D) (i j n : Int) (d : ℚ)
    (hlo : fl.size + 1 - D < i - n) (hhi : i + n < D)
    (a b : Int) (ha0 : 0 ≤ a) (ha : a ≤ fl.size + 1) (hb0 : 0 ≤ b) (hb : b ≤ fl.size + 1) :
    (fl.AddDensity i j n d).d0.Get a b = if |a - i| ≤ n ∧ |b - j| ≤ n then d else 0 := by
  have hz := zero_Get fl fl.d0 D hs hN hD a b ha0 ha hb0 hb
  have hzs := zero_Shape fl fl.d0 D hs
  show (forRange (-n) n (fun l d0 =>
    forRange (-n) n (fun m d0 => d0.Set (i + l) (j + m) d) d0) (fl.zero fl.d0)).Get a b = _
  by_cases hsq : |a - i| ≤ n ∧ |b - j| ≤ n
  · rw [if_pos hsq]
    obtain ⟨h1, h2⟩ := hsq
    rw [abs_le] at h1 h2
    refine (forRange_establish (fun t : Vektor => t.Shape D) (fun t : Vektor => t.Get a b = d)
      (-n) n (a - i) _ _ (by omega) (by omega) hzs ?_ ?_ ?_).2
    · intro l t _ _ ht
      exact forRange_Shape D _ _ _ _ ht (fun m t2 ht2 => Vektor.Set_Shape _ _ _ _ _ ht2)
    · intro t ht
      refine (forRange_establish (fun t : Vektor => t.Shape D)
        (fun t : Vektor => t.Get a b = d) (-n) n (b - j) _ t (by omega) (by omega) ht
        ?_ ?_ ?_).2
      · intro m t2 _ _ ht2
        exact Vektor.Set_Shape _ _ _ _ _ ht2
      · intro t2 ht2
        have e1 : i + (a - i) = a := by omega
        have e2 : j + (b - j) = b := by omega
        rw [e1, e2]
        exact Vektor.Get_Set_self t2 D a b d ht2 (by omega) (by omega) (by omega) (by omega)
      · intro m t2 _ _ _ hp
        exact Vektor.Get_Set_same_value t2 _ _ a b d hp
    · intro l t _ _ _ hp
      exact forRange_invariant (fun t : Vektor => t.Get a b = d) _ _ _ _ hp
        (fun m t2 hp2 => Vektor.Get_Set_same_value t2 _ _ a b d hp2)
  · rw [if_neg hsq]
    refine (forRange_invariant_mem (fun t : Vektor => t.Shape D ∧ t.Get a b = 0)
      (-n) n _ _ ⟨hzs, hz⟩ ?_).2
    intro l t hl1 hl2 ht
    refine forRange_invariant_mem (fun t : Vektor => t.Shape D ∧ t.Get a b = 0)
      (-n) n _ t ht ?_
    intro m t2 hm1 hm2 ht2
    refine ⟨Vektor.Set_Shape _ _ _ _ _ ht2.1, ?_⟩
    have hdim := ht2.1.1
    rw [Vektor.Get_Set_no_alias t2 (i + l) (j + m) a b d ha0 (by omega) hb0 (by omega)
      (by omega) (by omega) ?_]
    · exact ht2.2
    · rintro ⟨e1, e2⟩
      apply hsq
      rw [abs_le, abs_le]
      omega

end Fluid

/-! ## Loops over the interior of a grid -/

theorem loopRange_nodup (lo hi : Int) : (loopRange lo hi).Nodup := by
  unfold loopRange
  apply List.Nodup.map _ (List.nodup_range _)
  intro x y hxy
  simp only at hxy
  omega

theorem foldl_phase {σ : Type} (Pre P : σ → Prop) (R : Int → Prop)
    (body : Int → σ → σ) (i0 : Int) (L : List Int) (hL : ∀ i ∈ L, R i) (hnd : L.Nodup)
    (hmem : i0 ∈ L) (s : σ) (hpre0 : Pre s)
    (hpre : ∀ i t, R i → i ≠ i0 → Pre t → Pre (body i t))
    (hest : ∀ t, Pre t → P (body i0 t))
    (hpost : ∀ i t, R i → i ≠ i0 → P t → P (body i t)) :
    P (L.foldl (fun acc i => body i acc) s) := by
  induction L generalizing s with
  | nil => simp at hmem
  | cons x xs ih =>
    simp only [List.foldl_cons]
    have hRx : R x := hL x (List.mem_cons_self _ _)
    have hLxs : ∀ i ∈ xs, R i := fun i hi => hL i (List.mem_cons_of_mem _ hi)
    obtain ⟨hx, hxs⟩ := List.nodup_cons.1 hnd
    rcases List.mem_cons.1 hmem with heq | hin
    · subst heq
      have hne : ∀ i ∈ xs, R i ∧ i ≠ i0 := by
        intro i hi
        refine ⟨hLxs i hi, ?_⟩
        rintro rfl
        exact hx hi
      exact foldl_invariant_mem P (fun i => R i ∧ i ≠ i0) body xs hne (body i0 s)
        (hest s hpre0) (fun i t hi ht => hpost i t hi.1 hi.2 ht)
    · have hne : x ≠ i0 := by
        rintro rfl
        exact hx hin
      exact ih hLxs hxs hin (body x s) (hpre x s hRx hne hpre0)

/-- A loop with a distinguished iteration `i0`: `Pre` holds until then, iteration `i0`
turns `Pre` into `P`, and the later iterations keep `P`. -/
theorem forRange_phase {σ : Type} (Pre P : σ → Prop) (lo hi i0 : Int)
    (body : Int → σ → σ) (s : σ) (hlo : lo ≤ i0) (hhi : i0 ≤ hi) (hpre0 : Pre s)
    (hpre : ∀ i t, lo ≤ i → i ≤ hi → i ≠ i0 → Pre t → Pre (body i t))
    (hest : ∀ t, Pre t → P (body i0 t))
    (hpost : ∀ i t, lo ≤ i → i ≤ hi → i ≠ i0 → P t → P (body i t)) :
    P (forRange lo hi body s) := by
  unfold forRange
  exact foldl_phase Pre P (fun i => lo ≤ i ∧ i ≤ hi) body i0 _
    (fun i hmem => (mem_loopRange lo hi i).1 hmem) (loopRange_nodup lo hi)
    ((mem_loopRange lo hi i0).2 ⟨hlo, hhi⟩) s hpre0
    (fun i t hi hne ht => hpre i t hi.1 hi.2 hne ht) hest
    (fun i t hi hne ht => hpost i t hi.1 hi.2 hne ht)

/-- An invariant of the double loop over the interior `1..N × 1..N`. -/
theorem gridLoop_invariant {σ : Type} (P : σ → Prop) (N : Int)
    (body : Int → Int → σ → σ) (s : σ) (h0 : P s)
    (hstep : ∀ i j t, 1 ≤ i → i ≤ N → 1 ≤ j → j ≤ N → P t → P (body i j t)) :
    P (forRange 1 N (fun i s => forRange 1 N (fun j s => body i j s) s) s) := by
  apply forRange_invariant_mem P 1 N _ s h0
  intro i t hi1 hi ht
  apply forRange_invariant_mem P 1 N _ t ht
  intro j t2 hj1 hj ht2
  exact hstep i j t2 hi1 hi hj1 hj ht2

/-- The double loop over the interior with a distinguished cell `(a,b)`: `Pre` holds
until the iteration of `(a,b)`, which turns it into `P`; the other iterations keep
`Pre` before and `P` after. -/
theorem gridLoop_phase {σ : Type} (Pre P : σ → Prop) (N a b : Int)
    (body : Int → Int → σ → σ) (s : σ)
    (ha1 : 1 ≤ a) (ha : a ≤ N) (hb1 : 1 ≤ b) (hb : b ≤ N) (hpre0 : Pre s)
    (hpre : ∀ i j t, 1 ≤ i → i ≤ N → 1 ≤ j → j ≤ N → ¬ (i = a ∧ j = b) →
      Pre t → Pre (body i j t))
    (hest : ∀ t, Pre t → P (body a b t))
    (hpost : ∀ i j t, 1 ≤ i → i ≤ N → 1 ≤ j → j ≤ N → ¬ (i = a ∧ j = b) →
      P t → P (body i j t)) :
    P (forRange 1 N (fun i s => forRange 1 N (fun j s => body i j s) s) s) := by
  apply forRange_phase Pre P 1 N a _ s ha1 ha hpre0
  · intro i t hi1 hi hne ht
    apply forRange_invariant_mem Pre 1 N _ t ht
    intro j t2 hj1 hj ht2
    exact hpre i j t2 hi1 hi hj1 hj (fun h => hne h.1) ht2
  · intro t ht
    apply forRange_phase Pre P 1 N b _ t hb1 hb ht
    · intro j t2 hj1 hj hne ht2
      exact hpre a j t2 ha1 ha hj1 hj (fun h => hne h.2) ht2
    · intro t2 ht2
      exact hest t2 ht2
    · intro j t2 hj1 hj hne ht2
      exact hpost a j t2 ha1 ha hj1 hj (fun h => hne h.2) ht2
  · intro i t hi1 hi hne ht
    apply forRange_invariant_mem P 1 N _ t ht
    intro j t2 hj1 hj ht2
    exact hpost i j t2 hi1 hi hj1 hj (fun h => hne h.1) ht2

/-- Reads and writes of cells of the grid `[0,N+1] × [0,N+1]`, on a vektor of dimension
`D ≥ N+2`, behave like a two-dimensional array. -/
theorem Vektor.Get_Set_grid (vk : Vektor) (D N : Int) (i j a b : Int) (x : ℚ)
    (hs : vk.Shape D) (hD : N + 2 ≤ D) (hi : 0 ≤ i ∧ i ≤ N + 1) (hj : 0 ≤ j ∧ j ≤ N + 1)
    (ha : 0 ≤ a ∧ a ≤ N + 1) (hb : 0 ≤ b ∧ b ≤ N + 1) :
    (vk.Set i j x).Get a b = if a = i ∧ b = j then x else vk.Get a b :=
  Vektor.Get_Set_inBounds vk D i j a b x hs (by omega) (by omega) (by omega) (by omega)
    (by omega) (by omega) (by omega) (by omega)

/-! ## Boundary enforcement -/

namespace Fluid

/-- The four writes of one iteration of the loop of `setBnd`, with the sign factors. -/
theorem setBndEdges_eq (fl : Fluid) (bnd i : Int) (t : Vektor) :
    fl.setBndEdges bnd i t
      = (((t.Set 0 i (bndSign bnd 1 * t.Get 1 i)).Set (fl.size + 1) i
          (bndSign bnd 1 * (t.Set 0 i (bndSign bnd 1 * t.Get 1 i)).Get fl.size i)).Set i 0
          (bndSign bnd 2 * ((t.Set 0 i (bndSign bnd 1 * t.Get 1 i)).Set (fl.size + 1) i
            (bndSign bnd 1 * (t.Set 0 i (bndSign bnd 1 * t.Get 1 i)).Get fl.size i)).Get
              i 1)).Set i (fl.size + 1)
          (bndSign bnd 2 * (((t.Set 0 i (bndSign bnd 1 * t.Get 1 i)).Set (fl.size + 1) i
            (bndSign bnd 1 * (t.Set 0 i (bndSign bnd 1 * t.Get 1 i)).Get fl.size i)).Set i 0
            (bndSign bnd 2 * ((t.Set 0 i (bndSign bnd 1 * t.Get 1 i)).Set (fl.size + 1) i
              (bndSign bnd 1 * (t.Set 0 i (bndSign bnd 1 * t.Get 1 i)).Get fl.size i)).Get
                i 1)).Get i fl.size) := by
  unfold setBndEdges bndSign
  split_ifs <;> simp

/-- What a grid cell reads after one iteration `i` of the loop of `setBnd`. -/
theorem setBndEdges_Get (fl : Fluid) (bnd i : Int) (t : Vektor) (D : Int)
    (hs : t.Shape D) (hN : 1 ≤ fl.size) (hD : fl.size + 2 ≤ D)
    (hi1 : 1 ≤ i) (hi : i ≤ fl.size)
    (a b : Int) (ha : 0 ≤ a ∧ a ≤ fl.size + 1) (hb : 0 ≤ b ∧ b ≤ fl.size + 1) :
    (fl.setBndEdges bnd i t).Get a b =
      if a = i ∧ b = fl.size + 1 then bndSign bnd 2 * t.Get i fl.size
      else if a = i ∧ b = 0 then bndSign bnd 2 * t.Get i 1
      else if a = fl.size + 1 ∧ b = i then bndSign bnd 1 * t.Get fl.size i
      else if a = 0 ∧ b = i then bndSign bnd 1 * t.Get 1 i
      else t.Get a b := by
  rw [setBndEdges_eq]
  generalize bndSign bnd 1 = s1
  generalize bndSign bnd 2 = s2
  have h1 : (t.Set 0 i (s1 * t.Get 1 i)).Shape D := Vektor.Set_Shape _ _ _ _ _ hs
  have r1 : (t.Set 0 i (s1 * t.Get 1 i)).Get fl.size i = t.Get fl.size i := by
    rw [Vektor.Get_Set_grid t D fl.size _ _ _ _ _ hs hD (by omega) (by omega) (by omega)
      (by omega), if_neg (by omega)]
  rw [r1]
  have h2 : ((t.Set 0 i (s1 * t.Get 1 i)).Set (fl.size + 1) i (s1 * t.Get fl.size i)).Shape D :=
    Vektor.Set_Shape _ _ _ _ _ h1
  have r2 : ((t.Set 0 i (s1 * t.Get 1 i)).Set (fl.size + 1) i (s1 * t.Get fl.size i)).Get i 1
      = t.Get i 1 := by
    rw [Vektor.Get_Set_grid _ D fl.size _ _ _ _ _ h1 hD (by omega) (by omega) (by omega)
      (by omega), if_neg (by omega),
      Vektor.Get_Set_grid t D fl.size _ _ _ _ _ hs hD (by omega) (by omega) (by omega)
      (by omega), if_neg (by omega)]
  rw [r2]
  have h3 : (((t.Set 0 i (s1 * t.Get 1 i)).Set (fl.size + 1) i (s1 * t.Get fl.size i)).Set
      i 0 (s2 * t.Get i 1)).Shape D := Vektor.Set_Shape _ _ _ _ _ h2
  have r3 : (((t.Set 0 i (s1 * t.Get 1 i)).Set (fl.size + 1) i (s1 * t.Get fl.size i)).Set
      i 0 (s2 * t.Get i 1)).Get i fl.size = t.Get i fl.size := by
    rw [Vektor.Get_Set_grid _ D fl.size _ _ _ _ _ h2 hD (by omega) (by omega) (by omega)
      (by omega), if_neg (by omega),
      Vektor.Get_Set_grid _ D fl.size _ _ _ _ _ h1 hD (by omega) (by omega) (by omega)
      (by omega), if_neg (by omega),
      Vektor.Get_Set_grid t D fl.size _ _ _ _ _ hs hD (by omega) (by omega) (by omega)
      (by omega), if_neg (by omega)]
  rw [r3]
  rw [Vektor.Get_Set_grid _ D fl.size _ _ _ _ _ h3 hD (by omega) (by omega) ha hb,
    Vektor.Get_Set_grid _ D fl.size _ _ _ _ _ h2 hD (by omega) (by omega) ha hb,
    Vektor.Get_Set_grid _ D fl.size _ _ _ _ _ h1 hD (by omega) (by omega) ha hb,
    Vektor.Get_Set_grid t D fl.size _ _ _ _ _ hs hD (by omega) (by omega) ha hb]

theorem setBndEdges_Shape (fl : Fluid) (bnd i : Int) (t : Vektor) (D : Int)
    (hs : t.Shape D) : (fl.setBndEdges bnd i t).Shape D := by
  rw [setBndEdges_eq]
  iterate 4 apply Vektor.Set_Shape
  exact hs

/-- The loop of `setBnd`: the shape and the interior are kept. -/
theorem setBnd_loop_interior (fl : Fluid) (bnd : Int) (x : Vektor) (D : Int)
    (hs : x.Shape D) (hN : 1 ≤ fl.size) (hD : fl.size + 2 ≤ D) :
    (forRange 1 fl.size (fun i xx => fl.setBndEdges bnd i xx) x).Shape D
      ∧ ∀ a b, 1 ≤ a → a ≤ fl.size → 1 ≤ b → b ≤ fl.size →
        (forRange 1 fl.size (fun i xx => fl.setBndEdges bnd i xx) x).Get a b = x.Get a b := by
  refine forRange_invariant_mem (fun t : Vektor => t.Shape D
    ∧ ∀ a b, 1 ≤ a → a ≤ fl.size → 1 ≤ b → b ≤ fl.size → t.Get a b = x.Get a b)
    1 fl.size _ x ⟨hs, fun _ _ _ _ _ _ => rfl⟩ ?_
  intro i t hi1 hi ht
  refine ⟨setBndEdges_Shape fl bnd i t D ht.1, ?_⟩
  intro a b ha1 ha hb1 hb
  rw [setBndEdges_Get fl bnd i t D ht.1 hN hD hi1 hi a b (by omega) (by omega),
    if_neg (by omega), if_neg (by omega), if_neg (by omega), if_neg (by omega)]
  exact ht.2 a b ha1 ha hb1 hb

/-- The loop of `setBnd`: each non-corner cell of the boundary ring ends up holding the
signed value of its interior neighbour. -/
theorem setBnd_loop_edges (fl : Fluid) (bnd : Int) (x : Vektor) (D : Int)
    (hs : x.Shape D) (hN : 1 ≤ fl.size) (hD : fl.size + 2 ≤ D)
    (k : Int) (hk1 : 1 ≤ k) (hk : k ≤ fl.size) :
    (forRange 1 fl.size (fun i xx => fl.setBndEdges bnd i xx) x).Get 0 k
        = bndSign bnd 1 * x.Get 1 k
      ∧ (forRange 1 fl.size (fun i xx => fl.setBndEdges bnd i xx) x).Get (fl.size + 1) k
        = bndSign bnd 1 * x.Get fl.size k
      ∧ (forRange 1 fl.size (fun i xx => fl.setBndEdges bnd i xx) x).Get k 0
        = bndSign bnd 2 * x.Get k 1
      ∧ (forRange 1 fl.size (fun i xx => fl.setBndEdges bnd i xx) x).Get k (fl.size + 1)
        = bndSign bnd 2 * x.Get k fl.size := by
  have hQ : ∀ i (t : Vektor), 1 ≤ i → i ≤ fl.size →
      (t.Shape D ∧ ∀ a b, 1 ≤ a → a ≤ fl.size → 1 ≤ b → b ≤ fl.size →
        t.Get a b = x.Get a b) →
      ((fl.setBndEdges bnd i t).Shape D ∧ ∀ a b, 1 ≤ a → a ≤ fl.size → 1 ≤ b →
        b ≤ fl.size → (fl.setBndEdges bnd i t).Get a b = x.Get a b) := by
    intro i t hi1 hi ht
    refine ⟨setBndEdges_Shape fl bnd i t D ht.1, ?_⟩
    intro a b ha1 ha hb1 hb
    rw [setBndEdges_Get fl bnd i t D ht.1 hN hD hi1 hi a b (by omega) (by omega),
      if_neg (by omega), if_neg (by omega), if_neg (by omega), if_neg (by omega)]
    exact ht.2 a b ha1 ha hb1 hb
  have key : ∀ (c d : Int) (val : ℚ), (0 ≤ c ∧ c ≤ fl.size + 1) → (0 ≤ d ∧ d ≤ fl.size + 1) →
      (∀ t : Vektor, (t.Shape D ∧ ∀ a b, 1 ≤ a → a ≤ fl.size → 1 ≤ b → b ≤ fl.size →
        t.Get a b = x.Get a b) → (fl.setBndEdges bnd k t).Get c d = val) →
      (∀ i (t : Vektor), 1 ≤ i → i ≤ fl.size → t.Shape D → i ≠ k →
        (fl.setBndEdges bnd i t).Get c d = t.Get c d) →
      (forRange 1 fl.size (fun i xx => fl.setBndEdges bnd i xx) x).Get c d = val := by
    intro c d val hc hd hest hother
    refine (forRange_establish (fun t : Vektor => t.Shape D
      ∧ ∀ a b, 1 ≤ a → a ≤ fl.size → 1 ≤ b → b ≤ fl.size → t.Get a b = x.Get a b)
      (fun t : Vektor => t.Get c d = val) 1 fl.size k _ x hk1 hk
      ⟨hs, fun _ _ _ _ _ _ => rfl⟩ hQ hest ?_).2
    intro i t hi1 hi ht hp
    by_cases hik : i = k
    · subst hik
      exact hest t ht
    · rw [hother i t hi1 hi ht.1 hik]
      exact hp
  refine ⟨?_, ?_, ?_, ?_⟩
  · apply key 0 k _ (by omega) (by omega)
    · intro t ht
      rw [setBndEdges_Get fl bnd k t D ht.1 hN hD hk1 hk 0 k (by omega) (by omega),
        if_neg (by omega), if_neg (by omega), if_neg (by omega), if_pos ⟨rfl, rfl⟩,
        ht.2 1 k (by omega) (by omega) hk1 hk]
    · intro i t hi1 hi ht hik
      rw [setBndEdges_Get fl bnd i t D ht hN hD hi1 hi 0 k (by omega) (by omega),
        if_neg (by omega), if_neg (by omega), if_neg (by omega), if_neg (by omega)]
  · apply key (fl.size + 1) k _ (by omega) (by omega)
    · intro t ht
      rw [setBndEdges_Get fl bnd k t D ht.1 hN hD hk1 hk _ k (by omega) (by omega),
        if_neg (by omega), if_neg (by omega), if_pos ⟨rfl, rfl⟩,
        ht.2 fl.size k (by omega) (by omega) hk1 hk]
    · intro i t hi1 hi ht hik
      rw [setBndEdges_Get fl bnd i t D ht hN hD hi1 hi _ k (by omega) (by omega),
        if_neg (by omega), if_neg (by omega), if_neg (by omega), if_neg (by omega)]
  · apply key k 0 _ (by omega) (by omega)
    · intro t ht
      rw [setBndEdges_Get fl bnd k t D ht.1 hN hD hk1 hk k 0 (by omega) (by omega),
        if_neg (by omega), if_pos ⟨rfl, rfl⟩, ht.2 k 1 hk1 hk (by omega) (by omega)]
    · intro i t hi1 hi ht hik
      rw [setBndEdges_Get fl bnd i t D ht hN hD hi1 hi k 0 (by omega) (by omega),
        if_neg (by omega), if_neg (by omega), if_neg (by omega), if_neg (by omega)]
  · apply key k (fl.size + 1) _ (by omega) (by omega)
    · intro t ht
      rw [setBndEdges_Get fl bnd k t D ht.1 hN hD hk1 hk k _ (by omega) (by omega),
        if_pos ⟨rfl, rfl⟩, ht.2 k fl.size hk1 hk (by omega) (by omega)]
    · intro i t hi1 hi ht hik
      rw [setBndEdges_Get fl bnd i t D ht hN hD hi1 hi k _ (by omega) (by omega),
        if_neg (by omega), if_neg (by omega), if_neg (by omega), if_neg (by omega)]

/-- The four corner writes of `setBnd`, applied to a grid `L`: each corner reads the
average of its two ring neighbours in `L`, every other grid cell reads as in `L`. -/
theorem setBnd_corners_Get (N D : Int) (L : Vektor) (hs : L.Shape D) (hN : 1 ≤ N)
    (hD : N + 2 ≤ D) (a b : Int) (ha : 0 ≤ a ∧ a ≤ N + 1) (hb : 0 ≤ b ∧ b ≤ N + 1) :
    (let t2 := L.Set 0 0 (0.5 * (L.Get 1 0 + L.Get 0 1))
     let t3 := t2.Set 0 (N + 1) (0.5 * (t2.Get 1 (N + 1) + t2.Get 0 N))
     let t4 := t3.Set (N + 1) 0 (0.5 * (t3.Get N 0 + t3.Get (N + 1) 1))
     t4.Set (N + 1) (N + 1) (0.5 * (t4.Get N (N + 1) + t4.Get (N + 1) N))).Get a b
      = if a = N + 1 ∧ b = N + 1 then 0.5 * (L.Get N (N + 1) + L.Get (N + 1) N)
        else if a = N + 1 ∧ b = 0 then 0.5 * (L.Get N 0 + L.Get (N + 1) 1)
        else if a = 0 ∧ b = N + 1 then 0.5 * (L.Get 1 (N + 1) + L.Get 0 N)
        else if a = 0 ∧ b = 0 then 0.5 * (L.Get 1 0 + L.Get 0 1)
        else L.Get a b := by
  lift_lets
  intro t2 t3 t4
  have s2 : t2.Shape D := Vektor.Set_Shape _ _ _ _ _ hs
  have s3 : t3.Shape D := Vektor.Set_Shape _ _ _ _ _ s2
  have s4 : t4.Shape D := Vektor.Set_Shape _ _ _ _ _ s3
  have g2 : ∀ c d, (0 ≤ c ∧ c ≤ N + 1) → (0 ≤ d ∧ d ≤ N + 1) →
      t2.Get c d = if c = 0 ∧ d = 0 then 0.5 * (L.Get 1 0 + L.Get 0 1) else L.Get c d :=
    fun c d hc hd => Vektor.Get_Set_grid L D N 0 0 c d _ hs hD (by omega) (by omega) hc hd
  have e21 : t2.Get 1 (N + 1) = L.Get 1 (N + 1) := by
    rw [g2 _ _ (by omega) (by omega), if_neg (by omega)]
  have e22 : t2.Get 0 N = L.Get 0 N := by
    rw [g2 _ _ (by omega) (by omega), if_neg (by omega)]
  have g3 : ∀ c d, (0 ≤ c ∧ c ≤ N + 1) → (0 ≤ d ∧ d ≤ N + 1) →
      t3.Get c d = if c = 0 ∧ d = N + 1 then 0.5 * (L.Get 1 (N + 1) + L.Get 0 N)
        else t2.Get c d := by
    intro c d hc hd
    have := Vektor.Get_Set_grid t2 D N 0 (N + 1) c d
      (0.5 * (t2.Get 1 (N + 1) + t2.Get 0 N)) s2 hD (by omega) (by omega) hc hd
    rw [← e21, ← e22]
    exact this
  have e31 : t3.Get N 0 = L.Get N 0 := by
    rw [g3 _ _ (by omega) (by omega), if_neg (by omega), g2 _ _ (by omega) (by omega),
      if_neg (by omega)]
  have e32 : t3.Get (N + 1) 1 = L.Get (N + 1) 1 := by
    rw [g3 _ _ (by omega) (by omega), if_neg (by omega), g2 _ _ (by omega) (by omega),
      if_neg (by omega)]
  have g4 : ∀ c d, (0 ≤ c ∧ c ≤ N + 1) → (0 ≤ d ∧ d ≤ N + 1) →
      t4.Get c d = if c = N + 1 ∧ d = 0 then 0.5 * (L.Get N 0 + L.Get (N + 1) 1)
        else t3.Get c d := by
    intro c d hc hd
    have := Vektor.Get_Set_grid t3 D N (N + 1) 0 c d
      (0.5 * (t3.Get N 0 + t3.Get (N + 1) 1)) s3 hD (by omega) (by omega) hc hd
    rw [← e31, ← e32]
    exact this
  have e41 : t4.Get N (N + 1) = L.Get N (N + 1) := by
    rw [g4 _ _ (by omega) (by omega), if_neg (by omega), g3 _ _ (by omega) (by omega),
      if_neg (by omega), g2 _ _ (by omega) (by omega), if_neg (by omega)]
  have e42 : t4.Get (N + 1) N = L.Get (N + 1) N := by
    rw [g4 _ _ (by omega) (by omega), if_neg (by omega), g3 _ _ (by omega) (by omega),
      if_neg (by omega), g2 _ _ (by omega) (by omega), if_neg (by omega)]
  rw [Vektor.Get_Set_grid t4 D N (N + 1) (N + 1) a b _ s4 hD (by omega) (by omega) ha hb,
    e41, e42, g4 a b ha hb, g3 a b ha hb, g2 a b ha hb]

/-- What `setBnd(bnd, x)` leaves in a grid of dimension `D ≥ N+2`: the interior is
unchanged; each non-corner ring cell holds the signed value of its interior neighbour;
each corner holds the average of its two ring neighbours. All right-hand sides read the
grid after the call. -/
theorem setBnd_spec (fl : Fluid) (bnd : Int) (x : Vektor) (D : Int)
    (hs : x.Shape D) (hN : 1 ≤ fl.size) (hD : fl.size + 2 ≤ D) :
    (fl.setBnd bnd x).Shape D
      ∧ (∀ a b, 1 ≤ a → a ≤ fl.size → 1 ≤ b → b ≤ fl.size →
          (fl.setBnd bnd x).Get a b = x.Get a b)
      ∧ (∀ k, 1 ≤ k → k ≤ fl.size →
          (fl.setBnd bnd x).Get 0 k = bndSign bnd 1 * (fl.setBnd bnd x).Get 1 k
          ∧ (fl.setBnd bnd x).Get (fl.size + 1) k
              = bndSign bnd 1 * (fl.setBnd bnd x).Get fl.size k
          ∧ (fl.setBnd bnd x).Get k 0 = bndSign bnd 2 * (fl.setBnd bnd x).Get k 1
          ∧ (fl.setBnd bnd x).Get k (fl.size + 1)
              = bndSign bnd 2 * (fl.setBnd bnd x).Get k fl.size)
      ∧ (fl.setBnd bnd x).Get 0 0
          = 0.5 * ((fl.setBnd bnd x).Get 1 0 + (fl.setBnd bnd x).Get 0 1)
      ∧ (fl.setBnd bnd x).Get 0 (fl.size + 1)
          = 0.5 * ((fl.setBnd bnd x).Get 1 (fl.size + 1) + (fl.setBnd bnd x).Get 0 fl.size)
      ∧ (fl.setBnd bnd x).Get (fl.size + 1) 0
          = 0.5 * ((fl.setBnd bnd x).Get fl.size 0 + (fl.setBnd bnd x).Get (fl.size + 1) 1)
      ∧ (fl.setBnd bnd x).Get (fl.size + 1) (fl.size + 1)
          = 0.5 * ((fl.setBnd bnd x).Get fl.size (fl.size + 1)
              + (fl.setBnd bnd x).Get (fl.size + 1) fl.size) := by
  obtain ⟨hLs, hLi⟩ := setBnd_loop_interior fl bnd x D hs hN hD
  have hLe := setBnd_loop_edges fl bnd x D hs hN hD
  have hG : ∀ a b, (0 ≤ a ∧ a ≤ fl.size + 1) → (0 ≤ b ∧ b ≤ fl.size + 1) →
      (fl.setBnd bnd x).Get a b = _ := fun a b ha hb =>
    setBnd_corners_Get fl.size D (forRange 1 fl.size (fun i xx => fl.setBndEdges bnd i xx) x)
      hLs hN hD a b ha hb
  have hnc : ∀ a b, (0 ≤ a ∧ a ≤ fl.size + 1) → (0 ≤ b ∧ b ≤ fl.size + 1) →
      ¬ ((a = 0 ∨ a = fl.size + 1) ∧ (b = 0 ∨ b = fl.size + 1)) →
      (fl.setBnd bnd x).Get a b
        = (forRange 1 fl.size (fun i xx => fl.setBndEdges bnd i xx) x).Get a b := by
    intro a b ha hb hne
    rw [hG a b ha hb, if_neg (by omega), if_neg (by omega), if_neg (by omega),
      if_neg (by omega)]
  have hint : ∀ a b, 1 ≤ a → a ≤ fl.size → 1 ≤ b → b ≤ fl.size →
      (fl.setBnd bnd x).Get a b = x.Get a b := by
    intro a b ha1 ha hb1 hb
    rw [hnc a b (by omega) (by omega) (by omega), hLi a b ha1 ha hb1 hb]
  refine ⟨setBnd_Shape fl bnd x D hs, hint, ?_, ?_, ?_, ?_, ?_⟩
  · intro k hk1 hk
    obtain ⟨e1, e2, e3, e4⟩ := hLe k hk1 hk
    refine ⟨?_, ?_, ?_, ?_⟩
    · rw [hnc 0 k (by omega) (by omega) (by omega), e1,
        hint 1 k (by omega) (by omega) hk1 hk]
    · rw [hnc _ k (by omega) (by omega) (by omega), e2,
        hint fl.size k (by omega) (by omega) hk1 hk]
    · rw [hnc k 0 (by omega) (by omega) (by omega), e3,
        hint k 1 hk1 hk (by omega) (by omega)]
    · rw [hnc k _ (by omega) (by omega) (by omega), e4,
        hint k fl.size hk1 hk (by omega) (by omega)]
  · rw [hnc 1 0 (by omega) (by omega) (by omega), hnc 0 1 (by omega) (by omega) (by omega),
      hG 0 0 (by omega) (by omega), if_neg (by omega), if_neg (by omega),
      if_neg (by omega), if_pos ⟨rfl, rfl⟩]
  · rw [hnc 1 _ (by omega) (by omega) (by omega), hnc 0 fl.size (by omega) (by omega)
      (by omega), hG 0 _ (by omega) (by omega), if_neg (by omega), if_neg (by omega),
      if_pos ⟨rfl, rfl⟩]
  · rw [hnc fl.size 0 (by omega) (by omega) (by omega),
      hnc _ 1 (by omega) (by omega) (by omega),
      hG _ 0 (by omega) (by omega), if_neg (by omega), if_pos ⟨rfl, rfl⟩]
  · rw [hnc fl.size _ (by omega) (by omega) (by omega),
      hnc _ fl.size (by omega) (by omega) (by omega),
      hG _ _ (by omega) (by omega), if_pos ⟨rfl, rfl⟩]

end Fluid

/-! ## `Min`, `Max` and `Level` -/

namespace Fluid

/-- `Min()` is at most its seed 99999 and at most every interior density, and it is the
seed or the density of some interior cell. -/
theorem Min_spec (fl : Fluid) :
    fl.Min ≤ 99999
      ∧ (∀ a b, 1 ≤ a → a ≤ fl.size → 1 ≤ b → b ≤ fl.size → fl.Min ≤ fl.dd.Get a b)
      ∧ (fl.Min = 99999
          ∨ ∃ a b, 1 ≤ a ∧ a ≤ fl.size ∧ 1 ≤ b ∧ b ≤ fl.size ∧ fl.Min = fl.dd.Get a b) := by
  have hbody : ∀ (i j : Int) (m : ℚ),
      (if m > fl.dd.Get i j then fl.dd.Get i j else m) ≤ m
        ∧ (if m > fl.dd.Get i j then fl.dd.Get i j else m) ≤ fl.dd.Get i j := by
    intro i j m
    split_ifs with h
    · exact ⟨le_of_lt h, le_refl _⟩
    · exact ⟨le_refl _, not_lt.1 h⟩
  refine ⟨?_, ?_, ?_⟩
  · exact gridLoop_invariant (fun m : ℚ => m ≤ 99999) fl.size
      (fun i j m => if m > fl.dd.Get i j then fl.dd.Get i j else m) 99999 (le_refl _)
      (fun i j m _ _ _ _ hm => le_trans (hbody i j m).1 hm)
  · intro a b ha1 ha hb1 hb
    exact gridLoop_phase (fun _ : ℚ => True) (fun m : ℚ => m ≤ fl.dd.Get a b) fl.size a b
      (fun i j m => if m > fl.dd.Get i j then fl.dd.Get i j else m) 99999 ha1 ha hb1 hb
      trivial (fun _ _ _ _ _ _ _ _ _ => trivial) (fun m _ => (hbody a b m).2)
      (fun i j m _ _ _ _ _ hm => le_trans (hbody i j m).1 hm)
  · refine gridLoop_invariant (fun m : ℚ => m = 99999
      ∨ ∃ a b, 1 ≤ a ∧ a ≤ fl.size ∧ 1 ≤ b ∧ b ≤ fl.size ∧ m = fl.dd.Get a b) fl.size
      (fun i j m => if m > fl.dd.Get i j then fl.dd.Get i j else m) 99999 (Or.inl rfl) ?_
    intro i j m hi1 hi hj1 hj hm
    beta_reduce
    split_ifs
    · exact Or.inr ⟨i, j, hi1, hi, hj1, hj, rfl⟩
    · exact hm

/-- `Max()` is at least its seed 0 and at least every interior density, and it is the
seed or the density of some interior cell. -/
theorem Max_spec (fl : Fluid) :
    0 ≤ fl.Max
      ∧ (∀ a b, 1 ≤ a → a ≤ fl.size → 1 ≤ b → b ≤ fl.size → fl.dd.Get a b ≤ fl.Max)
      ∧ (fl.Max = 0
          ∨ ∃ a b, 1 ≤ a ∧ a ≤ fl.size ∧ 1 ≤ b ∧ b ≤ fl.size ∧ fl.Max = fl.dd.Get a b) := by
  have hbody : ∀ (i j : Int) (m : ℚ),
      m ≤ (if m < fl.dd.Get i j then fl.dd.Get i j else m)
        ∧ fl.dd.Get i j ≤ (if m < fl.dd.Get i j then fl.dd.Get i j else m) := by
    intro i j m
    split_ifs with h
    · exact ⟨le_of_lt h, le_refl _⟩
    · exact ⟨le_refl _, not_lt.1 h⟩
  refine ⟨?_, ?_, ?_⟩
  · exact gridLoop_invariant (fun m : ℚ => 0 ≤ m) fl.size
      (fun i j m => if m < fl.dd.Get i j then fl.dd.Get i j else m) 0 (le_refl _)
      (fun i j m _ _ _ _ hm => le_trans hm (hbody i j m).1)
  · intro a b ha1 ha hb1 hb
    exact gridLoop_phase (fun _ : ℚ => True) (fun m : ℚ => fl.dd.Get a b ≤ m) fl.size a b
      (fun i j m => if m < fl.dd.Get i j then fl.dd.Get i j else m) 0 ha1 ha hb1 hb
      trivial (fun _ _ _ _ _ _ _ _ _ => trivial) (fun m _ => (hbody a b m).2)
      (fun i j m _ _ _ _ _ hm => le_trans hm (hbody i j m).1)
  · refine gridLoop_invariant (fun m : ℚ => m = 0
      ∨ ∃ a b, 1 ≤ a ∧ a ≤ fl.size ∧ 1 ≤ b ∧ b ≤ fl.size ∧ m = fl.dd.Get a b) fl.size
      (fun i j m => if m < fl.dd.Get i j then fl.dd.Get i j else m) 0 (Or.inl rfl) ?_
    intro i j m hi1 hi hj1 hj hm
    beta_reduce
    split_ifs
    · exact Or.inr ⟨i, j, hi1, hi, hj1, hj, rfl⟩
    · exact hm

/-- A double loop over the interior that rewrites each cell from its own current value:
afterwards every interior cell holds the image of its old value, every other grid cell
is unchanged. -/
theorem interiorMap_Get (N D : Int) (g : Int → Int → ℚ → ℚ) (t0 : Vektor)
    (hs : t0.Shape D) (hD : N + 2 ≤ D)
    (a b : Int) (ha : 0 ≤ a ∧ a ≤ N + 1) (hb : 0 ≤ b ∧ b ≤ N + 1) :
    (forRange 1 N (fun i t => forRange 1 N
        (fun j (t : Vektor) => t.Set i j (g i j (t.Get i j))) t) t0).Get a b
      = if 1 ≤ a ∧ a ≤ N ∧ 1 ≤ b ∧ b ≤ N then g a b (t0.Get a b) else t0.Get a b := by
  by_cases hin : 1 ≤ a ∧ a ≤ N ∧ 1 ≤ b ∧ b ≤ N
  · rw [if_pos hin]
    refine (gridLoop_phase (fun t : Vektor => t.Shape D ∧ t.Get a b = t0.Get a b)
      (fun t : Vektor => t.Shape D ∧ t.Get a b = g a b (t0.Get a b)) N a b
      (fun i j (t : Vektor) => t.Set i j (g i j (t.Get i j))) t0 hin.1 hin.2.1 hin.2.2.1
      hin.2.2.2 ⟨hs, rfl⟩ ?_ ?_ ?_).2
    · intro i j t hi1 hi hj1 hj hne ht
      refine ⟨Vektor.Set_Shape _ _ _ _ _ ht.1, ?_⟩
      rw [Vektor.Get_Set_grid t D N i j a b _ ht.1 hD (by omega) (by omega) ha hb,
        if_neg (fun h => hne ⟨h.1.symm, h.2.symm⟩)]
      exact ht.2
    · intro t ht
      refine ⟨Vektor.Set_Shape _ _ _ _ _ ht.1, ?_⟩
      rw [Vektor.Get_Set_grid t D N a b a b _ ht.1 hD ha hb ha hb, if_pos ⟨rfl, rfl⟩, ht.2]
    · intro i j t hi1 hi hj1 hj hne ht
      refine ⟨Vektor.Set_Shape _ _ _ _ _ ht.1, ?_⟩
      rw [Vektor.Get_Set_grid t D N i j a b _ ht.1 hD (by omega) (by omega) ha hb,
        if_neg (fun h => hne ⟨h.1.symm, h.2.symm⟩)]
      exact ht.2
  · rw [if_neg hin]
    refine (gridLoop_invariant (fun t : Vektor => t.Shape D ∧ t.Get a b = t0.Get a b) N
      (fun i j (t : Vektor) => t.Set i j (g i j (t.Get i j))) t0 ⟨hs, rfl⟩ ?_).2
    intro i j t hi1 hi hj1 hj ht
    refine ⟨Vektor.Set_Shape _ _ _ _ _ ht.1, ?_⟩
    rw [Vektor.Get_Set_grid t D N i j a b _ ht.1 hD (by omega) (by omega) ha hb,
      if_neg (fun h => hin (by omega))]
    exact ht.2

theorem interiorMap_Shape (N D : Int) (g : Int → Int → ℚ → ℚ) (t0 : Vektor)
    (hs : t0.Shape D) :
    (forRange 1 N (fun i t => forRange 1 N
        (fun j (t : Vektor) => t.Set i j (g i j (t.Get i j))) t) t0).Shape D :=
  gridLoop_invariant (fun t : Vektor => t.Shape D) N
    (fun i j (t : Vektor) => t.Set i j (g i j (t.Get i j))) t0 hs
    (fun _ _ _ _ _ _ _ ht => Vektor.Set_Shape _ _ _ _ _ ht)

/-- The value `Level(min)` gives an interior density `d` when `min` is not below the
threshold. -/
theorem Level_interior (fl : Fluid) (D : Int) (hs : fl.dd.Shape D) (hN : 1 ≤ fl.size)
    (hD : fl.size + 2 ≤ D) (min : ℚ) (hmin : ¬ min < 0.0001)
    (a b : Int) (ha1 : 1 ≤ a) (ha : a ≤ fl.size) (hb1 : 1 ≤ b) (hb : b ≤ fl.size) :
    (fl.Level min).dd.Get a b
      = if fl.dd.Get a b - 4 * min < 0.0001 then 0 else fl.dd.Get a b - 4 * min := by
  have hloopS := interiorMap_Shape fl.size D
    (fun _ _ v => if v - 4 * min < 0.0001 then 0 else v - 4 * min) fl.dd hs
  have hloop := interiorMap_Get fl.size D
    (fun _ _ v => if v - 4 * min < 0.0001 then 0 else v - 4 * min) fl.dd hs hD a b
    (by omega) (by omega)
  rw [if_pos ⟨ha1, ha, hb1, hb⟩] at hloop
  have hset := (setBnd_spec fl 0 _ D hloopS hN hD).2.1 a b ha1 ha hb1 hb
  unfold Level
  simp only [if_neg hmin]
  exact hset.trans hloop

/-- `Min()` in terms of the true interior minimum `m`: the smaller of `m` and the seed
99999. -/
theorem Min_eq_min_seed (fl : Fluid) (m : ℚ)
    (hatt : ∃ a b, 1 ≤ a ∧ a ≤ fl.size ∧ 1 ≤ b ∧ b ≤ fl.size ∧ fl.dd.Get a b = m)
    (hlow : ∀ a b, 1 ≤ a → a ≤ fl.size → 1 ≤ b → b ≤ fl.size → m ≤ fl.dd.Get a b) :
    fl.Min = min 99999 m := by
  obtain ⟨h1, h2, h3⟩ := Min_spec fl
  obtain ⟨a, b, ha1, ha, hb1, hb, hab⟩ := hatt
  have hle : fl.Min ≤ m := hab ▸ h2 a b ha1 ha hb1 hb
  rcases h3 with h | ⟨c, d, hc1, hc, hd1, hd, hcd⟩
  · rw [h] at hle ⊢
    exact (min_eq_left hle).symm
  · have hge : m ≤ fl.Min := hcd ▸ hlow c d hc1 hc hd1 hd
    have : fl.Min = m := le_antisymm hle hge
    rw [this] at h1 ⊢
    exact (min_eq_right h1).symm

/-- After `Level(min)` with `min` not below the threshold, the density grid satisfies
the boundary conditions of code 0. -/
theorem Level_ring (fl : Fluid) (D : Int) (hs : fl.dd.Shape D) (hN : 1 ≤ fl.size)
    (hD : fl.size + 2 ≤ D) (min : ℚ) (hmin : ¬ min < 0.0001) :
    (∀ k, 1 ≤ k → k ≤ fl.size →
        (fl.Level min).dd.Get 0 k = (fl.Level min).dd.Get 1 k
        ∧ (fl.Level min).dd.Get (fl.size + 1) k = (fl.Level min).dd.Get fl.size k
        ∧ (fl.Level min).dd.Get k 0 = (fl.Level min).dd.Get k 1
        ∧ (fl.Level min).dd.Get k (fl.size + 1) = (fl.Level min).dd.Get k fl.size)
      ∧ (fl.Level min).dd.Get 0 0
          = 0.5 * ((fl.Level min).dd.Get 1 0 + (fl.Level min).dd.Get 0 1)
      ∧ (fl.Level min).dd.Get 0 (fl.size + 1)
          = 0.5 * ((fl.Level min).dd.Get 1 (fl.size + 1) + (fl.Level min).dd.Get 0 fl.size)
      ∧ (fl.Level min).dd.Get (fl.size + 1) 0
          = 0.5 * ((fl.Level min).dd.Get fl.size 0 + (fl.Level min).dd.Get (fl.size + 1) 1)
      ∧ (fl.Level min).dd.Get (fl.size + 1) (fl.size + 1)
          = 0.5 * ((fl.Level min).dd.Get fl.size (fl.size + 1)
              + (fl.Level min).dd.Get (fl.size + 1) fl.size) := by
  have hloopS := interiorMap_Shape fl.size D
    (fun _ _ v => if v - 4 * min < 0.0001 then 0 else v - 4 * min) fl.dd hs
  have hspec := setBnd_spec fl 0 _ D hloopS hN hD
  have e1 : bndSign 0 1 = 1 := by unfold bndSign; norm_num
  have e2 : bndSign 0 2 = 1 := by unfold bndSign; norm_num
  rw [e1, e2] at hspec
  simp only [one_mul] at hspec
  unfold Level
  simp only [if_neg hmin]
  exact hspec.2.2

theorem Level_size (fl : Fluid) (min : ℚ) : (fl.Level min).size = fl.size := by
  unfold Level
  simp only []
  split_ifs <;> rfl

/-- The value `Level(m)` gives a density is 0 or at least the threshold. -/
theorem levelled_nonneg (d m : ℚ) :
    0 ≤ (if d - 4 * m < 0.0001 then 0 else d - 4 * m) := by
  split_ifs with h
  · exact le_refl _
  · have := not_lt.1 h
    norm_num at this ⊢
    linarith

end Fluid

/-! ## Projection -/

namespace Fluid

theorem projectDiv_frame (fl : Fluid) (h : ℚ) (g : ProjGrids) :
    (fl.projectDiv h g).u = g.u ∧ (fl.projectDiv h g).v = g.v := by
  unfold projectDiv
  apply gridLoop_invariant (fun t : ProjGrids => t.u = g.u ∧ t.v = g.v) fl.size _ g
    ⟨rfl, rfl⟩
  intro i j t _ _ _ _ ht
  exact ht

theorem projectRelax_frame (fl : Fluid) (g : ProjGrids) :
    (fl.projectRelax g).u = g.u ∧ (fl.projectRelax g).v = g.v
      ∧ (fl.projectRelax g).div = g.div := by
  unfold projectRelax
  apply gridLoop_invariant (fun t : ProjGrids => t.u = g.u ∧ t.v = g.v ∧ t.div = g.div)
    fl.size _ g ⟨rfl, rfl, rfl⟩
  intro i j t _ _ _ _ ht
  exact ht

theorem projectSubtract_frame (fl : Fluid) (h : ℚ) (g : ProjGrids) :
    (fl.projectSubtract h g).p = g.p ∧ (fl.projectSubtract h g).div = g.div := by
  unfold projectSubtract
  apply gridLoop_invariant (fun t : ProjGrids => t.p = g.p ∧ t.div = g.div)
    fl.size _ g ⟨rfl, rfl⟩
  intro i j t _ _ _ _ ht
  exact ht

/-- The relaxation phase of `project` (twenty sweeps, each followed by `setBnd(0, p)`)
changes only `p`. -/
theorem project_relaxation_frame (fl : Fluid) (n : Nat) (g : ProjGrids) :
    (repeatN n (fun g =>
        let g := fl.projectRelax g
        { g with p := fl.setBnd 0 g.p }) g).u = g.u
      ∧ (repeatN n (fun g =>
        let g := fl.projectRelax g
        { g with p := fl.setBnd 0 g.p }) g).v = g.v
      ∧ (repeatN n (fun g =>
        let g := fl.projectRelax g
        { g with p := fl.setBnd 0 g.p }) g).div = g.div := by
  apply repeatN_invariant (fun t : ProjGrids => t.u = g.u ∧ t.v = g.v ∧ t.div = g.div)
    n _ g ⟨rfl, rfl, rfl⟩
  intro t ht
  obtain ⟨h1, h2, h3⟩ := projectRelax_frame fl t
  exact ⟨h1.trans ht.1, h2.trans ht.2.1, h3.trans ht.2.2⟩

/-- The `div` grid `project` returns is the one its first loop computes, after
`setBnd(0, div)`. -/
theorem project_div_eq (fl : Fluid) (u v p div : Vektor) :
    (fl.project u v p div).div
      = fl.setBnd 0 (fl.projectDiv (1.0 / (fl.size : ℚ))
          { u := u, v := v, p := p, div := div }).div := by
  unfold project
  simp only [(projectSubtract_frame fl _ _).2, (project_relaxation_frame fl 20 _).2.2]

/-- The first loop of `project` stores in each interior cell of `div` the divergence
of `(u, v)` scaled by `-0.05 * h`. -/
theorem projectDiv_div_Get (fl : Fluid) (h : ℚ) (g : ProjGrids) (D : Int)
    (hs : g.div.Shape D) (hD : fl.size + 2 ≤ D)
    (a b : Int) (ha1 : 1 ≤ a) (ha : a ≤ fl.size) (hb1 : 1 ≤ b) (hb : b ≤ fl.size) :
    (fl.projectDiv h g).div.Shape D
      ∧ (fl.projectDiv h g).div.Get a b = -0.05 * h
          * (g.u.Get (a + 1) b - g.u.Get (a - 1) b + g.v.Get a (b + 1) - g.v.Get a (b - 1)) := by
  unfold projectDiv
  have key := gridLoop_phase
    (fun t : ProjGrids => t.u = g.u ∧ t.v = g.v ∧ t.div.Shape D)
    (fun t : ProjGrids => t.u = g.u ∧ t.v = g.v ∧ t.div.Shape D
      ∧ t.div.Get a b = -0.05 * h
          * (g.u.Get (a + 1) b - g.u.Get (a - 1) b + g.v.Get a (b + 1) - g.v.Get a (b - 1)))
    fl.size a b
    (fun i j (g : ProjGrids) =>
      let result := -0.05 * h
        * (g.u.Get (i + 1) j - g.u.Get (i - 1) j + g.v.Get i (j + 1) - g.v.Get i (j - 1))
      let g := { g with div := g.div.Set i j result }
      { g with p := g.p.Set i j 0 })
    g ha1 ha hb1 hb ⟨rfl, rfl, hs⟩
    (fun i j t _ _ _ _ _ ht => ⟨ht.1, ht.2.1, Vektor.Set_Shape _ _ _ _ _ ht.2.2⟩)
    (fun t ht => by
      refine ⟨ht.1, ht.2.1, Vektor.Set_Shape _ _ _ _ _ ht.2.2, ?_⟩
      show (t.div.Set a b _).Get a b = _
      rw [Vektor.Get_Set_grid t.div D fl.size a b a b _ ht.2.2 hD (by omega) (by omega)
        (by omega) (by omega), if_pos ⟨rfl, rfl⟩, ht.1, ht.2.1])
    (fun i j t hi1 hi hj1 hj hne ht => by
      refine ⟨ht.1, ht.2.1, Vektor.Set_Shape _ _ _ _ _ ht.2.2.1, ?_⟩
      show (t.div.Set i j _).Get a b = _
      rw [Vektor.Get_Set_grid t.div D fl.size i j a b _ ht.2.2.1 hD (by omega) (by omega)
        (by omega) (by omega), if_neg (fun h => hne ⟨h.1.symm, h.2.symm⟩)]
      exact ht.2.2.2)
  exact ⟨key.2.2.1, key.2.2.2⟩

/-- After `project`, each interior cell of `div` holds the divergence of the `(u, v)` that
were passed in, scaled by `-0.05 / size`. -/
theorem project_div_Get (fl : Fluid) (u v p div : Vektor) (D : Int)
    (hs : div.Shape D) (hN : 1 ≤ fl.size) (hD : fl.size + 2 ≤ D)
    (a b : Int) (ha1 : 1 ≤ a) (ha : a ≤ fl.size) (hb1 : 1 ≤ b) (hb : b ≤ fl.size) :
    (fl.project u v p div).div.Get a b = -0.05 * (1.0 / (fl.size : ℚ))
      * (u.Get (a + 1) b - u.Get (a - 1) b + v.Get a (b + 1) - v.Get a (b - 1)) := by
  obtain ⟨h1, h2⟩ := projectDiv_div_Get fl (1.0 / (fl.size : ℚ))
    { u := u, v := v, p := p, div := div } D hs hD a b ha1 ha hb1 hb
  rw [project_div_eq, (setBnd_spec fl 0 _ D h1 hN hD).2.1 a b ha1 ha hb1 hb, h2]

end Fluid

/-! ## Projection: what the last loop subtracts -/

namespace Fluid

/-- The `u` and `v` grids `project` returns, spelled out. -/
theorem project_uv_eq (fl : Fluid) (u v p div : Vektor) :
    (fl.project u v p div).u
        = fl.setBnd 1 (fl.projectSubtract (1.0 / (fl.size : ℚ))
            (repeatN 20 (fun g =>
              let g := fl.projectRelax g
              { g with p := fl.setBnd 0 g.p })
            { u := (fl.projectDiv (1.0 / (fl.size : ℚ))
                { u := u, v := v, p := p, div := div }).u,
              v := (fl.projectDiv (1.0 / (fl.size : ℚ))
                { u := u, v := v, p := p, div := div }).v,
              p := fl.setBnd 0 (fl.projectDiv (1.0 / (fl.size : ℚ))
                { u := u, v := v, p := p, div := div }).p,
              div := fl.setBnd 0 (fl.projectDiv (1.0 / (fl.size : ℚ))
                { u := u, v := v, p := p, div := div }).div })).u
      ∧ (fl.project u v p div).v
        = fl.setBnd 2 (fl.projectSubtract (1.0 / (fl.size : ℚ))
            (repeatN 20 (fun g =>
              let g := fl.projectRelax g
              { g with p := fl.setBnd 0 g.p })
            { u := (fl.projectDiv (1.0 / (fl.size : ℚ))
                { u := u, v := v, p := p, div := div }).u,
              v := (fl.projectDiv (1.0 / (fl.size : ℚ))
                { u := u, v := v, p := p, div := div }).v,
              p := fl.setBnd 0 (fl.projectDiv (1.0 / (fl.size : ℚ))
                { u := u, v := v, p := p, div := div }).p,
              div := fl.setBnd 0 (fl.projectDiv (1.0 / (fl.size : ℚ))
                { u := u, v := v, p := p, div := div }).div })).v :=
  ⟨rfl, rfl⟩

/-- The `p` grid `project` returns is the one its relaxation phase leaves. -/
theorem project_p_eq (fl : Fluid) (u v p div : Vektor) :
    (fl.project u v p div).p
      = (repeatN 20 (fun g =>
            let g := fl.projectRelax g
            { g with p := fl.setBnd 0 g.p })
          { u := (fl.projectDiv (1.0 / (fl.size : ℚ))
              { u := u, v := v, p := p, div := div }).u,
            v := (fl.projectDiv (1.0 / (fl.size : ℚ))
              { u := u, v := v, p := p, div := div }).v,
            p := fl.setBnd 0 (fl.projectDiv (1.0 / (fl.size : ℚ))
              { u := u, v := v, p := p, div := div }).p,
            div := fl.setBnd 0 (fl.projectDiv (1.0 / (fl.size : ℚ))
              { u := u, v := v, p := p, div := div }).div }).p := by
  unfold project
  simp only [(projectSubtract_frame fl _ _).1]

/-- The last loop of `project`: each interior cell of `u` and of `v` has the centred
difference of `p`, times `0.5 / h`, subtracted from it. -/
theorem projectSubtract_Get (fl : Fluid) (h : ℚ) (g : ProjGrids) (D : Int)
    (hu : g.u.Shape D) (hv : g.v.Shape D) (hD : fl.size + 2 ≤ D)
    (a b : Int) (ha1 : 1 ≤ a) (ha : a ≤ fl.size) (hb1 : 1 ≤ b) (hb : b ≤ fl.size) :
    (fl.projectSubtract h g).u.Shape D ∧ (fl.projectSubtract h g).v.Shape D
      ∧ (fl.projectSubtract h g).u.Get a b
          = g.u.Get a b - 0.5 * (g.p.Get (a + 1) b - g.p.Get (a - 1) b) / h
      ∧ (fl.projectSubtract h g).v.Get a b
          = g.v.Get a b - 0.5 * (g.p.Get a (b + 1) - g.p.Get a (b - 1)) / h := by
  unfold projectSubtract
  have key := gridLoop_phase
    (fun t : ProjGrids => t.p = g.p ∧ t.u.Shape D ∧ t.v.Shape D
      ∧ t.u.Get a b = g.u.Get a b ∧ t.v.Get a b = g.v.Get a b)
    (fun t : ProjGrids => t.p = g.p ∧ t.u.Shape D ∧ t.v.Shape D
      ∧ t.u.Get a b = g.u.Get a b - 0.5 * (g.p.Get (a + 1) b - g.p.Get (a - 1) b) / h
      ∧ t.v.Get a b = g.v.Get a b - 0.5 * (g.p.Get a (b + 1) - g.p.Get a (b - 1)) / h)
    fl.size a b
    (fun i j (g : ProjGrids) =>
      let result := g.u.Get i j - 0.5 * (g.p.Get (i + 1) j - g.p.Get (i - 1) j) / h
      let g := { g with u := g.u.Set i j result }
      let result := g.v.Get i j - 0.5 * (g.p.Get i (j + 1) - g.p.Get i (j - 1)) / h
      { g with v := g.v.Set i j result })
    g ha1 ha hb1 hb ⟨rfl, hu, hv, rfl, rfl⟩
    (fun i j t hi1 hi hj1 hj hne ht => by
      obtain ⟨hpp, su, sv, eu, ev⟩ := ht
      refine ⟨hpp, Vektor.Set_Shape _ _ _ _ _ su, Vektor.Set_Shape _ _ _ _ _ sv, ?_, ?_⟩
      · show (t.u.Set i j _).Get a b = _
        rw [Vektor.Get_Set_grid t.u D fl.size i j a b _ su hD (by omega) (by omega)
          (by omega) (by omega), if_neg (fun h => hne ⟨h.1.symm, h.2.symm⟩)]
        exact eu
      · show (t.v.Set i j _).Get a b = _
        rw [Vektor.Get_Set_grid t.v D fl.size i j a b _ sv hD (by omega) (by omega)
          (by omega) (by omega), if_neg (fun h => hne ⟨h.1.symm, h.2.symm⟩)]
        exact ev)
    (fun t ht => by
      obtain ⟨hpp, su, sv, eu, ev⟩ := ht
      refine ⟨hpp, Vektor.Set_Shape _ _ _ _ _ su, Vektor.Set_Shape _ _ _ _ _ sv, ?_, ?_⟩
      · show (t.u.Set a b _).Get a b = _
        rw [Vektor.Get_Set_grid t.u D fl.size a b a b _ su hD (by omega) (by omega)
          (by omega) (by omega), if_pos ⟨rfl, rfl⟩, eu, hpp]
      · show (t.v.Set a b _).Get a b = _
        rw [Vektor.Get_Set_grid t.v D fl.size a b a b _ sv hD (by omega) (by omega)
          (by omega) (by omega), if_pos ⟨rfl, rfl⟩, ev, hpp])
    (fun i j t hi1 hi hj1 hj hne ht => by
      obtain ⟨hpp, su, sv, eu, ev⟩ := ht
      refine ⟨hpp, Vektor.Set_Shape _ _ _ _ _ su, Vektor.Set_Shape _ _ _ _ _ sv, ?_, ?_⟩
      · show (t.u.Set i j _).Get a b = _
        rw [Vektor.Get_Set_grid t.u D fl.size i j a b _ su hD (by omega) (by omega)
          (by omega) (by omega), if_neg (fun h => hne ⟨h.1.symm, h.2.symm⟩)]
        exact eu
      · show (t.v.Set i j _).Get a b = _
        rw [Vektor.Get_Set_grid t.v D fl.size i j a b _ sv hD (by omega) (by omega)
          (by omega) (by omega), if_neg (fun h => hne ⟨h.1.symm, h.2.symm⟩)]
        exact ev)
  exact ⟨key.2.1, key.2.2.1, key.2.2.2.1, key.2.2.2.2⟩

/-- After `project`, each interior cell of `u` and of `v` holds the value passed in
minus the centred difference of the returned `p`, times `0.5 / h`; the grids returned
in `u` and `v` have the shape of those passed in and come out of `setBnd(1, ·)` and
`setBnd(2, ·)`. -/
theorem project_uv_Get (fl : Fluid) (u v p div : Vektor) (D : Int)
    (hu : u.Shape D) (hv : v.Shape D) (hN : 1 ≤ fl.size) (hD : fl.size + 2 ≤ D) :
    (∀ a b, 1 ≤ a → a ≤ fl.size → 1 ≤ b → b ≤ fl.size →
        (fl.project u v p div).u.Get a b
            = u.Get a b - 0.5 * ((fl.project u v p div).p.Get (a + 1) b
                - (fl.project u v p div).p.Get (a - 1) b) / (1.0 / (fl.size : ℚ))
          ∧ (fl.project u v p div).v.Get a b
            = v.Get a b - 0.5 * ((fl.project u v p div).p.Get a (b + 1)
                - (fl.project u v p div).p.Get a (b - 1)) / (1.0 / (fl.size : ℚ)))
      ∧ ∃ x y : Vektor, x.Shape D ∧ y.Shape D
          ∧ (fl.project u v p div).u = fl.setBnd 1 x
          ∧ (fl.project u v p div).v = fl.setBnd 2 y := by
  have e1 := (project_uv_eq fl u v p div).1
  have e2 := (project_uv_eq fl u v p div).2
  have e3 := project_p_eq fl u v p div
  have f1 := projectDiv_frame fl (1.0 / (fl.size : ℚ)) { u := u, v := v, p := p, div := div }
  generalize (fl.project u v p div).u = U at e1 ⊢
  generalize (fl.project u v p div).v = V at e2 ⊢
  generalize (fl.project u v p div).p = P at e3 ⊢
  have f2 := project_relaxation_frame fl 20
    { u := (fl.projectDiv (1.0 / (fl.size : ℚ)) { u := u, v := v, p := p, div := div }).u,
      v := (fl.projectDiv (1.0 / (fl.size : ℚ)) { u := u, v := v, p := p, div := div }).v,
      p := fl.setBnd 0 (fl.projectDiv (1.0 / (fl.size : ℚ))
        { u := u, v := v, p := p, div := div }).p,
      div := fl.setBnd 0 (fl.projectDiv (1.0 / (fl.size : ℚ))
        { u := u, v := v, p := p, div := div }).div }
  generalize repeatN 20 (fun g =>
      let g := fl.projectRelax g
      { g with p := fl.setBnd 0 g.p })
    { u := (fl.projectDiv (1.0 / (fl.size : ℚ)) { u := u, v := v, p := p, div := div }).u,
      v := (fl.projectDiv (1.0 / (fl.size : ℚ)) { u := u, v := v, p := p, div := div }).v,
      p := fl.setBnd 0 (fl.projectDiv (1.0 / (fl.size : ℚ))
        { u := u, v := v, p := p, div := div }).p,
      div := fl.setBnd 0 (fl.projectDiv (1.0 / (fl.size : ℚ))
        { u := u, v := v, p := p, div := div }).div } = G at e1 e2 e3 f2
  have gu : G.u = u := f2.1.trans f1.1
  have gv : G.v = v := f2.2.1.trans f1.2
  have su : G.u.Shape D := by rw [gu]; exact hu
  have sv : G.v.Shape D := by rw [gv]; exact hv
  refine ⟨?_, (fl.projectSubtract (1.0 / (fl.size : ℚ)) G).u,
    (fl.projectSubtract (1.0 / (fl.size : ℚ)) G).v, ?_, ?_, e1, e2⟩
  · intro a b ha1 ha hb1 hb
    obtain ⟨s1, s2, k1, k2⟩ := projectSubtract_Get fl (1.0 / (fl.size : ℚ)) G D su sv hD
      a b ha1 ha hb1 hb
    rw [e1, e2, e3, (setBnd_spec fl 1 _ D s1 hN hD).2.1 a b ha1 ha hb1 hb,
      (setBnd_spec fl 2 _ D s2 hN hD).2.1 a b ha1 ha hb1 hb, k1, k2, gu, gv]
    exact ⟨rfl, rfl⟩
  · exact (projectSubtract_Get fl (1.0 / (fl.size : ℚ)) G D su sv hD 1 1 (by omega)
      (by omega) (by omega) (by omega)).1
  · exact (projectSubtract_Get fl (1.0 / (fl.size : ℚ)) G D su sv hD 1 1 (by omega)
      (by omega) (by omega) (by omega)).2.1

end Fluid

/-! ## Rounding to binary64 -/

theorem pow2_eq (e : Int) : pow2 e = (2 : ℚ) ^ e := by
  unfold pow2
  split_ifs with h
  · have : e = ((e.toNat : Nat) : Int) := (Int.toNat_of_nonneg h).symm
    conv_rhs => rw [this]
    rw [zpow_natCast]
    push_cast
    rfl
  · have h2 : (0 : Int) ≤ -e := by omega
    have : e = -(((-e).toNat : Nat) : Int) := by rw [Int.toNat_of_nonneg h2]; ring
    conv_rhs => rw [this]
    rw [zpow_neg, zpow_natCast]
    push_cast
    rw [one_div]

theorem pow2_pos (e : Int) : 0 < pow2 e := by
  rw [pow2_eq]
  positivity

theorem log2Fuel_spec (fuel n : Nat) (hn : 0 < n) (hf : n ≤ fuel) :
    2 ^ log2Fuel fuel n ≤ n ∧ n < 2 ^ (log2Fuel fuel n + 1) := by
  induction fuel generalizing n with
  | zero => omega
  | succ fuel ih =>
    unfold log2Fuel
    split_ifs with h
    · simp
      omega
    · have h1 := ih (n / 2) (by omega) (by omega)
      simp only [pow_succ] at h1 ⊢
      omega

theorem natLog2_spec (n : Nat) (hn : 0 < n) :
    2 ^ natLog2 n ≤ n ∧ n < 2 ^ (natLog2 n + 1) :=
  log2Fuel_spec n n hn (le_refl n)

theorem ilog2_aux (q n d A B : ℚ) (hq : 0 < q) (hmul : q * d = n)
    (A1 : A ≤ n) (A2 : n < A * 2) (B1 : B ≤ d) (B2 : d < B * 2) (hB : 0 < B) :
    A / B * 2⁻¹ ≤ q ∧ q < A / B * 2 := by
  constructor
  · rw [div_mul_eq_mul_div, div_le_iff₀ hB]
    have : A * 2⁻¹ * 2 = A := by field_simp
    nlinarith
  · rw [div_mul_eq_mul_div, lt_div_iff₀ hB]
    nlinarith

/-- The exponent `ilog2 q` brackets a positive `q` between consecutive powers of two. -/
theorem ilog2_spec (q : ℚ) (hq : 0 < q) :
    (2 : ℚ) ^ ilog2 q ≤ q ∧ q < (2 : ℚ) ^ (ilog2 q + 1) := by
  have hnum : 0 < q.num := Rat.num_pos.mpr hq
  have hn : 0 < q.num.natAbs := Int.natAbs_pos.mpr (ne_of_gt hnum)
  obtain ⟨a1, a2⟩ := natLog2_spec q.num.natAbs hn
  obtain ⟨b1, b2⟩ := natLog2_spec q.den q.den_pos
  have hnn : ((q.num.natAbs : Nat) : ℚ) = (q.num : ℚ) := by
    have h1 : ((q.num.natAbs : Nat) : Int) = q.num := Int.natAbs_of_nonneg hnum.le
    calc ((q.num.natAbs : Nat) : ℚ) = (((q.num.natAbs : Nat) : Int) : ℚ) :=
          (Int.cast_natCast _).symm
      _ = (q.num : ℚ) := by rw [h1]
  have hd : (0 : ℚ) < (q.den : ℚ) := by exact_mod_cast q.den_pos
  have A1 : (2 : ℚ) ^ (natLog2 q.num.natAbs) ≤ (q.num.natAbs : ℚ) := by exact_mod_cast a1
  have A2 : (q.num.natAbs : ℚ) < (2 : ℚ) ^ (natLog2 q.num.natAbs) * 2 := by
    rw [← pow_succ]
    exact_mod_cast a2
  have B1 : (2 : ℚ) ^ (natLog2 q.den) ≤ (q.den : ℚ) := by exact_mod_cast b1
  have B2 : (q.den : ℚ) < (2 : ℚ) ^ (natLog2 q.den) * 2 := by
    rw [← pow_succ]
    exact_mod_cast b2
  have hB : (0 : ℚ) < (2 : ℚ) ^ (natLog2 q.den) := by positivity
  have e0 : (2 : ℚ) ^ ((natLog2 q.num.natAbs : Int) - (natLog2 q.den : Int))
      = (2 : ℚ) ^ (natLog2 q.num.natAbs) / (2 : ℚ) ^ (natLog2 q.den) := by
    rw [zpow_sub₀ (two_ne_zero), zpow_natCast, zpow_natCast]
  have hmul : q * (q.den : ℚ) = (q.num.natAbs : ℚ) := by
    rw [hnn]
    exact Rat.mul_den_eq_num q
  obtain ⟨k1, k2⟩ := ilog2_aux q _ _ _ _ hq hmul A1 A2 B1 B2 hB
  unfold ilog2
  simp only [pow2_eq]
  split_ifs with h
  · refine ⟨h, ?_⟩
    rw [zpow_add_one₀ two_ne_zero, e0]
    exact k2
  · push_neg at h
    constructor
    · rw [zpow_sub_one₀ two_ne_zero, e0]
      exact k1
    · have : (natLog2 q.num.natAbs : Int) - (natLog2 q.den : Int) - 1 + 1
          = (natLog2 q.num.natAbs : Int) - (natLog2 q.den : Int) := by ring
      rw [this]
      exact h

/-- The bracketing exponent is unique. -/
theorem ilog2_unique (q : ℚ) (hq : 0 < q) (e : Int) (h1 : (2 : ℚ) ^ e ≤ q)
    (h2 : q < (2 : ℚ) ^ (e + 1)) : ilog2 q = e := by
  obtain ⟨s1, s2⟩ := ilog2_spec q hq
  have c1 : (2 : ℚ) ^ e < (2 : ℚ) ^ (ilog2 q + 1) := lt_of_le_of_lt h1 s2
  have c2 : (2 : ℚ) ^ ilog2 q < (2 : ℚ) ^ (e + 1) := lt_of_le_of_lt s1 h2
  have d1 := (zpow_lt_zpow_iff_right₀ (by norm_num : (1 : ℚ) < 2)).mp c1
  have d2 := (zpow_lt_zpow_iff_right₀ (by norm_num : (1 : ℚ) < 2)).mp c2
  omega

theorem roundHalfEven_mem (r : ℚ) :
    roundHalfEven r = Int.floor r ∨ roundHalfEven r = Int.floor r + 1 := by
  unfold roundHalfEven
  simp only []
  split_ifs <;> simp

theorem roundHalfEven_int (z : Int) : roundHalfEven (z : ℚ) = z := by
  unfold roundHalfEven
  simp

theorem roundHalfEven_mono (r1 r2 : ℚ) (h : r1 ≤ r2) :
    roundHalfEven r1 ≤ roundHalfEven r2 := by
  have hf : Int.floor r1 ≤ Int.floor r2 := Int.floor_mono h
  rcases lt_or_eq_of_le hf with hlt | heq
  · rcases roundHalfEven_mem r1 with a | a <;> rcases roundHalfEven_mem r2 with b | b <;>
      omega
  · unfold roundHalfEven
    simp only []
    rw [← heq]
    split_ifs <;> first | omega | (exfalso; linarith)

theorem roundHalfEven_le (r : ℚ) (z : Int) (h : r ≤ (z : ℚ)) : roundHalfEven r ≤ z := by
  have := roundHalfEven_mono r z h
  rwa [roundHalfEven_int] at this

theorem le_roundHalfEven (r : ℚ) (z : Int) (h : (z : ℚ) ≤ r) : z ≤ roundHalfEven r := by
  have := roundHalfEven_mono z r h
  rwa [roundHalfEven_int] at this

theorem rnePos_eq (q : ℚ) :
    rnePos q = (roundHalfEven (q / (2 : ℚ) ^ (max (ilog2 q) (-1022) - 52)) : ℚ)
      * (2 : ℚ) ^ (max (ilog2 q) (-1022) - 52) := by
  unfold rnePos
  simp only [pow2_eq]

theorem two_zpow_pos (e : Int) : (0 : ℚ) < (2 : ℚ) ^ e := by positivity

theorem rnePos_nonneg (q : ℚ) (hq : 0 < q) : 0 ≤ rnePos q := by
  rw [rnePos_eq]
  have hu := two_zpow_pos (max (ilog2 q) (-1022) - 52)
  have : (0 : Int) ≤ roundHalfEven (q / (2 : ℚ) ^ (max (ilog2 q) (-1022) - 52)) :=
    le_roundHalfEven _ 0 (by push_cast; positivity)
  have h2 : (0 : ℚ) ≤ (roundHalfEven (q / (2 : ℚ) ^ (max (ilog2 q) (-1022) - 52)) : ℚ) := by
    exact_mod_cast this
  positivity

/-- The rounded value does not pass the next power of two. -/
theorem rnePos_le_pow (q : ℚ) (hq : 0 < q) :
    rnePos q ≤ (2 : ℚ) ^ (max (ilog2 q) (-1022) + 1) := by
  rw [rnePos_eq]
  have hu := two_zpow_pos (max (ilog2 q) (-1022) - 52)
  obtain ⟨_, s2⟩ := ilog2_spec q hq
  have hle : (2 : ℚ) ^ (ilog2 q + 1) ≤ (2 : ℚ) ^ (max (ilog2 q) (-1022) + 1) :=
    zpow_le_zpow_right₀ (by norm_num) (by omega)
  have esplit : (2 : ℚ) ^ (max (ilog2 q) (-1022) + 1)
      = ((2 ^ 53 : Int) : ℚ) * (2 : ℚ) ^ (max (ilog2 q) (-1022) - 52) := by
    have : max (ilog2 q) (-1022) + 1 = 53 + (max (ilog2 q) (-1022) - 52) := by ring
    rw [this, zpow_add₀ two_ne_zero]
    norm_num
  have hn : q / (2 : ℚ) ^ (max (ilog2 q) (-1022) - 52) ≤ ((2 ^ 53 : Int) : ℚ) := by
    rw [div_le_iff₀ hu, ← esplit]
    linarith
  have hm := roundHalfEven_le _ _ hn
  have hm2 : (roundHalfEven (q / (2 : ℚ) ^ (max (ilog2 q) (-1022) - 52)) : ℚ)
      ≤ ((2 ^ 53 : Int) : ℚ) := by exact_mod_cast hm
  rw [esplit]
  exact mul_le_mul_of_nonneg_right hm2 hu.le

/-- In the normal range the rounded value is not below the power of two under `q`. -/
theorem pow_le_rnePos (q : ℚ) (hq : 0 < q) (hn : -1022 ≤ ilog2 q) :
    (2 : ℚ) ^ ilog2 q ≤ rnePos q := by
  rw [rnePos_eq]
  have hmax : max (ilog2 q) (-1022) = ilog2 q := max_eq_left hn
  rw [hmax]
  have hu := two_zpow_pos (ilog2 q - 52)
  obtain ⟨s1, _⟩ := ilog2_spec q hq
  have esplit : (2 : ℚ) ^ ilog2 q = ((2 ^ 52 : Int) : ℚ) * (2 : ℚ) ^ (ilog2 q - 52) := by
    have : ilog2 q = 52 + (ilog2 q - 52) := by ring
    conv_lhs => rw [this, zpow_add₀ two_ne_zero]
    norm_num
  have hn2 : ((2 ^ 52 : Int) : ℚ) ≤ q / (2 : ℚ) ^ (ilog2 q - 52) := by
    rw [le_div_iff₀ hu, ← esplit]
    exact s1
  have hm := le_roundHalfEven _ _ hn2
  have hm2 : ((2 ^ 52 : Int) : ℚ) ≤ (roundHalfEven (q / (2 : ℚ) ^ (ilog2 q - 52)) : ℚ) := by
    exact_mod_cast hm
  conv_lhs => rw [esplit]
  exact mul_le_mul_of_nonneg_right hm2 hu.le

theorem ilog2_mono (q1 q2 : ℚ) (h1 : 0 < q1) (h : q1 ≤ q2) : ilog2 q1 ≤ ilog2 q2 := by
  obtain ⟨a1, _⟩ := ilog2_spec q1 h1
  obtain ⟨_, b2⟩ := ilog2_spec q2 (lt_of_lt_of_le h1 h)
  have c : (2 : ℚ) ^ ilog2 q1 < (2 : ℚ) ^ (ilog2 q2 + 1) := by linarith
  have d := (zpow_lt_zpow_iff_right₀ (by norm_num : (1 : ℚ) < 2)).mp c
  omega

/-- Rounding of positive rationals is monotone. -/
theorem rnePos_mono (q1 q2 : ℚ) (h1 : 0 < q1) (h : q1 ≤ q2) : rnePos q1 ≤ rnePos q2 := by
  have h2 : 0 < q2 := lt_of_lt_of_le h1 h
  have he := ilog2_mono q1 q2 h1 h
  by_cases hx : max (ilog2 q1) (-1022) = max (ilog2 q2) (-1022)
  · rw [rnePos_eq q1, rnePos_eq q2, hx]
    have hu := two_zpow_pos (max (ilog2 q2) (-1022) - 52)
    have hdiv : q1 / (2 : ℚ) ^ (max (ilog2 q2) (-1022) - 52)
        ≤ q2 / (2 : ℚ) ^ (max (ilog2 q2) (-1022) - 52) :=
      div_le_div_of_nonneg_right h hu.le
    have hm := roundHalfEven_mono _ _ hdiv
    have hm2 : (roundHalfEven (q1 / (2 : ℚ) ^ (max (ilog2 q2) (-1022) - 52)) : ℚ)
        ≤ (roundHalfEven (q2 / (2 : ℚ) ^ (max (ilog2 q2) (-1022) - 52)) : ℚ) := by
      exact_mod_cast hm
    exact mul_le_mul_of_nonneg_right hm2 hu.le
  · have hlt : max (ilog2 q1) (-1022) < max (ilog2 q2) (-1022) := by
      rcases lt_or_eq_of_le (max_le_max he (le_refl (-1022))) with a | a
      · exact a
      · exact absurd a hx
    have hn2 : -1022 ≤ ilog2 q2 := by
      by_contra hc
      have : max (ilog2 q2) (-1022) = -1022 := max_eq_right (by omega)
      have := le_max_right (ilog2 q1) (-1022)
      omega
    have hmax2 : max (ilog2 q2) (-1022) = ilog2 q2 := max_eq_left hn2
    have a := rnePos_le_pow q1 h1
    have b := pow_le_rnePos q2 h2 hn2
    have c : (2 : ℚ) ^ (max (ilog2 q1) (-1022) + 1) ≤ (2 : ℚ) ^ ilog2 q2 :=
      zpow_le_zpow_right₀ (by norm_num) (by omega)
    linarith

/-- A positive representable rational is its own rounding. -/
theorem rnePos_of_rep (q : ℚ) (hq : 0 < q) (hr : Rep q) : rnePos q = q := by
  obtain ⟨k, j, hk, hj, rfl⟩ := hr
  have hj2 := two_zpow_pos j
  have hkpos : (0 : ℚ) < (k : ℚ) := by
    by_contra hc
    push_neg at hc
    have : (k : ℚ) * (2 : ℚ) ^ j ≤ 0 := mul_nonpos_of_nonpos_of_nonneg hc hj2.le
    linarith
  have hk0 : 0 < k := by exact_mod_cast hkpos
  have hk53 : k < 2 ^ 53 := lt_of_le_of_lt (le_abs_self k) hk
  obtain ⟨s1, _⟩ := ilog2_spec _ hq
  -- the exponent of the spacing is at most `j`
  have hej : ilog2 ((k : ℚ) * (2 : ℚ) ^ j) < 53 + j := by
    have c : (2 : ℚ) ^ ilog2 ((k : ℚ) * (2 : ℚ) ^ j) < (2 : ℚ) ^ (53 + j) := by
      have hk53q : (k : ℚ) < (2 : ℚ) ^ (53 : Int) := by
        have : ((k : Int) : ℚ) < ((2 ^ 53 : Int) : ℚ) := by exact_mod_cast hk53
        calc (k : ℚ) < ((2 ^ 53 : Int) : ℚ) := this
          _ = (2 : ℚ) ^ (53 : Int) := by norm_num
      calc (2 : ℚ) ^ ilog2 ((k : ℚ) * (2 : ℚ) ^ j) ≤ (k : ℚ) * (2 : ℚ) ^ j := s1
        _ < (2 : ℚ) ^ (53 : Int) * (2 : ℚ) ^ j := mul_lt_mul_of_pos_right hk53q hj2
        _ = (2 : ℚ) ^ (53 + j) := (zpow_add₀ two_ne_zero 53 j).symm
    exact (zpow_lt_zpow_iff_right₀ (by norm_num : (1 : ℚ) < 2)).mp c
  have hge : 0 ≤ j - (max (ilog2 ((k : ℚ) * (2 : ℚ) ^ j)) (-1022) - 52) := by
    rcases max_cases (ilog2 ((k : ℚ) * (2 : ℚ) ^ j)) (-1022) with ⟨a, _⟩ | ⟨a, _⟩ <;>
      rw [a] <;> omega
  rw [rnePos_eq]
  generalize max (ilog2 ((k : ℚ) * (2 : ℚ) ^ j)) (-1022) - 52 = x at hge ⊢
  have hu := two_zpow_pos x
  have hdiv : (k : ℚ) * (2 : ℚ) ^ j / (2 : ℚ) ^ x
      = ((k * 2 ^ (j - x).toNat : Int) : ℚ) := by
    rw [mul_div_assoc, ← zpow_sub₀ two_ne_zero]
    have : j - x = (((j - x).toNat : Nat) : Int) := (Int.toNat_of_nonneg hge).symm
    conv_lhs => rw [this, zpow_natCast]
    push_cast
    rfl
  rw [hdiv, roundHalfEven_int, ← hdiv, div_mul_cancel₀ _ (ne_of_gt hu)]

/-- The rounding of a positive rational is representable. -/
theorem rep_rnePos (q : ℚ) (hq : 0 < q) : Rep (rnePos q) := by
  have hle := rnePos_le_pow q hq
  have hnn := rnePos_nonneg q hq
  rw [rnePos_eq] at hle hnn ⊢
  have hx : -1074 ≤ max (ilog2 q) (-1022) - 52 := by
    have := le_max_right (ilog2 q) (-1022)
    omega
  generalize hm : roundHalfEven (q / (2 : ℚ) ^ (max (ilog2 q) (-1022) - 52)) = m at hle hnn ⊢
  generalize max (ilog2 q) (-1022) = x at hx hle hnn ⊢
  have hu := two_zpow_pos (x - 52)
  have hm0 : (0 : ℚ) ≤ (m : ℚ) := by
    by_contra hc
    push_neg at hc
    have : (m : ℚ) * (2 : ℚ) ^ (x - 52) < 0 := mul_neg_of_neg_of_pos hc hu
    linarith
  have hm0i : 0 ≤ m := by exact_mod_cast hm0
  have esplit : (2 : ℚ) ^ (x + 1) = ((2 ^ 53 : Int) : ℚ) * (2 : ℚ) ^ (x - 52) := by
    have : x + 1 = 53 + (x - 52) := by ring
    rw [this, zpow_add₀ two_ne_zero]
    norm_num
  have hm53 : m ≤ 2 ^ 53 := by
    rw [esplit] at hle
    have := le_of_mul_le_mul_right hle hu
    exact_mod_cast this
  rcases lt_or_eq_of_le hm53 with h | h
  · exact ⟨m, x - 52, by rw [abs_of_nonneg hm0i]; exact h, hx, rfl⟩
  · refine ⟨1, x + 1, by norm_num, by omega, ?_⟩
    rw [h, esplit]
    norm_num

/-- Scaling by a power of two commutes with rounding while the value stays in the range
of normal numbers. -/
theorem rnePos_scale (q : ℚ) (hq : 0 < q) (t : Int) (h1 : -1022 ≤ ilog2 q)
    (h2 : -1022 ≤ ilog2 q + t) : rnePos ((2 : ℚ) ^ t * q) = (2 : ℚ) ^ t * rnePos q := by
  have ht := two_zpow_pos t
  obtain ⟨s1, s2⟩ := ilog2_spec q hq
  have hq2 : 0 < (2 : ℚ) ^ t * q := mul_pos ht hq
  have he : ilog2 ((2 : ℚ) ^ t * q) = ilog2 q + t := by
    apply ilog2_unique _ hq2
    · rw [add_comm, zpow_add₀ two_ne_zero]
      exact mul_le_mul_of_nonneg_left s1 ht.le
    · have : ilog2 q + t + 1 = t + (ilog2 q + 1) := by ring
      rw [this, zpow_add₀ two_ne_zero]
      exact mul_lt_mul_of_pos_left s2 ht
  rw [rnePos_eq, rnePos_eq q, he, max_eq_left h1, max_eq_left h2]
  have hu : (2 : ℚ) ^ (ilog2 q + t - 52) = (2 : ℚ) ^ t * (2 : ℚ) ^ (ilog2 q - 52) := by
    have : ilog2 q + t - 52 = t + (ilog2 q - 52) := by ring
    rw [this, zpow_add₀ two_ne_zero]
  have hdiv : (2 : ℚ) ^ t * q / (2 : ℚ) ^ (ilog2 q + t - 52)
      = q / (2 : ℚ) ^ (ilog2 q - 52) := by
    rw [hu, mul_div_mul_left _ _ (ne_of_gt ht)]
  rw [hdiv, hu]
  ring

/-! ### Rounding of any rational -/

theorem rne_zero : rne 0 = 0 := by
  unfold rne
  simp

theorem rne_pos (q : ℚ) (hq : 0 < q) : rne q = rnePos q := by
  unfold rne
  rw [if_pos hq]

theorem rne_neg_arg (q : ℚ) (hq : q < 0) : rne q = -rnePos (-q) := by
  unfold rne
  rw [if_neg (by linarith), if_pos hq]

/-- Rounding is odd. -/
theorem rne_neg (q : ℚ) : rne (-q) = -rne q := by
  rcases lt_trichotomy q 0 with h | h | h
  · rw [rne_neg_arg q h, rne_pos (-q) (by linarith), neg_neg]
  · rw [h, neg_zero, rne_zero, neg_zero]
  · rw [rne_pos q h, rne_neg_arg (-q) (by linarith), neg_neg]

theorem rne_nonneg (q : ℚ) (hq : 0 ≤ q) : 0 ≤ rne q := by
  rcases lt_or_eq_of_le hq with h | h
  · rw [rne_pos q h]
    exact rnePos_nonneg q h
  · rw [← h, rne_zero]

theorem rne_nonpos (q : ℚ) (hq : q ≤ 0) : rne q ≤ 0 := by
  have := rne_nonneg (-q) (by linarith)
  rw [rne_neg] at this
  linarith

/-- Rounding is monotone. -/
theorem rne_mono (q1 q2 : ℚ) (h : q1 ≤ q2) : rne q1 ≤ rne q2 := by
  rcases lt_trichotomy q1 0 with h1 | h1 | h1
  · rcases lt_or_le q2 0 with h2 | h2
    · rw [rne_neg_arg q1 h1, rne_neg_arg q2 h2]
      have := rnePos_mono (-q2) (-q1) (by linarith) (by linarith)
      linarith
    · have a := rne_nonpos q1 h1.le
      have b := rne_nonneg q2 h2
      linarith
  · rw [h1, rne_zero]
    exact rne_nonneg q2 (by linarith)
  · rw [rne_pos q1 h1, rne_pos q2 (by linarith)]
    exact rnePos_mono q1 q2 h1 h

theorem rep_neg (q : ℚ) (h : Rep q) : Rep (-q) := by
  obtain ⟨k, j, hk, hj, rfl⟩ := h
  exact ⟨-k, j, by rwa [abs_neg], hj, by push_cast; ring⟩

theorem rep_zero : Rep 0 := ⟨0, 0, by norm_num, by norm_num, by norm_num⟩

/-- A representable rational is its own rounding. -/
theorem rne_of_rep (q : ℚ) (hr : Rep q) : rne q = q := by
  rcases lt_trichotomy q 0 with h | h | h
  · rw [rne_neg_arg q h, rnePos_of_rep (-q) (by linarith) (rep_neg q hr), neg_neg]
  · rw [h, rne_zero]
  · rw [rne_pos q h, rnePos_of_rep q h hr]

/-- Every rounded value is representable. -/
theorem rep_rne (q : ℚ) : Rep (rne q) := by
  rcases lt_trichotomy q 0 with h | h | h
  · rw [rne_neg_arg q h]
    exact rep_neg _ (rep_rnePos (-q) (by linarith))
  · rw [h, rne_zero]
    exact rep_zero
  · rw [rne_pos q h]
    exact rep_rnePos q h

theorem rne_idem (q : ℚ) : rne (rne q) = rne q :=
  rne_of_rep _ (rep_rne q)

/-- A representable bound on `q` bounds the rounding of `q`. -/
theorem rne_le_of_le (q B : ℚ) (hB : Rep B) (h : q ≤ B) : rne q ≤ B := by
  have := rne_mono q B h
  rwa [rne_of_rep B hB] at this

theorem le_rne_of_le (q B : ℚ) (hB : Rep B) (h : B ≤ q) : B ≤ rne q := by
  have := rne_mono B q h
  rwa [rne_of_rep B hB] at this

theorem abs_rne_le (q B : ℚ) (hB : Rep B) (h : |q| ≤ B) : |rne q| ≤ B := by
  rw [abs_le] at h ⊢
  exact ⟨by
    have := le_rne_of_le q (-B) (rep_neg B hB) h.1
    exact this, rne_le_of_le q B hB h.2⟩

/-! ## Representable rationals -/

theorem rep_int_mul_pow (m k : Int) (hm : |m| < 2 ^ 53) (hk : -1074 ≤ k) :
    Rep ((m : ℚ) * (2 : ℚ) ^ k) :=
  ⟨m, k, hm, hk, rfl⟩

theorem rep_pow (k : Int) (hk : -1074 ≤ k) : Rep ((2 : ℚ) ^ k) := by
  have := rep_int_mul_pow 1 k (by norm_num) hk
  simpa using this

theorem rep_int (z : Int) (hz : |z| < 2 ^ 53) : Rep (z : ℚ) := by
  have := rep_int_mul_pow z 0 hz (by norm_num)
  simpa using this

theorem rep_one : Rep 1 := by
  have := rep_int 1 (by norm_num)
  simpa using this

/-- Multiplying a representable rational by a power of two with a nonnegative exponent
keeps it representable. -/
theorem rep_mul_pow (q : ℚ) (t : Int) (ht : 0 ≤ t) (h : Rep q) : Rep (q * (2 : ℚ) ^ t) := by
  obtain ⟨k, j, hk, hj, rfl⟩ := h
  refine ⟨k, j + t, hk, by omega, ?_⟩
  rw [zpow_add₀ two_ne_zero]
  ring

/-- A normal number times a power of two that stays normal is representable. -/
theorem rep_mul_pow_normal (q : ℚ) (t : Int) (hq : Rep q) (h1 : (2 : ℚ) ^ (-1022 : Int) ≤ q)
    (h2 : (2 : ℚ) ^ (-1022 : Int) ≤ q * (2 : ℚ) ^ t) : Rep (q * (2 : ℚ) ^ t) := by
  have hpos : 0 < q := lt_of_lt_of_le (two_zpow_pos _) h1
  have e1 : -1022 ≤ ilog2 q := by
    obtain ⟨_, s2⟩ := ilog2_spec q hpos
    have c : (2 : ℚ) ^ (-1022 : Int) < (2 : ℚ) ^ (ilog2 q + 1) := lt_of_le_of_lt h1 s2
    have := (zpow_lt_zpow_iff_right₀ (by norm_num : (1 : ℚ) < 2)).mp c
    omega
  have e2 : -1022 ≤ ilog2 q + t := by
    obtain ⟨_, s2⟩ := ilog2_spec q hpos
    have c : (2 : ℚ) ^ (-1022 : Int) < (2 : ℚ) ^ (ilog2 q + 1 + t) := by
      rw [zpow_add₀ two_ne_zero]
      calc (2 : ℚ) ^ (-1022 : Int) ≤ q * (2 : ℚ) ^ t := h2
        _ < (2 : ℚ) ^ (ilog2 q + 1) * (2 : ℚ) ^ t :=
          mul_lt_mul_of_pos_right s2 (two_zpow_pos t)
    have := (zpow_lt_zpow_iff_right₀ (by norm_num : (1 : ℚ) < 2)).mp c
    omega
  have hs := rnePos_scale q hpos t e1 e2
  rw [rnePos_of_rep q hpos hq] at hs
  have : q * (2 : ℚ) ^ t = rnePos ((2 : ℚ) ^ t * q) := by rw [hs]; ring
  rw [this]
  exact rep_rnePos _ (mul_pos (two_zpow_pos t) hpos)

/-- Scaling by a power of two commutes with rounding in the normal range. -/
theorem rne_scale (q : ℚ) (t : Int) (h1 : (2 : ℚ) ^ (-1022 : Int) ≤ q)
    (h2 : (2 : ℚ) ^ (-1022 : Int) ≤ (2 : ℚ) ^ t * q) :
    rne ((2 : ℚ) ^ t * q) = (2 : ℚ) ^ t * rne q := by
  have hpos : 0 < q := lt_of_lt_of_le (two_zpow_pos _) h1
  have e1 : -1022 ≤ ilog2 q := by
    obtain ⟨_, s2⟩ := ilog2_spec q hpos
    have c : (2 : ℚ) ^ (-1022 : Int) < (2 : ℚ) ^ (ilog2 q + 1) := lt_of_le_of_lt h1 s2
    have := (zpow_lt_zpow_iff_right₀ (by norm_num : (1 : ℚ) < 2)).mp c
    omega
  have e2 : -1022 ≤ ilog2 q + t := by
    obtain ⟨_, s2⟩ := ilog2_spec q hpos
    have c : (2 : ℚ) ^ (-1022 : Int) < (2 : ℚ) ^ (t + (ilog2 q + 1)) := by
      rw [zpow_add₀ two_ne_zero]
      calc (2 : ℚ) ^ (-1022 : Int) ≤ (2 : ℚ) ^ t * q := h2
        _ < (2 : ℚ) ^ t * (2 : ℚ) ^ (ilog2 q + 1) :=
          mul_lt_mul_of_pos_left s2 (two_zpow_pos t)
    have := (zpow_lt_zpow_iff_right₀ (by norm_num : (1 : ℚ) < 2)).mp c
    omega
  rw [rne_pos _ (mul_pos (two_zpow_pos t) hpos), rne_pos q hpos]
  exact rnePos_scale q hpos t e1 e2

/-! ## Arithmetic of finite float64 values -/

namespace F64

theorem zero_def : (0 : F64) = fin 0 := by decide!
theorem one_def : (1 : F64) = fin 1 := by decide!
theorem four_def : (4 : F64) = fin 4 := by decide!
theorem half_def : (0.5 : F64) = fin (1 / 2) := by decide!
theorem one_point_def : (1.0 : F64) = fin 1 := by decide!

theorem add_fin (a b : ℚ) : (fin a + fin b : F64) = round (a + b) := rfl
theorem mul_fin (a b : ℚ) : (fin a * fin b : F64) = round (a * b) := rfl
theorem neg_fin (a : ℚ) : (-(fin a) : F64) = fin (-a) := rfl
theorem sub_fin (a b : ℚ) : (fin a - fin b : F64) = round (a - b) := by
  show add (fin a) (neg (fin b)) = round (a - b)
  rw [sub_eq_add_neg]
  rfl
theorem div_fin (a b : ℚ) (hb : b ≠ 0) : (fin a / fin b : F64) = round (a / b) := by
  show div (fin a) (fin b) = round (a / b)
  simp only [div]
  rw [if_neg hb]

/-- Below the overflow threshold, `round` is the rounding to nearest. -/
theorem round_eq (q : ℚ) (h : |rne q| < (2 : ℚ) ^ (1024 : Int)) : round q = fin (rne q) := by
  unfold round
  simp only [pow2_eq]
  rw [if_neg (not_le.mpr h)]

/-- A representable bound below the overflow threshold on `q` makes `round q` finite and
bounds it. -/
theorem round_of_le (q B : ℚ) (hB : Rep B) (hlt : B < (2 : ℚ) ^ (1024 : Int))
    (h : |q| ≤ B) : round q = fin (rne q) ∧ |rne q| ≤ B := by
  have hb := abs_rne_le q B hB h
  exact ⟨round_eq q (lt_of_le_of_lt hb hlt), hb⟩

theorem round_zero : round 0 = fin 0 := by decide!

end F64

/-! ## The float64 relaxation step of `diffuse` -/

theorem two_zpow_lt_1024 (k : Int) (hk : k ≤ 1023) : (2 : ℚ) ^ k < (2 : ℚ) ^ (1024 : Int) :=
  zpow_lt_zpow_right₀ (by norm_num) (by omega)

/-- The sum of four finite values bounded by `2^k` is finite and bounded by `2^(k+2)`. -/
theorem F64.sum4_fin (q1 q2 q3 q4 : ℚ) (k : Int) (hk : -1074 ≤ k ∧ k ≤ 1021)
    (h1 : |q1| ≤ (2 : ℚ) ^ k) (h2 : |q2| ≤ (2 : ℚ) ^ k) (h3 : |q3| ≤ (2 : ℚ) ^ k)
    (h4 : |q4| ≤ (2 : ℚ) ^ k) :
    (F64.fin q1 + F64.fin q2 + F64.fin q3 + F64.fin q4 : F64) = F64.fin (sum4Q q1 q2 q3 q4)
      ∧ |sum4Q q1 q2 q3 q4| ≤ (2 : ℚ) ^ (k + 2) := by
  have hM := two_zpow_pos k
  have e1 : (2 : ℚ) ^ (k + 1) = 2 * (2 : ℚ) ^ k := by
    rw [zpow_add_one₀ two_ne_zero]; ring
  have e2 : (2 : ℚ) ^ (k + 2) = 4 * (2 : ℚ) ^ k := by
    rw [zpow_add₀ two_ne_zero]; norm_num; ring
  have t1024 : (2 : ℚ) ^ (1024 : Int) = 8 * (2 : ℚ) ^ (1021 : Int) := by norm_num
  have hk1021 : (2 : ℚ) ^ k ≤ (2 : ℚ) ^ (1021 : Int) :=
    zpow_le_zpow_right₀ (by norm_num) hk.2
  have p1021 := two_zpow_pos 1021
  -- first sum
  obtain ⟨a1, b1⟩ := F64.round_of_le (q1 + q2) ((2 : ℚ) ^ (k + 1)) (rep_pow _ (by omega))
    (two_zpow_lt_1024 _ (by omega)) (by
      rw [e1]
      calc |q1 + q2| ≤ |q1| + |q2| := abs_add _ _
        _ ≤ 2 * (2 : ℚ) ^ k := by linarith)
  -- second sum
  have r3 : Rep (3 * (2 : ℚ) ^ k) := by
    have := rep_int_mul_pow 3 k (by norm_num) (by omega)
    simpa using this
  obtain ⟨a2, b2⟩ := F64.round_of_le (rne (q1 + q2) + q3) (3 * (2 : ℚ) ^ k) r3
    (by rw [t1024]; linarith) (by
      calc |rne (q1 + q2) + q3| ≤ |rne (q1 + q2)| + |q3| := abs_add _ _
        _ ≤ 3 * (2 : ℚ) ^ k := by rw [e1] at b1; linarith)
  -- third sum
  obtain ⟨a3, b3⟩ := F64.round_of_le (rne (rne (q1 + q2) + q3) + q4) ((2 : ℚ) ^ (k + 2))
    (rep_pow _ (by omega)) (two_zpow_lt_1024 _ (by omega)) (by
      rw [e2]
      calc |rne (rne (q1 + q2) + q3) + q4| ≤ |rne (rne (q1 + q2) + q3)| + |q4| := abs_add _ _
        _ ≤ 4 * (2 : ℚ) ^ k := by linarith)
  refine ⟨?_, b3⟩
  rw [F64.add_fin, a1, F64.add_fin, a2, F64.add_fin, a3]
  rfl

/-- The float64 value of `1 + 4*a` for a finite representable `a ≥ 0` that keeps it
below the overflow threshold. -/
theorem F64.denom_fin (aq : ℚ) (ha0 : 0 ≤ aq) (har : Rep aq)
    (hov : 1 + 4 * aq ≤ (2 : ℚ) ^ (1023 : Int)) :
    (1 + 4 * F64.fin aq : F64) = F64.fin (denomQ aq)
      ∧ denomQ aq = rne (1 + 4 * aq) ∧ 1 ≤ denomQ aq
      ∧ denomQ aq ≤ (2 : ℚ) ^ (1023 : Int) := by
  have r4 : Rep (4 * aq) := by
    have := rep_mul_pow aq 2 (by norm_num) har
    have e : aq * (2 : ℚ) ^ (2 : Int) = 4 * aq := by norm_num; ring
    rwa [e] at this
  have e4 : rne (4 * aq) = 4 * aq := rne_of_rep _ r4
  have r1023 : Rep ((2 : ℚ) ^ (1023 : Int)) := rep_pow _ (by norm_num)
  have l1024 := two_zpow_lt_1024 1023 (le_refl _)
  obtain ⟨a1, _⟩ := F64.round_of_le (4 * aq) ((2 : ℚ) ^ (1023 : Int)) r1023 l1024 (by
    rw [abs_of_nonneg (by linarith)]; linarith)
  obtain ⟨a2, b2⟩ := F64.round_of_le (1 + rne (4 * aq)) ((2 : ℚ) ^ (1023 : Int)) r1023 l1024
    (by rw [e4, abs_of_nonneg (by linarith)]; exact hov)
  have hd : denomQ aq = rne (1 + 4 * aq) := by unfold denomQ; rw [e4]
  have h1 : 1 ≤ denomQ aq := by
    rw [hd]
    exact le_rne_of_le _ 1 rep_one (by linarith)
  refine ⟨?_, hd, h1, ?_⟩
  · rw [F64.one_def, F64.four_def, F64.mul_fin, a1, F64.add_fin, a2]
    rfl
  · unfold denomQ
    exact (abs_le.mp b2).2

/-- One relaxation step of `diffuse` on finite operands bounded by `2^k`: the float64
result is finite and bounded by `2^k`. -/
theorem F64.relax_fin (aq q0 q1 q2 q3 q4 : ℚ) (k : Int) (ha0 : 0 ≤ aq) (har : Rep aq)
    (hk : -1022 ≤ k ∧ k ≤ 1021) (hP : Rep (aq * (2 : ℚ) ^ (k + 2)))
    (hov1 : 1 + 4 * aq ≤ (2 : ℚ) ^ (1023 : Int))
    (hov2 : (2 : ℚ) ^ k * (1 + 4 * aq) ≤ (2 : ℚ) ^ (1023 : Int))
    (h0 : |q0| ≤ (2 : ℚ) ^ k) (h1 : |q1| ≤ (2 : ℚ) ^ k) (h2 : |q2| ≤ (2 : ℚ) ^ k)
    (h3 : |q3| ≤ (2 : ℚ) ^ k) (h4 : |q4| ≤ (2 : ℚ) ^ k) :
    ((F64.fin q0 + F64.fin aq * (F64.fin q1 + F64.fin q2 + F64.fin q3 + F64.fin q4))
        / (1 + 4 * F64.fin aq) : F64) = F64.fin (relaxQ aq q0 q1 q2 q3 q4)
      ∧ |relaxQ aq q0 q1 q2 q3 q4| ≤ (2 : ℚ) ^ k := by
  have hM := two_zpow_pos k
  obtain ⟨s1, s2⟩ := F64.sum4_fin q1 q2 q3 q4 k ⟨by omega, hk.2⟩ h1 h2 h3 h4
  obtain ⟨d1, d2, d3, d4⟩ := F64.denom_fin aq ha0 har hov1
  have e2 : (2 : ℚ) ^ (k + 2) = 4 * (2 : ℚ) ^ k := by
    rw [zpow_add₀ two_ne_zero]; norm_num; ring
  have r1023 : Rep ((2 : ℚ) ^ (1023 : Int)) := rep_pow _ (by norm_num)
  have l1024 := two_zpow_lt_1024 1023 (le_refl _)
  -- the product
  have hPle : aq * (2 : ℚ) ^ (k + 2) ≤ (2 : ℚ) ^ (1023 : Int) := by
    rw [e2]; nlinarith
  obtain ⟨p1, p2⟩ := F64.round_of_le (aq * sum4Q q1 q2 q3 q4) (aq * (2 : ℚ) ^ (k + 2)) hP
    (lt_of_le_of_lt hPle l1024) (by
      rw [abs_mul, abs_of_nonneg ha0]
      exact mul_le_mul_of_nonneg_left s2 ha0)
  -- the numerator
  have hscale : rne ((2 : ℚ) ^ k * (1 + 4 * aq)) = (2 : ℚ) ^ k * denomQ aq := by
    rw [d2]
    apply rne_scale
    · calc (2 : ℚ) ^ (-1022 : Int) ≤ 1 := by norm_num
        _ ≤ 1 + 4 * aq := by linarith
    · calc (2 : ℚ) ^ (-1022 : Int) ≤ (2 : ℚ) ^ k := zpow_le_zpow_right₀ (by norm_num) hk.1
        _ ≤ (2 : ℚ) ^ k * (1 + 4 * aq) := by nlinarith
  have hnum : |rne (q0 + rne (aq * sum4Q q1 q2 q3 q4))| ≤ (2 : ℚ) ^ k * denomQ aq := by
    rw [← hscale, abs_le]
    have hx : |q0 + rne (aq * sum4Q q1 q2 q3 q4)| ≤ (2 : ℚ) ^ k * (1 + 4 * aq) := by
      calc |q0 + rne (aq * sum4Q q1 q2 q3 q4)|
          ≤ |q0| + |rne (aq * sum4Q q1 q2 q3 q4)| := abs_add _ _
        _ ≤ (2 : ℚ) ^ k + aq * (2 : ℚ) ^ (k + 2) := by linarith
        _ = (2 : ℚ) ^ k * (1 + 4 * aq) := by rw [e2]; ring
    rw [abs_le] at hx
    constructor
    · have := rne_mono _ _ hx.1
      rwa [rne_neg] at this
    · exact rne_mono _ _ hx.2
  have hBle : (2 : ℚ) ^ k * denomQ aq ≤ (2 : ℚ) ^ (1023 : Int) := by
    rw [← hscale]
    exact rne_le_of_le _ _ r1023 hov2
  have n1 : F64.round (q0 + rne (aq * sum4Q q1 q2 q3 q4))
      = F64.fin (rne (q0 + rne (aq * sum4Q q1 q2 q3 q4))) :=
    F64.round_eq _ (lt_of_le_of_lt (le_trans hnum hBle) l1024)
  -- the quotient
  have hdpos : 0 < denomQ aq := by linarith
  obtain ⟨q1', q2'⟩ := F64.round_of_le
    (rne (q0 + rne (aq * sum4Q q1 q2 q3 q4)) / denomQ aq) ((2 : ℚ) ^ k)
    (rep_pow _ (by omega)) (two_zpow_lt_1024 _ (by omega)) (by
      rw [abs_div, abs_of_pos hdpos, div_le_iff₀ hdpos]
      exact hnum)
  refine ⟨?_, q2'⟩
  rw [s1, d1, F64.mul_fin, p1, F64.add_fin, n1, F64.div_fin _ _ (ne_of_gt hdpos), q1']
  rfl

namespace IEEE

/-! ## Basic facts about the float64 `Vektor` -/

namespace Vektor

@[simp] theorem Set_dim_f64 (vk : Vektor) (i j : Int) (x : F64) : (vk.Set i j x).dim = vk.dim := by
  simp only [Set]
  split <;> rfl

@[simp] theorem Set_length_f64 (vk : Vektor) (i j : Int) (x : F64) :
    (vk.Set i j x).vals.length = vk.vals.length := by
  simp only [Set]
  split <;> simp

theorem Set_WF_f64 (vk : Vektor) (i j : Int) (x : F64) (h : vk.WF) : (vk.Set i j x).WF := by
  unfold WF at *
  simpa using h

@[simp] theorem index_Set_f64 (vk : Vektor) (i j : Int) (x : F64) (a b : Int) :
    (vk.Set i j x).index a b = vk.index a b := by
  simp [index]

/-- For an in-bounds cell the index is `i + dim*j`, inside `[0, dim*dim)`. -/
theorem index_inBounds_f64 (vk : Vektor) (i j : Int) (hi0 : 0 ≤ i) (hi : i < vk.dim)
    (hj0 : 0 ≤ j) (hj : j < vk.dim) :
    vk.index i j = i + vk.dim * j ∧ 0 ≤ i + vk.dim * j ∧ i + vk.dim * j < vk.dim * vk.dim := by
  have h1 : 0 ≤ vk.dim * j := mul_nonneg (by omega) hj0
  have h2 : vk.dim * (j + 1) ≤ vk.dim * vk.dim := by
    apply mul_le_mul_of_nonneg_left <;> omega
  have h3 : i + vk.dim * j < vk.dim * vk.dim := by nlinarith
  refine ⟨?_, by omega, h3⟩
  unfold index
  simp only [ge_iff_le]
  rw [if_neg (by omega)]

/-- On a vektor holding `dim*dim` values, a non-negative index is inside the slice:
the slice accesses of `Get` and `Set` cannot go out of range. -/
theorem index_in_slice_f64 (vk : Vektor) (h : vk.WF) (i j : Int) :
    vk.index i j < 0 ∨ (vk.index i j).toNat < vk.vals.length := by
  unfold WF at h
  unfold index
  simp only [ge_iff_le]
  split
  · left
    omega
  · omega

/-- The linearization `i + dim*j` is injective on in-bounds cells. -/
theorem index_injective_f64 (vk : Vektor) (i j a b : Int) (hi0 : 0 ≤ i) (hi : i < vk.dim)
    (hj0 : 0 ≤ j) (hj : j < vk.dim) (ha0 : 0 ≤ a) (ha : a < vk.dim)
    (hb0 : 0 ≤ b) (hb : b < vk.dim) (h : vk.index i j = vk.index a b) : i = a ∧ j = b := by
  rw [(index_inBounds_f64 vk i j hi0 hi hj0 hj).1, (index_inBounds_f64 vk a b ha0 ha hb0 hb).1] at h
  have hjb : j = b := by
    rcases lt_trichotomy j b with hlt | heq | hgt
    · have : vk.dim * (j + 1) ≤ vk.dim * b := by
        apply mul_le_mul_of_nonneg_left <;> omega
      nlinarith
    · exact heq
    · have : vk.dim * (b + 1) ≤ vk.dim * j := by
        apply mul_le_mul_of_nonneg_left <;> omega
      nlinarith
  subst hjb
  exact ⟨by omega, rfl⟩

/-- What `Get` reads after a `Set`, for arbitrary coordinates. -/
theorem Get_Set_f64 (vk : Vektor) (i j : Int) (x : F64) (a b : Int) :
    (vk.Set i j x).Get a b =
      if 0 ≤ vk.index i j ∧ vk.index a b = vk.index i j
          ∧ (vk.index i j).toNat < vk.vals.length then x
      else vk.Get a b := by
  simp only [Get, index_Set_f64]
  simp only [Set]
  by_cases hn : vk.index i j < 0
  · have hc : ¬ (0 ≤ vk.index i j ∧ vk.index a b = vk.index i j
        ∧ (vk.index i j).toNat < vk.vals.length) := fun h => by omega
    rw [if_pos hn, if_neg hc]
  · rw [if_neg hn]
    by_cases hm : vk.index a b < 0
    · have hc : ¬ (0 ≤ vk.index i j ∧ vk.index a b = vk.index i j
          ∧ (vk.index i j).toNat < vk.vals.length) := fun h => by omega
      simp only [if_pos hm, if_neg hc]
    · simp only [if_neg hm]
      by_cases heq : vk.index a b = vk.index i j
      · rw [heq]
        by_cases hlen : (vk.index i j).toNat < vk.vals.length
        · rw [if_pos ⟨by omega, rfl, hlen⟩]
          simp [List.getD_eq_getElem?_getD, List.getElem?_set, hlen]
        · rw [if_neg (by tauto)]
          rw [List.set_eq_of_length_le (by omega)]
      · rw [if_neg (by tauto)]
        have hne : (vk.index i j).toNat ≠ (vk.index a b).toNat := by omega
        simp [List.getD_eq_getElem?_getD, List.getElem?_set, hne]

theorem Get_of_allZero_f64 {vk : Vektor} (h : vk.AllZero) (i j : Int) : vk.Get i j = 0 := by
  simp only [Get]
  split
  · rfl
  · rw [List.getD_eq_getElem?_getD]
    cases hget : vk.vals[(vk.index i j).toNat]? with
    | none => rfl
    | some y => exact h y (List.getElem?_mem hget)

theorem Set_zero_of_allZero_f64 {vk : Vektor} (h : vk.AllZero) (i j : Int) :
    vk.Set i j 0 = vk := by
  simp only [Set]
  split
  · rfl
  · have hv : vk.vals.set (vk.index i j).toNat 0 = vk.vals := by
      apply List.ext_getElem?
      intro n
      rw [List.getElem?_set]
      split
      · rename_i hn
        subst hn
        split
        · rename_i hlt
          rw [List.getElem?_eq_getElem hlt]
          rw [h _ (List.getElem_mem hlt)]
        · rename_i hge
          rw [List.getElem?_eq_none (by omega)]
      · rfl
    rw [hv]

/-- Writing 0 somewhere keeps every cell that reads 0. -/
theorem Get_Set_zero_keep_f64 (vk : Vektor) (i j a b : Int) (h : vk.Get a b = 0) :
    (vk.Set i j 0).Get a b = 0 := by
  rw [Get_Set_f64]
  split
  · rfl
  · exact h

/-- An in-bounds cell reads what was just written to it. -/
theorem Get_Set_self_f64 (vk : Vektor) (D : Int) (i j : Int) (x : F64) (hs : vk.dim = D ∧ vk.WF)
    (hi0 : 0 ≤ i) (hi : i < D) (hj0 : 0 ≤ j) (hj : j < D) :
    (vk.Set i j x).Get i j = x := by
  obtain ⟨hd, hwf⟩ := hs
  subst hd
  obtain ⟨hidx, h0, hlt⟩ := index_inBounds_f64 vk i j hi0 hi hj0 hj
  unfold WF at hwf
  rw [Get_Set_f64, if_pos ⟨by omega, rfl, by omega⟩]

/-- Writing `x` somewhere keeps every cell that reads `x`. -/
theorem Get_Set_same_value_f64 (vk : Vektor) (i j a b : Int) (x : F64) (h : vk.Get a b = x) :
    (vk.Set i j x).Get a b = x := by
  rw [Get_Set_f64]
  split
  · rfl
  · exact h

/-- Reads and writes of in-bounds cells behave like a two-dimensional array. -/
theorem Get_Set_inBounds_f64 (vk : Vektor) (D : Int) (i j a b : Int) (x : F64)
    (hs : vk.dim = D ∧ vk.WF) (hi0 : 0 ≤ i) (hi : i < D) (hj0 : 0 ≤ j) (hj : j < D)
    (ha0 : 0 ≤ a) (ha : a < D) (hb0 : 0 ≤ b) (hb : b < D) :
    (vk.Set i j x).Get a b = if a = i ∧ b = j then x else vk.Get a b := by
  by_cases h : a = i ∧ b = j
  · obtain ⟨rfl, rfl⟩ := h
    rw [if_pos ⟨rfl, rfl⟩]
    exact Get_Set_self_f64 vk D a b x hs hi0 hi hj0 hj
  · rw [if_neg h, Get_Set_f64, if_neg]
    rintro ⟨_, heq, _⟩
    obtain ⟨hd, _⟩ := hs
    subst hd
    exact h (index_injective_f64 vk a b i j ha0 ha hb0 hb hi0 hi hj0 hj heq)

/-- A write at `(c,e)`, anywhere, leaves the in-bounds cell `(a,b)` alone when the
columns `c` and `a` are less than `dim` apart and the cells differ. -/
theorem Get_Set_no_alias_f64 (vk : Vektor) (c e a b : Int) (x : F64)
    (ha0 : 0 ≤ a) (ha : a < vk.dim) (hb0 : 0 ≤ b) (hb : b < vk.dim)
    (hc1 : a - vk.dim < c) (hc2 : c < a + vk.dim) (hne : ¬ (c = a ∧ e = b)) :
    (vk.Set c e x).Get a b = vk.Get a b := by
  rw [Get_Set_f64, if_neg]
  rintro ⟨h0, heq, _⟩
  rw [(index_inBounds_f64 vk a b ha0 ha hb0 hb).1] at heq
  have hce : vk.index c e = c + vk.dim * e := by
    unfold index at h0 ⊢
    simp only [ge_iff_le] at h0 ⊢
    by_cases hge : vk.dim * vk.dim ≤ c + vk.dim * e
    · rw [if_pos hge] at h0
      omega
    · rw [if_neg hge]
  rw [hce] at heq
  have hbe : b = e := by
    rcases lt_trichotomy b e with hlt | heq2 | hgt
    · have : vk.dim * (b + 1) ≤ vk.dim * e := by
        apply mul_le_mul_of_nonneg_left <;> omega
      nlinarith
    · exact heq2
    · have : vk.dim * (e + 1) ≤ vk.dim * b := by
        apply mul_le_mul_of_nonneg_left <;> omega
      nlinarith
  subst hbe
  exact hne ⟨by omega, rfl⟩

/-- With the column `i` in range, a row `j` outside `[0, dim)` is rejected by `index`:
the read gives 0 and the write changes nothing. -/
theorem Get_Set_row_outside_f64 (vk : Vektor) (i j : Int) (hi0 : 0 ≤ i) (hi : i < vk.dim)
    (hj : j < 0 ∨ vk.dim ≤ j) : vk.Get i j = 0 ∧ ∀ x, vk.Set i j x = vk := by
  have hidx : vk.index i j < 0 := by
    unfold index
    simp only [ge_iff_le]
    split
    · omega
    · rename_i hlt
      rcases hj with hj | hj
      · have : vk.dim * j ≤ vk.dim * (-1) := by
          apply mul_le_mul_of_nonneg_left <;> omega
        omega
      · have : vk.dim * vk.dim ≤ vk.dim * j := by
          apply mul_le_mul_of_nonneg_left <;> omega
        omega
  refine ⟨?_, ?_⟩
  · simp only [Get]
    rw [if_pos hidx]
  · intro x
    simp only [Set]
    rw [if_pos hidx]

theorem Set_Shape_f64 (vk : Vektor) (i j : Int) (x : F64) (D : Int) (h : vk.Shape D) :
    (vk.Set i j x).Shape D := by
  unfold Shape WF at *
  simpa using h

theorem New_Shape_f64 (D : Int) : (Vektor.New D).Shape D := by
  unfold Shape WF New
  simp only [List.length_replicate, true_and]
  exact Int.toNat_of_nonneg (mul_self_nonneg D)

end Vektor

namespace Fluid

theorem forRange_Shape_f64 (D : Int) (lo hi : Int) (body : Int → Vektor → Vektor) (s : Vektor)
    (h0 : s.Shape D) (hstep : ∀ i t, t.Shape D → (body i t).Shape D) :
    (forRange lo hi body s).Shape D :=
  forRange_invariant (fun v : Vektor => v.Shape D) lo hi body s h0 hstep

theorem repeatN_Shape_f64 (D : Int) (n : Nat) (body : Vektor → Vektor) (s : Vektor)
    (h0 : s.Shape D) (hstep : ∀ t, t.Shape D → (body t).Shape D) :
    (repeatN n body s).Shape D :=
  repeatN_invariant (fun v : Vektor => v.Shape D) n body s h0 hstep

theorem setBnd_Shape_f64 (fl : Fluid) (bnd : Int) (xx : Vektor) (D : Int) (h : xx.Shape D) :
    (fl.setBnd bnd xx).Shape D := by
  unfold setBnd
  simp only []
  repeat apply Vektor.Set_Shape_f64
  apply forRange_Shape_f64 D _ _ _ _ h
  intro i t ht
  unfold setBndEdges
  simp only []
  split_ifs <;> (repeat apply Vektor.Set_Shape_f64) <;> exact ht

theorem addSource_Shape_f64 (fl : Fluid) (dst src : Vektor) (D : Int) (h : dst.Shape D) :
    (fl.addSource dst src).Shape D := by
  unfold addSource
  apply forRange_Shape_f64 D _ _ _ _ h
  intro i t ht
  apply forRange_Shape_f64 D _ _ _ _ ht
  intro j t2 ht2
  exact Vektor.Set_Shape_f64 _ _ _ _ _ ht2

theorem diffuseSweep_Shape_f64 (fl : Fluid) (a : F64) (xx x0 : Vektor) (D : Int)
    (h : xx.Shape D) : (fl.diffuseSweep a xx x0).Shape D := by
  unfold diffuseSweep
  apply forRange_Shape_f64 D _ _ _ _ h
  intro i t1 ht1
  apply forRange_Shape_f64 D _ _ _ _ ht1
  intro j t2 ht2
  exact Vektor.Set_Shape_f64 _ _ _ _ _ ht2

theorem diffuse_Shape_f64 (fl : Fluid) (bnd : Int) (diff : F64) (xx x0 : Vektor) (D : Int)
    (h : xx.Shape D) : (fl.diffuse bnd diff xx x0).Shape D := by
  unfold diffuse
  exact repeatN_Shape_f64 D _ _ _ h
    (fun t ht => setBnd_Shape_f64 fl bnd _ D (diffuseSweep_Shape_f64 fl _ t x0 D ht))

theorem advect_Shape_f64 (fl : Fluid) (bnd : Int) (dd d0 uu vv : Vektor) (D : Int)
    (h : dd.Shape D) : (fl.advect bnd dd d0 uu vv).Shape D := by
  unfold advect
  simp only []
  apply setBnd_Shape_f64
  apply forRange_Shape_f64 D _ _ _ _ h
  intro i t1 ht1
  apply forRange_Shape_f64 D _ _ _ _ ht1
  intro j t2 ht2
  exact Vektor.Set_Shape_f64 _ _ _ _ _ ht2

end Fluid

/-- Reads and writes of cells of the grid `[0,N+1] × [0,N+1]`, on a vektor of dimension
`D ≥ N+2`, behave like a two-dimensional array. -/
theorem Vektor.Get_Set_grid_f64 (vk : Vektor) (D N : Int) (i j a b : Int) (x : F64)
    (hs : vk.Shape D) (hD : N + 2 ≤ D) (hi : 0 ≤ i ∧ i ≤ N + 1) (hj : 0 ≤ j ∧ j ≤ N + 1)
    (ha : 0 ≤ a ∧ a ≤ N + 1) (hb : 0 ≤ b ∧ b ≤ N + 1) :
    (vk.Set i j x).Get a b = if a = i ∧ b = j then x else vk.Get a b :=
  Vektor.Get_Set_inBounds_f64 vk D i j a b x hs (by omega) (by omega) (by omega) (by omega)
    (by omega) (by omega) (by omega) (by omega)

/-! ## Boundary enforcement over float64 -/

namespace Fluid

/-- The four writes of one iteration of the loop of `setBnd`, with the sign factors. -/
theorem setBndEdges_eq_f64 (fl : Fluid) (bnd i : Int) (t : Vektor) :
    fl.setBndEdges bnd i t
      = (((t.Set 0 i (bndSign bnd 1 * t.Get 1 i)).Set (fl.size + 1) i
          (bndSign bnd 1 * (t.Set 0 i (bndSign bnd 1 * t.Get 1 i)).Get fl.size i)).Set i 0
          (bndSign bnd 2 * ((t.Set 0 i (bndSign bnd 1 * t.Get 1 i)).Set (fl.size + 1) i
            (bndSign bnd 1 * (t.Set 0 i (bndSign bnd 1 * t.Get 1 i)).Get fl.size i)).Get
              i 1)).Set i (fl.size + 1)
          (bndSign bnd 2 * (((t.Set 0 i (bndSign bnd 1 * t.Get 1 i)).Set (fl.size + 1) i
            (bndSign bnd 1 * (t.Set 0 i (bndSign bnd 1 * t.Get 1 i)).Get fl.size i)).Set i 0
            (bndSign bnd 2 * ((t.Set 0 i (bndSign bnd 1 * t.Get 1 i)).Set (fl.size + 1) i
              (bndSign bnd 1 * (t.Set 0 i (bndSign bnd 1 * t.Get 1 i)).Get fl.size i)).Get
                i 1)).Get i fl.size) := by
  unfold setBndEdges bndSign
  split_ifs <;> rfl

/-- What a grid cell reads after one iteration `i` of the loop of `setBnd`. -/
theorem setBndEdges_Get_f64 (fl : Fluid) (bnd i : Int) (t : Vektor) (D : Int)
    (hs : t.Shape D) (hN : 1 ≤ fl.size) (hD : fl.size + 2 ≤ D)
    (hi1 : 1 ≤ i) (hi : i ≤ fl.size)
    (a b : Int) (ha : 0 ≤ a ∧ a ≤ fl.size + 1) (hb : 0 ≤ b ∧ b ≤ fl.size + 1) :
    (fl.setBndEdges bnd i t).Get a b =
      if a = i ∧ b = fl.size + 1 then bndSign bnd 2 * t.Get i fl.size
      else if a = i ∧ b = 0 then bndSign bnd 2 * t.Get i 1
      else if a = fl.size + 1 ∧ b = i then bndSign bnd 1 * t.Get fl.size i
      else if a = 0 ∧ b = i then bndSign bnd 1 * t.Get 1 i
      else t.Get a b := by
  rw [setBndEdges_eq_f64]
  generalize bndSign bnd 1 = s1
  generalize bndSign bnd 2 = s2
  have h1 : (t.Set 0 i (s1 * t.Get 1 i)).Shape D := Vektor.Set_Shape_f64 _ _ _ _ _ hs
  have r1 : (t.Set 0 i (s1 * t.Get 1 i)).Get fl.size i = t.Get fl.size i := by
    rw [Vektor.Get_Set_grid_f64 t D fl.size _ _ _ _ _ hs hD (by omega) (by omega) (by omega)
      (by omega), if_neg (by omega)]
  rw [r1]
  have h2 : ((t.Set 0 i (s1 * t.Get 1 i)).Set (fl.size + 1) i (s1 * t.Get fl.size i)).Shape D :=
    Vektor.Set_Shape_f64 _ _ _ _ _ h1
  have r2 : ((t.Set 0 i (s1 * t.Get 1 i)).Set (fl.size + 1) i (s1 * t.Get fl.size i)).Get i 1
      = t.Get i 1 := by
    rw [Vektor.Get_Set_grid_f64 _ D fl.size _ _ _ _ _ h1 hD (by omega) (by omega) (by omega)
      (by omega), if_neg (by omega),
      Vektor.Get_Set_grid_f64 t D fl.size _ _ _ _ _ hs hD (by omega) (by omega) (by omega)
      (by omega), if_neg (by omega)]
  rw [r2]
  have h3 : (((t.Set 0 i (s1 * t.Get 1 i)).Set (fl.size + 1) i (s1 * t.Get fl.size i)).Set
      i 0 (s2 * t.Get i 1)).Shape D := Vektor.Set_Shape_f64 _ _ _ _ _ h2
  have r3 : (((t.Set 0 i (s1 * t.Get 1 i)).Set (fl.size + 1) i (s1 * t.Get fl.size i)).Set
      i 0 (s2 * t.Get i 1)).Get i fl.size = t.Get i fl.size := by
    rw [Vektor.Get_Set_grid_f64 _ D fl.size _ _ _ _ _ h2 hD (by omega) (by omega) (by omega)
      (by omega), if_neg (by omega),
      Vektor.Get_Set_grid_f64 _ D fl.size _ _ _ _ _ h1 hD (by omega) (by omega) (by omega)
      (by omega), if_neg (by omega),
      Vektor.Get_Set_grid_f64 t D fl.size _ _ _ _ _ hs hD (by omega) (by omega) (by omega)
      (by omega), if_neg (by omega)]
  rw [r3]
  rw [Vektor.Get_Set_grid_f64 _ D fl.size _ _ _ _ _ h3 hD (by omega) (by omega) ha hb,
    Vektor.Get_Set_grid_f64 _ D fl.size _ _ _ _ _ h2 hD (by omega) (by omega) ha hb,
    Vektor.Get_Set_grid_f64 _ D fl.size _ _ _ _ _ h1 hD (by omega) (by omega) ha hb,
    Vektor.Get_Set_grid_f64 t D fl.size _ _ _ _ _ hs hD (by omega) (by omega) ha hb]

theorem setBndEdges_Shape_f64 (fl : Fluid) (bnd i : Int) (t : Vektor) (D : Int)
    (hs : t.Shape D) : (fl.setBndEdges bnd i t).Shape D := by
  rw [setBndEdges_eq_f64]
  iterate 4 apply Vektor.Set_Shape_f64
  exact hs

/-- The loop of `setBnd`: the shape and the interior are kept. -/
theorem setBnd_loop_interior_f64 (fl : Fluid) (bnd : Int) (x : Vektor) (D : Int)
    (hs : x.Shape D) (hN : 1 ≤ fl.size) (hD : fl.size + 2 ≤ D) :
    (forRange 1 fl.size (fun i xx => fl.setBndEdges bnd i xx) x).Shape D
      ∧ ∀ a b, 1 ≤ a → a ≤ fl.size → 1 ≤ b → b ≤ fl.size →
        (forRange 1 fl.size (fun i xx => fl.setBndEdges bnd i xx) x).Get a b = x.Get a b := by
  refine forRange_invariant_mem (fun t : Vektor => t.Shape D
    ∧ ∀ a b, 1 ≤ a → a ≤ fl.size → 1 ≤ b → b ≤ fl.size → t.Get a b = x.Get a b)
    1 fl.size _ x ⟨hs, fun _ _ _ _ _ _ => rfl⟩ ?_
  intro i t hi1 hi ht
  refine ⟨setBndEdges_Shape_f64 fl bnd i t D ht.1, ?_⟩
  intro a b ha1 ha hb1 hb
  rw [setBndEdges_Get_f64 fl bnd i t D ht.1 hN hD hi1 hi a b (by omega) (by omega),
    if_neg (by omega), if_neg (by omega), if_neg (by omega), if_neg (by omega)]
  exact ht.2 a b ha1 ha hb1 hb

/-- The loop of `setBnd`: each non-corner cell of the boundary ring ends up holding the
signed value of its interior neighbour. -/
theorem setBnd_loop_edges_f64 (fl : Fluid) (bnd : Int) (x : Vektor) (D : Int)
    (hs : x.Shape D) (hN : 1 ≤ fl.size) (hD : fl.size + 2 ≤ D)
    (k : Int) (hk1 : 1 ≤ k) (hk : k ≤ fl.size) :
    (forRange 1 fl.size (fun i xx => fl.setBndEdges bnd i xx) x).Get 0 k
        = bndSign bnd 1 * x.Get 1 k
      ∧ (forRange 1 fl.size (fun i xx => fl.setBndEdges bnd i xx) x).Get (fl.size + 1) k
        = bndSign bnd 1 * x.Get fl.size k
      ∧ (forRange 1 fl.size (fun i xx => fl.setBndEdges bnd i xx) x).Get k 0
        = bndSign bnd 2 * x.Get k 1
      ∧ (forRange 1 fl.size (fun i xx => fl.setBndEdges bnd i xx) x).Get k (fl.size + 1)
        = bndSign bnd 2 * x.Get k fl.size := by
  have hQ : ∀ i (t : Vektor), 1 ≤ i → i ≤ fl.size →
      (t.Shape D ∧ ∀ a b, 1 ≤ a → a ≤ fl.size → 1 ≤ b → b ≤ fl.size →
        t.Get a b = x.Get a b) →
      ((fl.setBndEdges bnd i t).Shape D ∧ ∀ a b, 1 ≤ a → a ≤ fl.size → 1 ≤ b →
        b ≤ fl.size → (fl.setBndEdges bnd i t).Get a b = x.Get a b) := by
    intro i t hi1 hi ht
    refine ⟨setBndEdges_Shape_f64 fl bnd i t D ht.1, ?_⟩
    intro a b ha1 ha hb1 hb
    rw [setBndEdges_Get_f64 fl bnd i t D ht.1 hN hD hi1 hi a b (by omega) (by omega),
      if_neg (by omega), if_neg (by omega), if_neg (by omega), if_neg (by omega)]
    exact ht.2 a b ha1 ha hb1 hb
  have key : ∀ (c d : Int) (val : F64), (0 ≤ c ∧ c ≤ fl.size + 1) → (0 ≤ d ∧ d ≤ fl.size + 1) →
      (∀ t : Vektor, (t.Shape D ∧ ∀ a b, 1 ≤ a → a ≤ fl.size → 1 ≤ b → b ≤ fl.size →
        t.Get a b = x.Get a b) → (fl.setBndEdges bnd k t).Get c d = val) →
      (∀ i (t : Vektor), 1 ≤ i → i ≤ fl.size → t.Shape D → i ≠ k →
        (fl.setBndEdges bnd i t).Get c d = t.Get c d) →
      (forRange 1 fl.size (fun i xx => fl.setBndEdges bnd i xx) x).Get c d = val := by
    intro c d val hc hd hest hother
    refine (forRange_establish (fun t : Vektor => t.Shape D
      ∧ ∀ a b, 1 ≤ a → a ≤ fl.size → 1 ≤ b → b ≤ fl.size → t.Get a b = x.Get a b)
      (fun t : Vektor => t.Get c d = val) 1 fl.size k _ x hk1 hk
      ⟨hs, fun _ _ _ _ _ _ => rfl⟩ hQ hest ?_).2
    intro i t hi1 hi ht hp
    by_cases hik : i = k
    · subst hik
      exact hest t ht
    · rw [hother i t hi1 hi ht.1 hik]
      exact hp
  refine ⟨?_, ?_, ?_, ?_⟩
  · apply key 0 k _ (by omega) (by omega)
    · intro t ht
      rw [setBndEdges_Get_f64 fl bnd k t D ht.1 hN hD hk1 hk 0 k (by omega) (by omega),
        if_neg (by omega), if_neg (by omega), if_neg (by omega), if_pos ⟨rfl, rfl⟩,
        ht.2 1 k (by omega) (by omega) hk1 hk]
    · intro i t hi1 hi ht hik
      rw [setBndEdges_Get_f64 fl bnd i t D ht hN hD hi1 hi 0 k (by omega) (by omega),
        if_neg (by omega), if_neg (by omega), if_neg (by omega), if_neg (by omega)]
  · apply key (fl.size + 1) k _ (by omega) (by omega)
    · intro t ht
      rw [setBndEdges_Get_f64 fl bnd k t D ht.1 hN hD hk1 hk _ k (by omega) (by omega),
        if_neg (by omega), if_neg (by omega), if_pos ⟨rfl, rfl⟩,
        ht.2 fl.size k (by omega) (by omega) hk1 hk]
    · intro i t hi1 hi ht hik
      rw [setBndEdges_Get_f64 fl bnd i t D ht hN hD hi1 hi _ k (by omega) (by omega),
        if_neg (by omega), if_neg (by omega), if_neg (by omega), if_neg (by omega)]
  · apply key k 0 _ (by omega) (by omega)
    · intro t ht
      rw [setBndEdges_Get_f64 fl bnd k t D ht.1 hN hD hk1 hk k 0 (by omega) (by omega),
        if_neg (by omega), if_pos ⟨rfl, rfl⟩, ht.2 k 1 hk1 hk (by omega) (by omega)]
    · intro i t hi1 hi ht hik
      rw [setBndEdges_Get_f64 fl bnd i t D ht hN hD hi1 hi k 0 (by omega) (by omega),
        if_neg (by omega), if_neg (by omega), if_neg (by omega), if_neg (by omega)]
  · apply key k (fl.size + 1) _ (by omega) (by omega)
    · intro t ht
      rw [setBndEdges_Get_f64 fl bnd k t D ht.1 hN hD hk1 hk k _ (by omega) (by omega),
        if_pos ⟨rfl, rfl⟩, ht.2 k fl.size hk1 hk (by omega) (by omega)]
    · intro i t hi1 hi ht hik
      rw [setBndEdges_Get_f64 fl bnd i t D ht hN hD hi1 hi k _ (by omega) (by omega),
        if_neg (by omega), if_neg (by omega), if_neg (by omega), if_neg (by omega)]

/-- The four corner writes of `setBnd`, applied to a grid `L`: each corner reads the
average of its two ring neighbours in `L`, every other grid cell reads as in `L`. -/
theorem setBnd_corners_Get_f64 (N D : Int) (L : Vektor) (hs : L.Shape D) (hN : 1 ≤ N)
    (hD : N + 2 ≤ D) (a b : Int) (ha : 0 ≤ a ∧ a ≤ N + 1) (hb : 0 ≤ b ∧ b ≤ N + 1) :
    (let t2 := L.Set 0 0 (0.5 * (L.Get 1 0 + L.Get 0 1))
     let t3 := t2.Set 0 (N + 1) (0.5 * (t2.Get 1 (N + 1) + t2.Get 0 N))
     let t4 := t3.Set (N + 1) 0 (0.5 * (t3.Get N 0 + t3.Get (N + 1) 1))
     t4.Set (N + 1) (N + 1) (0.5 * (t4.Get N (N + 1) + t4.Get (N + 1) N))).Get a b
      = if a = N + 1 ∧ b = N + 1 then 0.5 * (L.Get N (N + 1) + L.Get (N + 1) N)
        else if a = N + 1 ∧ b = 0 then 0.5 * (L.Get N 0 + L.Get (N + 1) 1)
        else if a = 0 ∧ b = N + 1 then 0.5 * (L.Get 1 (N + 1) + L.Get 0 N)
        else if a = 0 ∧ b = 0 then 0.5 * (L.Get 1 0 + L.Get 0 1)
        else L.Get a b := by
  lift_lets
  intro t2 t3 t4
  have s2 : t2.Shape D := Vektor.Set_Shape_f64 _ _ _ _ _ hs
  have s3 : t3.Shape D := Vektor.Set_Shape_f64 _ _ _ _ _ s2
  have s4 : t4.Shape D := Vektor.Set_Shape_f64 _ _ _ _ _ s3
  have g2 : ∀ c d, (0 ≤ c ∧ c ≤ N + 1) → (0 ≤ d ∧ d ≤ N + 1) →
      t2.Get c d = if c = 0 ∧ d = 0 then 0.5 * (L.Get 1 0 + L.Get 0 1) else L.Get c d :=
    fun c d hc hd => Vektor.Get_Set_grid_f64 L D N 0 0 c d _ hs hD (by omega) (by omega) hc hd
  have e21 : t2.Get 1 (N + 1) = L.Get 1 (N + 1) := by
    rw [g2 _ _ (by omega) (by omega), if_neg (by omega)]
  have e22 : t2.Get 0 N = L.Get 0 N := by
    rw [g2 _ _ (by omega) (by omega), if_neg (by omega)]
  have g3 : ∀ c d, (0 ≤ c ∧ c ≤ N + 1) → (0 ≤ d ∧ d ≤ N + 1) →
      t3.Get c d = if c = 0 ∧ d = N + 1 then 0.5 * (L.Get 1 (N + 1) + L.Get 0 N)
        else t2.Get c d := by
    intro c d hc hd
    have := Vektor.Get_Set_grid_f64 t2 D N 0 (N + 1) c d
      (0.5 * (t2.Get 1 (N + 1) + t2.Get 0 N)) s2 hD (by omega) (by omega) hc hd
    rw [← e21, ← e22]
    exact this
  have e31 : t3.Get N 0 = L.Get N 0 := by
    rw [g3 _ _ (by omega) (by omega), if_neg (by omega), g2 _ _ (by omega) (by omega),
      if_neg (by omega)]
  have e32 : t3.Get (N + 1) 1 = L.Get (N + 1) 1 := by
    rw [g3 _ _ (by omega) (by omega), if_neg (by omega), g2 _ _ (by omega) (by omega),
      if_neg (by omega)]
  have g4 : ∀ c d, (0 ≤ c ∧ c ≤ N + 1) → (0 ≤ d ∧ d ≤ N + 1) →
      t4.Get c d = if c = N + 1 ∧ d = 0 then 0.5 * (L.Get N 0 + L.Get (N + 1) 1)
        else t3.Get c d := by
    intro c d hc hd
    have := Vektor.Get_Set_grid_f64 t3 D N (N + 1) 0 c d
      (0.5 * (t3.Get N 0 + t3.Get (N + 1) 1)) s3 hD (by omega) (by omega) hc hd
    rw [← e31, ← e32]
    exact this
  have e41 : t4.Get N (N + 1) = L.Get N (N + 1) := by
    rw [g4 _ _ (by omega) (by omega), if_neg (by omega), g3 _ _ (by omega) (by omega),
      if_neg (by omega), g2 _ _ (by omega) (by omega), if_neg (by omega)]
  have e42 : t4.Get (N + 1) N = L.Get (N + 1) N := by
    rw [g4 _ _ (by omega) (by omega), if_neg (by omega), g3 _ _ (by omega) (by omega),
      if_neg (by omega), g2 _ _ (by omega) (by omega), if_neg (by omega)]
  rw [Vektor.Get_Set_grid_f64 t4 D N (N + 1) (N + 1) a b _ s4 hD (by omega) (by omega) ha hb,
    e41, e42, g4 a b ha hb, g3 a b ha hb, g2 a b ha hb]

/-- What `setBnd(bnd, x)` leaves in a grid of dimension `D ≥ N+2`: the interior is
unchanged; each non-corner ring cell holds the signed value of its interior neighbour;
each corner holds the average of its two ring neighbours. All right-hand sides read the
grid after the call. -/
theorem setBnd_spec_f64 (fl : Fluid) (bnd : Int) (x : Vektor) (D : Int)
    (hs : x.Shape D) (hN : 1 ≤ fl.size) (hD : fl.size + 2 ≤ D) :
    (fl.setBnd bnd x).Shape D
      ∧ (∀ a b, 1 ≤ a → a ≤ fl.size → 1 ≤ b → b ≤ fl.size →
          (fl.setBnd bnd x).Get a b = x.Get a b)
      ∧ (∀ k, 1 ≤ k → k ≤ fl.size →
          (fl.setBnd bnd x).Get 0 k = bndSign bnd 1 * (fl.setBnd bnd x).Get 1 k
          ∧ (fl.setBnd bnd x).Get (fl.size + 1) k
              = bndSign bnd 1 * (fl.setBnd bnd x).Get fl.size k
          ∧ (fl.setBnd bnd x).Get k 0 = bndSign bnd 2 * (fl.setBnd bnd x).Get k 1
          ∧ (fl.setBnd bnd x).Get k (fl.size + 1)
              = bndSign bnd 2 * (fl.setBnd bnd x).Get k fl.size)
      ∧ (fl.setBnd bnd x).Get 0 0
          = 0.5 * ((fl.setBnd bnd x).Get 1 0 + (fl.setBnd bnd x).Get 0 1)
      ∧ (fl.setBnd bnd x).Get 0 (fl.size + 1)
          = 0.5 * ((fl.setBnd bnd x).Get 1 (fl.size + 1) + (fl.setBnd bnd x).Get 0 fl.size)
      ∧ (fl.setBnd bnd x).Get (fl.size + 1) 0
          = 0.5 * ((fl.setBnd bnd x).Get fl.size 0 + (fl.setBnd bnd x).Get (fl.size + 1) 1)
      ∧ (fl.setBnd bnd x).Get (fl.size + 1) (fl.size + 1)
          = 0.5 * ((fl.setBnd bnd x).Get fl.size (fl.size + 1)
              + (fl.setBnd bnd x).Get (fl.size + 1) fl.size) := by
  obtain ⟨hLs, hLi⟩ := setBnd_loop_interior_f64 fl bnd x D hs hN hD
  have hLe := setBnd_loop_edges_f64 fl bnd x D hs hN hD
  have hG : ∀ a b, (0 ≤ a ∧ a ≤ fl.size + 1) → (0 ≤ b ∧ b ≤ fl.size + 1) →
      (fl.setBnd bnd x).Get a b = _ := fun a b ha hb =>
    setBnd_corners_Get_f64 fl.size D (forRange 1 fl.size (fun i xx => fl.setBndEdges bnd i xx) x)
      hLs hN hD a b ha hb
  have hnc : ∀ a b, (0 ≤ a ∧ a ≤ fl.size + 1) → (0 ≤ b ∧ b ≤ fl.size + 1) →
      ¬ ((a = 0 ∨ a = fl.size + 1) ∧ (b = 0 ∨ b = fl.size + 1)) →
      (fl.setBnd bnd x).Get a b
        = (forRange 1 fl.size (fun i xx => fl.setBndEdges bnd i xx) x).Get a b := by
    intro a b ha hb hne
    rw [hG a b ha hb, if_neg (by omega), if_neg (by omega), if_neg (by omega),
      if_neg (by omega)]
  have hint : ∀ a b, 1 ≤ a → a ≤ fl.size → 1 ≤ b → b ≤ fl.size →
      (fl.setBnd bnd x).Get a b = x.Get a b := by
    intro a b ha1 ha hb1 hb
    rw [hnc a b (by omega) (by omega) (by omega), hLi a b ha1 ha hb1 hb]
  refine ⟨setBnd_Shape_f64 fl bnd x D hs, hint, ?_, ?_, ?_, ?_, ?_⟩
  · intro k hk1 hk
    obtain ⟨e1, e2, e3, e4⟩ := hLe k hk1 hk
    refine ⟨?_, ?_, ?_, ?_⟩
    · rw [hnc 0 k (by omega) (by omega) (by omega), e1,
        hint 1 k (by omega) (by omega) hk1 hk]
    · rw [hnc _ k (by omega) (by omega) (by omega), e2,
        hint fl.size k (by omega) (by omega) hk1 hk]
    · rw [hnc k 0 (by omega) (by omega) (by omega), e3,
        hint k 1 hk1 hk (by omega) (by omega)]
    · rw [hnc k _ (by omega) (by omega) (by omega), e4,
        hint k fl.size hk1 hk (by omega) (by omega)]
  · rw [hnc 1 0 (by omega) (by omega) (by omega), hnc 0 1 (by omega) (by omega) (by omega),
      hG 0 0 (by omega) (by omega), if_neg (by omega), if_neg (by omega),
      if_neg (by omega), if_pos ⟨rfl, rfl⟩]
  · rw [hnc 1 _ (by omega) (by omega) (by omega), hnc 0 fl.size (by omega) (by omega)
      (by omega), hG 0 _ (by omega) (by omega), if_neg (by omega), if_neg (by omega),
      if_pos ⟨rfl, rfl⟩]
  · rw [hnc fl.size 0 (by omega) (by omega) (by omega),
      hnc _ 1 (by omega) (by omega) (by omega),
      hG _ 0 (by omega) (by omega), if_neg (by omega), if_pos ⟨rfl, rfl⟩]
  · rw [hnc fl.size _ (by omega) (by omega) (by omega),
      hnc _ fl.size (by omega) (by omega) (by omega),
      hG _ _ (by omega) (by omega), if_pos ⟨rfl, rfl⟩]

end Fluid

end IEEE

/-! ## Diffusion over float64: a power-of-two bound is kept -/

namespace F64

theorem bounded_neg {M : ℚ} {x : F64} (h : Bounded M x) : Bounded M (-x) := by
  obtain ⟨q, rfl, hq⟩ := h
  exact ⟨-q, rfl, by rwa [abs_neg]⟩

/-- The average `0.5 * (p + q)` of two finite values bounded by `2^k` is finite and
bounded by `2^k`. -/
theorem half_sum_bounded (k : Int) (hk : -1074 ≤ k ∧ k ≤ 1022) (p q : F64)
    (hp : Bounded ((2 : ℚ) ^ k) p) (hq : Bounded ((2 : ℚ) ^ k) q) :
    Bounded ((2 : ℚ) ^ k) (0.5 * (p + q)) := by
  obtain ⟨a, rfl, ha⟩ := hp
  obtain ⟨b, rfl, hb⟩ := hq
  have e1 : (2 : ℚ) ^ (k + 1) = 2 * (2 : ℚ) ^ k := by
    rw [zpow_add_one₀ two_ne_zero]; ring
  obtain ⟨a1, b1⟩ := round_of_le (a + b) ((2 : ℚ) ^ (k + 1)) (rep_pow _ (by omega))
    (two_zpow_lt_1024 _ (by omega)) (by
      rw [e1]
      calc |a + b| ≤ |a| + |b| := abs_add _ _
        _ ≤ 2 * (2 : ℚ) ^ k := by linarith)
  obtain ⟨a2, b2⟩ := round_of_le (1 / 2 * rne (a + b)) ((2 : ℚ) ^ k) (rep_pow _ (by omega))
    (two_zpow_lt_1024 _ (by omega)) (by
      rw [abs_mul, abs_of_pos (by norm_num : (0 : ℚ) < 1 / 2)]
      rw [e1] at b1
      linarith)
  refine ⟨_, ?_, b2⟩
  rw [half_def, add_fin, a1, mul_fin, a2]

end F64

namespace IEEE

namespace Fluid

theorem Sign.apply_bounded (s : Sign) (M : ℚ) (x : F64) (h : F64.Bounded M x) :
    F64.Bounded M (s * x) := by
  cases s
  · exact h
  · exact F64.bounded_neg h

/-- `setBnd` keeps a power-of-two bound on the grid cells. -/
theorem setBnd_bound_f64 (fl : Fluid) (bnd : Int) (x : Vektor) (D : Int) (k : Int)
    (hk : -1074 ≤ k ∧ k ≤ 1022)
    (hs : x.Shape D) (hN : 1 ≤ fl.size) (hD : fl.size + 2 ≤ D)
    (hx : ∀ a b, 1 ≤ a → a ≤ fl.size → 1 ≤ b → b ≤ fl.size →
      F64.Bounded ((2 : ℚ) ^ k) (x.Get a b))
    (a b : Int) (ha : 0 ≤ a ∧ a ≤ fl.size + 1) (hb : 0 ≤ b ∧ b ≤ fl.size + 1) :
    F64.Bounded ((2 : ℚ) ^ k) ((fl.setBnd bnd x).Get a b) := by
  obtain ⟨_, hint, hedge, c1, c2, c3, c4⟩ := setBnd_spec_f64 fl bnd x D hs hN hD
  have hi : ∀ a b, 1 ≤ a → a ≤ fl.size → 1 ≤ b → b ≤ fl.size →
      F64.Bounded ((2 : ℚ) ^ k) ((fl.setBnd bnd x).Get a b) := by
    intro a b ha1 ha hb1 hb
    rw [hint a b ha1 ha hb1 hb]
    exact hx a b ha1 ha hb1 hb
  have he : ∀ j, 1 ≤ j → j ≤ fl.size →
      F64.Bounded ((2 : ℚ) ^ k) ((fl.setBnd bnd x).Get 0 j)
        ∧ F64.Bounded ((2 : ℚ) ^ k) ((fl.setBnd bnd x).Get (fl.size + 1) j)
        ∧ F64.Bounded ((2 : ℚ) ^ k) ((fl.setBnd bnd x).Get j 0)
        ∧ F64.Bounded ((2 : ℚ) ^ k) ((fl.setBnd bnd x).Get j (fl.size + 1)) := by
    intro j hj1 hj
    obtain ⟨e1, e2, e3, e4⟩ := hedge j hj1 hj
    rw [e1, e2, e3, e4]
    exact ⟨Sign.apply_bounded _ _ _ (hi 1 j (by omega) (by omega) hj1 hj),
      Sign.apply_bounded _ _ _ (hi fl.size j (by omega) (by omega) hj1 hj),
      Sign.apply_bounded _ _ _ (hi j 1 hj1 hj (by omega) (by omega)),
      Sign.apply_bounded _ _ _ (hi j fl.size hj1 hj (by omega) (by omega))⟩
  by_cases hai : 1 ≤ a ∧ a ≤ fl.size
  · by_cases hbi : 1 ≤ b ∧ b ≤ fl.size
    · exact hi a b hai.1 hai.2 hbi.1 hbi.2
    · have hb2 : b = 0 ∨ b = fl.size + 1 := by omega
      rcases hb2 with rfl | rfl
      · exact (he a hai.1 hai.2).2.2.1
      · exact (he a hai.1 hai.2).2.2.2
  · have ha2 : a = 0 ∨ a = fl.size + 1 := by omega
    by_cases hbi : 1 ≤ b ∧ b ≤ fl.size
    · rcases ha2 with rfl | rfl
      · exact (he b hbi.1 hbi.2).1
      · exact (he b hbi.1 hbi.2).2.1
    · have hb2 : b = 0 ∨ b = fl.size + 1 := by omega
      rcases ha2 with rfl | rfl <;> rcases hb2 with rfl | rfl
      · rw [c1]
        exact F64.half_sum_bounded k hk _ _ (he 1 (by omega) (by omega)).2.2.1
          (he 1 (by omega) (by omega)).1
      · rw [c2]
        exact F64.half_sum_bounded k hk _ _ (he 1 (by omega) (by omega)).2.2.2
          (he fl.size (by omega) (by omega)).1
      · rw [c3]
        exact F64.half_sum_bounded k hk _ _ (he fl.size (by omega) (by omega)).2.2.1
          (he 1 (by omega) (by omega)).2.1
      · rw [c4]
        exact F64.half_sum_bounded k hk _ _ (he fl.size (by omega) (by omega)).2.2.2
          (he fl.size (by omega) (by omega)).2.1

/-- One sweep of `diffuse` keeps a power-of-two bound on the grid cells. -/
theorem diffuseSweep_bound_f64 (fl : Fluid) (aq : ℚ) (xx x0 : Vektor) (D : Int) (k : Int)
    (ha0 : 0 ≤ aq) (har : Rep aq)
    (hk : -1022 ≤ k ∧ k ≤ 1021) (hP : Rep (aq * (2 : ℚ) ^ (k + 2)))
    (hov1 : 1 + 4 * aq ≤ (2 : ℚ) ^ (1023 : Int))
    (hov2 : (2 : ℚ) ^ k * (1 + 4 * aq) ≤ (2 : ℚ) ^ (1023 : Int))
    (hs : xx.Shape D) (hD : fl.size + 2 ≤ D)
    (h0 : ∀ c d, 1 ≤ c → c ≤ fl.size → 1 ≤ d → d ≤ fl.size →
      F64.Bounded ((2 : ℚ) ^ k) (x0.Get c d))
    (hx : ∀ c d, (0 ≤ c ∧ c ≤ fl.size + 1) → (0 ≤ d ∧ d ≤ fl.size + 1) →
      F64.Bounded ((2 : ℚ) ^ k) (xx.Get c d)) :
    (fl.diffuseSweep (F64.fin aq) xx x0).Shape D
      ∧ ∀ c d, (0 ≤ c ∧ c ≤ fl.size + 1) → (0 ≤ d ∧ d ≤ fl.size + 1) →
        F64.Bounded ((2 : ℚ) ^ k) ((fl.diffuseSweep (F64.fin aq) xx x0).Get c d) := by
  unfold diffuseSweep
  apply gridLoop_invariant (fun t : Vektor => t.Shape D
    ∧ ∀ c d, (0 ≤ c ∧ c ≤ fl.size + 1) → (0 ≤ d ∧ d ≤ fl.size + 1) →
      F64.Bounded ((2 : ℚ) ^ k) (t.Get c d))
    fl.size _ xx ⟨hs, hx⟩
  intro i j t hi1 hi hj1 hj ht
  refine ⟨Vektor.Set_Shape_f64 _ _ _ _ _ ht.1, ?_⟩
  intro c d hc hd
  simp only []
  rw [Vektor.Get_Set_grid_f64 t D fl.size i j c d _ ht.1 hD (by omega) (by omega) hc hd]
  split_ifs
  · obtain ⟨q0, e0, b0⟩ := h0 i j hi1 hi hj1 hj
    obtain ⟨q1, e1, b1⟩ := ht.2 (i - 1) j (by omega) (by omega)
    obtain ⟨q2, e2, b2⟩ := ht.2 (i + 1) j (by omega) (by omega)
    obtain ⟨q3, e3, b3⟩ := ht.2 i (j - 1) (by omega) (by omega)
    obtain ⟨q4, e4, b4⟩ := ht.2 i (j + 1) (by omega) (by omega)
    rw [e0, e1, e2, e3, e4]
    obtain ⟨r1, r2⟩ := F64.relax_fin aq q0 q1 q2 q3 q4 k ha0 har hk hP hov1 hov2 b0 b1 b2 b3 b4
    exact ⟨_, r1, r2⟩
  · exact ht.2 c d hc hd

/-- Any number of iterations of `diffuse` (a sweep, then `setBnd`) keeps a power-of-two
bound on the grid cells. -/
theorem diffuse_sweeps_bound_f64 (fl : Fluid) (bnd : Int) (aq : ℚ) (xx x0 : Vektor)
    (D : Int) (k : Int) (n : Nat) (ha0 : 0 ≤ aq) (har : Rep aq)
    (hk : -1022 ≤ k ∧ k ≤ 1021) (hP : Rep (aq * (2 : ℚ) ^ (k + 2)))
    (hov1 : 1 + 4 * aq ≤ (2 : ℚ) ^ (1023 : Int))
    (hov2 : (2 : ℚ) ^ k * (1 + 4 * aq) ≤ (2 : ℚ) ^ (1023 : Int))
    (hs : xx.Shape D) (hN : 1 ≤ fl.size) (hD : fl.size + 2 ≤ D)
    (h0 : ∀ c d, 1 ≤ c → c ≤ fl.size → 1 ≤ d → d ≤ fl.size →
      F64.Bounded ((2 : ℚ) ^ k) (x0.Get c d))
    (hx : ∀ c d, (0 ≤ c ∧ c ≤ fl.size + 1) → (0 ≤ d ∧ d ≤ fl.size + 1) →
      F64.Bounded ((2 : ℚ) ^ k) (xx.Get c d)) :
    (repeatN n (fun xx =>
        let xx := fl.diffuseSweep (F64.fin aq) xx x0
        fl.setBnd bnd xx) xx).Shape D
      ∧ ∀ c d, (0 ≤ c ∧ c ≤ fl.size + 1) → (0 ≤ d ∧ d ≤ fl.size + 1) →
        F64.Bounded ((2 : ℚ) ^ k) ((repeatN n (fun xx =>
          let xx := fl.diffuseSweep (F64.fin aq) xx x0
          fl.setBnd bnd xx) xx).Get c d) := by
  apply repeatN_invariant (fun t : Vektor => t.Shape D
    ∧ ∀ c d, (0 ≤ c ∧ c ≤ fl.size + 1) → (0 ≤ d ∧ d ≤ fl.size + 1) →
      F64.Bounded ((2 : ℚ) ^ k) (t.Get c d))
    n _ xx ⟨hs, hx⟩
  intro t ht
  obtain ⟨s1, b1⟩ := diffuseSweep_bound_f64 fl aq t x0 D k ha0 har hk hP hov1 hov2 ht.1 hD
    h0 ht.2
  refine ⟨setBnd_Shape_f64 fl bnd _ D s1, ?_⟩
  intro c d hc hd
  exact setBnd_bound_f64 fl bnd _ D k ⟨by omega, by omega⟩ s1 hN hD
    (fun c d hc1 hc hd1 hd => b1 c d (by omega) (by omega)) c d hc hd

end Fluid
end IEEE

/-- A rounded value that is finite is representable. -/
theorem F64.rep_of_round_eq_fin (r q : ℚ) (h : F64.round r = F64.fin q) : Rep q := by
  unfold F64.round at h
  simp only [] at h
  split_ifs at h
  injection h with h
  rw [← h]
  exact rep_rne _

/-- A product of float64 values that is finite is representable. -/
theorem F64.rep_of_mul_eq_fin (x y : F64) (q : ℚ) (h : x * y = F64.fin q) : Rep q := by
  change F64.mul x y = F64.fin q at h
  rcases x with _ | s | a <;> rcases y with _ | t | b <;> simp only [F64.mul] at h
  · cases h
  · cases h
  · cases h
  · cases h
  · cases h
  · split_ifs at h
  · cases h
  · split_ifs at h
  · exact F64.rep_of_round_eq_fin _ _ h

/-! ## Lower bounds on the float64 relaxation step -/

theorem denomQ_ge_one (aq : ℚ) (ha0 : 0 ≤ aq) : 1 ≤ denomQ aq := by
  unfold denomQ
  have h4 : 0 ≤ rne (4 * aq) := rne_nonneg _ (by linarith)
  exact le_rne_of_le _ 1 rep_one (by linarith)

/-- The float64 sum of four nonnegative values is nonnegative. -/
theorem sum4Q_nonneg (q1 q2 q3 q4 : ℚ) (h1 : 0 ≤ q1) (h2 : 0 ≤ q2) (h3 : 0 ≤ q3)
    (h4 : 0 ≤ q4) : 0 ≤ sum4Q q1 q2 q3 q4 := by
  unfold sum4Q
  have a := rne_nonneg (q1 + q2) (by linarith)
  have b := rne_nonneg (rne (q1 + q2) + q3) (by linarith)
  exact rne_nonneg _ (by linarith)

/-- The float64 sum of four nonnegative representable values is at least each of
them. -/
theorem sum4Q_ge (q1 q2 q3 q4 : ℚ) (h1 : 0 ≤ q1) (h2 : 0 ≤ q2) (h3 : 0 ≤ q3)
    (h4 : 0 ≤ q4) (r1 : Rep q1) (r2 : Rep q2) (r3 : Rep q3) (r4 : Rep q4) :
    q1 ≤ sum4Q q1 q2 q3 q4 ∧ q2 ≤ sum4Q q1 q2 q3 q4 ∧ q3 ≤ sum4Q q1 q2 q3 q4
      ∧ q4 ≤ sum4Q q1 q2 q3 q4 := by
  unfold sum4Q
  have a0 := rne_nonneg (q1 + q2) (by linarith)
  have a1 : q1 ≤ rne (q1 + q2) := le_rne_of_le _ _ r1 (by linarith)
  have a2 : q2 ≤ rne (q1 + q2) := le_rne_of_le _ _ r2 (by linarith)
  have b0 := rne_nonneg (rne (q1 + q2) + q3) (by linarith)
  have b1 : rne (q1 + q2) ≤ rne (rne (q1 + q2) + q3) :=
    le_rne_of_le _ _ (rep_rne _) (by linarith)
  have b3 : q3 ≤ rne (rne (q1 + q2) + q3) := le_rne_of_le _ _ r3 (by linarith)
  have c1 : rne (rne (q1 + q2) + q3) ≤ rne (rne (rne (q1 + q2) + q3) + q4) :=
    le_rne_of_le _ _ (rep_rne _) (by linarith)
  have c4 : q4 ≤ rne (rne (rne (q1 + q2) + q3) + q4) := le_rne_of_le _ _ r4 (by linarith)
  exact ⟨by linarith, by linarith, by linarith, c4⟩

/-- The relaxation step on nonnegative operands is nonnegative. -/
theorem relaxQ_nonneg (aq q0 q1 q2 q3 q4 : ℚ) (ha0 : 0 ≤ aq) (h0 : 0 ≤ q0) (h1 : 0 ≤ q1)
    (h2 : 0 ≤ q2) (h3 : 0 ≤ q3) (h4 : 0 ≤ q4) : 0 ≤ relaxQ aq q0 q1 q2 q3 q4 := by
  unfold relaxQ
  have hs := sum4Q_nonneg q1 q2 q3 q4 h1 h2 h3 h4
  have hp := rne_nonneg (aq * sum4Q q1 q2 q3 q4) (mul_nonneg ha0 hs)
  have hn := rne_nonneg (q0 + rne (aq * sum4Q q1 q2 q3 q4)) (by linarith)
  have hd := denomQ_ge_one aq ha0
  exact rne_nonneg _ (div_nonneg hn (by linarith))

/-- The relaxation step is at least the rounded quotient of its source value, when the
neighbours are nonnegative. -/
theorem relaxQ_ge_source (aq q0 q1 q2 q3 q4 : ℚ) (ha0 : 0 ≤ aq) (r0 : Rep q0)
    (h1 : 0 ≤ q1) (h2 : 0 ≤ q2) (h3 : 0 ≤ q3) (h4 : 0 ≤ q4) :
    rne (q0 / denomQ aq) ≤ relaxQ aq q0 q1 q2 q3 q4 := by
  unfold relaxQ
  have hs := sum4Q_nonneg q1 q2 q3 q4 h1 h2 h3 h4
  have hp := rne_nonneg (aq * sum4Q q1 q2 q3 q4) (mul_nonneg ha0 hs)
  have hn : q0 ≤ rne (q0 + rne (aq * sum4Q q1 q2 q3 q4)) :=
    le_rne_of_le _ _ r0 (by linarith)
  have hd := denomQ_ge_one aq ha0
  exact rne_mono _ _ (div_le_div_of_nonneg_right hn (by linarith))

/-- The relaxation step is at least the rounded share of a neighbour's lower bound. -/
theorem relaxQ_ge_neighbour (aq q0 q1 q2 q3 q4 l : ℚ) (ha0 : 0 ≤ aq) (h0 : 0 ≤ q0)
    (h1 : 0 ≤ q1) (h2 : 0 ≤ q2) (h3 : 0 ≤ q3) (h4 : 0 ≤ q4)
    (r1 : Rep q1) (r2 : Rep q2) (r3 : Rep q3) (r4 : Rep q4)
    (hl : l ≤ q1 ∨ l ≤ q2 ∨ l ≤ q3 ∨ l ≤ q4) :
    rne (rne (aq * l) / denomQ aq) ≤ relaxQ aq q0 q1 q2 q3 q4 := by
  unfold relaxQ
  obtain ⟨g1, g2, g3, g4⟩ := sum4Q_ge q1 q2 q3 q4 h1 h2 h3 h4 r1 r2 r3 r4
  have hls : l ≤ sum4Q q1 q2 q3 q4 := by
    rcases hl with h | h | h | h <;> linarith
  have hp : rne (aq * l) ≤ rne (aq * sum4Q q1 q2 q3 q4) :=
    rne_mono _ _ (mul_le_mul_of_nonneg_left hls ha0)
  have hn : rne (aq * l) ≤ rne (q0 + rne (aq * sum4Q q1 q2 q3 q4)) := by
    have := le_rne_of_le (q0 + rne (aq * sum4Q q1 q2 q3 q4)) (rne (aq * sum4Q q1 q2 q3 q4))
      (rep_rne _) (by linarith)
    linarith
  have hd := denomQ_ge_one aq ha0
  exact rne_mono _ _ (div_le_div_of_nonneg_right hn (by linarith))

theorem rep_relaxQ (aq q0 q1 q2 q3 q4 : ℚ) : Rep (relaxQ aq q0 q1 q2 q3 q4) := by
  unfold relaxQ
  exact rep_rne _

/-! ## Diffusion of a spike over float64 -/

namespace F64

theorem within_bounded {hi : ℚ} {x : F64} (h : Within 0 hi x) : Bounded hi x := by
  obtain ⟨q, e, _, h0, h1⟩ := h
  exact ⟨q, e, by rw [abs_of_nonneg h0]; exact h1⟩

theorem within_zero (hi : ℚ) (h : 0 ≤ hi) : Within 0 hi 0 :=
  ⟨0, zero_def, rep_zero, le_refl _, h⟩

/-- The average `0.5 * (p + q)` of two finite values in `[0, 2^k]` is finite,
representable and in `[0, 2^k]`. -/
theorem half_sum_within (k : Int) (hk : -1074 ≤ k ∧ k ≤ 1022) (p q : F64)
    (hp : Within 0 ((2 : ℚ) ^ k) p) (hq : Within 0 ((2 : ℚ) ^ k) q) :
    Within 0 ((2 : ℚ) ^ k) (0.5 * (p + q)) := by
  obtain ⟨a, rfl, _, a0, ha⟩ := hp
  obtain ⟨b, rfl, _, b0, hb⟩ := hq
  have e1 : (2 : ℚ) ^ (k + 1) = 2 * (2 : ℚ) ^ k := by
    rw [zpow_add_one₀ two_ne_zero]; ring
  obtain ⟨a1, b1⟩ := round_of_le (a + b) ((2 : ℚ) ^ (k + 1)) (rep_pow _ (by omega))
    (two_zpow_lt_1024 _ (by omega)) (by
      rw [e1, abs_of_nonneg (by linarith)]
      linarith)
  have n1 : 0 ≤ rne (a + b) := rne_nonneg _ (by linarith)
  obtain ⟨a2, b2⟩ := round_of_le (1 / 2 * rne (a + b)) ((2 : ℚ) ^ k) (rep_pow _ (by omega))
    (two_zpow_lt_1024 _ (by omega)) (by
      rw [abs_mul, abs_of_pos (by norm_num : (0 : ℚ) < 1 / 2)]
      rw [e1] at b1
      linarith)
  refine ⟨_, ?_, rep_rne _, rne_nonneg _ (by linarith), (abs_le.mp b2).2⟩
  rw [half_def, add_fin, a1, mul_fin, a2]

end F64

namespace IEEE
namespace Fluid

/-- One cell update of `diffuseSweep` on a grid whose cells are finite, representable
and in `[0, 2^k]`: the new value is the float64 relaxation step of the operands, and
the grid cells stay finite, representable and in `[0, 2^k]`. -/
theorem diffuseCell_within (fl : Fluid) (aq : ℚ) (t x0 : Vektor) (D : Int) (k : Int)
    (ha0 : 0 ≤ aq) (har : Rep aq) (hk : -1022 ≤ k ∧ k ≤ 1021)
    (hP : Rep (aq * (2 : ℚ) ^ (k + 2)))
    (hov1 : 1 + 4 * aq ≤ (2 : ℚ) ^ (1023 : Int))
    (hov2 : (2 : ℚ) ^ k * (1 + 4 * aq) ≤ (2 : ℚ) ^ (1023 : Int))
    (hD : fl.size + 2 ≤ D) (i j : Int) (hi1 : 1 ≤ i) (hi : i ≤ fl.size) (hj1 : 1 ≤ j)
    (hj : j ≤ fl.size) (q0 : ℚ) (e0 : x0.Get i j = F64.fin q0) (h0 : 0 ≤ q0 ∧ q0 ≤ (2 : ℚ) ^ k)
    (ht : t.Shape D ∧ ∀ c d, (0 ≤ c ∧ c ≤ fl.size + 1) → (0 ≤ d ∧ d ≤ fl.size + 1) →
      F64.Within 0 ((2 : ℚ) ^ k) (t.Get c d)) :
    ∃ q1 q2 q3 q4 : ℚ,
      t.Get (i - 1) j = F64.fin q1 ∧ t.Get (i + 1) j = F64.fin q2
      ∧ t.Get i (j - 1) = F64.fin q3 ∧ t.Get i (j + 1) = F64.fin q4
      ∧ (x0.Get i j + F64.fin aq * (t.Get (i - 1) j + t.Get (i + 1) j + t.Get i (j - 1)
            + t.Get i (j + 1))) / (1 + 4 * F64.fin aq)
          = F64.fin (relaxQ aq q0 q1 q2 q3 q4)
      ∧ (0 ≤ q1 ∧ 0 ≤ q2 ∧ 0 ≤ q3 ∧ 0 ≤ q4) ∧ (Rep q1 ∧ Rep q2 ∧ Rep q3 ∧ Rep q4)
      ∧ ((t.Set i j ((x0.Get i j + F64.fin aq * (t.Get (i - 1) j + t.Get (i + 1) j
            + t.Get i (j - 1) + t.Get i (j + 1))) / (1 + 4 * F64.fin aq))).Shape D
        ∧ ∀ c d, (0 ≤ c ∧ c ≤ fl.size + 1) → (0 ≤ d ∧ d ≤ fl.size + 1) →
          F64.Within 0 ((2 : ℚ) ^ k)
            ((t.Set i j ((x0.Get i j + F64.fin aq * (t.Get (i - 1) j + t.Get (i + 1) j
              + t.Get i (j - 1) + t.Get i (j + 1))) / (1 + 4 * F64.fin aq))).Get c d)) := by
  obtain ⟨q1, e1, r1, n1, b1⟩ := ht.2 (i - 1) j (by omega) (by omega)
  obtain ⟨q2, e2, r2, n2, b2⟩ := ht.2 (i + 1) j (by omega) (by omega)
  obtain ⟨q3, e3, r3, n3, b3⟩ := ht.2 i (j - 1) (by omega) (by omega)
  obtain ⟨q4, e4, r4, n4, b4⟩ := ht.2 i (j + 1) (by omega) (by omega)
  have ab : ∀ q : ℚ, 0 ≤ q → q ≤ (2 : ℚ) ^ k → |q| ≤ (2 : ℚ) ^ k := fun q h0 h1 => by
    rw [abs_of_nonneg h0]; exact h1
  obtain ⟨v1, v2⟩ := F64.relax_fin aq q0 q1 q2 q3 q4 k ha0 har hk hP hov1 hov2
    (ab _ h0.1 h0.2) (ab _ n1 b1) (ab _ n2 b2) (ab _ n3 b3) (ab _ n4 b4)
  have hval : (x0.Get i j + F64.fin aq * (t.Get (i - 1) j + t.Get (i + 1) j
      + t.Get i (j - 1) + t.Get i (j + 1))) / (1 + 4 * F64.fin aq)
      = F64.fin (relaxQ aq q0 q1 q2 q3 q4) := by
    rw [e0, e1, e2, e3, e4]
    exact v1
  refine ⟨q1, q2, q3, q4, e1, e2, e3, e4, hval, ⟨n1, n2, n3, n4⟩, ⟨r1, r2, r3, r4⟩,
    Vektor.Set_Shape_f64 _ _ _ _ _ ht.1, ?_⟩
  intro c d hc hd
  rw [Vektor.Get_Set_grid_f64 t D fl.size i j c d _ ht.1 hD (by omega) (by omega) hc hd]
  split_ifs
  · rw [hval]
    exact ⟨_, rfl, rep_relaxQ _ _ _ _ _ _,
      relaxQ_nonneg aq q0 q1 q2 q3 q4 ha0 h0.1 n1 n2 n3 n4, (abs_le.mp v2).2⟩
  · exact ht.2 c d hc hd

/-- One cell update of `diffuseSweep` leaves the spike cell at or above
`rne (s / denomQ aq)`: updating the spike cell itself writes such a value, updating
another cell does not touch it. -/
theorem diffuseCell_spike_f64 (fl : Fluid) (aq s : ℚ) (t x0 : Vektor) (D : Int) (k : Int)
    (ha0 : 0 ≤ aq) (har : Rep aq) (hk : -1022 ≤ k ∧ k ≤ 1021)
    (hP : Rep (aq * (2 : ℚ) ^ (k + 2)))
    (hov1 : 1 + 4 * aq ≤ (2 : ℚ) ^ (1023 : Int))
    (hov2 : (2 : ℚ) ^ k * (1 + 4 * aq) ≤ (2 : ℚ) ^ (1023 : Int))
    (hD : fl.size + 2 ≤ D) (ci cj : Int) (hci : 1 ≤ ci ∧ ci ≤ fl.size)
    (hcj : 1 ≤ cj ∧ cj ≤ fl.size)
    (hc : x0.Get ci cj = F64.fin s) (hs : Rep s) (hs0 : 0 ≤ s ∧ s ≤ (2 : ℚ) ^ k)
    (i j : Int) (hi1 : 1 ≤ i) (hi : i ≤ fl.size) (hj1 : 1 ≤ j) (hj : j ≤ fl.size)
    (h0 : F64.Within 0 ((2 : ℚ) ^ k) (x0.Get i j))
    (ht : t.Shape D ∧ ∀ c d, (0 ≤ c ∧ c ≤ fl.size + 1) → (0 ≤ d ∧ d ≤ fl.size + 1) →
      F64.Within 0 ((2 : ℚ) ^ k) (t.Get c d))
    (htc : (i = ci ∧ j = cj) ∨ ∃ q, t.Get ci cj = F64.fin q ∧ rne (s / denomQ aq) ≤ q) :
    ∃ q, (t.Set i j ((x0.Get i j + F64.fin aq * (t.Get (i - 1) j + t.Get (i + 1) j
        + t.Get i (j - 1) + t.Get i (j + 1))) / (1 + 4 * F64.fin aq))).Get ci cj = F64.fin q
      ∧ rne (s / denomQ aq) ≤ q := by
  rw [Vektor.Get_Set_grid_f64 t D fl.size i j ci cj _ ht.1 hD (by omega) (by omega) (by omega)
    (by omega)]
  split_ifs with h
  · obtain ⟨rfl, rfl⟩ := h
    obtain ⟨q1, q2, q3, q4, _, _, _, _, hval, ⟨n1, n2, n3, n4⟩, _, _⟩ :=
      diffuseCell_within fl aq t x0 D k ha0 har hk hP hov1 hov2 hD ci cj hi1 hi hj1 hj s hc hs0
        ht
    rw [hval]
    exact ⟨_, rfl, relaxQ_ge_source aq s q1 q2 q3 q4 ha0 hs n1 n2 n3 n4⟩
  · rcases htc with h2 | h2
    · exact absurd ⟨h2.1.symm, h2.2.symm⟩ h
    · exact h2

/-- One sweep of `diffuse` keeps the grid cells finite, representable and in `[0, 2^k]`,
and leaves the spike cell at or above `rne (s / denomQ aq)`. -/
theorem diffuseSweep_spike_f64 (fl : Fluid) (aq s : ℚ) (t x0 : Vektor) (D : Int) (k : Int)
    (ha0 : 0 ≤ aq) (har : Rep aq) (hk : -1022 ≤ k ∧ k ≤ 1021)
    (hP : Rep (aq * (2 : ℚ) ^ (k + 2)))
    (hov1 : 1 + 4 * aq ≤ (2 : ℚ) ^ (1023 : Int))
    (hov2 : (2 : ℚ) ^ k * (1 + 4 * aq) ≤ (2 : ℚ) ^ (1023 : Int))
    (hD : fl.size + 2 ≤ D) (ci cj : Int) (hci : 1 ≤ ci ∧ ci ≤ fl.size)
    (hcj : 1 ≤ cj ∧ cj ≤ fl.size)
    (hc : x0.Get ci cj = F64.fin s) (hs : Rep s) (hs0 : 0 ≤ s ∧ s ≤ (2 : ℚ) ^ k)
    (h0 : ∀ i j, 1 ≤ i → i ≤ fl.size → 1 ≤ j → j ≤ fl.size →
      F64.Within 0 ((2 : ℚ) ^ k) (x0.Get i j))
    (ht : t.Shape D ∧ ∀ c d, (0 ≤ c ∧ c ≤ fl.size + 1) → (0 ≤ d ∧ d ≤ fl.size + 1) →
      F64.Within 0 ((2 : ℚ) ^ k) (t.Get c d)) :
    ((fl.diffuseSweep (F64.fin aq) t x0).Shape D
        ∧ ∀ c d, (0 ≤ c ∧ c ≤ fl.size + 1) → (0 ≤ d ∧ d ≤ fl.size + 1) →
          F64.Within 0 ((2 : ℚ) ^ k) ((fl.diffuseSweep (F64.fin aq) t x0).Get c d))
      ∧ ∃ q, (fl.diffuseSweep (F64.fin aq) t x0).Get ci cj = F64.fin q
        ∧ rne (s / denomQ aq) ≤ q := by
  have cellJ : ∀ i j (t : Vektor), 1 ≤ i → i ≤ fl.size → 1 ≤ j → j ≤ fl.size →
      (t.Shape D ∧ ∀ c d, (0 ≤ c ∧ c ≤ fl.size + 1) → (0 ≤ d ∧ d ≤ fl.size + 1) →
        F64.Within 0 ((2 : ℚ) ^ k) (t.Get c d)) →
      ((t.Set i j ((x0.Get i j + F64.fin aq * (t.Get (i - 1) j + t.Get (i + 1) j
            + t.Get i (j - 1) + t.Get i (j + 1))) / (1 + 4 * F64.fin aq))).Shape D
        ∧ ∀ c d, (0 ≤ c ∧ c ≤ fl.size + 1) → (0 ≤ d ∧ d ≤ fl.size + 1) →
          F64.Within 0 ((2 : ℚ) ^ k)
            ((t.Set i j ((x0.Get i j + F64.fin aq * (t.Get (i - 1) j + t.Get (i + 1) j
              + t.Get i (j - 1) + t.Get i (j + 1))) / (1 + 4 * F64.fin aq))).Get c d)) := by
    intro i j t hi1 hi hj1 hj ht
    obtain ⟨q0, e0, _, a0, b0⟩ := h0 i j hi1 hi hj1 hj
    obtain ⟨_, _, _, _, _, _, _, _, _, _, _, hJ⟩ :=
      diffuseCell_within fl aq t x0 D k ha0 har hk hP hov1 hov2 hD i j hi1 hi hj1 hj q0 e0
        ⟨a0, b0⟩ ht
    exact hJ
  unfold diffuseSweep
  exact gridLoop_phase
    (fun t : Vektor => t.Shape D
      ∧ ∀ c d, (0 ≤ c ∧ c ≤ fl.size + 1) → (0 ≤ d ∧ d ≤ fl.size + 1) →
        F64.Within 0 ((2 : ℚ) ^ k) (t.Get c d))
    (fun t : Vektor => (t.Shape D
      ∧ ∀ c d, (0 ≤ c ∧ c ≤ fl.size + 1) → (0 ≤ d ∧ d ≤ fl.size + 1) →
        F64.Within 0 ((2 : ℚ) ^ k) (t.Get c d))
      ∧ ∃ q, t.Get ci cj = F64.fin q ∧ rne (s / denomQ aq) ≤ q)
    fl.size ci cj
    (fun i j xx =>
      let num := x0.Get i j
        + F64.fin aq * (xx.Get (i - 1) j + xx.Get (i + 1) j + xx.Get i (j - 1)
          + xx.Get i (j + 1))
      let result := num / (1 + 4 * F64.fin aq)
      xx.Set i j result)
    t hci.1 hci.2 hcj.1 hcj.2 ht
    (fun i j t hi1 hi hj1 hj _ ht => cellJ i j t hi1 hi hj1 hj ht)
    (fun t ht =>
      ⟨cellJ ci cj t hci.1 hci.2 hcj.1 hcj.2 ht,
        diffuseCell_spike_f64 fl aq s t x0 D k ha0 har hk hP hov1 hov2 hD ci cj hci hcj hc hs
          hs0 ci cj hci.1 hci.2 hcj.1 hcj.2 (h0 ci cj hci.1 hci.2 hcj.1 hcj.2) ht
          (Or.inl ⟨rfl, rfl⟩)⟩)
    (fun i j t hi1 hi hj1 hj _ ht =>
      ⟨cellJ i j t hi1 hi hj1 hj ht.1,
        diffuseCell_spike_f64 fl aq s t x0 D k ha0 har hk hP hov1 hov2 hD ci cj hci hcj hc hs
          hs0 i j hi1 hi hj1 hj (h0 i j hi1 hi hj1 hj) ht.1 (Or.inr ht.2)⟩)

/-- One sweep of `diffuse` on a grid whose spike cell is at or above
`l1 = rne (s / denomQ aq)` leaves each interior cell next to the spike cell at or above
`rne (rne (aq * l1) / denomQ aq)`. -/
theorem diffuseSweep_neighbour_f64 (fl : Fluid) (aq s : ℚ) (t x0 : Vektor) (D : Int)
    (k : Int) (ha0 : 0 ≤ aq) (har : Rep aq) (hk : -1022 ≤ k ∧ k ≤ 1021)
    (hP : Rep (aq * (2 : ℚ) ^ (k + 2)))
    (hov1 : 1 + 4 * aq ≤ (2 : ℚ) ^ (1023 : Int))
    (hov2 : (2 : ℚ) ^ k * (1 + 4 * aq) ≤ (2 : ℚ) ^ (1023 : Int))
    (hD : fl.size + 2 ≤ D) (ci cj : Int) (hci : 1 ≤ ci ∧ ci ≤ fl.size)
    (hcj : 1 ≤ cj ∧ cj ≤ fl.size)
    (hc : x0.Get ci cj = F64.fin s) (hs : Rep s) (hs0 : 0 ≤ s ∧ s ≤ (2 : ℚ) ^ k)
    (h0 : ∀ i j, 1 ≤ i → i ≤ fl.size → 1 ≤ j → j ≤ fl.size →
      F64.Within 0 ((2 : ℚ) ^ k) (x0.Get i j))
    (ht : t.Shape D ∧ ∀ c d, (0 ≤ c ∧ c ≤ fl.size + 1) → (0 ≤ d ∧ d ≤ fl.size + 1) →
      F64.Within 0 ((2 : ℚ) ^ k) (t.Get c d))
    (htc : ∃ q, t.Get ci cj = F64.fin q ∧ rne (s / denomQ aq) ≤ q)
    (n1 n2 : Int) (hn1 : 1 ≤ n1 ∧ n1 ≤ fl.size) (hn2 : 1 ≤ n2 ∧ n2 ≤ fl.size)
    (hadj : (n1 - 1 = ci ∧ n2 = cj) ∨ (n1 + 1 = ci ∧ n2 = cj)
      ∨ (n1 = ci ∧ n2 - 1 = cj) ∨ (n1 = ci ∧ n2 + 1 = cj)) :
    ∃ q, (fl.diffuseSweep (F64.fin aq) t x0).Get n1 n2 = F64.fin q
      ∧ rne (rne (aq * rne (s / denomQ aq)) / denomQ aq) ≤ q := by
  have cellJ : ∀ i j (t : Vektor), 1 ≤ i → i ≤ fl.size → 1 ≤ j → j ≤ fl.size →
      (t.Shape D ∧ ∀ c d, (0 ≤ c ∧ c ≤ fl.size + 1) → (0 ≤ d ∧ d ≤ fl.size + 1) →
        F64.Within 0 ((2 : ℚ) ^ k) (t.Get c d)) →
      ((t.Set i j ((x0.Get i j + F64.fin aq * (t.Get (i - 1) j + t.Get (i + 1) j
            + t.Get i (j - 1) + t.Get i (j + 1))) / (1 + 4 * F64.fin aq))).Shape D
        ∧ ∀ c d, (0 ≤ c ∧ c ≤ fl.size + 1) → (0 ≤ d ∧ d ≤ fl.size + 1) →
          F64.Within 0 ((2 : ℚ) ^ k)
            ((t.Set i j ((x0.Get i j + F64.fin aq * (t.Get (i - 1) j + t.Get (i + 1) j
              + t.Get i (j - 1) + t.Get i (j + 1))) / (1 + 4 * F64.fin aq))).Get c d)) := by
    intro i j t hi1 hi hj1 hj ht
    obtain ⟨q0, e0, _, a0, b0⟩ := h0 i j hi1 hi hj1 hj
    obtain ⟨_, _, _, _, _, _, _, _, _, _, _, hJ⟩ :=
      diffuseCell_within fl aq t x0 D k ha0 har hk hP hov1 hov2 hD i j hi1 hi hj1 hj q0 e0
        ⟨a0, b0⟩ ht
    exact hJ
  have cellC : ∀ i j (t : Vektor), 1 ≤ i → i ≤ fl.size → 1 ≤ j → j ≤ fl.size →
      (t.Shape D ∧ ∀ c d, (0 ≤ c ∧ c ≤ fl.size + 1) → (0 ≤ d ∧ d ≤ fl.size + 1) →
        F64.Within 0 ((2 : ℚ) ^ k) (t.Get c d)) →
      (∃ q, t.Get ci cj = F64.fin q ∧ rne (s / denomQ aq) ≤ q) →
      ∃ q, (t.Set i j ((x0.Get i j + F64.fin aq * (t.Get (i - 1) j + t.Get (i + 1) j
          + t.Get i (j - 1) + t.Get i (j + 1))) / (1 + 4 * F64.fin aq))).Get ci cj
          = F64.fin q ∧ rne (s / denomQ aq) ≤ q :=
    fun i j t hi1 hi hj1 hj ht hq =>
      diffuseCell_spike_f64 fl aq s t x0 D k ha0 har hk hP hov1 hov2 hD ci cj hci hcj hc hs
        hs0 i j hi1 hi hj1 hj (h0 i j hi1 hi hj1 hj) ht (Or.inr hq)
  unfold diffuseSweep
  have key := gridLoop_phase
    (fun t : Vektor => (t.Shape D
      ∧ ∀ c d, (0 ≤ c ∧ c ≤ fl.size + 1) → (0 ≤ d ∧ d ≤ fl.size + 1) →
        F64.Within 0 ((2 : ℚ) ^ k) (t.Get c d))
      ∧ ∃ q, t.Get ci cj = F64.fin q ∧ rne (s / denomQ aq) ≤ q)
    (fun t : Vektor => ((t.Shape D
      ∧ ∀ c d, (0 ≤ c ∧ c ≤ fl.size + 1) → (0 ≤ d ∧ d ≤ fl.size + 1) →
        F64.Within 0 ((2 : ℚ) ^ k) (t.Get c d))
      ∧ ∃ q, t.Get ci cj = F64.fin q ∧ rne (s / denomQ aq) ≤ q)
      ∧ ∃ q, t.Get n1 n2 = F64.fin q
        ∧ rne (rne (aq * rne (s / denomQ aq)) / denomQ aq) ≤ q)
    fl.size n1 n2
    (fun i j xx =>
      let num := x0.Get i j
        + F64.fin aq * (xx.Get (i - 1) j + xx.Get (i + 1) j + xx.Get i (j - 1)
          + xx.Get i (j + 1))
      let result := num / (1 + 4 * F64.fin aq)
      xx.Set i j result)
    t hn1.1 hn1.2 hn2.1 hn2.2 ⟨ht, htc⟩
    (fun i j t hi1 hi hj1 hj _ ht =>
      ⟨cellJ i j t hi1 hi hj1 hj ht.1, cellC i j t hi1 hi hj1 hj ht.1 ht.2⟩)
    (fun t ht => by
      refine ⟨⟨cellJ n1 n2 t hn1.1 hn1.2 hn2.1 hn2.2 ht.1,
        cellC n1 n2 t hn1.1 hn1.2 hn2.1 hn2.2 ht.1 ht.2⟩, ?_⟩
      obtain ⟨q0, e0, _, a0, b0⟩ := h0 n1 n2 hn1.1 hn1.2 hn2.1 hn2.2
      obtain ⟨q1, q2, q3, q4, e1, e2, e3, e4, hval, ⟨m1, m2, m3, m4⟩, ⟨r1, r2, r3, r4⟩, _⟩ :=
        diffuseCell_within fl aq t x0 D k ha0 har hk hP hov1 hov2 hD n1 n2 hn1.1 hn1.2 hn2.1
          hn2.2 q0 e0 ⟨a0, b0⟩ ht.1
      obtain ⟨qc, ec, lc⟩ := ht.2
      show ∃ q, (t.Set n1 n2 ((x0.Get n1 n2 + F64.fin aq * (t.Get (n1 - 1) n2
        + t.Get (n1 + 1) n2 + t.Get n1 (n2 - 1) + t.Get n1 (n2 + 1)))
        / (1 + 4 * F64.fin aq))).Get n1 n2 = F64.fin q ∧ _
      rw [Vektor.Get_Set_grid_f64 t D fl.size n1 n2 n1 n2 _ ht.1.1 hD (by omega) (by omega)
        (by omega) (by omega), if_pos ⟨rfl, rfl⟩, hval]
      refine ⟨_, rfl, relaxQ_ge_neighbour aq q0 q1 q2 q3 q4 _ ha0 a0 m1 m2 m3 m4 r1 r2 r3 r4
        ?_⟩
      rcases hadj with h | h | h | h
      · rw [← h.1, ← h.2, e1] at ec
        injection ec with ec
        exact Or.inl (by rw [ec]; exact lc)
      · rw [← h.1, ← h.2, e2] at ec
        injection ec with ec
        exact Or.inr (Or.inl (by rw [ec]; exact lc))
      · rw [← h.1, ← h.2, e3] at ec
        injection ec with ec
        exact Or.inr (Or.inr (Or.inl (by rw [ec]; exact lc)))
      · rw [← h.1, ← h.2, e4] at ec
        injection ec with ec
        exact Or.inr (Or.inr (Or.inr (by rw [ec]; exact lc))))
    (fun i j t hi1 hi hj1 hj hne ht => by
      refine ⟨⟨cellJ i j t hi1 hi hj1 hj ht.1.1, cellC i j t hi1 hi hj1 hj ht.1.1 ht.1.2⟩, ?_⟩
      show ∃ q, (t.Set i j ((x0.Get i j + F64.fin aq * (t.Get (i - 1) j + t.Get (i + 1) j
        + t.Get i (j - 1) + t.Get i (j + 1))) / (1 + 4 * F64.fin aq))).Get n1 n2
        = F64.fin q ∧ _
      rw [Vektor.Get_Set_grid_f64 t D fl.size i j n1 n2 _ ht.1.1.1 hD (by omega) (by omega)
        (by omega) (by omega), if_neg (fun h => hne ⟨h.1.symm, h.2.symm⟩)]
      exact ht.2)
  exact key.2

end Fluid
end IEEE

/-- A finite float64 value is above 0 exactly when its rational value is. -/
theorem F64.pos_fin (q : ℚ) : (0 : F64) < F64.fin q ↔ 0 < q := by
  rw [F64.zero_def]
  show F64.lt (F64.fin 0) (F64.fin q) = true ↔ 0 < q
  simp [F64.lt]

/-- The float64 value `a * (s / (1 + 4*a)) / (1 + 4*a)` on finite operands `a ≥ 0` and
`0 ≤ s ≤ 2^k` that stay below the overflow threshold. -/
theorem F64.spike_share_fin (aq s : ℚ) (k : Int) (ha0 : 0 ≤ aq) (har : Rep aq)
    (hk : -1022 ≤ k ∧ k ≤ 1021)
    (hov1 : 1 + 4 * aq ≤ (2 : ℚ) ^ (1023 : Int))
    (hov2 : (2 : ℚ) ^ k * (1 + 4 * aq) ≤ (2 : ℚ) ^ (1023 : Int))
    (hs0 : 0 ≤ s ∧ s ≤ (2 : ℚ) ^ k) :
    (F64.fin aq * (F64.fin s / (1 + 4 * F64.fin aq)) / (1 + 4 * F64.fin aq) : F64)
      = F64.fin (rne (rne (aq * rne (s / denomQ aq)) / denomQ aq)) := by
  obtain ⟨d1, _, d3, _⟩ := F64.denom_fin aq ha0 har hov1
  have hM := two_zpow_pos k
  have dpos : 0 < denomQ aq := by linarith
  have r1023 : Rep ((2 : ℚ) ^ (1023 : Int)) := rep_pow _ (by norm_num)
  have l1024 := two_zpow_lt_1024 1023 (le_refl _)
  have rk : Rep ((2 : ℚ) ^ k) := rep_pow _ (by omega)
  have lk := two_zpow_lt_1024 k (by omega)
  have q1 : |s / denomQ aq| ≤ (2 : ℚ) ^ k := by
    rw [abs_of_nonneg (div_nonneg hs0.1 dpos.le)]
    exact le_trans (div_le_self hs0.1 d3) hs0.2
  obtain ⟨a1, b1⟩ := F64.round_of_le _ _ rk lk q1
  have n1 : 0 ≤ rne (s / denomQ aq) := rne_nonneg _ (div_nonneg hs0.1 dpos.le)
  have b1' : rne (s / denomQ aq) ≤ (2 : ℚ) ^ k := (abs_le.mp b1).2
  have q2 : |aq * rne (s / denomQ aq)| ≤ (2 : ℚ) ^ (1023 : Int) := by
    rw [abs_of_nonneg (mul_nonneg ha0 n1)]
    have : aq * rne (s / denomQ aq) ≤ aq * (2 : ℚ) ^ k := mul_le_mul_of_nonneg_left b1' ha0
    nlinarith
  obtain ⟨a2, b2⟩ := F64.round_of_le _ _ r1023 l1024 q2
  have n2 : 0 ≤ rne (aq * rne (s / denomQ aq)) := rne_nonneg _ (mul_nonneg ha0 n1)
  have q3 : |rne (aq * rne (s / denomQ aq)) / denomQ aq| ≤ (2 : ℚ) ^ (1023 : Int) := by
    rw [abs_of_nonneg (div_nonneg n2 dpos.le)]
    exact le_trans (div_le_self n2 d3) (abs_le.mp b2).2
  obtain ⟨a3, _⟩ := F64.round_of_le _ _ r1023 l1024 q3
  rw [d1, F64.div_fin _ _ dpos.ne', a1, F64.mul_fin, a2, F64.div_fin _ _ dpos.ne', a3]

namespace IEEE
namespace Fluid

/-- With code 0, `setBnd` copies the adjacent interior cell into each edge cell. -/
theorem setBnd_copy_f64 (fl : Fluid) (x : Vektor) (D : Int)
    (hs : x.Shape D) (hN : 1 ≤ fl.size) (hD : fl.size + 2 ≤ D) :
    (∀ a b, 1 ≤ a → a ≤ fl.size → 1 ≤ b → b ≤ fl.size →
        (fl.setBnd 0 x).Get a b = x.Get a b)
      ∧ ∀ k, 1 ≤ k → k ≤ fl.size →
        (fl.setBnd 0 x).Get 0 k = x.Get 1 k
          ∧ (fl.setBnd 0 x).Get (fl.size + 1) k = x.Get fl.size k
          ∧ (fl.setBnd 0 x).Get k 0 = x.Get k 1
          ∧ (fl.setBnd 0 x).Get k (fl.size + 1) = x.Get k fl.size := by
  obtain ⟨_, hint, hedge, _⟩ := setBnd_spec_f64 fl 0 x D hs hN hD
  have s1 : ∀ y : F64, bndSign 0 1 * y = y := fun _ => rfl
  have s2 : ∀ y : F64, bndSign 0 2 * y = y := fun _ => rfl
  refine ⟨hint, ?_⟩
  intro k hk1 hk
  obtain ⟨e1, e2, e3, e4⟩ := hedge k hk1 hk
  rw [s1] at e1 e2
  rw [s2] at e3 e4
  exact ⟨e1.trans (hint 1 k (by omega) (by omega) hk1 hk),
    e2.trans (hint fl.size k (by omega) (by omega) hk1 hk),
    e3.trans (hint k 1 hk1 hk (by omega) (by omega)),
    e4.trans (hint k fl.size hk1 hk (by omega) (by omega))⟩

/-- With code 0, `setBnd` keeps the grid cells finite, representable and in `[0, 2^k]`
when the interior cells are. -/
theorem setBnd_within_f64 (fl : Fluid) (x : Vektor) (D : Int) (k : Int)
    (hk : -1074 ≤ k ∧ k ≤ 1022)
    (hs : x.Shape D) (hN : 1 ≤ fl.size) (hD : fl.size + 2 ≤ D)
    (hx : ∀ a b, 1 ≤ a → a ≤ fl.size → 1 ≤ b → b ≤ fl.size →
      F64.Within 0 ((2 : ℚ) ^ k) (x.Get a b))
    (a b : Int) (ha : 0 ≤ a ∧ a ≤ fl.size + 1) (hb : 0 ≤ b ∧ b ≤ fl.size + 1) :
    F64.Within 0 ((2 : ℚ) ^ k) ((fl.setBnd 0 x).Get a b) := by
  obtain ⟨_, _, _, c1, c2, c3, c4⟩ := setBnd_spec_f64 fl 0 x D hs hN hD
  obtain ⟨hint, hedge⟩ := setBnd_copy_f64 fl x D hs hN hD
  have he : ∀ j, 1 ≤ j → j ≤ fl.size →
      F64.Within 0 ((2 : ℚ) ^ k) ((fl.setBnd 0 x).Get 0 j)
        ∧ F64.Within 0 ((2 : ℚ) ^ k) ((fl.setBnd 0 x).Get (fl.size + 1) j)
        ∧ F64.Within 0 ((2 : ℚ) ^ k) ((fl.setBnd 0 x).Get j 0)
        ∧ F64.Within 0 ((2 : ℚ) ^ k) ((fl.setBnd 0 x).Get j (fl.size + 1)) := by
    intro j hj1 hj
    obtain ⟨e1, e2, e3, e4⟩ := hedge j hj1 hj
    rw [e1, e2, e3, e4]
    exact ⟨hx 1 j (by omega) (by omega) hj1 hj, hx fl.size j (by omega) (by omega) hj1 hj,
      hx j 1 hj1 hj (by omega) (by omega), hx j fl.size hj1 hj (by omega) (by omega)⟩
  by_cases hai : 1 ≤ a ∧ a ≤ fl.size
  · by_cases hbi : 1 ≤ b ∧ b ≤ fl.size
    · rw [hint a b hai.1 hai.2 hbi.1 hbi.2]
      exact hx a b hai.1 hai.2 hbi.1 hbi.2
    · have hb2 : b = 0 ∨ b = fl.size + 1 := by omega
      rcases hb2 with rfl | rfl
      · exact (he a hai.1 hai.2).2.2.1
      · exact (he a hai.1 hai.2).2.2.2
  · have ha2 : a = 0 ∨ a = fl.size + 1 := by omega
    by_cases hbi : 1 ≤ b ∧ b ≤ fl.size
    · rcases ha2 with rfl | rfl
      · exact (he b hbi.1 hbi.2).1
      · exact (he b hbi.1 hbi.2).2.1
    · have hb2 : b = 0 ∨ b = fl.size + 1 := by omega
      rcases ha2 with rfl | rfl <;> rcases hb2 with rfl | rfl
      · rw [c1]
        exact F64.half_sum_within k hk _ _ (he 1 (by omega) (by omega)).2.2.1
          (he 1 (by omega) (by omega)).1
      · rw [c2]
        exact F64.half_sum_within k hk _ _ (he 1 (by omega) (by omega)).2.2.2
          (he fl.size (by omega) (by omega)).1
      · rw [c3]
        exact F64.half_sum_within k hk _ _ (he fl.size (by omega) (by omega)).2.2.1
          (he 1 (by omega) (by omega)).2.1
      · rw [c4]
        exact F64.half_sum_within k hk _ _ (he fl.size (by omega) (by omega)).2.2.2
          (he fl.size (by omega) (by omega)).2.1

/-- One iteration of `diffuse` with code 0 (a sweep, then `setBnd`) on a grid with
finite representable cells in `[0, 2^k]`: the cells stay so, the spike cell is above 0
afterwards, and if it was at or above `rne (s / denomQ aq)` before, its four neighbours
are above 0 afterwards. -/
theorem diffuse_iteration_spike_f64 (fl : Fluid) (aq s : ℚ) (t x0 : Vektor) (D : Int)
    (k : Int) (ha0 : 0 ≤ aq) (har : Rep aq) (hk : -1022 ≤ k ∧ k ≤ 1021)
    (hP : Rep (aq * (2 : ℚ) ^ (k + 2)))
    (hov1 : 1 + 4 * aq ≤ (2 : ℚ) ^ (1023 : Int))
    (hov2 : (2 : ℚ) ^ k * (1 + 4 * aq) ≤ (2 : ℚ) ^ (1023 : Int))
    (hN : 1 ≤ fl.size) (hD : fl.size + 2 ≤ D) (ci cj : Int)
    (hci : 1 ≤ ci ∧ ci ≤ fl.size) (hcj : 1 ≤ cj ∧ cj ≤ fl.size)
    (hc : x0.Get ci cj = F64.fin s) (hs : Rep s) (hs0 : 0 ≤ s ∧ s ≤ (2 : ℚ) ^ k)
    (hl1 : 0 < rne (s / denomQ aq))
    (hl2 : 0 < rne (rne (aq * rne (s / denomQ aq)) / denomQ aq))
    (h0 : ∀ i j, 1 ≤ i → i ≤ fl.size → 1 ≤ j → j ≤ fl.size →
      F64.Within 0 ((2 : ℚ) ^ k) (x0.Get i j))
    (ht : t.Shape D ∧ ∀ c d, (0 ≤ c ∧ c ≤ fl.size + 1) → (0 ≤ d ∧ d ≤ fl.size + 1) →
      F64.Within 0 ((2 : ℚ) ^ k) (t.Get c d)) :
    ((fl.setBnd 0 (fl.diffuseSweep (F64.fin aq) t x0)).Shape D
        ∧ ∀ c d, (0 ≤ c ∧ c ≤ fl.size + 1) → (0 ≤ d ∧ d ≤ fl.size + 1) →
          F64.Within 0 ((2 : ℚ) ^ k)
            ((fl.setBnd 0 (fl.diffuseSweep (F64.fin aq) t x0)).Get c d))
      ∧ (∃ q, (fl.setBnd 0 (fl.diffuseSweep (F64.fin aq) t x0)).Get ci cj = F64.fin q
          ∧ rne (s / denomQ aq) ≤ q)
      ∧ ((∃ q, t.Get ci cj = F64.fin q ∧ rne (s / denomQ aq) ≤ q) →
          0 < (fl.setBnd 0 (fl.diffuseSweep (F64.fin aq) t x0)).Get (ci - 1) cj
            ∧ 0 < (fl.setBnd 0 (fl.diffuseSweep (F64.fin aq) t x0)).Get (ci + 1) cj
            ∧ 0 < (fl.setBnd 0 (fl.diffuseSweep (F64.fin aq) t x0)).Get ci (cj - 1)
            ∧ 0 < (fl.setBnd 0 (fl.diffuseSweep (F64.fin aq) t x0)).Get ci (cj + 1)) := by
  obtain ⟨⟨ss, sr⟩, sc⟩ := diffuseSweep_spike_f64 fl aq s t x0 D k ha0 har hk hP hov1 hov2 hD
    ci cj hci hcj hc hs hs0 h0 ht
  obtain ⟨hint, hedge⟩ := setBnd_copy_f64 fl (fl.diffuseSweep (F64.fin aq) t x0) D ss hN hD
  have scpos : 0 < (fl.diffuseSweep (F64.fin aq) t x0).Get ci cj := by
    obtain ⟨q, e, l⟩ := sc
    rw [e, F64.pos_fin]
    linarith
  refine ⟨⟨setBnd_Shape_f64 fl 0 _ D ss, fun c d hc2 hd2 =>
    setBnd_within_f64 fl _ D k ⟨by omega, by omega⟩ ss hN hD
      (fun a b ha1 ha2 hb1 hb2 => sr a b (by omega) (by omega)) c d hc2 hd2⟩, ?_, ?_⟩
  · rw [hint ci cj hci.1 hci.2 hcj.1 hcj.2]
    exact sc
  · intro htc
    have nb : ∀ n1 n2 : Int, (1 ≤ n1 ∧ n1 ≤ fl.size) → (1 ≤ n2 ∧ n2 ≤ fl.size) →
        ((n1 - 1 = ci ∧ n2 = cj) ∨ (n1 + 1 = ci ∧ n2 = cj)
          ∨ (n1 = ci ∧ n2 - 1 = cj) ∨ (n1 = ci ∧ n2 + 1 = cj)) →
        0 < (fl.diffuseSweep (F64.fin aq) t x0).Get n1 n2 := by
      intro n1 n2 hn1 hn2 hadj
      obtain ⟨q, e, l⟩ := diffuseSweep_neighbour_f64 fl aq s t x0 D k ha0 har hk hP hov1 hov2
        hD ci cj hci hcj hc hs hs0 h0 ht htc n1 n2 hn1 hn2 hadj
      rw [e, F64.pos_fin]
      linarith
    refine ⟨?_, ?_, ?_, ?_⟩
    · by_cases h : 1 ≤ ci - 1
      · rw [hint (ci - 1) cj h (by omega) hcj.1 hcj.2]
        exact nb (ci - 1) cj ⟨h, by omega⟩ hcj (Or.inr (Or.inl ⟨by omega, rfl⟩))
      · have e : ci - 1 = 0 := by omega
        have e1 : ci = 1 := by omega
        rw [e, (hedge cj hcj.1 hcj.2).1, ← e1]
        exact scpos
    · by_cases h : ci + 1 ≤ fl.size
      · rw [hint (ci + 1) cj (by omega) h hcj.1 hcj.2]
        exact nb (ci + 1) cj ⟨by omega, h⟩ hcj (Or.inl ⟨by omega, rfl⟩)
      · have e : ci = fl.size := by omega
        rw [e, (hedge cj hcj.1 hcj.2).2.1, ← e]
        exact scpos
    · by_cases h : 1 ≤ cj - 1
      · rw [hint ci (cj - 1) hci.1 hci.2 h (by omega)]
        exact nb ci (cj - 1) hci ⟨h, by omega⟩ (Or.inr (Or.inr (Or.inr ⟨rfl, by omega⟩)))
      · have e : cj - 1 = 0 := by omega
        have e1 : cj = 1 := by omega
        rw [e, (hedge ci hci.1 hci.2).2.2.1, ← e1]
        exact scpos
    · by_cases h : cj + 1 ≤ fl.size
      · rw [hint ci (cj + 1) hci.1 hci.2 (by omega) h]
        exact nb ci (cj + 1) hci ⟨by omega, h⟩ (Or.inr (Or.inr (Or.inl ⟨rfl, by omega⟩)))
      · have e : cj = fl.size := by omega
        rw [e, (hedge ci hci.1 hci.2).2.2.2, ← e]
        exact scpos

end Fluid
end IEEE

/-- The exponent condition under which the product of `aq` with a sum bounded by
`2^(k+2)` rounds without leaving the representable multiples: `aq` is 0, or `k ≥ -2`,
or `aq * 2^(k+2)` is in the normal range. -/
theorem rep_scaled_coefficient (aq : ℚ) (k : Int) (ha0 : 0 ≤ aq) (har : Rep aq)
    (hunder : aq = 0 ∨ -2 ≤ k ∨ (2 : ℚ) ^ (-1022 : Int) ≤ aq * (2 : ℚ) ^ (k + 2)) :
    Rep (aq * (2 : ℚ) ^ (k + 2)) := by
  rcases hunder with h | h | h
  · rw [h, zero_mul]
    exact rep_zero
  · exact rep_mul_pow aq (k + 2) (by omega) har
  · by_cases hk : 0 ≤ k + 2
    · exact rep_mul_pow aq (k + 2) hk har
    · have h1 : (2 : ℚ) ^ (k + 2) ≤ 1 := zpow_le_one_of_nonpos₀ (by norm_num) (by omega)
      have hp := two_zpow_pos (k + 2)
      exact rep_mul_pow_normal aq (k + 2) har (by nlinarith) h

namespace IEEE
namespace Fluid

theorem diffuse_eq_f64 (fl : Fluid) (bnd : Int) (rate : F64) (dst src : Vektor) (aq : ℚ)
    (ha : fl.dt * rate * F64.ofInt (fl.size * fl.size) = F64.fin aq) (n : Nat) :
    fl.diffuse bnd rate dst src
        = repeatN 20 (fun xx =>
            let xx := fl.diffuseSweep (F64.fin aq) xx src
            fl.setBnd bnd xx) dst
      ∧ repeatN n (fun xx =>
          fl.setBnd bnd (fl.diffuseSweep (fl.dt * rate * F64.ofInt (fl.size * fl.size))
            xx src)) dst
        = repeatN n (fun xx =>
            let xx := fl.diffuseSweep (F64.fin aq) xx src
            fl.setBnd bnd xx) dst := by
  rw [← ha]
  exact ⟨rfl, rfl⟩

/-- The cells of `unitSource` on the grid are finite and bounded by 32. -/
theorem unitSource_bound (c d : Int) (hc : 0 ≤ c ∧ c ≤ unitFluid.size + 1)
    (hd : 0 ≤ d ∧ d ≤ unitFluid.size + 1) :
    F64.Bounded ((2 : ℚ) ^ (5 : Int)) (unitSource.Get c d) := by
  have hsz : unitFluid.size = 1 := rfl
  rw [hsz] at hc hd
  have hc3 : c = 0 ∨ c = 1 ∨ c = 2 := by omega
  have hd3 : d = 0 ∨ d = 1 ∨ d = 2 := by omega
  rcases hc3 with rfl | rfl | rfl <;> rcases hd3 with rfl | rfl | rfl
  all_goals first
    | exact ⟨0, by decide!, by norm_num⟩
    | exact ⟨7673852290062615/281474976710656, by decide!, by norm_num [abs_le]⟩

/-- The grid `New(D)` holds 0 in every cell. -/
theorem New_allZero_f64 (D : Int) : (Vektor.New D).AllZero := by
  intro x hx
  rw [List.eq_of_mem_replicate hx]

/-- The cells of a zero grid are finite and bounded by any `M ≥ 0`. -/
theorem zero_grid_bound (M : ℚ) (hM : 0 ≤ M) (D : Int) (c d : Int) :
    F64.Bounded M ((Vektor.New D).Get c d) := by
  refine ⟨0, ?_, by rw [abs_zero]; exact hM⟩
  rw [← F64.zero_def]
  exact Vektor.Get_of_allZero_f64 (New_allZero_f64 D) c d

end Fluid
end IEEE

/-- Two more iterations of a loop run first. -/
theorem repeatN_two_more {σ : Type} (n : Nat) (f : σ → σ) (s : σ) :
    repeatN (n + 2) f s = repeatN n f (f (f s)) := rfl

namespace IEEE
namespace Fluid

/-- The source grid `spikeSource` is zero at the interior cells other than (1,1). -/
theorem spikeSource_zero (i j : Int) (hi1 : 1 ≤ i) (hi : i ≤ spikeFluid.size)
    (hj1 : 1 ≤ j) (hj : j ≤ spikeFluid.size) (hne : ¬ (i = 1 ∧ j = 1)) :
    spikeSource.Get i j = 0 := by
  have hsz : spikeFluid.size = 2 := rfl
  rw [hsz] at hi hj
  have hi2 : i = 1 ∨ i = 2 := by omega
  have hj2 : j = 1 ∨ j = 2 := by omega
  rcases hi2 with rfl | rfl <;> rcases hj2 with rfl | rfl
  · exact absurd ⟨rfl, rfl⟩ hne
  · decide!
  · decide!
  · decide!

end Fluid
end IEEE

/-! ## Advection over float64 -/

namespace IEEE
namespace Fluid

/-- A double loop over the interior that rewrites each cell from its own current value:
afterwards every interior cell holds the image of its old value, every other grid cell
is unchanged. -/
theorem interiorMap_Get_f64 (N D : Int) (g : Int → Int → F64 → F64) (t0 : Vektor)
    (hs : t0.Shape D) (hD : N + 2 ≤ D)
    (a b : Int) (ha : 0 ≤ a ∧ a ≤ N + 1) (hb : 0 ≤ b ∧ b ≤ N + 1) :
    (forRange 1 N (fun i t => forRange 1 N
        (fun j (t : Vektor) => t.Set i j (g i j (t.Get i j))) t) t0).Get a b
      = if 1 ≤ a ∧ a ≤ N ∧ 1 ≤ b ∧ b ≤ N then g a b (t0.Get a b) else t0.Get a b := by
  by_cases hin : 1 ≤ a ∧ a ≤ N ∧ 1 ≤ b ∧ b ≤ N
  · rw [if_pos hin]
    refine (gridLoop_phase (fun t : Vektor => t.Shape D ∧ t.Get a b = t0.Get a b)
      (fun t : Vektor => t.Shape D ∧ t.Get a b = g a b (t0.Get a b)) N a b
      (fun i j (t : Vektor) => t.Set i j (g i j (t.Get i j))) t0 hin.1 hin.2.1 hin.2.2.1
      hin.2.2.2 ⟨hs, rfl⟩ ?_ ?_ ?_).2
    · intro i j t hi1 hi hj1 hj hne ht
      refine ⟨Vektor.Set_Shape_f64 _ _ _ _ _ ht.1, ?_⟩
      rw [Vektor.Get_Set_grid_f64 t D N i j a b _ ht.1 hD (by omega) (by omega) ha hb,
        if_neg (fun h => hne ⟨h.1.symm, h.2.symm⟩)]
      exact ht.2
    · intro t ht
      refine ⟨Vektor.Set_Shape_f64 _ _ _ _ _ ht.1, ?_⟩
      rw [Vektor.Get_Set_grid_f64 t D N a b a b _ ht.1 hD ha hb ha hb, if_pos ⟨rfl, rfl⟩, ht.2]
    · intro i j t hi1 hi hj1 hj hne ht
      refine ⟨Vektor.Set_Shape_f64 _ _ _ _ _ ht.1, ?_⟩
      rw [Vektor.Get_Set_grid_f64 t D N i j a b _ ht.1 hD (by omega) (by omega) ha hb,
        if_neg (fun h => hne ⟨h.1.symm, h.2.symm⟩)]
      exact ht.2
  · rw [if_neg hin]
    refine (gridLoop_invariant (fun t : Vektor => t.Shape D ∧ t.Get a b = t0.Get a b) N
      (fun i j (t : Vektor) => t.Set i j (g i j (t.Get i j))) t0 ⟨hs, rfl⟩ ?_).2
    intro i j t hi1 hi hj1 hj ht
    refine ⟨Vektor.Set_Shape_f64 _ _ _ _ _ ht.1, ?_⟩
    rw [Vektor.Get_Set_grid_f64 t D N i j a b _ ht.1 hD (by omega) (by omega) ha hb,
      if_neg (fun h => hin (by omega))]
    exact ht.2

theorem interiorMap_Shape_f64 (N D : Int) (g : Int → Int → F64 → F64) (t0 : Vektor)
    (hs : t0.Shape D) :
    (forRange 1 N (fun i t => forRange 1 N
        (fun j (t : Vektor) => t.Set i j (g i j (t.Get i j))) t) t0).Shape D :=
  gridLoop_invariant (fun t : Vektor => t.Shape D) N
    (fun i j (t : Vektor) => t.Set i j (g i j (t.Get i j))) t0 hs
    (fun _ _ _ _ _ _ _ ht => Vektor.Set_Shape_f64 _ _ _ _ _ ht)

/-- After `advect`, an interior cell of the destination holds `advectValue` of the
source and velocity grids. -/
theorem advect_interior_f64 (fl : Fluid) (bnd : Int) (dd d0 uu vv : Vektor) (D : Int)
    (hs : dd.Shape D) (hN : 1 ≤ fl.size) (hD : fl.size + 2 ≤ D)
    (i j : Int) (hi1 : 1 ≤ i) (hi : i ≤ fl.size) (hj1 : 1 ≤ j) (hj : j ≤ fl.size) :
    (fl.advect bnd dd d0 uu vv).Get i j = fl.advectValue d0 uu vv i j := by
  have hloopS := interiorMap_Shape_f64 fl.size D (fun i j _ => fl.advectValue d0 uu vv i j) dd hs
  have hloop := interiorMap_Get_f64 fl.size D (fun i j _ => fl.advectValue d0 uu vv i j) dd hs hD
    i j (by omega) (by omega)
  rw [if_pos ⟨hi1, hi, hj1, hj⟩] at hloop
  have hset := (setBnd_spec_f64 fl bnd _ D hloopS hN hD).2.1 i j hi1 hi hj1 hj
  exact hset.trans hloop

end Fluid
end IEEE

namespace F64

theorem lt_fin_fin (a b : ℚ) : (fin a < fin b) ↔ a < b := by
  show F64.lt (fin a) (fin b) = true ↔ a < b
  simp [F64.lt]

theorem not_posinf_lt (y : F64) : ¬ (inf false < y) := by
  show ¬ (F64.lt (inf false) y = true)
  cases y <;> simp [F64.lt]

theorem neginf_lt_fin (b : ℚ) : inf true < fin b := by
  show F64.lt (inf true) (fin b) = true
  rfl

theorem fin_lt_posinf (a : ℚ) : fin a < inf false := by
  show F64.lt (fin a) (inf false) = true
  rfl

theorem not_lt_neginf (x : F64) : ¬ (x < inf true) := by
  show ¬ (F64.lt x (inf true) = true)
  cases x with
  | nan => simp [F64.lt]
  | inf s => cases s <;> simp [F64.lt]
  | fin q => simp [F64.lt]

/-- A difference of float64 values that is finite is representable. -/
theorem rep_of_sub_eq_fin (x y : F64) (q : ℚ) (h : x - y = fin q) : Rep q := by
  change F64.add x (F64.neg y) = fin q at h
  rcases x with _ | s | a <;> rcases y with _ | t | b <;> simp only [F64.neg, F64.add] at h
  all_goals first
    | exact F64.rep_of_round_eq_fin _ _ h
    | exact F64.noConfusion h
    | (split_ifs at h)

/-- A small integer converts to float64 exactly. -/
theorem ofInt_small (z : Int) (hz : |z| < 2 ^ 53) : ofInt z = fin (z : ℚ) := by
  unfold ofInt
  have hr := rep_int z hz
  rw [round_eq, rne_of_rep _ hr]
  rw [rne_of_rep _ hr]
  have h1 : |(z : ℚ)| < 2 ^ 53 := by exact_mod_cast hz
  calc |(z : ℚ)| < 2 ^ 53 := h1
    _ ≤ (2 : ℚ) ^ (1024 : Int) := by norm_num

end F64

/-- A representable value `q ≥ 1/2` has a fractional part that is a multiple of
`2^(-53)`. -/
theorem rep_fract (q : ℚ) (hq : Rep q) (h : 1 / 2 ≤ q) :
    ∃ m : Int, 0 ≤ m ∧ m < 2 ^ 53 ∧ q - (Int.floor q : ℚ) = (m : ℚ) / 2 ^ 53 := by
  obtain ⟨k, j, hk, hj, rfl⟩ := hq
  have hp := two_zpow_pos j
  have h2 : (k : ℚ) < 2 ^ 53 := by
    have := (abs_lt.mp hk).2
    exact_mod_cast this
  have hkpos : (0 : ℚ) < k := by
    by_contra hneg
    push_neg at hneg
    nlinarith
  have hj53 : -53 ≤ j := by
    by_contra hlt
    push_neg at hlt
    have h1 : (2 : ℚ) ^ j ≤ (2 : ℚ) ^ (-54 : Int) :=
      zpow_le_zpow_right₀ (by norm_num) (by omega)
    have h3 : (k : ℚ) * (2 : ℚ) ^ j < 1 / 2 := by
      calc (k : ℚ) * (2 : ℚ) ^ j ≤ k * (2 : ℚ) ^ (-54 : Int) :=
            mul_le_mul_of_nonneg_left h1 hkpos.le
        _ < 2 ^ 53 * (2 : ℚ) ^ (-54 : Int) :=
            mul_lt_mul_of_pos_right h2 (two_zpow_pos _)
        _ = 1 / 2 := by norm_num
    linarith
  obtain ⟨e, he⟩ : ∃ e : Nat, (e : Int) = j + 53 :=
    ⟨(j + 53).toNat, Int.toNat_of_nonneg (by omega)⟩
  have hq2 : (k : ℚ) * (2 : ℚ) ^ j = ((k * 2 ^ e : Int) : ℚ) / ((2 ^ 53 : Nat) : ℚ) := by
    have hj2 : j = (e : Int) - 53 := by omega
    rw [hj2, zpow_sub₀ two_ne_zero, zpow_natCast]
    push_cast
    norm_num
    ring
  rw [hq2, Rat.floor_intCast_div_natCast]
  refine ⟨(k * 2 ^ e) % 2 ^ 53, Int.emod_nonneg _ (by norm_num),
    Int.emod_lt_of_pos _ (by norm_num), ?_⟩
  have hc := Int.emod_add_ediv (k * 2 ^ e) (2 ^ 53)
  have hc2 : (((k * 2 ^ e) % 2 ^ 53 : Int) : ℚ)
      + (2 : ℚ) ^ 53 * (((k * 2 ^ e) / 2 ^ 53 : Int) : ℚ) = ((k * 2 ^ e : Int) : ℚ) := by
    exact_mod_cast hc
  have hn : (((2 ^ 53 : Nat) : Int)) = (2 : Int) ^ 53 := by norm_num
  rw [hn, ← hc2]
  push_cast
  field_simp
  ring

/-- A weight times a power of two in the normal range is representable. -/
theorem rep_weight_mul_pow (m : Int) (k : Int) (hm0 : 0 ≤ m) (hm : m ≤ 2 ^ 53)
    (hk : -1021 ≤ k) : Rep ((m : ℚ) / 2 ^ 53 * (2 : ℚ) ^ k) := by
  rcases hm.lt_or_eq with h | h
  · have e : (m : ℚ) / 2 ^ 53 * (2 : ℚ) ^ k = (m : ℚ) * (2 : ℚ) ^ (k - 53) := by
      rw [zpow_sub₀ two_ne_zero]
      norm_num
      ring
    rw [e]
    exact rep_int_mul_pow m (k - 53) (by rw [abs_of_nonneg hm0]; exact h) (by omega)
  · have e : (m : ℚ) / 2 ^ 53 * (2 : ℚ) ^ k = (2 : ℚ) ^ k := by
      rw [h]
      norm_num
    rw [e]
    exact rep_pow k (by omega)

theorem weights_range {w0 w1 : ℚ} (h : Weights w0 w1) :
    0 ≤ w0 ∧ w0 ≤ 1 ∧ 0 ≤ w1 ∧ w1 ≤ 1 ∧ w0 + w1 = 1 := by
  obtain ⟨m0, m1, a, b, c, rfl, rfl⟩ := h
  have a' : (0 : ℚ) ≤ m0 := by exact_mod_cast a
  have b' : (0 : ℚ) ≤ m1 := by exact_mod_cast b
  have c' : (m0 : ℚ) + m1 = 2 ^ 53 := by exact_mod_cast c
  refine ⟨by positivity, ?_, by positivity, ?_, ?_⟩
  · rw [div_le_one (by norm_num)]
    linarith
  · rw [div_le_one (by norm_num)]
    linarith
  · rw [← add_div, c']
    norm_num

/-- The float64 interpolation `w0*a + w1*b` of two finite values bounded by `2^k`, with
weights that are multiples of `2^(-53)` and sum to 1: the result is finite,
representable and bounded by `2^k`, and nonnegative when `a` and `b` are. -/
theorem F64.mix_fin (k : Int) (hk : -1021 ≤ k ∧ k ≤ 1023) (w0 w1 : ℚ) (hw : Weights w0 w1)
    (a b : ℚ) (ha : |a| ≤ (2 : ℚ) ^ k) (hb : |b| ≤ (2 : ℚ) ^ k) :
    ∃ r, F64.fin w0 * F64.fin a + F64.fin w1 * F64.fin b = F64.fin r
      ∧ |r| ≤ (2 : ℚ) ^ k ∧ Rep r ∧ (0 ≤ a → 0 ≤ b → 0 ≤ r) := by
  obtain ⟨r0, r1, n0, n1, hsum⟩ := weights_range hw
  obtain ⟨m0, m1, a0, a1, c, e0, e1⟩ := hw
  have hM := two_zpow_pos k
  have lk := two_zpow_lt_1024 k hk.2
  have R0 : Rep (w0 * (2 : ℚ) ^ k) := by
    rw [e0]
    exact rep_weight_mul_pow m0 k a0 (by omega) hk.1
  have R1 : Rep (w1 * (2 : ℚ) ^ k) := by
    rw [e1]
    exact rep_weight_mul_pow m1 k a1 (by omega) hk.1
  have l0 : w0 * (2 : ℚ) ^ k < (2 : ℚ) ^ (1024 : Int) := by nlinarith
  have l1 : w1 * (2 : ℚ) ^ k < (2 : ℚ) ^ (1024 : Int) := by nlinarith
  obtain ⟨p0, q0⟩ := F64.round_of_le (w0 * a) (w0 * (2 : ℚ) ^ k) R0 l0 (by
    rw [abs_mul, abs_of_nonneg r0]
    exact mul_le_mul_of_nonneg_left ha r0)
  obtain ⟨p1, q1⟩ := F64.round_of_le (w1 * b) (w1 * (2 : ℚ) ^ k) R1 l1 (by
    rw [abs_mul, abs_of_nonneg n0]
    exact mul_le_mul_of_nonneg_left hb n0)
  obtain ⟨p2, q2⟩ := F64.round_of_le (rne (w0 * a) + rne (w1 * b)) ((2 : ℚ) ^ k)
    (rep_pow k (by omega)) lk (by
      calc |rne (w0 * a) + rne (w1 * b)| ≤ |rne (w0 * a)| + |rne (w1 * b)| := abs_add _ _
        _ ≤ w0 * (2 : ℚ) ^ k + w1 * (2 : ℚ) ^ k := add_le_add q0 q1
        _ = (2 : ℚ) ^ k := by rw [← add_mul, hsum, one_mul])
  refine ⟨_, ?_, q2, rep_rne _, ?_⟩
  · rw [F64.mul_fin, p0, F64.mul_fin, p1, F64.add_fin, p2]
  · intro ha0 hb0
    exact rne_nonneg _ (add_nonneg (rne_nonneg _ (mul_nonneg r0 ha0))
      (rne_nonneg _ (mul_nonneg n0 hb0)))

/-- Truncation of a finite coordinate in `[1/2, N + 1/2]`, `N < 2^52`: the floor, which
lies in `[0, N]`. -/
theorem F64.toInt_clamped (N : Int) (xc : ℚ) (hN : N < 2 ^ 52) (h1 : 1 / 2 ≤ xc)
    (h2 : xc ≤ (N : ℚ) + 1 / 2) :
    F64.toInt (F64.fin xc) = Int.floor xc ∧ 0 ≤ Int.floor xc ∧ Int.floor xc ≤ N := by
  have hx0 : (0 : ℚ) ≤ xc := le_trans (by norm_num) h1
  have hf0 : 0 ≤ Int.floor xc := Int.floor_nonneg.2 hx0
  have hfN : Int.floor xc ≤ N := by
    have : Int.floor xc < N + 1 := by
      rw [Int.floor_lt]
      push_cast
      linarith
    omega
  refine ⟨?_, hf0, hfN⟩
  unfold F64.toInt
  simp only []
  rw [if_pos hx0, if_pos ⟨by omega, by omega⟩]

/-- The interpolation weights of a finite representable coordinate `xc ≥ 1/2`: the
subtractions `xc - float64(i0)` and `1 - s1` are exact, and the two weights are multiples
of `2^(-53)` in `[0,1]` that sum to 1. -/
theorem F64.weights_of_coordinate (xc : ℚ) (hrep : Rep xc) (h1 : 1 / 2 ≤ xc)
    (hsmall : Int.floor xc < 2 ^ 53) :
    F64.fin xc - F64.ofInt (Int.floor xc) = F64.fin (xc - (Int.floor xc : ℚ))
      ∧ (1 : F64) - F64.fin (xc - (Int.floor xc : ℚ))
          = F64.fin (1 - (xc - (Int.floor xc : ℚ)))
      ∧ Weights (1 - (xc - (Int.floor xc : ℚ))) (xc - (Int.floor xc : ℚ)) := by
  have hx0 : (0 : ℚ) ≤ xc := le_trans (by norm_num) h1
  have hf0 : 0 ≤ Int.floor xc := Int.floor_nonneg.2 hx0
  obtain ⟨m, hm0, hm, e⟩ := rep_fract xc hrep h1
  have hm0' : (0 : ℚ) ≤ m := by exact_mod_cast hm0
  have hm' : (m : ℚ) < 2 ^ 53 := by exact_mod_cast hm
  have r1 : Rep ((m : ℚ) / 2 ^ 53) := by
    have := rep_weight_mul_pow m 0 hm0 hm.le (by norm_num)
    rwa [zpow_zero, mul_one] at this
  have e2 : 1 - (m : ℚ) / 2 ^ 53 = ((2 ^ 53 - m : Int) : ℚ) / 2 ^ 53 := by
    push_cast
    field_simp
    norm_num
  have r2 : Rep (1 - (m : ℚ) / 2 ^ 53) := by
    have := rep_weight_mul_pow (2 ^ 53 - m) 0 (by omega) (by omega) (by norm_num)
    rw [zpow_zero, mul_one] at this
    rw [e2]
    exact this
  have b1 : |(m : ℚ) / 2 ^ 53| < (2 : ℚ) ^ (1024 : Int) := by
    rw [abs_of_nonneg (by positivity)]
    calc (m : ℚ) / 2 ^ 53 ≤ 1 := by
          rw [div_le_one (by norm_num)]
          exact hm'.le
      _ < (2 : ℚ) ^ (1024 : Int) := by norm_num
  have b2 : |1 - (m : ℚ) / 2 ^ 53| < (2 : ℚ) ^ (1024 : Int) := by
    have : 0 ≤ (m : ℚ) / 2 ^ 53 := by positivity
    have : (m : ℚ) / 2 ^ 53 ≤ 1 := by
      rw [div_le_one (by norm_num)]
      exact hm'.le
    rw [abs_of_nonneg (by linarith)]
    calc 1 - (m : ℚ) / 2 ^ 53 ≤ 1 := by linarith
      _ < (2 : ℚ) ^ (1024 : Int) := by norm_num
  rw [e]
  refine ⟨?_, ?_, ⟨2 ^ 53 - m, m, by omega, hm0, by omega, e2, rfl⟩⟩
  · rw [F64.ofInt_small _ (by rw [abs_of_nonneg hf0]; exact hsmall), F64.sub_fin, e,
      F64.round_eq _ (by rw [rne_of_rep _ r1]; exact b1), rne_of_rep _ r1]
  · rw [F64.one_def, F64.sub_fin, F64.round_eq _ (by rw [rne_of_rep _ r2]; exact b2),
      rne_of_rep _ r2]

namespace IEEE
namespace Fluid

/-- The clamping of `advect` on a traced coordinate that is not NaN gives a finite
representable value in `[1/2, n + 1/2]`. -/
theorem clampTrace_fin (n : ℚ) (x : F64) (hn0 : 0 ≤ n) (hrep : Rep (n + 1 / 2))
    (hlt : n + 1 / 2 < (2 : ℚ) ^ (1024 : Int))
    (hx : x ≠ F64.nan) (hxr : ∀ q, x = F64.fin q → Rep q) :
    ∃ xc, clampTrace (F64.fin n) x = F64.fin xc ∧ Rep xc ∧ 1 / 2 ≤ xc ∧ xc ≤ n + 1 / 2 := by
  have hnh : (F64.fin n + 0.5 : F64) = F64.fin (n + 1 / 2) := by
    rw [F64.half_def, F64.add_fin, F64.round_eq, rne_of_rep _ hrep]
    rw [rne_of_rep _ hrep, abs_of_nonneg (by linarith)]
    exact hlt
  have rh : Rep (1 / 2 : ℚ) := by
    have := rep_pow (-1) (by norm_num)
    norm_num at this
    norm_num
    exact this
  unfold clampTrace
  simp only [gt_iff_lt]
  rw [hnh, F64.half_def]
  rcases x with _ | s | q
  · exact absurd rfl hx
  · cases s
    · rw [if_neg (F64.not_posinf_lt _), if_pos (F64.fin_lt_posinf _)]
      exact ⟨_, rfl, hrep, by linarith, le_refl _⟩
    · rw [if_pos (F64.neginf_lt_fin _),
        if_neg (show ¬ (F64.fin (n + 1 / 2) < F64.fin (1 / 2)) by
          rw [F64.lt_fin_fin]; linarith)]
      exact ⟨_, rfl, rh, le_refl _, by linarith⟩
  · by_cases h1 : q < 1 / 2
    · rw [if_pos ((F64.lt_fin_fin _ _).2 h1),
        if_neg (show ¬ (F64.fin (n + 1 / 2) < F64.fin (1 / 2)) by
          rw [F64.lt_fin_fin]; linarith)]
      exact ⟨_, rfl, rh, le_refl _, by linarith⟩
    · rw [if_neg (show ¬ (F64.fin q < F64.fin (1 / 2)) by rw [F64.lt_fin_fin]; exact h1)]
      by_cases h2 : n + 1 / 2 < q
      · rw [if_pos ((F64.lt_fin_fin _ _).2 h2)]
        exact ⟨_, rfl, hrep, by linarith, le_refl _⟩
      · rw [if_neg (show ¬ (F64.fin (n + 1 / 2) < F64.fin q) by
          rw [F64.lt_fin_fin]; exact h2)]
        exact ⟨q, rfl, hxr q rfl, not_lt.1 h1, not_lt.1 h2⟩

/-- One traced coordinate of `advect`, for a resolution `1 ≤ N < 2^52` and a traced value
that is not NaN: the clamped value is finite, its truncation lies in `[0, N]`, and the
two weights are exact multiples of `2^(-53)` in `[0,1]` that sum to 1. -/
theorem trace_spec (N : Int) (hN1 : 1 ≤ N) (hN : N < 2 ^ 52) (a b : F64)
    (hx : a - b ≠ F64.nan) :
    ∃ (x s1 : ℚ),
      clampTrace (F64.ofInt N) (a - b) = F64.fin x
      ∧ (0 ≤ F64.toInt (F64.fin x) ∧ F64.toInt (F64.fin x) ≤ N)
      ∧ F64.fin x - F64.ofInt (F64.toInt (F64.fin x)) = F64.fin s1
      ∧ (1 : F64) - F64.fin s1 = F64.fin (1 - s1)
      ∧ Weights (1 - s1) s1 := by
  have hNq : (1 : ℚ) ≤ (N : ℚ) := by exact_mod_cast hN1
  have hNq2 : (N : ℚ) < 2 ^ 52 := by exact_mod_cast hN
  have hrep : Rep ((N : ℚ) + 1 / 2) := by
    have := rep_int_mul_pow (2 * N + 1) (-1) (by rw [abs_of_nonneg (by omega)]; omega)
      (by norm_num)
    have e : ((2 * N + 1 : Int) : ℚ) * (2 : ℚ) ^ (-1 : Int) = (N : ℚ) + 1 / 2 := by
      push_cast
      norm_num
      ring
    rwa [e] at this
  obtain ⟨xc, e1, r1, l1, u1⟩ := clampTrace_fin (N : ℚ) (a - b) (by linarith) hrep
    (by
      calc (N : ℚ) + 1 / 2 < 2 ^ 52 + 1 / 2 := by linarith
        _ < (2 : ℚ) ^ (1024 : Int) := by norm_num)
    hx (fun q hq => F64.rep_of_sub_eq_fin a b q hq)
  obtain ⟨t1, t2, t3⟩ := F64.toInt_clamped N xc hN l1 u1
  obtain ⟨w1, w2, w3⟩ := F64.weights_of_coordinate xc r1 l1 (by omega)
  refine ⟨xc, xc - (Int.floor xc : ℚ), ?_, ?_, ?_, w2, w3⟩
  · rw [F64.ofInt_small N (by rw [abs_of_nonneg (by omega)]; omega)]
    exact e1
  · rw [t1]
    exact ⟨t2, t3⟩
  · rw [t1]
    exact w1

/-- The bilinear interpolation of `advect` on four finite values bounded by `2^k`, with
exact weights: the float64 result is finite and bounded by `2^k`, and nonnegative when
the four values are. -/
theorem bilinear_fin (k : Int) (hk : -1021 ≤ k ∧ k ≤ 1023) (s0 s1 t0 t1 : ℚ)
    (hs : Weights s0 s1) (ht : Weights t0 t1) (a b c d : ℚ)
    (ha : |a| ≤ (2 : ℚ) ^ k) (hb : |b| ≤ (2 : ℚ) ^ k) (hc : |c| ≤ (2 : ℚ) ^ k)
    (hd : |d| ≤ (2 : ℚ) ^ k) :
    ∃ r, F64.fin s0 * (F64.fin t0 * F64.fin a + F64.fin t1 * F64.fin b)
          + F64.fin s1 * (F64.fin t0 * F64.fin c + F64.fin t1 * F64.fin d) = F64.fin r
      ∧ |r| ≤ (2 : ℚ) ^ k ∧ (0 ≤ a → 0 ≤ b → 0 ≤ c → 0 ≤ d → 0 ≤ r) := by
  obtain ⟨r1, e1, b1, _, n1⟩ := F64.mix_fin k hk t0 t1 ht a b ha hb
  obtain ⟨r2, e2, b2, _, n2⟩ := F64.mix_fin k hk t0 t1 ht c d hc hd
  obtain ⟨r, e, b, _, n⟩ := F64.mix_fin k hk s0 s1 hs r1 r2 b1 b2
  refine ⟨r, ?_, b, fun h1 h2 h3 h4 => n (n1 h1 h2) (n2 h3 h4)⟩
  rw [e1, e2, e]

end Fluid
end IEEE

/-! ## The float64 solver on all-zero grids -/

namespace F64

theorem zero_add_zero : (0 : F64) + 0 = 0 := by decide!

theorem zero_sub_zero : (0 : F64) - 0 = 0 := by decide!

theorem neg_zero_eq : -(0 : F64) = 0 := by decide!

theorem half_mul_zero : (0.5 : F64) * 0 = 0 := by decide!

theorem zero_div_four : (0 : F64) / 4 = 0 := by decide!

theorem one_mul_zero : (1 : F64) * 0 = 0 := by decide!

theorem fin_mul_zero (a : ℚ) : fin a * 0 = 0 := by
  rw [zero_def, mul_fin, mul_zero, round_zero]

theorem zero_div_fin (d : ℚ) (hd : d ≠ 0) : (0 : F64) / fin d = 0 := by
  rw [zero_def, div_fin _ _ hd, zero_div, round_zero]

/-- Rounding a nonnegative rational gives `+Inf` or the nearest finite value. -/
theorem round_nonneg (q : ℚ) (h : 0 ≤ q) : round q = inf false ∨ round q = fin (rne q) := by
  unfold round
  simp only []
  split_ifs with h1
  · left
    have : ¬ rne q < 0 := not_lt.2 (rne_nonneg q h)
    simp [this]
  · right
    rfl

/-- The quotient `0 / (1 + 4*a)` is 0 for every finite `a ≥ 0`, also when `4*a` or
`1 + 4*a` overflows. -/
theorem zero_div_denom (aq : ℚ) (h : 0 ≤ aq) : (0 : F64) / (1 + 4 * fin aq) = 0 := by
  have e0 : (0 : F64) / inf false = 0 := by rw [zero_def]; rfl
  rw [four_def, mul_fin, one_def]
  rcases round_nonneg (4 * aq) (by linarith) with h1 | h1
  · rw [h1]
    exact e0
  · rw [h1, add_fin]
    have hn : 0 ≤ rne (4 * aq) := rne_nonneg _ (by linarith)
    rcases round_nonneg (1 + rne (4 * aq)) (by linarith) with h2 | h2
    · rw [h2]
      exact e0
    · rw [h2]
      have : 1 ≤ rne (1 + rne (4 * aq)) := le_rne_of_le _ 1 rep_one (by linarith)
      exact zero_div_fin _ (by linarith)

/-- A product with a nonzero finite factor that is finite has a finite first factor. -/
theorem finite_of_mul_fin (x : F64) (n t : ℚ) (hn : n ≠ 0) (h : x * fin n = fin t) :
    ∃ q, x = fin q := by
  change F64.mul x (fin n) = fin t at h
  rcases x with _ | s | a
  · simp only [F64.mul] at h
    exact F64.noConfusion h
  · simp only [F64.mul] at h
    rw [if_neg hn] at h
    exact F64.noConfusion h
  · exact ⟨a, rfl⟩

end F64

namespace IEEE
namespace Fluid

theorem setBnd_allZero_f64 (fl : Fluid) (bnd : Int) (xx : Vektor) (h : xx.AllZero) :
    fl.setBnd bnd xx = xx := by
  unfold setBnd
  have hloop : ∀ body : Int → Vektor → Vektor, (∀ i, body i xx = xx) →
      forRange 1 fl.size body xx = xx := fun body hb => forRange_fixed 1 fl.size body xx hb
  rw [hloop]
  · simp only [Vektor.Get_of_allZero_f64 h, F64.zero_add_zero, F64.half_mul_zero,
      Vektor.Set_zero_of_allZero_f64 h]
  · intro i
    unfold setBndEdges
    split_ifs <;> simp only [Vektor.Get_of_allZero_f64 h, F64.neg_zero_eq,
      Vektor.Set_zero_of_allZero_f64 h]

theorem addSource_allZero_f64 (size : Int) (dtq : ℚ) (visc diff : F64)
    (g1 g2 g3 g4 g5 g6 : Vektor) (dst src : Vektor) (hd : dst.AllZero) (hs : src.AllZero) :
    Fluid.addSource ⟨size, F64.fin dtq, visc, diff, g1, g2, g3, g4, g5, g6⟩ dst src = dst := by
  unfold addSource
  apply forRange_fixed
  intro i
  apply forRange_fixed
  intro j
  simp only [Vektor.Get_of_allZero_f64 hd, Vektor.Get_of_allZero_f64 hs, F64.fin_mul_zero,
    F64.zero_add_zero, Vektor.Set_zero_of_allZero_f64 hd]

theorem diffuseSweep_allZero_f64 (fl : Fluid) (aq : ℚ) (ha : 0 ≤ aq) (xx x0 : Vektor)
    (hx : xx.AllZero) (h0 : x0.AllZero) : fl.diffuseSweep (F64.fin aq) xx x0 = xx := by
  unfold diffuseSweep
  apply forRange_fixed
  intro i
  apply forRange_fixed
  intro j
  simp only [Vektor.Get_of_allZero_f64 hx, Vektor.Get_of_allZero_f64 h0, F64.zero_add_zero,
    F64.fin_mul_zero, F64.zero_div_denom aq ha, Vektor.Set_zero_of_allZero_f64 hx]

theorem diffuse_allZero_f64 (size : Int) (dt visc diff : F64)
    (g1 g2 g3 g4 g5 g6 : Vektor) (bnd : Int) (rate : F64) (xx x0 : Vektor) (aq : ℚ)
    (ha : dt * rate * F64.ofInt (size * size) = F64.fin aq) (ha0 : 0 ≤ aq)
    (hx : xx.AllZero) (h0 : x0.AllZero) :
    Fluid.diffuse ⟨size, dt, visc, diff, g1, g2, g3, g4, g5, g6⟩ bnd rate xx x0 = xx := by
  unfold diffuse
  simp only []
  rw [ha]
  apply repeatN_fixed
  simp only [diffuseSweep_allZero_f64 _ aq ha0 xx x0 hx h0, setBnd_allZero_f64 _ bnd xx hx]

end Fluid
end IEEE

/-- A loop whose body leaves the state `s` unchanged for every value of the loop variable
in range leaves `s` unchanged. -/
theorem forRange_fixed_mem {σ : Type} (lo hi : Int) (body : Int → σ → σ) (s : σ)
    (h : ∀ i, lo ≤ i → i ≤ hi → body i s = s) : forRange lo hi body s = s :=
  forRange_invariant_mem (fun t => t = s) lo hi body s rfl
    (fun i t h1 h2 ht => by rw [ht]; exact h i h1 h2)

namespace F64

/-- Subtracting 0 from a small integer is exact. -/
theorem ofInt_sub_zero (z : Int) (hz : |z| < 2 ^ 53) : ofInt z - 0 = fin (z : ℚ) := by
  have hr := rep_int z hz
  have h1 : |(z : ℚ)| < 2 ^ 53 := by exact_mod_cast hz
  rw [ofInt_small z hz, zero_def, sub_fin, sub_zero, round_eq, rne_of_rep _ hr]
  rw [rne_of_rep _ hr]
  calc |(z : ℚ)| < 2 ^ 53 := h1
    _ ≤ (2 : ℚ) ^ (1024 : Int) := by norm_num

/-- The grid spacing `h = 1.0 / float64(N)` for `1 ≤ N < 2^52` is finite, nonzero and at
most 1 in absolute value. -/
theorem spacing_fin (N : Int) (hN1 : 1 ≤ N) (hN : N < 2 ^ 52) :
    ∃ hq : ℚ, (1.0 : F64) / ofInt N = fin hq ∧ hq ≠ 0 ∧ |hq| ≤ 1 := by
  have hNq : (1 : ℚ) ≤ (N : ℚ) := by exact_mod_cast hN1
  have hNq2 : (N : ℚ) < 2 ^ 52 := by exact_mod_cast hN
  have hpos : (0 : ℚ) < 1 / (N : ℚ) := by positivity
  have hle : 1 / (N : ℚ) ≤ 1 := by
    rw [div_le_one (by linarith)]
    exact hNq
  obtain ⟨a1, b1⟩ := round_of_le (1 / (N : ℚ)) 1 rep_one (by norm_num) (by
    rw [abs_of_pos hpos]
    exact hle)
  have hlow : (2 : ℚ) ^ (-52 : Int) ≤ rne (1 / (N : ℚ)) := by
    apply le_rne_of_le _ _ (rep_pow _ (by norm_num))
    rw [le_div_iff₀ (by linarith)]
    have : (2 : ℚ) ^ (-52 : Int) * 2 ^ 52 = 1 := by norm_num
    nlinarith [two_zpow_pos (-52)]
  refine ⟨rne (1 / (N : ℚ)), ?_, ?_, b1⟩
  · rw [one_point_def, ofInt_small N (by rw [abs_of_nonneg (by omega)]; omega),
      div_fin _ _ (by linarith), a1]
  · have := two_zpow_pos (-52)
    linarith

/-- The factor `-.05 * h` of `project` is finite for a finite `h` with `|h| ≤ 1`. -/
theorem div_scale_fin (hq : ℚ) (h : |hq| ≤ 1) : ∃ r, (-0.05 : F64) * fin hq = fin r := by
  have hc : (-0.05 : F64) = fin (-(3602879701896397/72057594037927936)) := by decide!
  obtain ⟨a1, _⟩ := round_of_le (-(3602879701896397/72057594037927936) * hq) 1 rep_one
    (by norm_num) (by
      rw [abs_mul]
      have : |(-(3602879701896397/72057594037927936) : ℚ)| ≤ 1 := by
        rw [abs_le]
        constructor <;> norm_num
      calc |(-(3602879701896397/72057594037927936) : ℚ)| * |hq| ≤ 1 * 1 :=
            mul_le_mul this h (abs_nonneg _) (by norm_num)
        _ = 1 := by norm_num)
  exact ⟨_, by rw [hc, mul_fin, a1]⟩

end F64

namespace IEEE
namespace Fluid

/-- On an all-zero source the value `advect` writes is 0 whenever the traced coordinates
are not NaN. -/
theorem advectValue_allZero_f64 (fl : Fluid) (d0 uu vv : Vektor) (i j : Int)
    (hN : 1 ≤ fl.size) (hN2 : fl.size < 2 ^ 52) (h0 : d0.AllZero)
    (hx : F64.ofInt i - fl.dt * F64.ofInt fl.size * uu.Get i j ≠ F64.nan)
    (hy : F64.ofInt j - fl.dt * F64.ofInt fl.size * vv.Get i j ≠ F64.nan) :
    fl.advectValue d0 uu vv i j = 0 := by
  obtain ⟨x, s1, ex, _, es1, eo1, _⟩ := trace_spec fl.size hN hN2 (F64.ofInt i)
    (fl.dt * F64.ofInt fl.size * uu.Get i j) hx
  obtain ⟨y, t1, ey, _, et1, eo2, _⟩ := trace_spec fl.size hN hN2 (F64.ofInt j)
    (fl.dt * F64.ofInt fl.size * vv.Get i j) hy
  unfold advectValue
  simp only []
  rw [ex, ey, es1, et1, eo1, eo2]
  simp only [Vektor.Get_of_allZero_f64 h0, F64.fin_mul_zero, F64.zero_add_zero]

theorem advect_allZero_f64 (size : Int) (dt visc diff : F64)
    (g1 g2 g3 g4 g5 g6 : Vektor) (bnd : Int) (dd d0 uu vv : Vektor) (t0 : ℚ)
    (ht : dt * F64.ofInt size = F64.fin t0) (hN : 1 ≤ size) (hN2 : size < 2 ^ 52)
    (hd : dd.AllZero) (h0 : d0.AllZero) (hu : uu.AllZero) (hv : vv.AllZero) :
    Fluid.advect ⟨size, dt, visc, diff, g1, g2, g3, g4, g5, g6⟩ bnd dd d0 uu vv = dd := by
  have hloop : forRange 1 size (fun i dd => forRange 1 size (fun j (dd : Vektor) =>
      dd.Set i j (Fluid.advectValue ⟨size, dt, visc, diff, g1, g2, g3, g4, g5, g6⟩
        d0 uu vv i j)) dd) dd = dd := by
    apply forRange_fixed_mem
    intro i hi1 hi
    apply forRange_fixed_mem
    intro j hj1 hj
    rw [advectValue_allZero_f64 _ d0 uu vv i j hN hN2 h0, Vektor.Set_zero_of_allZero_f64 hd]
    · show F64.ofInt i - dt * F64.ofInt size * uu.Get i j ≠ F64.nan
      rw [ht, Vektor.Get_of_allZero_f64 hu, F64.fin_mul_zero,
        F64.ofInt_sub_zero i (by rw [abs_of_nonneg (by omega)]; omega)]
      exact fun h => F64.noConfusion h
    · show F64.ofInt j - dt * F64.ofInt size * vv.Get i j ≠ F64.nan
      rw [ht, Vektor.Get_of_allZero_f64 hv, F64.fin_mul_zero,
        F64.ofInt_sub_zero j (by rw [abs_of_nonneg (by omega)]; omega)]
      exact fun h => F64.noConfusion h
  show Fluid.setBnd ⟨size, dt, visc, diff, g1, g2, g3, g4, g5, g6⟩ bnd
    (forRange 1 size (fun i dd => forRange 1 size (fun j (dd : Vektor) =>
      dd.Set i j (Fluid.advectValue ⟨size, dt, visc, diff, g1, g2, g3, g4, g5, g6⟩
        d0 uu vv i j)) dd) dd) = dd
  rw [hloop, setBnd_allZero_f64 _ bnd dd hd]

theorem project_allZero_f64 (size : Int) (dt visc diff : F64)
    (g1 g2 g3 g4 g5 g6 : Vektor) (hN : 1 ≤ size) (hN2 : size < 2 ^ 52)
    (u v p div : Vektor) (hu : u.AllZero)
    (hv : v.AllZero) (hp : p.AllZero) (hd : div.AllZero) :
    Fluid.project ⟨size, dt, visc, diff, g1, g2, g3, g4, g5, g6⟩ u v p div
      = { u := u, v := v, p := p, div := div } := by
  generalize hfl : (⟨size, dt, visc, diff, g1, g2, g3, g4, g5, g6⟩ : Fluid) = fl
  have hsz : fl.size = size := by rw [← hfl]
  obtain ⟨hq, hh, hne, hle⟩ := F64.spacing_fin size hN hN2
  obtain ⟨r, hr⟩ := F64.div_scale_fin hq hle
  have h1 : fl.projectDiv (F64.fin hq) { u := u, v := v, p := p, div := div }
      = { u := u, v := v, p := p, div := div } := by
    unfold projectDiv
    apply forRange_fixed
    intro i
    apply forRange_fixed
    intro j
    simp only [Vektor.Get_of_allZero_f64 hu, Vektor.Get_of_allZero_f64 hv,
      F64.zero_sub_zero, F64.zero_add_zero, hr, F64.fin_mul_zero,
      Vektor.Set_zero_of_allZero_f64 hd, Vektor.Set_zero_of_allZero_f64 hp]
  have h2 : fl.projectRelax { u := u, v := v, p := p, div := div }
      = { u := u, v := v, p := p, div := div } := by
    unfold projectRelax
    apply forRange_fixed
    intro i
    apply forRange_fixed
    intro j
    simp only [Vektor.Get_of_allZero_f64 hd, Vektor.Get_of_allZero_f64 hp,
      F64.zero_add_zero, F64.zero_div_four, Vektor.Set_zero_of_allZero_f64 hp]
  have h3 : fl.projectSubtract (F64.fin hq) { u := u, v := v, p := p, div := div }
      = { u := u, v := v, p := p, div := div } := by
    unfold projectSubtract
    apply forRange_fixed
    intro i
    apply forRange_fixed
    intro j
    simp only [Vektor.Get_of_allZero_f64 hu, Vektor.Get_of_allZero_f64 hv,
      Vektor.Get_of_allZero_f64 hp, F64.zero_sub_zero, F64.half_mul_zero,
      F64.zero_div_fin hq hne, Vektor.Set_zero_of_allZero_f64 hu,
      Vektor.Set_zero_of_allZero_f64 hv]
  unfold project
  simp only [hsz, hh, h1, setBnd_allZero_f64 fl 0 div hd, setBnd_allZero_f64 fl 0 p hp]
  rw [repeatN_fixed]
  · simp only [h3, setBnd_allZero_f64 fl 1 u hu, setBnd_allZero_f64 fl 2 v hv]
  · simp only [h2, setBnd_allZero_f64 fl 0 p hp]

theorem Step_allZero_mk_f64 (size : Int) (dtq : ℚ) (visc diff : F64) (d : Int)
    (ld0 ldd lu0 luu lv0 lvv : List F64) (av ad t0 : ℚ)
    (hN : 1 ≤ size) (hN2 : size < 2 ^ 52)
    (hv : F64.fin dtq * visc * F64.ofInt (size * size) = F64.fin av) (hav : 0 ≤ av)
    (hd : F64.fin dtq * diff * F64.ofInt (size * size) = F64.fin ad) (had : 0 ≤ ad)
    (ht : F64.fin dtq * F64.ofInt size = F64.fin t0)
    (z1 : ∀ x ∈ ldd, x = 0) (z2 : ∀ x ∈ ld0, x = 0)
    (z3 : ∀ x ∈ luu, x = 0) (z4 : ∀ x ∈ lu0, x = 0)
    (z5 : ∀ x ∈ lvv, x = 0) (z6 : ∀ x ∈ lv0, x = 0) :
    Fluid.Step ⟨size, F64.fin dtq, visc, diff, ⟨d, ld0⟩, ⟨d, ldd⟩, ⟨d, lu0⟩, ⟨d, luu⟩,
        ⟨d, lv0⟩, ⟨d, lvv⟩⟩
      = Outcome.done
          ⟨size, F64.fin dtq, visc, diff, ⟨d, ld0⟩, ⟨d, ldd⟩, ⟨d, lu0⟩, ⟨d, luu⟩,
            ⟨d, lv0⟩, ⟨d, lvv⟩⟩ := by
  have a1 : Vektor.AllZero { dim := d, vals := ldd } := z1
  have a2 : Vektor.AllZero { dim := d, vals := ld0 } := z2
  have a3 : Vektor.AllZero { dim := d, vals := luu } := z3
  have a4 : Vektor.AllZero { dim := d, vals := lu0 } := z4
  have a5 : Vektor.AllZero { dim := d, vals := lvv } := z5
  have a6 : Vektor.AllZero { dim := d, vals := lv0 } := z6
  simp only [Step, swapUU, swapVV, swapDD, projectVel, Vektor.Swap, Outcome.andThen,
    Outcome.mapState, ne_eq, not_true_eq_false, if_false,
    addSource_allZero_f64 size dtq _ _ _ _ _ _ _ _ _ _ a3 a4,
    addSource_allZero_f64 size dtq _ _ _ _ _ _ _ _ _ _ a5 a6,
    addSource_allZero_f64 size dtq _ _ _ _ _ _ _ _ _ _ a1 a2,
    diffuse_allZero_f64 size (F64.fin dtq) _ _ _ _ _ _ _ _ _ visc _ _ av hv hav a4 a3,
    diffuse_allZero_f64 size (F64.fin dtq) _ _ _ _ _ _ _ _ _ visc _ _ av hv hav a6 a5,
    diffuse_allZero_f64 size (F64.fin dtq) _ _ _ _ _ _ _ _ _ diff _ _ ad hd had a2 a1,
    project_allZero_f64 size _ _ _ _ _ _ _ _ _ hN hN2 _ _ _ _ a4 a6 a3 a5,
    project_allZero_f64 size _ _ _ _ _ _ _ _ _ hN hN2 _ _ _ _ a3 a5 a4 a6,
    advect_allZero_f64 size (F64.fin dtq) _ _ _ _ _ _ _ _ _ _ _ _ _ t0 ht hN hN2 a3 a4 a4 a6,
    advect_allZero_f64 size (F64.fin dtq) _ _ _ _ _ _ _ _ _ _ _ _ _ t0 ht hN hN2 a5 a6 a4 a6,
    advect_allZero_f64 size (F64.fin dtq) _ _ _ _ _ _ _ _ _ _ _ _ _ t0 ht hN hN2 a1 a2 a3 a5]

theorem Step_allZero_f64 (fl : Fluid) (av ad t0 : ℚ)
    (hN : 1 ≤ fl.size) (hN2 : fl.size < 2 ^ 52)
    (hv : fl.dt * fl.Visc * F64.ofInt (fl.size * fl.size) = F64.fin av) (hav : 0 ≤ av)
    (hd : fl.dt * fl.Diff * F64.ofInt (fl.size * fl.size) = F64.fin ad) (had : 0 ≤ ad)
    (ht : fl.dt * F64.ofInt fl.size = F64.fin t0)
    (hdim : fl.SameDim) (hz : fl.AllZero) :
    fl.Step = Outcome.done fl := by
  obtain ⟨size, dt, visc, diff, ⟨d1, l1⟩, ⟨d2, l2⟩, ⟨d3, l3⟩, ⟨d4, l4⟩, ⟨d5, l5⟩, ⟨d6, l6⟩⟩ := fl
  obtain ⟨e1, e2, e3, e4, e5⟩ := hdim
  obtain ⟨z1, z2, z3, z4, z5, z6⟩ := hz
  simp only at e1 e2 e3 e4 e5 hN hN2 hv hd ht
  subst e1 e2 e3 e4 e5
  have hsz : (size : ℚ) ≠ 0 := by
    have : (1 : ℚ) ≤ (size : ℚ) := by exact_mod_cast hN
    linarith
  rw [F64.ofInt_small size (by rw [abs_of_nonneg (by omega)]; omega)] at ht
  obtain ⟨dtq, rfl⟩ := F64.finite_of_mul_fin dt (size : ℚ) t0 hsz ht
  rw [← F64.ofInt_small size (by rw [abs_of_nonneg (by omega)]; omega)] at ht
  exact Step_allZero_mk_f64 size dtq visc diff _ l1 l2 l3 l4 l5 l6 av ad t0 hN hN2 hv hav
    hd had ht z1 z2 z3 z4 z5 z6

theorem stepN_allZero_f64 (fl : Fluid) (av ad t0 : ℚ)
    (hN : 1 ≤ fl.size) (hN2 : fl.size < 2 ^ 52)
    (hv : fl.dt * fl.Visc * F64.ofInt (fl.size * fl.size) = F64.fin av) (hav : 0 ≤ av)
    (hd : fl.dt * fl.Diff * F64.ofInt (fl.size * fl.size) = F64.fin ad) (had : 0 ≤ ad)
    (ht : fl.dt * F64.ofInt fl.size = F64.fin t0)
    (hdim : fl.SameDim) (hz : fl.AllZero) (k : Nat) :
    fl.stepN k = Outcome.done fl := by
  induction k with
  | zero => rfl
  | succ k ih =>
    unfold Fluid.stepN
    rw [Step_allZero_f64 fl av ad t0 hN hN2 hv hav hd had ht hdim hz]
    exact ih

end Fluid
end IEEE

/-! ## The claims

C1, C2: the fixed point and the safety of `Step`. C3 to C7: grid storage. C8 to C10:
injection and allocation. C11 to C14: `Min` and `Level`. C15, C16: `project`. C17 to C19:
`diffuse` and `advect`. C20: `setBnd`.

C1, C17, C18 and C19 are about signs, bounds and fixed points of float64 values: they are
stated over the float64 model (`IEEE.Fluid`). The others are stated over the exact
model (`Fluid`). -/

/-- C1 (fails as stated). The float64 fluid `NewFluid(1, 1e200, 0, 1e200, factory)` has
six grids of one dimension that hold 0 in every cell, and its parameters are not
negative; yet after `Step()` the cell (1,1) of `uu` and of `dd` holds NaN: in `diffuse`
`a = dt*visc*N²` is `1e200 * 1e200 = +Inf` and `a * 0` is NaN. With
`NewFluid(1, 0, 1e200, 1e200, factory)` the velocity stays 0, no coordinate of `advect`
is NaN, and the cell (1,1) of `dd` holds NaN all the same. -/
theorem Step_zero_gives_nan :
    (IEEE.NewFluid 1 1e200 0 1e200 IEEE.factory).AllZero
      ∧ (IEEE.NewFluid 1 1e200 0 1e200 IEEE.factory).SameDim
      ∧ (0 : F64) < 1e200
      ∧ (IEEE.NewFluid 1 1e200 0 1e200 IEEE.factory).Step.state.uu.Get 1 1 = F64.nan
      ∧ (IEEE.NewFluid 1 1e200 0 1e200 IEEE.factory).Step.state.dd.Get 1 1 = F64.nan
      ∧ (IEEE.NewFluid 1 0 1e200 1e200 IEEE.factory).Step.state.dd.Get 1 1 = F64.nan := by
  decide!

/-- C1, amended. For a float64 fluid of resolution `1 ≤ N < 2^52` whose six grids have
one dimension and hold 0 in every cell: if the products `dt*visc*N²` and `dt*diff*N²`
that `diffuse` forms are finite and not negative, and the product `dt*N` that `advect`
forms is finite, then `Step()` completes and leaves all six grids holding 0 in every
cell, and after any number `k` of `Step()` calls all grids hold 0, `Density(i,j) = 0`
and `Velocity(i,j) = (0,0)` for all `i`, `j`. -/
theorem Step_zero_fixed_point_finite (fl : IEEE.Fluid) (av ad t0 : ℚ)
    (hN : 1 ≤ fl.size) (hN2 : fl.size < 2 ^ 52)
    (hv : fl.dt * fl.Visc * F64.ofInt (fl.size * fl.size) = F64.fin av) (hav : 0 ≤ av)
    (hd : fl.dt * fl.Diff * F64.ofInt (fl.size * fl.size) = F64.fin ad) (had : 0 ≤ ad)
    (ht : fl.dt * F64.ofInt fl.size = F64.fin t0)
    (hdim : fl.SameDim) (hz : fl.AllZero) :
    (∃ t, fl.Step = Outcome.done t ∧ t.AllZero)
      ∧ ∀ k : Nat, ∃ t, fl.stepN k = Outcome.done t ∧ t.AllZero
          ∧ ∀ i j, t.Density i j = 0 ∧ t.Velocity i j = (0, 0) := by
  refine ⟨⟨fl, IEEE.Fluid.Step_allZero_f64 fl av ad t0 hN hN2 hv hav hd had ht hdim hz, hz⟩,
    ?_⟩
  intro k
  refine ⟨fl, IEEE.Fluid.stepN_allZero_f64 fl av ad t0 hN hN2 hv hav hd had ht hdim hz k,
    hz, ?_⟩
  intro i j
  obtain ⟨z1, _, z3, _, z5, _⟩ := hz
  simp only [IEEE.Fluid.Density, IEEE.Fluid.Velocity, IEEE.Vektor.Get_of_allZero_f64 z1,
    IEEE.Vektor.Get_of_allZero_f64 z3, IEEE.Vektor.Get_of_allZero_f64 z5, and_self]

/-- Witness for C1, amended: the float64 fluid `NewFluid(1, 0.01, 0.0001, 0.001,
factory)`, with the three products `0.001*0.01*1`, `0.001*0.0001*1` and `0.001*1` as
float64 computes them. -/
theorem Step_zero_fixed_point_finite_witness :
    (∃ t, (IEEE.NewFluid 1 0.01 0.0001 0.001 IEEE.factory).Step = Outcome.done t
        ∧ t.AllZero)
      ∧ ∀ k : Nat, ∃ t, (IEEE.NewFluid 1 0.01 0.0001 0.001 IEEE.factory).stepN k
          = Outcome.done t ∧ t.AllZero
          ∧ ∀ i j, t.Density i j = 0 ∧ t.Velocity i j = (0, 0) :=
  Step_zero_fixed_point_finite (IEEE.NewFluid 1 0.01 0.0001 0.001 IEEE.factory)
    (5902958103587057/590295810358705651712)
    (7555786372591433/75557863725914323419136) (1152921504606847/1152921504606846976)
    (by decide) (by decide) (by decide!) (by norm_num) (by decide!) (by norm_num)
    (by decide!) (by decide!) (by decide!)

/-- C2. For every fluid made by `NewFluid` with the grid factory of package game (any
resolution `N`, any parameters) and every finite sequence of `AddDensity`,
`AddVelocity`, `Level` and `Step` calls with arbitrary arguments: the whole sequence
completes without a panic (so each of the six `Swap` calls of every `Step` succeeds),
and afterwards all six grids have one and the same dimension, `(N+2)*(N+2)`, each
still holding `dim*dim` values. -/
theorem run_never_panics (N : Int) (visc diff dt : ℚ) (calls : List Fluid.Call) :
    ∃ t, (NewFluid N visc diff dt factory).run calls = Outcome.done t
      ∧ t.Shaped ((N + 2) * (N + 2)) ∧ t.SameDim :=  by
  obtain ⟨t, ht, hs⟩ := Fluid.run_Shaped calls (NewFluid N visc diff dt factory)
    ((N + 2) * (N + 2)) (Fluid.NewFluid_Shaped N visc diff dt)
  refine ⟨t, ht, hs, ?_⟩
  obtain ⟨h1, h2, h3, h4, h5, h6⟩ := hs
  exact ⟨by rw [h1.1, h2.1], by rw [h3.1, h2.1], by rw [h4.1, h2.1], by rw [h5.1, h2.1],
    by rw [h6.1, h2.1]⟩

/-- C3 (the code departs from it). A vektor of dimension 2 that stores 7 in cell (0,1):
`Get(2, 0)` has `i = 2` outside `[0,2)`, yet `index` yields `2 + 2*0 = 2 < 4` and the
read returns the 7 stored in cell (0,1), not 0. -/
theorem Get_outside_reads_other_cell :
    ((Vektor.New 2).Set 0 1 7).Get 2 0 = 7
      ∧ ((Vektor.New 2).Set 0 1 7).vals = [0, 0, 7, 0]
      ∧ ((Vektor.New 2).Set 0 1 7).index 2 0 = 2 := by
  decide

/-- C4 (the code departs from it). On a fresh vektor of dimension 2, `Set(2, 0, 5)` has
`i = 2` outside `[0,2)`, yet it overwrites the in-bounds cell (0,1): that cell reads 0
before and 5 after. -/
theorem Set_outside_writes_other_cell :
    (Vektor.New 2).Get 0 1 = 0
      ∧ ((Vektor.New 2).Set 2 0 5).Get 0 1 = 5
      ∧ ((Vektor.New 2).Set 2 0 5).vals = [0, 0, 5, 0] := by
  decide

/-- C5. For vektors `A`, `B` of equal dimension, `A.Swap(B)` completes, and afterwards
every read of `A` gives what `B` held before, every read of `B` gives what `A` held
before, and both dimensions are unchanged. -/
theorem Swap_exchanges_contents (A B : Vektor) (d : Int) (hA : A.dim = d) (hB : B.dim = d) :
    ∃ A1 B1, A.Swap B = Outcome.done (A1, B1)
      ∧ (∀ i j, A1.Get i j = B.Get i j)
      ∧ (∀ i j, B1.Get i j = A.Get i j)
      ∧ A1.dim = d ∧ B1.dim = d := by
  subst hA
  refine ⟨{ A with vals := B.vals }, { B with vals := A.vals }, ?_, ?_, ?_, rfl, hB⟩
  · simp [Vektor.Swap, hB]
  · intro i j
    simp [Vektor.Get, Vektor.index, hB]
  · intro i j
    simp [Vektor.Get, Vektor.index, hB]

/-- Witness for C5: the two vektors of the repository's swap test. -/
theorem Swap_exchanges_contents_witness :
    ∃ A1 B1, ((Vektor.New 2).Set 0 0 11).Swap ((Vektor.New 2).Set 1 1 22)
        = Outcome.done (A1, B1)
      ∧ (∀ i j, A1.Get i j = ((Vektor.New 2).Set 1 1 22).Get i j)
      ∧ (∀ i j, B1.Get i j = ((Vektor.New 2).Set 0 0 11).Get i j)
      ∧ A1.dim = 2 ∧ B1.dim = 2 :=
  Swap_exchanges_contents ((Vektor.New 2).Set 0 0 11) ((Vektor.New 2).Set 1 1 22) 2
    (by decide) (by decide)

/-- C6. `A.Swap(B)` panics exactly when the dimensions differ, and the state at the
panic is the unchanged pair `(A, B)`: no dimension and no stored value has changed. -/
theorem Swap_panics_iff_dim_differs (A B : Vektor) :
    ((∃ msg s, A.Swap B = Outcome.panicked msg s) ↔ A.dim ≠ B.dim)
      ∧ (∀ msg s, A.Swap B = Outcome.panicked msg s → s = (A, B)) := by
  unfold Vektor.Swap
  by_cases h : A.dim = B.dim
  · simp [h]
  · simp only [ne_eq, h, not_false_eq_true, if_true, iff_true]
    refine ⟨⟨_, _, rfl⟩, ?_⟩
    intro msg s hs
    injection hs with _ h2
    exact h2.symm

/-- C7. On a vektor of dimension `d` holding `d*d` values, for an in-bounds cell
`(i,j)`: after `Set(i,j,x)`, `Get(i,j)` returns `x`; every other in-bounds cell reads
as before; and two in-bounds cells with the same index `i + d*j` are the same cell. -/
theorem Get_after_Set_inBounds (vk : Vektor) (i j : Int) (x : ℚ) (hwf : vk.WF)
    (hi0 : 0 ≤ i) (hi : i < vk.dim) (hj0 : 0 ≤ j) (hj : j < vk.dim) :
    (vk.Set i j x).Get i j = x
      ∧ (∀ a b, 0 ≤ a → a < vk.dim → 0 ≤ b → b < vk.dim → (a, b) ≠ (i, j) →
          (vk.Set i j x).Get a b = vk.Get a b)
      ∧ (∀ a b, 0 ≤ a → a < vk.dim → 0 ≤ b → b < vk.dim →
          a + vk.dim * b = i + vk.dim * j → (a, b) = (i, j)) := by
  obtain ⟨hidx, h0, hlt⟩ := Vektor.index_inBounds vk i j hi0 hi hj0 hj
  have hlen : (vk.index i j).toNat < vk.vals.length := by
    have := hwf
    unfold Vektor.WF at this
    omega
  refine ⟨?_, ?_, ?_⟩
  · rw [Vektor.Get_Set, if_pos ⟨by omega, rfl, hlen⟩]
  · intro a b ha0 ha hb0 hb hne
    rw [Vektor.Get_Set, if_neg]
    rintro ⟨_, heq, _⟩
    obtain ⟨h1, h2⟩ := Vektor.index_injective vk a b i j ha0 ha hb0 hb hi0 hi hj0 hj heq
    exact hne (by rw [h1, h2])
  · intro a b ha0 ha hb0 hb heq
    have heq2 : vk.index a b = vk.index i j := by
      rw [(Vektor.index_inBounds vk a b ha0 ha hb0 hb).1, hidx, heq]
    obtain ⟨h1, h2⟩ := Vektor.index_injective vk a b i j ha0 ha hb0 hb hi0 hi hj0 hj heq2
    rw [h1, h2]

/-- Witness for C7: the vektor of dimension 2 of the repository's test, cell (1,0). -/
theorem Get_after_Set_inBounds_witness :
    ((Vektor.New 2).Set 1 0 11).Get 1 0 = 11
      ∧ (∀ a b, 0 ≤ a → a < (Vektor.New 2).dim → 0 ≤ b → b < (Vektor.New 2).dim →
          (a, b) ≠ (1, 0) → ((Vektor.New 2).Set 1 0 11).Get a b = (Vektor.New 2).Get a b)
      ∧ (∀ a b, 0 ≤ a → a < (Vektor.New 2).dim → 0 ≤ b → b < (Vektor.New 2).dim →
          a + (Vektor.New 2).dim * b = 1 + (Vektor.New 2).dim * 0 → (a, b) = (1, 0)) :=
  Get_after_Set_inBounds (Vektor.New 2) 1 0 11 (by decide)
    (by decide) (by decide) (by decide) (by decide)

set_option maxRecDepth 100000 in
/-- C8 (the code departs from it). On the fluid of resolution 1 made by `NewFluid`
with the factory of package game, `AddDensity(10, 0, 0, 5)` names the single cell
(10,0), which lies outside the grid; the write is not dropped: its index
`10 + 9*0 = 10 = 1 + 9*1` is that of grid cell (1,1), which then holds 5 although it
is not in the requested square. -/
theorem AddDensity_outside_hits_grid_cell :
    ((NewFluid 1 (1/100) (1/10000) (1/1000) factory).AddDensity 10 0 0 5).d0.Get 1 1 = 5
      ∧ ¬ (|(1 : Int) - 10| ≤ 0 ∧ |(1 : Int) - 0| ≤ 0) := by
  decide

/-- C9. From any fluid state of resolution `N ≥ 1` whose grids have a dimension
`D ≥ N+2` (as `NewFluid` makes them): calling `AddDensity` with arguments A and then with
arguments B leaves `d0` equal, at every grid cell `(a,b)` with `0 ≤ a,b ≤ N+1`, to what
the single call with B leaves; likewise `AddVelocity` for `u0` and for `v0`. -/
theorem injections_do_not_accumulate (fl : Fluid) (D : Int) (hN : 1 ≤ fl.size)
    (hs : fl.Shaped D) (hD : fl.size + 2 ≤ D)
    (iA jA nA : Int) (dA uA vA : ℚ) (iB jB nB : Int) (dB uB vB : ℚ)
    (a b : Int) (ha0 : 0 ≤ a) (ha : a ≤ fl.size + 1) (hb0 : 0 ≤ b) (hb : b ≤ fl.size + 1) :
    ((fl.AddDensity iA jA nA dA).AddDensity iB jB nB dB).d0.Get a b
        = (fl.AddDensity iB jB nB dB).d0.Get a b
      ∧ ((fl.AddVelocity iA jA nA uA vA).AddVelocity iB jB nB uB vB).u0.Get a b
        = (fl.AddVelocity iB jB nB uB vB).u0.Get a b
      ∧ ((fl.AddVelocity iA jA nA uA vA).AddVelocity iB jB nB uB vB).v0.Get a b
        = (fl.AddVelocity iB jB nB uB vB).v0.Get a b := by
  have hsA := Fluid.AddDensity_Shaped fl iA jA nA dA D hs
  have hsV := Fluid.AddVelocity_Shaped fl iA jA nA uA vA D hs
  refine ⟨?_, ?_⟩
  · exact Fluid.fill_related iB jB nB dB _ _ a b
      (Fluid.zero_related fl (fl.AddDensity iA jA nA dA) fl.d0 (fl.AddDensity iA jA nA dA).d0
        D rfl hs.1 hsA.1 hN hD a b ha0 ha hb0 hb)
  · exact Fluid.fill2_related iB jB nB uB vB
      ((fl.AddVelocity iA jA nA uA vA).zero (fl.AddVelocity iA jA nA uA vA).u0,
        (fl.AddVelocity iA jA nA uA vA).zero (fl.AddVelocity iA jA nA uA vA).v0)
      (fl.zero fl.u0, fl.zero fl.v0) a b
      (Fluid.zero_related fl (fl.AddVelocity iA jA nA uA vA) fl.u0
        (fl.AddVelocity iA jA nA uA vA).u0 D rfl hs.2.2.1 hsV.2.2.1 hN hD a b ha0 ha hb0 hb)
      (Fluid.zero_related fl (fl.AddVelocity iA jA nA uA vA) fl.v0
        (fl.AddVelocity iA jA nA uA vA).v0 D rfl hs.2.2.2.2.1 hsV.2.2.2.2.1 hN hD a b
        ha0 ha hb0 hb)

/-- Witness for C9: the fluid of resolution 1 made by `NewFluid` with the factory of
package game, injections at (1,1) with radius 0 and then radius 1, read at cell (2,2). -/
theorem injections_do_not_accumulate_witness :
    (((NewFluid 1 (1/100) (1/10000) (1/1000) factory).AddDensity 1 1 0 5).AddDensity
          1 1 1 9).d0.Get 2 2
        = ((NewFluid 1 (1/100) (1/10000) (1/1000) factory).AddDensity 1 1 1 9).d0.Get 2 2
      ∧ (((NewFluid 1 (1/100) (1/10000) (1/1000) factory).AddVelocity 1 1 0 3 4).AddVelocity
          1 1 1 7 8).u0.Get 2 2
        = ((NewFluid 1 (1/100) (1/10000) (1/1000) factory).AddVelocity 1 1 1 7 8).u0.Get 2 2
      ∧ (((NewFluid 1 (1/100) (1/10000) (1/1000) factory).AddVelocity 1 1 0 3 4).AddVelocity
          1 1 1 7 8).v0.Get 2 2
        = ((NewFluid 1 (1/100) (1/10000) (1/1000) factory).AddVelocity 1 1 1 7 8).v0.Get
          2 2 :=
  injections_do_not_accumulate (NewFluid 1 (1/100) (1/10000) (1/1000) factory) 9
    (by decide) (by decide) (by decide) 1 1 0 5 3 4 1 1 1 9 7 8 2 2
    (by decide) (by decide) (by decide) (by decide)

/-- C10 (the code departs from it). At resolution `N = 1`, `NewFluid` hands
`count = (1+2)*(1+2) = 9` to the factory, and the factory passes it to `vektor.New` as
the dimension: each of the six grids has dimension 9 and a slice of 81 values, not
dimension 3 with 9 values. -/
theorem NewFluid_grids_dim_is_count :
    (NewFluid 1 (1/100) (1/10000) (1/1000) factory).dd.dim = 9
      ∧ (NewFluid 1 (1/100) (1/10000) (1/1000) factory).dd.vals.length = 81
      ∧ (NewFluid 1 (1/100) (1/10000) (1/1000) factory).Shaped 9 := by
  decide

/-- C11 (the code departs from it). On the fluid of resolution 1 reached by
`NewFluid(1, 0, 0, 1, factory)`, `AddDensity(1, 1, 0, 100000)`, `Step()`, the only
interior cell has density 100000, so the interior minimum is 100000; `Min()` returns its
seed 99999, which is the density of no cell. -/
theorem Min_returns_seed_above_99999 :
    (((NewFluid 1 0 0 1 factory).AddDensity 1 1 0 100000).Step).state.Density 1 1 = 100000
      ∧ (((NewFluid 1 0 0 1 factory).AddDensity 1 1 0 100000).Step).state.size = 1
      ∧ (((NewFluid 1 0 0 1 factory).AddDensity 1 1 0 100000).Step).state.Min = 99999 := by
  decide!

/-- C12. For a fluid of resolution `N ≥ 1` whose density grid has a dimension
`D ≥ N+2`: if `min < 0.0001` then `Level(min)` returns the fluid unchanged; otherwise
every interior density `d` becomes `d - 4*min`, or exactly 0 when `d - 4*min < 0.0001`,
and afterwards the boundary ring of the density is what `setBnd` with code 0 derives
from the new interior: each edge cell equals its interior neighbour and each corner the
average of its two ring neighbours. -/
theorem Level_effect_on_density (fl : Fluid) (D : Int) (hs : fl.dd.Shape D)
    (hN : 1 ≤ fl.size) (hD : fl.size + 2 ≤ D) (min : ℚ) :
    (min < 0.0001 → fl.Level min = fl)
      ∧ (¬ min < 0.0001 →
          (∀ a b, 1 ≤ a → a ≤ fl.size → 1 ≤ b → b ≤ fl.size →
            (fl.Level min).dd.Get a b
              = if fl.dd.Get a b - 4 * min < 0.0001 then 0 else fl.dd.Get a b - 4 * min)
          ∧ (∀ k, 1 ≤ k → k ≤ fl.size →
              (fl.Level min).dd.Get 0 k = (fl.Level min).dd.Get 1 k
              ∧ (fl.Level min).dd.Get (fl.size + 1) k = (fl.Level min).dd.Get fl.size k
              ∧ (fl.Level min).dd.Get k 0 = (fl.Level min).dd.Get k 1
              ∧ (fl.Level min).dd.Get k (fl.size + 1) = (fl.Level min).dd.Get k fl.size)
          ∧ (fl.Level min).dd.Get 0 0
              = 0.5 * ((fl.Level min).dd.Get 1 0 + (fl.Level min).dd.Get 0 1)
          ∧ (fl.Level min).dd.Get 0 (fl.size + 1)
              = 0.5 * ((fl.Level min).dd.Get 1 (fl.size + 1)
                  + (fl.Level min).dd.Get 0 fl.size)
          ∧ (fl.Level min).dd.Get (fl.size + 1) 0
              = 0.5 * ((fl.Level min).dd.Get fl.size 0
                  + (fl.Level min).dd.Get (fl.size + 1) 1)
          ∧ (fl.Level min).dd.Get (fl.size + 1) (fl.size + 1)
              = 0.5 * ((fl.Level min).dd.Get fl.size (fl.size + 1)
                  + (fl.Level min).dd.Get (fl.size + 1) fl.size)) := by
  refine ⟨?_, ?_⟩
  · intro hlt
    unfold Fluid.Level
    simp only [if_pos hlt]
  · intro hmin
    exact ⟨fun a b ha1 ha hb1 hb => Fluid.Level_interior fl D hs hN hD min hmin a b ha1 ha hb1 hb,
      Fluid.Level_ring fl D hs hN hD min hmin⟩

/-- Witness for C12: the example fluid of resolution 2, `Level(1)`. -/
theorem Level_effect_on_density_witness :
    ((1 : ℚ) < 0.0001 → Fluid.exampleFluid.Level 1 = Fluid.exampleFluid)
      ∧ (¬ (1 : ℚ) < 0.0001 →
          (∀ a b, 1 ≤ a → a ≤ Fluid.exampleFluid.size → 1 ≤ b → b ≤ Fluid.exampleFluid.size →
            (Fluid.exampleFluid.Level 1).dd.Get a b
              = if Fluid.exampleFluid.dd.Get a b - 4 * 1 < 0.0001 then 0
                else Fluid.exampleFluid.dd.Get a b - 4 * 1)
          ∧ (∀ k, 1 ≤ k → k ≤ Fluid.exampleFluid.size →
              (Fluid.exampleFluid.Level 1).dd.Get 0 k = (Fluid.exampleFluid.Level 1).dd.Get 1 k
              ∧ (Fluid.exampleFluid.Level 1).dd.Get (Fluid.exampleFluid.size + 1) k
                  = (Fluid.exampleFluid.Level 1).dd.Get Fluid.exampleFluid.size k
              ∧ (Fluid.exampleFluid.Level 1).dd.Get k 0 = (Fluid.exampleFluid.Level 1).dd.Get k 1
              ∧ (Fluid.exampleFluid.Level 1).dd.Get k (Fluid.exampleFluid.size + 1)
                  = (Fluid.exampleFluid.Level 1).dd.Get k Fluid.exampleFluid.size)
          ∧ (Fluid.exampleFluid.Level 1).dd.Get 0 0
              = 0.5 * ((Fluid.exampleFluid.Level 1).dd.Get 1 0
                  + (Fluid.exampleFluid.Level 1).dd.Get 0 1)
          ∧ (Fluid.exampleFluid.Level 1).dd.Get 0 (Fluid.exampleFluid.size + 1)
              = 0.5 * ((Fluid.exampleFluid.Level 1).dd.Get 1 (Fluid.exampleFluid.size + 1)
                  + (Fluid.exampleFluid.Level 1).dd.Get 0 Fluid.exampleFluid.size)
          ∧ (Fluid.exampleFluid.Level 1).dd.Get (Fluid.exampleFluid.size + 1) 0
              = 0.5 * ((Fluid.exampleFluid.Level 1).dd.Get Fluid.exampleFluid.size 0
                  + (Fluid.exampleFluid.Level 1).dd.Get (Fluid.exampleFluid.size + 1) 1)
          ∧ (Fluid.exampleFluid.Level 1).dd.Get (Fluid.exampleFluid.size + 1)
                (Fluid.exampleFluid.size + 1)
              = 0.5 * ((Fluid.exampleFluid.Level 1).dd.Get Fluid.exampleFluid.size
                    (Fluid.exampleFluid.size + 1)
                  + (Fluid.exampleFluid.Level 1).dd.Get (Fluid.exampleFluid.size + 1)
                    Fluid.exampleFluid.size)) :=
  Level_effect_on_density Fluid.exampleFluid 16 (by decide!) (by decide) (by decide) 1

/-- C13. For a fluid of resolution `N ≥ 1` (density grid of dimension `D ≥ N+2`) whose
interior density minimum `m` is at least 0.0001: after `Level(m)`, `Min()` returns 0,
which is the old minimum minus `4m` clamped at 0; and if the old interior maximum `M`
has `M - 4m ≥ 0.0001`, then `Max()` returns `M - 4m`. (Of `m` the proof uses only that
it is the density of some interior cell, which the interior minimum is.) -/
theorem Level_floor (fl : Fluid) (D : Int) (hs : fl.dd.Shape D) (hN : 1 ≤ fl.size)
    (hD : fl.size + 2 ≤ D) (m M : ℚ) (hm : 0.0001 ≤ m)
    (hmatt : ∃ a b, 1 ≤ a ∧ a ≤ fl.size ∧ 1 ≤ b ∧ b ≤ fl.size ∧ fl.dd.Get a b = m)
    (hMatt : ∃ a b, 1 ≤ a ∧ a ≤ fl.size ∧ 1 ≤ b ∧ b ≤ fl.size ∧ fl.dd.Get a b = M)
    (hMup : ∀ a b, 1 ≤ a → a ≤ fl.size → 1 ≤ b → b ≤ fl.size → fl.dd.Get a b ≤ M) :
    (fl.Level m).Min = 0
      ∧ (fl.Level m).Min = max (m - 4 * m) 0
      ∧ (0.0001 ≤ M - 4 * m → (fl.Level m).Max = M - 4 * m) := by
  have hmin : ¬ m < 0.0001 := not_lt.2 hm
  have hmpos : (0 : ℚ) < m := lt_of_lt_of_le (by norm_num) hm
  have hsize := Fluid.Level_size fl m
  have hcell : ∀ a b, 1 ≤ a → a ≤ fl.size → 1 ≤ b → b ≤ fl.size →
      (fl.Level m).dd.Get a b
        = if fl.dd.Get a b - 4 * m < 0.0001 then 0 else fl.dd.Get a b - 4 * m :=
    fun a b ha1 ha hb1 hb => Fluid.Level_interior fl D hs hN hD m hmin a b ha1 ha hb1 hb
  have hMin0 : (fl.Level m).Min = 0 := by
    obtain ⟨_, h2, h3⟩ := Fluid.Min_spec (fl.Level m)
    rw [hsize] at h2 h3
    obtain ⟨a, b, ha1, ha, hb1, hb, hab⟩ := hmatt
    apply le_antisymm
    · have := h2 a b ha1 ha hb1 hb
      rw [hcell a b ha1 ha hb1 hb, hab, if_pos (by norm_num at hm ⊢; linarith)] at this
      exact this
    · rcases h3 with h | ⟨c, d, hc1, hc, hd1, hd, hcd⟩
      · rw [h]
        norm_num
      · rw [hcd, hcell c d hc1 hc hd1 hd]
        exact Fluid.levelled_nonneg _ _
  refine ⟨hMin0, ?_, ?_⟩
  · rw [hMin0, max_eq_right (by linarith)]
  · intro hM
    obtain ⟨h1, h2, h3⟩ := Fluid.Max_spec (fl.Level m)
    rw [hsize] at h2 h3
    obtain ⟨a, b, ha1, ha, hb1, hb, hab⟩ := hMatt
    apply le_antisymm
    · rcases h3 with h | ⟨c, d, hc1, hc, hd1, hd, hcd⟩
      · rw [h]
        norm_num at hM ⊢
        linarith
      · rw [hcd, hcell c d hc1 hc hd1 hd]
        have := hMup c d hc1 hc hd1 hd
        split_ifs
        · norm_num at hM ⊢
          linarith
        · linarith
    · have := h2 a b ha1 ha hb1 hb
      rw [hcell a b ha1 ha hb1 hb, hab, if_neg (not_lt.2 hM)] at this
      exact this

/-- Witness for C13: the example fluid of resolution 2, whose interior densities are
1, 10, 3, 7: minimum 1, maximum 10, and `10 - 4*1 = 6` is above the threshold. -/
theorem Level_floor_witness :
    (Fluid.exampleFluid.Level 1).Min = 0
      ∧ (Fluid.exampleFluid.Level 1).Min = max ((1 : ℚ) - 4 * 1) 0
      ∧ ((0.0001 : ℚ) ≤ 10 - 4 * 1 → (Fluid.exampleFluid.Level 1).Max = 10 - 4 * 1) :=
  Level_floor Fluid.exampleFluid 16 (by decide!) (by decide) (by decide) 1 10 (by norm_num)
    ⟨1, 1, by decide!⟩
    ⟨1, 2, by decide!⟩
    (fun a b ha1 ha hb1 hb => by
      have hsz : Fluid.exampleFluid.size = 2 := rfl
      rw [hsz] at ha hb
      have ha2 : a = 1 ∨ a = 2 := by omega
      have hb2 : b = 1 ∨ b = 2 := by omega
      rcases ha2 with rfl | rfl <;> rcases hb2 with rfl | rfl <;> decide!)

/-- C14. `Level(min)` leaves the velocity grids `uu`, `vv` and the source grids `d0`,
`u0`, `v0` unchanged (hence at every cell), so `Velocity(i,j)` is the same before and
after the call for all `i`, `j`; the resolution and the parameters are unchanged too. -/
theorem Level_touches_density_only (fl : Fluid) (min : ℚ) :
    (fl.Level min).uu = fl.uu ∧ (fl.Level min).vv = fl.vv
      ∧ (fl.Level min).d0 = fl.d0 ∧ (fl.Level min).u0 = fl.u0 ∧ (fl.Level min).v0 = fl.v0
      ∧ (∀ i j, (fl.Level min).Velocity i j = fl.Velocity i j)
      ∧ (fl.Level min).size = fl.size ∧ (fl.Level min).dt = fl.dt
      ∧ (fl.Level min).Visc = fl.Visc ∧ (fl.Level min).Diff = fl.Diff := by
  unfold Fluid.Level Fluid.Velocity
  simp only []
  split_ifs <;> simp

/-- C20. For a grid `x` of dimension `D ≥ N+2` (holding `D*D` values), `N ≥ 1`, and
any code `bnd` (so in particular 0, 1, 2): after `setBnd(bnd, x)` all interior cells are
unchanged; for `1 ≤ k ≤ N`, `x[0,k] = s1*x[1,k]`, `x[N+1,k] = s1*x[N,k]`,
`x[k,0] = s2*x[k,1]`, `x[k,N+1] = s2*x[k,N]` with `s1 = bndSign bnd 1` (`-1` if
`bnd = 1`, else `+1`) and `s2 = bndSign bnd 2` (`-1` if `bnd = 2`, else `+1`); and each
corner equals the average of its two adjacent ring cells. -/
theorem setBnd_boundary_enforcement (fl : Fluid) (bnd : Int) (x : Vektor) (D : Int)
    (hs : x.Shape D) (hN : 1 ≤ fl.size) (hD : fl.size + 2 ≤ D) :
    (Fluid.bndSign bnd 1 = if bnd = 1 then -1 else 1)
      ∧ (Fluid.bndSign bnd 2 = if bnd = 2 then -1 else 1)
      ∧ (∀ a b, 1 ≤ a → a ≤ fl.size → 1 ≤ b → b ≤ fl.size →
          (fl.setBnd bnd x).Get a b = x.Get a b)
      ∧ (∀ k, 1 ≤ k → k ≤ fl.size →
          (fl.setBnd bnd x).Get 0 k = Fluid.bndSign bnd 1 * (fl.setBnd bnd x).Get 1 k
          ∧ (fl.setBnd bnd x).Get (fl.size + 1) k
              = Fluid.bndSign bnd 1 * (fl.setBnd bnd x).Get fl.size k
          ∧ (fl.setBnd bnd x).Get k 0 = Fluid.bndSign bnd 2 * (fl.setBnd bnd x).Get k 1
          ∧ (fl.setBnd bnd x).Get k (fl.size + 1)
              = Fluid.bndSign bnd 2 * (fl.setBnd bnd x).Get k fl.size)
      ∧ (fl.setBnd bnd x).Get 0 0
          = 0.5 * ((fl.setBnd bnd x).Get 1 0 + (fl.setBnd bnd x).Get 0 1)
      ∧ (fl.setBnd bnd x).Get 0 (fl.size + 1)
          = 0.5 * ((fl.setBnd bnd x).Get 1 (fl.size + 1) + (fl.setBnd bnd x).Get 0 fl.size)
      ∧ (fl.setBnd bnd x).Get (fl.size + 1) 0
          = 0.5 * ((fl.setBnd bnd x).Get fl.size 0 + (fl.setBnd bnd x).Get (fl.size + 1) 1)
      ∧ (fl.setBnd bnd x).Get (fl.size + 1) (fl.size + 1)
          = 0.5 * ((fl.setBnd bnd x).Get fl.size (fl.size + 1)
              + (fl.setBnd bnd x).Get (fl.size + 1) fl.size) :=
  ⟨rfl, rfl, (Fluid.setBnd_spec fl bnd x D hs hN hD).2⟩

/-- Witness for C20: code 1 on the density grid of the example fluid of resolution 2. -/
theorem setBnd_boundary_enforcement_witness :
    (Fluid.bndSign 1 1 = if (1 : Int) = 1 then -1 else 1)
      ∧ (Fluid.bndSign 1 2 = if (1 : Int) = 2 then -1 else 1)
      ∧ (∀ a b, 1 ≤ a → a ≤ Fluid.exampleFluid.size → 1 ≤ b → b ≤ Fluid.exampleFluid.size →
          (Fluid.exampleFluid.setBnd 1 Fluid.exampleFluid.dd).Get a b
            = Fluid.exampleFluid.dd.Get a b)
      ∧ (∀ k, 1 ≤ k → k ≤ Fluid.exampleFluid.size →
          (Fluid.exampleFluid.setBnd 1 Fluid.exampleFluid.dd).Get 0 k
              = Fluid.bndSign 1 1 * (Fluid.exampleFluid.setBnd 1 Fluid.exampleFluid.dd).Get 1 k
          ∧ (Fluid.exampleFluid.setBnd 1 Fluid.exampleFluid.dd).Get
                (Fluid.exampleFluid.size + 1) k
              = Fluid.bndSign 1 1 * (Fluid.exampleFluid.setBnd 1 Fluid.exampleFluid.dd).Get
                  Fluid.exampleFluid.size k
          ∧ (Fluid.exampleFluid.setBnd 1 Fluid.exampleFluid.dd).Get k 0
              = Fluid.bndSign 1 2 * (Fluid.exampleFluid.setBnd 1 Fluid.exampleFluid.dd).Get k 1
          ∧ (Fluid.exampleFluid.setBnd 1 Fluid.exampleFluid.dd).Get k
                (Fluid.exampleFluid.size + 1)
              = Fluid.bndSign 1 2 * (Fluid.exampleFluid.setBnd 1 Fluid.exampleFluid.dd).Get k
                  Fluid.exampleFluid.size)
      ∧ (Fluid.exampleFluid.setBnd 1 Fluid.exampleFluid.dd).Get 0 0
          = 0.5 * ((Fluid.exampleFluid.setBnd 1 Fluid.exampleFluid.dd).Get 1 0
              + (Fluid.exampleFluid.setBnd 1 Fluid.exampleFluid.dd).Get 0 1)
      ∧ (Fluid.exampleFluid.setBnd 1 Fluid.exampleFluid.dd).Get 0
            (Fluid.exampleFluid.size + 1)
          = 0.5 * ((Fluid.exampleFluid.setBnd 1 Fluid.exampleFluid.dd).Get 1
                (Fluid.exampleFluid.size + 1)
              + (Fluid.exampleFluid.setBnd 1 Fluid.exampleFluid.dd).Get 0
                Fluid.exampleFluid.size)
      ∧ (Fluid.exampleFluid.setBnd 1 Fluid.exampleFluid.dd).Get
            (Fluid.exampleFluid.size + 1) 0
          = 0.5 * ((Fluid.exampleFluid.setBnd 1 Fluid.exampleFluid.dd).Get
                Fluid.exampleFluid.size 0
              + (Fluid.exampleFluid.setBnd 1 Fluid.exampleFluid.dd).Get
                (Fluid.exampleFluid.size + 1) 1)
      ∧ (Fluid.exampleFluid.setBnd 1 Fluid.exampleFluid.dd).Get
            (Fluid.exampleFluid.size + 1) (Fluid.exampleFluid.size + 1)
          = 0.5 * ((Fluid.exampleFluid.setBnd 1 Fluid.exampleFluid.dd).Get
                Fluid.exampleFluid.size (Fluid.exampleFluid.size + 1)
              + (Fluid.exampleFluid.setBnd 1 Fluid.exampleFluid.dd).Get
                (Fluid.exampleFluid.size + 1) Fluid.exampleFluid.size) :=
  setBnd_boundary_enforcement Fluid.exampleFluid 1 Fluid.exampleFluid.dd 16 (by decide!)
    (by decide) (by decide)

/-- C15 (fails as stated). The fluid of resolution 2 with `u = setBnd(1, u₀)`, where
`u₀` is zero but for `u₀[1,1] = 1`, and `v` zero: every cell of `u` and `v` has absolute
value at most 1, `setBnd(1, u)` and `setBnd(2, v)` leave them as they are, the discrete
divergence at the interior cell (1,1) is 1, and after `project` the discrete divergence
at (1,1) is `8356288580813/8796093022208` (about 0.95), which is not within `1e-3` of
zero. -/
theorem project_leaves_divergence :
    (2 ≤ Fluid.exampleFluid.size)
      ∧ (∀ x ∈ (Fluid.exampleFluid.setBnd 1 ((Vektor.New 16).Set 1 1 1)).vals, |x| ≤ 1)
      ∧ (∀ x ∈ (Fluid.exampleFluid.setBnd 2 (Vektor.New 16)).vals, |x| ≤ 1)
      ∧ Fluid.exampleFluid.setBnd 1 (Fluid.exampleFluid.setBnd 1 ((Vektor.New 16).Set 1 1 1))
          = Fluid.exampleFluid.setBnd 1 ((Vektor.New 16).Set 1 1 1)
      ∧ Fluid.exampleFluid.setBnd 2 (Fluid.exampleFluid.setBnd 2 (Vektor.New 16))
          = Fluid.exampleFluid.setBnd 2 (Vektor.New 16)
      ∧ (Fluid.exampleFluid.setBnd 1 ((Vektor.New 16).Set 1 1 1)).Get 2 1
          - (Fluid.exampleFluid.setBnd 1 ((Vektor.New 16).Set 1 1 1)).Get 0 1
          + (Fluid.exampleFluid.setBnd 2 (Vektor.New 16)).Get 1 2
          - (Fluid.exampleFluid.setBnd 2 (Vektor.New 16)).Get 1 0 = 1
      ∧ (Fluid.exampleFluid.project
            (Fluid.exampleFluid.setBnd 1 ((Vektor.New 16).Set 1 1 1))
            (Fluid.exampleFluid.setBnd 2 (Vektor.New 16))
            Fluid.exampleFluid.u0 Fluid.exampleFluid.v0).u.Get 2 1
          - (Fluid.exampleFluid.project
            (Fluid.exampleFluid.setBnd 1 ((Vektor.New 16).Set 1 1 1))
            (Fluid.exampleFluid.setBnd 2 (Vektor.New 16))
            Fluid.exampleFluid.u0 Fluid.exampleFluid.v0).u.Get 0 1
          + (Fluid.exampleFluid.project
            (Fluid.exampleFluid.setBnd 1 ((Vektor.New 16).Set 1 1 1))
            (Fluid.exampleFluid.setBnd 2 (Vektor.New 16))
            Fluid.exampleFluid.u0 Fluid.exampleFluid.v0).v.Get 1 2
          - (Fluid.exampleFluid.project
            (Fluid.exampleFluid.setBnd 1 ((Vektor.New 16).Set 1 1 1))
            (Fluid.exampleFluid.setBnd 2 (Vektor.New 16))
            Fluid.exampleFluid.u0 Fluid.exampleFluid.v0).v.Get 1 0
          = 8356288580813/8796093022208
      ∧ ¬ (|(Fluid.exampleFluid.project
            (Fluid.exampleFluid.setBnd 1 ((Vektor.New 16).Set 1 1 1))
            (Fluid.exampleFluid.setBnd 2 (Vektor.New 16))
            Fluid.exampleFluid.u0 Fluid.exampleFluid.v0).u.Get 2 1
          - (Fluid.exampleFluid.project
            (Fluid.exampleFluid.setBnd 1 ((Vektor.New 16).Set 1 1 1))
            (Fluid.exampleFluid.setBnd 2 (Vektor.New 16))
            Fluid.exampleFluid.u0 Fluid.exampleFluid.v0).u.Get 0 1
          + (Fluid.exampleFluid.project
            (Fluid.exampleFluid.setBnd 1 ((Vektor.New 16).Set 1 1 1))
            (Fluid.exampleFluid.setBnd 2 (Vektor.New 16))
            Fluid.exampleFluid.u0 Fluid.exampleFluid.v0).v.Get 1 2
          - (Fluid.exampleFluid.project
            (Fluid.exampleFluid.setBnd 1 ((Vektor.New 16).Set 1 1 1))
            (Fluid.exampleFluid.setBnd 2 (Vektor.New 16))
            Fluid.exampleFluid.u0 Fluid.exampleFluid.v0).v.Get 1 0| ≤ 1/1000) := by
  decide!

/-- C15, amended. For every resolution `N ≥ 1` and every velocity field `(u, v)` on
grids of dimension `D ≥ N+2` (whatever its divergence), after `project(u, v, p, div)`,
with `h = 1/N` and `p'` the grid left in `p`: at every interior cell `div` holds
`-0.05 * h` times the discrete divergence `u[i+1,j] - u[i-1,j] + v[i,j+1] - v[i,j-1]` of
the field passed in, `u` holds `u[i,j] - 0.5*(p'[i+1,j] - p'[i-1,j])/h` and `v` holds
`v[i,j] - 0.5*(p'[i,j+1] - p'[i,j-1])/h`; the edge cells of the returned `u` and `v`
satisfy the boundary conditions of code 1 and code 2; and at every cell with
`2 ≤ i, j ≤ N-1` the discrete divergence of the returned field is that of the field
passed in minus `0.5*(p'[i+2,j] + p'[i-2,j] + p'[i,j+2] + p'[i,j-2] - 4*p'[i,j])/h`.
No bound on the divergence of the returned field follows: for `(divergentU,
divergentV)` at resolution 2 it is about 0.95 at (1,1). -/
theorem project_subtracts_pressure_gradient (fl : Fluid) (u v p div : Vektor) (D : Int)
    (hu : u.Shape D) (hv : v.Shape D) (hdiv : div.Shape D) (hN : 1 ≤ fl.size)
    (hD : fl.size + 2 ≤ D) :
    (∀ i j, 1 ≤ i → i ≤ fl.size → 1 ≤ j → j ≤ fl.size →
        (fl.project u v p div).div.Get i j = -0.05 * (1.0 / (fl.size : ℚ))
            * (u.Get (i + 1) j - u.Get (i - 1) j + v.Get i (j + 1) - v.Get i (j - 1))
          ∧ (fl.project u v p div).u.Get i j
            = u.Get i j - 0.5 * ((fl.project u v p div).p.Get (i + 1) j
                - (fl.project u v p div).p.Get (i - 1) j) / (1.0 / (fl.size : ℚ))
          ∧ (fl.project u v p div).v.Get i j
            = v.Get i j - 0.5 * ((fl.project u v p div).p.Get i (j + 1)
                - (fl.project u v p div).p.Get i (j - 1)) / (1.0 / (fl.size : ℚ)))
      ∧ (∀ k, 1 ≤ k → k ≤ fl.size →
          ((fl.project u v p div).u.Get 0 k = -(fl.project u v p div).u.Get 1 k
            ∧ (fl.project u v p div).u.Get (fl.size + 1) k
                = -(fl.project u v p div).u.Get fl.size k
            ∧ (fl.project u v p div).u.Get k 0 = (fl.project u v p div).u.Get k 1
            ∧ (fl.project u v p div).u.Get k (fl.size + 1)
                = (fl.project u v p div).u.Get k fl.size)
          ∧ ((fl.project u v p div).v.Get 0 k = (fl.project u v p div).v.Get 1 k
            ∧ (fl.project u v p div).v.Get (fl.size + 1) k
                = (fl.project u v p div).v.Get fl.size k
            ∧ (fl.project u v p div).v.Get k 0 = -(fl.project u v p div).v.Get k 1
            ∧ (fl.project u v p div).v.Get k (fl.size + 1)
                = -(fl.project u v p div).v.Get k fl.size))
      ∧ (∀ i j, 2 ≤ i → i ≤ fl.size - 1 → 2 ≤ j → j ≤ fl.size - 1 →
          (fl.project u v p div).u.Get (i + 1) j - (fl.project u v p div).u.Get (i - 1) j
              + (fl.project u v p div).v.Get i (j + 1)
              - (fl.project u v p div).v.Get i (j - 1)
            = (u.Get (i + 1) j - u.Get (i - 1) j + v.Get i (j + 1) - v.Get i (j - 1))
              - 0.5 * ((fl.project u v p div).p.Get (i + 2) j
                  + (fl.project u v p div).p.Get (i - 2) j
                  + (fl.project u v p div).p.Get i (j + 2)
                  + (fl.project u v p div).p.Get i (j - 2)
                  - 4 * (fl.project u v p div).p.Get i j) / (1.0 / (fl.size : ℚ))) := by
  obtain ⟨hint, x, y, sx, sy, ex, ey⟩ := Fluid.project_uv_Get fl u v p div D hu hv hN hD
  have s1 : Fluid.bndSign 1 1 = -1 := by decide
  have s2 : Fluid.bndSign 1 2 = 1 := by decide
  have s3 : Fluid.bndSign 2 1 = 1 := by decide
  have s4 : Fluid.bndSign 2 2 = -1 := by decide
  refine ⟨fun i j hi1 hi hj1 hj =>
    ⟨Fluid.project_div_Get fl u v p div D hdiv hN hD i j hi1 hi hj1 hj,
      hint i j hi1 hi hj1 hj⟩, ?_, ?_⟩
  · intro k hk1 hk
    obtain ⟨a1, a2, a3, a4⟩ := (Fluid.setBnd_spec fl 1 x D sx hN hD).2.2.1 k hk1 hk
    obtain ⟨b1, b2, b3, b4⟩ := (Fluid.setBnd_spec fl 2 y D sy hN hD).2.2.1 k hk1 hk
    rw [s1, neg_one_mul] at a1 a2
    rw [s2, one_mul] at a3 a4
    rw [s3, one_mul] at b1 b2
    rw [s4, neg_one_mul] at b3 b4
    rw [ex, ey]
    exact ⟨⟨a1, a2, a3, a4⟩, ⟨b1, b2, b3, b4⟩⟩
  · intro i j hi1 hi hj1 hj
    rw [(hint (i + 1) j (by omega) (by omega) (by omega) (by omega)).1,
      (hint (i - 1) j (by omega) (by omega) (by omega) (by omega)).1,
      (hint i (j + 1) (by omega) (by omega) (by omega) (by omega)).2,
      (hint i (j - 1) (by omega) (by omega) (by omega) (by omega)).2]
    have e1 : i + 1 + 1 = i + 2 := by ring
    have e2 : i + 1 - 1 = i := by ring
    have e3 : i - 1 + 1 = i := by ring
    have e4 : i - 1 - 1 = i - 2 := by ring
    have e5 : j + 1 + 1 = j + 2 := by ring
    have e6 : j + 1 - 1 = j := by ring
    have e7 : j - 1 + 1 = j := by ring
    have e8 : j - 1 - 1 = j - 2 := by ring
    rw [e1, e2, e3, e4, e5, e6, e7, e8]
    ring

/-- Witness for C15, amended: the fluid of resolution 2 and the field
`(divergentU, divergentV)`, whose divergence at (1,1) is 1. -/
theorem project_subtracts_pressure_gradient_witness :
    (∀ i j, 1 ≤ i → i ≤ Fluid.exampleFluid.size → 1 ≤ j → j ≤ Fluid.exampleFluid.size →
        (Fluid.exampleFluid.project Fluid.divergentU Fluid.divergentV
              Fluid.exampleFluid.u0 Fluid.exampleFluid.v0).div.Get i j = -0.05 * (1.0
                  / (Fluid.exampleFluid.size : ℚ))
            * (Fluid.divergentU.Get (i + 1) j - Fluid.divergentU.Get (i - 1) j
                + Fluid.divergentV.Get i (j + 1) - Fluid.divergentV.Get i (j - 1))
          ∧ (Fluid.exampleFluid.project Fluid.divergentU Fluid.divergentV
              Fluid.exampleFluid.u0 Fluid.exampleFluid.v0).u.Get i j
            = Fluid.divergentU.Get i j - 0.5
                * ((Fluid.exampleFluid.project Fluid.divergentU Fluid.divergentV
              Fluid.exampleFluid.u0 Fluid.exampleFluid.v0).p.Get (i + 1) j
                - (Fluid.exampleFluid.project Fluid.divergentU Fluid.divergentV
              Fluid.exampleFluid.u0 Fluid.exampleFluid.v0).p.Get (i - 1) j) / (1.0
                  / (Fluid.exampleFluid.size : ℚ))
          ∧ (Fluid.exampleFluid.project Fluid.divergentU Fluid.divergentV
              Fluid.exampleFluid.u0 Fluid.exampleFluid.v0).v.Get i j
            = Fluid.divergentV.Get i j - 0.5
                * ((Fluid.exampleFluid.project Fluid.divergentU Fluid.divergentV
              Fluid.exampleFluid.u0 Fluid.exampleFluid.v0).p.Get i (j + 1)
                - (Fluid.exampleFluid.project Fluid.divergentU Fluid.divergentV
              Fluid.exampleFluid.u0 Fluid.exampleFluid.v0).p.Get i (j - 1)) / (1.0
                  / (Fluid.exampleFluid.size : ℚ)))
      ∧ (∀ k, 1 ≤ k → k ≤ Fluid.exampleFluid.size →
          ((Fluid.exampleFluid.project Fluid.divergentU Fluid.divergentV
              Fluid.exampleFluid.u0 Fluid.exampleFluid.v0).u.Get 0 k
                  = -(Fluid.exampleFluid.project Fluid.divergentU Fluid.divergentV
              Fluid.exampleFluid.u0 Fluid.exampleFluid.v0).u.Get 1 k
            ∧ (Fluid.exampleFluid.project Fluid.divergentU Fluid.divergentV
              Fluid.exampleFluid.u0 Fluid.exampleFluid.v0).u.Get (Fluid.exampleFluid.size + 1) k
                = -(Fluid.exampleFluid.project Fluid.divergentU Fluid.divergentV
              Fluid.exampleFluid.u0 Fluid.exampleFluid.v0).u.Get Fluid.exampleFluid.size k
            ∧ (Fluid.exampleFluid.project Fluid.divergentU Fluid.divergentV
              Fluid.exampleFluid.u0 Fluid.exampleFluid.v0).u.Get k 0
                  = (Fluid.exampleFluid.project Fluid.divergentU Fluid.divergentV
              Fluid.exampleFluid.u0 Fluid.exampleFluid.v0).u.Get k 1
            ∧ (Fluid.exampleFluid.project Fluid.divergentU Fluid.divergentV
              Fluid.exampleFluid.u0 Fluid.exampleFluid.v0).u.Get k (Fluid.exampleFluid.size + 1)
                = (Fluid.exampleFluid.project Fluid.divergentU Fluid.divergentV
              Fluid.exampleFluid.u0 Fluid.exampleFluid.v0).u.Get k Fluid.exampleFluid.size)
          ∧ ((Fluid.exampleFluid.project Fluid.divergentU Fluid.divergentV
              Fluid.exampleFluid.u0 Fluid.exampleFluid.v0).v.Get 0 k
                  = (Fluid.exampleFluid.project Fluid.divergentU Fluid.divergentV
              Fluid.exampleFluid.u0 Fluid.exampleFluid.v0).v.Get 1 k
            ∧ (Fluid.exampleFluid.project Fluid.divergentU Fluid.divergentV
              Fluid.exampleFluid.u0 Fluid.exampleFluid.v0).v.Get (Fluid.exampleFluid.size + 1) k
                = (Fluid.exampleFluid.project Fluid.divergentU Fluid.divergentV
              Fluid.exampleFluid.u0 Fluid.exampleFluid.v0).v.Get Fluid.exampleFluid.size k
            ∧ (Fluid.exampleFluid.project Fluid.divergentU Fluid.divergentV
              Fluid.exampleFluid.u0 Fluid.exampleFluid.v0).v.Get k 0
                  = -(Fluid.exampleFluid.project Fluid.divergentU Fluid.divergentV
              Fluid.exampleFluid.u0 Fluid.exampleFluid.v0).v.Get k 1
            ∧ (Fluid.exampleFluid.project Fluid.divergentU Fluid.divergentV
              Fluid.exampleFluid.u0 Fluid.exampleFluid.v0).v.Get k (Fluid.exampleFluid.size + 1)
                = -(Fluid.exampleFluid.project Fluid.divergentU Fluid.divergentV
              Fluid.exampleFluid.u0 Fluid.exampleFluid.v0).v.Get k Fluid.exampleFluid.size))
      ∧ (∀ i j, 2 ≤ i → i ≤ Fluid.exampleFluid.size - 1 → 2 ≤ j → j ≤ Fluid.exampleFluid.size - 1 →
          (Fluid.exampleFluid.project Fluid.divergentU Fluid.divergentV
              Fluid.exampleFluid.u0 Fluid.exampleFluid.v0).u.Get (i + 1) j
                  - (Fluid.exampleFluid.project Fluid.divergentU Fluid.divergentV
              Fluid.exampleFluid.u0 Fluid.exampleFluid.v0).u.Get (i - 1) j
              + (Fluid.exampleFluid.project Fluid.divergentU Fluid.divergentV
              Fluid.exampleFluid.u0 Fluid.exampleFluid.v0).v.Get i (j + 1)
              - (Fluid.exampleFluid.project Fluid.divergentU Fluid.divergentV
              Fluid.exampleFluid.u0 Fluid.exampleFluid.v0).v.Get i (j - 1)
            = (Fluid.divergentU.Get (i + 1) j - Fluid.divergentU.Get (i - 1) j
                + Fluid.divergentV.Get i (j + 1) - Fluid.divergentV.Get i (j - 1))
              - 0.5 * ((Fluid.exampleFluid.project Fluid.divergentU Fluid.divergentV
              Fluid.exampleFluid.u0 Fluid.exampleFluid.v0).p.Get (i + 2) j
                  + (Fluid.exampleFluid.project Fluid.divergentU Fluid.divergentV
              Fluid.exampleFluid.u0 Fluid.exampleFluid.v0).p.Get (i - 2) j
                  + (Fluid.exampleFluid.project Fluid.divergentU Fluid.divergentV
              Fluid.exampleFluid.u0 Fluid.exampleFluid.v0).p.Get i (j + 2)
                  + (Fluid.exampleFluid.project Fluid.divergentU Fluid.divergentV
              Fluid.exampleFluid.u0 Fluid.exampleFluid.v0).p.Get i (j - 2)
                  - 4 * (Fluid.exampleFluid.project Fluid.divergentU Fluid.divergentV
              Fluid.exampleFluid.u0 Fluid.exampleFluid.v0).p.Get i j) / (1.0
                  / (Fluid.exampleFluid.size : ℚ))) :=
  project_subtracts_pressure_gradient Fluid.exampleFluid Fluid.divergentU Fluid.divergentV
    Fluid.exampleFluid.u0 Fluid.exampleFluid.v0 16 (by decide!) (by decide!) (by decide!)
    (by decide) (by decide)

/-- C16 (the code departs from it). On the grids of the fluid of resolution 1 made by
`NewFluid`, with `u[2,1] = 1` and all other cells of `u`, `v` zero, the divergence at
the interior cell (1,1) is `u[2,1] - u[0,1] + v[1,2] - v[1,0] = 1`; after `project` the
cell `div[1,1]` holds `-0.05 * 1 = -1/20`, not `(-0.5/1) * 1 = -1/2`. -/
theorem project_div_scaled_by_005 :
    (((NewFluid 1 (1/100) (1/10000) (1/1000) factory).project
        ((NewFluid 1 (1/100) (1/10000) (1/1000) factory).uu.Set 2 1 1)
        (NewFluid 1 (1/100) (1/10000) (1/1000) factory).vv
        (NewFluid 1 (1/100) (1/10000) (1/1000) factory).u0
        (NewFluid 1 (1/100) (1/10000) (1/1000) factory).v0).div.Get 1 1 = -1/20)
      ∧ ((-0.5 / 1 : ℚ)
          * (((NewFluid 1 (1/100) (1/10000) (1/1000) factory).uu.Set 2 1 1).Get 2 1
            - ((NewFluid 1 (1/100) (1/10000) (1/1000) factory).uu.Set 2 1 1).Get 0 1
            + (NewFluid 1 (1/100) (1/10000) (1/1000) factory).vv.Get 1 2
            - (NewFluid 1 (1/100) (1/10000) (1/1000) factory).vv.Get 1 0) = -1/2) := by
  decide!

/-- C17 (fails as stated). Resolution 1, `dt = 1`, `rate = 0.04189`, so `a = 0.04189`;
`src` holds 27.263 at (1,1) and 0 elsewhere, `dst` is zero: every cell of `src` and `dst`
has absolute value at most `M = 27.263` (as a float64,
`7673852290062615/281474976710656`), and after `diffuse(0, rate, dst, src)` the cell
(1,1) of `dst` holds `959231536257827/35184372088832 = 27.263000000000005`, which is
above `M`. And with `dt = rate = 1e150` on grids that hold `1e10` in every cell,
`a * (sum of four neighbours)` overflows and the cell (1,1) holds `+Inf`. -/
theorem diffuse_exceeds_bound :
    IEEE.Fluid.unitFluid.dt * 0.04189
        * F64.ofInt (IEEE.Fluid.unitFluid.size * IEEE.Fluid.unitFluid.size)
        = F64.fin (3018492614248801/72057594037927936)
      ∧ (IEEE.Vektor.New 9).AllZero
      ∧ (∀ c d, (0 ≤ c ∧ c ≤ IEEE.Fluid.unitFluid.size + 1) →
          (0 ≤ d ∧ d ≤ IEEE.Fluid.unitFluid.size + 1) →
          ∃ q, IEEE.Fluid.unitSource.Get c d = F64.fin q
            ∧ |q| ≤ 7673852290062615/281474976710656)
      ∧ (IEEE.Fluid.unitFluid.diffuse 0 0.04189 (IEEE.Vektor.New 9)
            IEEE.Fluid.unitSource).Get 1 1
          = F64.fin (959231536257827/35184372088832)
      ∧ (7673852290062615/281474976710656 : ℚ) < 959231536257827/35184372088832
      ∧ ((IEEE.NewFluid 1 0 0 1e150 IEEE.factory).diffuse 0 1e150
          { dim := 9, vals := List.replicate 81 1e10 }
          { dim := 9, vals := List.replicate 81 1e10 }).Get 1 1 = F64.inf false := by
  refine ⟨by decide!, by decide!, ?_, by decide!, by norm_num, by decide!⟩
  intro c d hc hd
  have hsz : IEEE.Fluid.unitFluid.size = 1 := rfl
  rw [hsz] at hc hd
  have hc3 : c = 0 ∨ c = 1 ∨ c = 2 := by omega
  have hd3 : d = 0 ∨ d = 1 ∨ d = 2 := by omega
  rcases hc3 with rfl | rfl | rfl <;> rcases hd3 with rfl | rfl | rfl
  all_goals first
    | exact ⟨0, by decide!, by norm_num⟩
    | exact ⟨7673852290062615/281474976710656, by decide!, by norm_num [abs_le]⟩

/-- C17, amended. For a float64 fluid of resolution `N ≥ 1`, any boundary code and a
destination grid of dimension `D ≥ N+2`: let `a = dt*rate*N²` be finite and not negative
and let `2^k` be a power of two with `-1022 ≤ k ≤ 1021` such that `1 + 4*a` and
`2^k * (1 + 4*a)` do not exceed `2^1023` (no overflow) and `a = 0`, or `k ≥ -2`, or
`a * 2^(k+2) ≥ 2^(-1022)` (no underflow of `a` times a sum of four cells). If every cell
of `src` and of the initial `dst` on `[0,N+1] × [0,N+1]` is finite with absolute value at
most `2^k`, then so is every cell of `dst` on `[0,N+1] × [0,N+1]` after
`diffuse(code, rate, dst, src)`, and likewise after any number `n` of sweeps instead
of 20. So cells bounded by `M` stay bounded by the least power of two above `M`. -/
theorem diffuse_bounded_by_power_of_two (fl : IEEE.Fluid) (bnd : Int) (rate : F64)
    (dst src : IEEE.Vektor) (D : Int) (aq : ℚ) (k : Int)
    (hs : dst.Shape D) (hN : 1 ≤ fl.size) (hD : fl.size + 2 ≤ D)
    (ha : fl.dt * rate * F64.ofInt (fl.size * fl.size) = F64.fin aq) (ha0 : 0 ≤ aq)
    (hk : -1022 ≤ k ∧ k ≤ 1021)
    (hunder : aq = 0 ∨ -2 ≤ k ∨ (2 : ℚ) ^ (-1022 : Int) ≤ aq * (2 : ℚ) ^ (k + 2))
    (hover : 1 + 4 * aq ≤ (2 : ℚ) ^ (1023 : Int)
      ∧ (2 : ℚ) ^ k * (1 + 4 * aq) ≤ (2 : ℚ) ^ (1023 : Int))
    (hsrc : ∀ c d, (0 ≤ c ∧ c ≤ fl.size + 1) → (0 ≤ d ∧ d ≤ fl.size + 1) →
      F64.Bounded ((2 : ℚ) ^ k) (src.Get c d))
    (hdst : ∀ c d, (0 ≤ c ∧ c ≤ fl.size + 1) → (0 ≤ d ∧ d ≤ fl.size + 1) →
      F64.Bounded ((2 : ℚ) ^ k) (dst.Get c d)) :
    (∀ c d, (0 ≤ c ∧ c ≤ fl.size + 1) → (0 ≤ d ∧ d ≤ fl.size + 1) →
        F64.Bounded ((2 : ℚ) ^ k) ((fl.diffuse bnd rate dst src).Get c d))
      ∧ ∀ n : Nat, ∀ c d, (0 ≤ c ∧ c ≤ fl.size + 1) → (0 ≤ d ∧ d ≤ fl.size + 1) →
        F64.Bounded ((2 : ℚ) ^ k) ((repeatN n (fun xx =>
            fl.setBnd bnd (fl.diffuseSweep (fl.dt * rate * F64.ofInt (fl.size * fl.size))
              xx src)) dst).Get c d) := by
  have har : Rep aq := F64.rep_of_mul_eq_fin _ _ _ ha
  have hP := rep_scaled_coefficient aq k ha0 har hunder
  have key := fun n => IEEE.Fluid.diffuse_sweeps_bound_f64 fl bnd aq dst src D k n ha0 har hk
    hP hover.1 hover.2 hs hN hD (fun c d hc1 hc hd1 hd => hsrc c d (by omega) (by omega)) hdst
  refine ⟨?_, fun n => ?_⟩
  · rw [(IEEE.Fluid.diffuse_eq_f64 fl bnd rate dst src aq ha 0).1]
    exact (key 20).2
  · rw [(IEEE.Fluid.diffuse_eq_f64 fl bnd rate dst src aq ha n).2]
    exact (key n).2

/-- Witness for C17, amended: `unitFluid` (resolution 1, `dt = 1`), `rate = 0.04189`,
the source `unitSource`, which holds 27.263 at (1,1), and a zero destination, with the
bound `2^5 = 32`. -/
theorem diffuse_bounded_by_power_of_two_witness :
    (∀ c d, (0 ≤ c ∧ c ≤ IEEE.Fluid.unitFluid.size + 1) →
        (0 ≤ d ∧ d ≤ IEEE.Fluid.unitFluid.size + 1) →
        F64.Bounded ((2 : ℚ) ^ (5 : Int))
          ((IEEE.Fluid.unitFluid.diffuse 0 0.04189 (IEEE.Vektor.New 9)
            IEEE.Fluid.unitSource).Get c d))
      ∧ ∀ n : Nat, ∀ c d, (0 ≤ c ∧ c ≤ IEEE.Fluid.unitFluid.size + 1) →
        (0 ≤ d ∧ d ≤ IEEE.Fluid.unitFluid.size + 1) →
        F64.Bounded ((2 : ℚ) ^ (5 : Int)) ((repeatN n (fun xx =>
            IEEE.Fluid.unitFluid.setBnd 0 (IEEE.Fluid.unitFluid.diffuseSweep
              (IEEE.Fluid.unitFluid.dt * 0.04189
                * F64.ofInt (IEEE.Fluid.unitFluid.size * IEEE.Fluid.unitFluid.size))
              xx IEEE.Fluid.unitSource)) (IEEE.Vektor.New 9)).Get c d) :=
  diffuse_bounded_by_power_of_two IEEE.Fluid.unitFluid 0 0.04189 (IEEE.Vektor.New 9)
    IEEE.Fluid.unitSource 9 (3018492614248801/72057594037927936) 5
    (IEEE.Vektor.New_Shape_f64 9) (by decide) (by decide) (by decide!) (by norm_num)
    (by norm_num) (Or.inr (Or.inl (by norm_num))) (by norm_num)
    IEEE.Fluid.unitSource_bound
    (fun c d _ _ => IEEE.Fluid.zero_grid_bound _ (by norm_num) 9 c d)

/-- C19 (fails as stated). Resolution 2, `dt = 0.001`, a source that holds 1.3 (as a
float64, `5854679515581645/4503599627370496`) in every cell, `u[1,1] = 47`,
`v[1,1] = -1`: after `advect` the cell (1,1) of the destination holds
`2927339757790823/2251799813685248 = 1.3000000000000003`, which is above the maximum 1.3
of the source. -/
theorem advect_exceeds_maximum :
    (∀ x ∈ IEEE.Fluid.traceSource.vals, x = F64.fin (5854679515581645/4503599627370496))
      ∧ (IEEE.Fluid.traceFluid.advect 0 (IEEE.Vektor.New 16) IEEE.Fluid.traceSource
          IEEE.Fluid.traceU IEEE.Fluid.traceV).Get 1 1
        = F64.fin (2927339757790823/2251799813685248)
      ∧ (5854679515581645/4503599627370496 : ℚ) < 2927339757790823/2251799813685248 := by
  refine ⟨by decide!, by decide!, by norm_num⟩

/-- C19, amended. For a float64 fluid of resolution `1 ≤ N < 2^52`, a destination grid
of dimension `D ≥ N+2` and an interior cell `(i,j)` whose two traced coordinates
`float64(i) - dt*N*u[i,j]` and `float64(j) - dt*N*v[i,j]` are not NaN: with `x`, `y` the
clamped coordinates, `i0 = int(x)`, `j0 = int(y)`, `s1 = x - float64(i0)` and
`t1 = y - float64(j0)`, the clamped coordinates are finite, `0 ≤ i0 ≤ N`, `0 ≤ j0 ≤ N`,
the subtractions for `s1`, `t1`, `s0 = 1 - s1` and `t0 = 1 - t1` are exact, so the
weights lie in `[0,1]` with `s0 + s1 = 1` and `t0 + t1 = 1`, and the value of `dst[i,j]`
after `advect` is the float64 expression `s0*(t0*src[i0,j0] + t1*src[i0,j0+1]) +
s1*(t0*src[i0+1,j0] + t1*src[i0+1,j0+1])`, which reads `src` at those four cells only.
If every cell of `src` on `[0,N+1] × [0,N+1]` is finite with absolute value at most a
power of two `2^k`, `-1021 ≤ k ≤ 1023`, then so is `dst[i,j]`; and if every such cell
is in `[0, 2^k]`, then so is `dst[i,j]`. The value can exceed the maximum of `src`
by a rounding error. -/
theorem advect_reads_four_cells (fl : IEEE.Fluid) (bnd : Int)
    (dst src u v : IEEE.Vektor) (D : Int) (hs : dst.Shape D) (hN : 1 ≤ fl.size)
    (hN2 : fl.size < 2 ^ 52) (hD : fl.size + 2 ≤ D)
    (i j : Int) (hi1 : 1 ≤ i) (hi : i ≤ fl.size) (hj1 : 1 ≤ j) (hj : j ≤ fl.size)
    (hx : F64.ofInt i - fl.dt * F64.ofInt fl.size * u.Get i j ≠ F64.nan)
    (hy : F64.ofInt j - fl.dt * F64.ofInt fl.size * v.Get i j ≠ F64.nan) :
    ∃ (x y : ℚ) (i0 j0 : Int) (s1 t1 : ℚ),
      IEEE.Fluid.clampTrace (F64.ofInt fl.size)
          (F64.ofInt i - fl.dt * F64.ofInt fl.size * u.Get i j) = F64.fin x
      ∧ IEEE.Fluid.clampTrace (F64.ofInt fl.size)
          (F64.ofInt j - fl.dt * F64.ofInt fl.size * v.Get i j) = F64.fin y
      ∧ i0 = F64.toInt (F64.fin x) ∧ j0 = F64.toInt (F64.fin y)
      ∧ F64.fin x - F64.ofInt i0 = F64.fin s1 ∧ F64.fin y - F64.ofInt j0 = F64.fin t1
      ∧ (1 : F64) - F64.fin s1 = F64.fin (1 - s1)
      ∧ (1 : F64) - F64.fin t1 = F64.fin (1 - t1)
      ∧ (0 ≤ i0 ∧ i0 ≤ fl.size) ∧ (0 ≤ j0 ∧ j0 ≤ fl.size)
      ∧ (0 ≤ s1 ∧ s1 ≤ 1) ∧ (0 ≤ t1 ∧ t1 ≤ 1)
      ∧ (fl.advect bnd dst src u v).Get i j
          = F64.fin (1 - s1)
              * (F64.fin (1 - t1) * src.Get i0 j0 + F64.fin t1 * src.Get i0 (j0 + 1))
            + F64.fin s1
              * (F64.fin (1 - t1) * src.Get (i0 + 1) j0
                + F64.fin t1 * src.Get (i0 + 1) (j0 + 1))
      ∧ (∀ k : Int, -1021 ≤ k ∧ k ≤ 1023 →
          (∀ c d, (0 ≤ c ∧ c ≤ fl.size + 1) → (0 ≤ d ∧ d ≤ fl.size + 1) →
            ∃ q, src.Get c d = F64.fin q ∧ |q| ≤ (2 : ℚ) ^ k) →
          ∃ q, (fl.advect bnd dst src u v).Get i j = F64.fin q ∧ |q| ≤ (2 : ℚ) ^ k)
      ∧ (∀ k : Int, -1021 ≤ k ∧ k ≤ 1023 →
          (∀ c d, (0 ≤ c ∧ c ≤ fl.size + 1) → (0 ≤ d ∧ d ≤ fl.size + 1) →
            ∃ q, src.Get c d = F64.fin q ∧ 0 ≤ q ∧ q ≤ (2 : ℚ) ^ k) →
          ∃ q, (fl.advect bnd dst src u v).Get i j = F64.fin q ∧ 0 ≤ q
            ∧ q ≤ (2 : ℚ) ^ k) := by
  obtain ⟨x, s1, ex, bx, es1, eo1, wx⟩ := IEEE.Fluid.trace_spec fl.size hN hN2 (F64.ofInt i)
    (fl.dt * F64.ofInt fl.size * u.Get i j) hx
  obtain ⟨y, t1, ey, bY, et1, eo2, wy⟩ := IEEE.Fluid.trace_spec fl.size hN hN2 (F64.ofInt j)
    (fl.dt * F64.ofInt fl.size * v.Get i j) hy
  obtain ⟨_, _, ws0, ws1, _⟩ := weights_range wx
  obtain ⟨_, _, wt0, wt1, _⟩ := weights_range wy
  have hval : (fl.advect bnd dst src u v).Get i j
      = F64.fin (1 - s1)
          * (F64.fin (1 - t1) * src.Get (F64.toInt (F64.fin x)) (F64.toInt (F64.fin y))
            + F64.fin t1 * src.Get (F64.toInt (F64.fin x)) (F64.toInt (F64.fin y) + 1))
        + F64.fin s1
          * (F64.fin (1 - t1) * src.Get (F64.toInt (F64.fin x) + 1) (F64.toInt (F64.fin y))
            + F64.fin t1
              * src.Get (F64.toInt (F64.fin x) + 1) (F64.toInt (F64.fin y) + 1)) := by
    rw [IEEE.Fluid.advect_interior_f64 fl bnd dst src u v D hs hN hD i j hi1 hi hj1 hj]
    unfold IEEE.Fluid.advectValue
    simp only []
    rw [ex, ey, es1, et1, eo1, eo2]
  have hmix : ∀ k : Int, -1021 ≤ k ∧ k ≤ 1023 →
      (∀ c d, (0 ≤ c ∧ c ≤ fl.size + 1) → (0 ≤ d ∧ d ≤ fl.size + 1) →
        ∃ q, src.Get c d = F64.fin q ∧ |q| ≤ (2 : ℚ) ^ k) →
      ∃ q, (fl.advect bnd dst src u v).Get i j = F64.fin q ∧ |q| ≤ (2 : ℚ) ^ k
        ∧ ((∀ c d, (0 ≤ c ∧ c ≤ fl.size + 1) → (0 ≤ d ∧ d ≤ fl.size + 1) →
            ∃ q, src.Get c d = F64.fin q ∧ 0 ≤ q) → 0 ≤ q) := by
    intro k hk hb
    obtain ⟨a, ea, ba⟩ := hb (F64.toInt (F64.fin x)) (F64.toInt (F64.fin y))
      (by omega) (by omega)
    obtain ⟨b, eb, bb⟩ := hb (F64.toInt (F64.fin x)) (F64.toInt (F64.fin y) + 1)
      (by omega) (by omega)
    obtain ⟨c, ec, bc⟩ := hb (F64.toInt (F64.fin x) + 1) (F64.toInt (F64.fin y))
      (by omega) (by omega)
    obtain ⟨d, ed, bd⟩ := hb (F64.toInt (F64.fin x) + 1) (F64.toInt (F64.fin y) + 1)
      (by omega) (by omega)
    obtain ⟨r, er, br, nr⟩ := IEEE.Fluid.bilinear_fin k hk (1 - s1) s1 (1 - t1) t1 wx wy
      a b c d ba bb bc bd
    refine ⟨r, ?_, br, ?_⟩
    · rw [hval, ea, eb, ec, ed]
      exact er
    · intro hn
      have pos : ∀ (c d : Int) (q : ℚ), (0 ≤ c ∧ c ≤ fl.size + 1) →
          (0 ≤ d ∧ d ≤ fl.size + 1) → src.Get c d = F64.fin q → 0 ≤ q := by
        intro c d q hc hd e
        obtain ⟨q2, e2, h2⟩ := hn c d hc hd
        have : q = q2 := F64.fin.inj (e.symm.trans e2)
        rw [this]
        exact h2
      exact nr (pos _ _ a (by omega) (by omega) ea) (pos _ _ b (by omega) (by omega) eb)
        (pos _ _ c (by omega) (by omega) ec) (pos _ _ d (by omega) (by omega) ed)
  refine ⟨x, y, F64.toInt (F64.fin x), F64.toInt (F64.fin y), s1, t1, ex, ey, rfl, rfl,
    es1, et1, eo1, eo2, bx, bY, ⟨ws0, ws1⟩, ⟨wt0, wt1⟩, hval, ?_, ?_⟩
  · intro k hk hb
    obtain ⟨q, e, b, _⟩ := hmix k hk hb
    exact ⟨q, e, b⟩
  · intro k hk hb
    obtain ⟨q, e, b, n⟩ := hmix k hk (fun c d hc hd => by
      obtain ⟨q, e, h0, h1⟩ := hb c d hc hd
      exact ⟨q, e, by rw [abs_of_nonneg h0]; exact h1⟩)
    have hq0 := n (fun c d hc hd => by
      obtain ⟨q, e, h0, _⟩ := hb c d hc hd
      exact ⟨q, e, h0⟩)
    exact ⟨q, e, hq0, (abs_le.mp b).2⟩

/-- Witness for C19, amended: `traceFluid` (resolution 2, `dt = 0.001`), a zero
destination, the source `traceSource` and the velocity `(traceU, traceV)`, at the cell
(1,1). -/
theorem advect_reads_four_cells_witness :
    ∃ (x y : ℚ) (i0 j0 : Int) (s1 t1 : ℚ),
      IEEE.Fluid.clampTrace (F64.ofInt IEEE.Fluid.traceFluid.size)
          (F64.ofInt 1 - IEEE.Fluid.traceFluid.dt * F64.ofInt IEEE.Fluid.traceFluid.size
              * IEEE.Fluid.traceU.Get 1 1) = F64.fin x
      ∧ IEEE.Fluid.clampTrace (F64.ofInt IEEE.Fluid.traceFluid.size)
          (F64.ofInt 1 - IEEE.Fluid.traceFluid.dt * F64.ofInt IEEE.Fluid.traceFluid.size
              * IEEE.Fluid.traceV.Get 1 1) = F64.fin y
      ∧ i0 = F64.toInt (F64.fin x) ∧ j0 = F64.toInt (F64.fin y)
      ∧ F64.fin x - F64.ofInt i0 = F64.fin s1 ∧ F64.fin y - F64.ofInt j0 = F64.fin t1
      ∧ (1 : F64) - F64.fin s1 = F64.fin (1 - s1)
      ∧ (1 : F64) - F64.fin t1 = F64.fin (1 - t1)
      ∧ (0 ≤ i0 ∧ i0 ≤ IEEE.Fluid.traceFluid.size) ∧ (0 ≤ j0 ∧ j0 ≤ IEEE.Fluid.traceFluid.size)
      ∧ (0 ≤ s1 ∧ s1 ≤ 1) ∧ (0 ≤ t1 ∧ t1 ≤ 1)
      ∧ (IEEE.Fluid.traceFluid.advect 0 (IEEE.Vektor.New 16) IEEE.Fluid.traceSource
            IEEE.Fluid.traceU IEEE.Fluid.traceV).Get 1 1
          = F64.fin (1 - s1)
              * (F64.fin (1 - t1) * IEEE.Fluid.traceSource.Get i0 j0 + F64.fin t1
                  * IEEE.Fluid.traceSource.Get i0 (j0 + 1))
            + F64.fin s1
              * (F64.fin (1 - t1) * IEEE.Fluid.traceSource.Get (i0 + 1) j0
                + F64.fin t1 * IEEE.Fluid.traceSource.Get (i0 + 1) (j0 + 1))
      ∧ (∀ k : Int, -1021 ≤ k ∧ k ≤ 1023 →
          (∀ c d, (0 ≤ c ∧ c ≤ IEEE.Fluid.traceFluid.size + 1) → (0 ≤ d
              ∧ d ≤ IEEE.Fluid.traceFluid.size + 1) →
            ∃ q, IEEE.Fluid.traceSource.Get c d = F64.fin q ∧ |q| ≤ (2 : ℚ) ^ k) →
          ∃ q, (IEEE.Fluid.traceFluid.advect 0 (IEEE.Vektor.New 16) IEEE.Fluid.traceSource
            IEEE.Fluid.traceU IEEE.Fluid.traceV).Get 1 1 = F64.fin q ∧ |q| ≤ (2 : ℚ) ^ k)
      ∧ (∀ k : Int, -1021 ≤ k ∧ k ≤ 1023 →
          (∀ c d, (0 ≤ c ∧ c ≤ IEEE.Fluid.traceFluid.size + 1) → (0 ≤ d
              ∧ d ≤ IEEE.Fluid.traceFluid.size + 1) →
            ∃ q, IEEE.Fluid.traceSource.Get c d = F64.fin q ∧ 0 ≤ q ∧ q ≤ (2 : ℚ) ^ k) →
          ∃ q, (IEEE.Fluid.traceFluid.advect 0 (IEEE.Vektor.New 16) IEEE.Fluid.traceSource
            IEEE.Fluid.traceU IEEE.Fluid.traceV).Get 1 1 = F64.fin q ∧ 0 ≤ q
            ∧ q ≤ (2 : ℚ) ^ k) :=
  advect_reads_four_cells IEEE.Fluid.traceFluid 0 (IEEE.Vektor.New 16)
    IEEE.Fluid.traceSource IEEE.Fluid.traceU IEEE.Fluid.traceV 16
    (IEEE.Vektor.New_Shape_f64 16) (by decide) (by decide) (by decide) 1 1 (by decide)
    (by decide) (by decide) (by decide) (by decide!) (by decide!)

/-- C18 (fails as stated). Resolution 1, `dt = 0.001`, `rate = 0.0001`, so
`a = dt*rate*N²` is the positive float64 `7555786372591433/75557863725914323419136`
(about `1e-7`); `src` holds `s = 5` at (1,1) and 0 elsewhere, `dst` is zero. After
`diffuse(0, rate, dst, src)` the cell (1,1) of `dst` holds exactly 5, which is not
strictly less than `s`. -/
theorem diffuse_keeps_spike_value :
    (IEEE.NewFluid 1 0 0 0.001 IEEE.factory).dt * 0.0001
        * F64.ofInt ((IEEE.NewFluid 1 0 0 0.001 IEEE.factory).size
          * (IEEE.NewFluid 1 0 0 0.001 IEEE.factory).size)
        = F64.fin (7555786372591433/75557863725914323419136)
      ∧ ((IEEE.Vektor.New 9).Set 1 1 5).Get 1 1 = F64.fin 5
      ∧ ((IEEE.NewFluid 1 0 0 0.001 IEEE.factory).diffuse 0 0.0001 (IEEE.Vektor.New 9)
          ((IEEE.Vektor.New 9).Set 1 1 5)).Get 1 1 = F64.fin 5 := by
  decide!

/-- C18, amended. For a float64 fluid of resolution `N ≥ 1` and a destination grid of
dimension `D ≥ N+2`: let `a = dt*rate*N²` be finite and positive, let `src` hold a
float64 `s > 0` at the interior cell `(ci,cj)` and 0 at every other interior cell, let
`dst` be 0 on `[0,N+1] × [0,N+1]`, and let `2^k ≥ s` be a power of two with
`-1022 ≤ k ≤ 1021` such that `1 + 4*a` and `2^k * (1 + 4*a)` do not exceed `2^1023` and
`k ≥ -2` or `a * 2^(k+2) ≥ 2^(-1022)`. If the float64 value `a * (s / (1 + 4*a)) /
(1 + 4*a)` is above 0 (the share of the spike that reaches a neighbour does not
underflow), then after `diffuse(0, rate, dst, src)` the value `dst[ci,cj]` is finite,
above 0 and at most `2^k`, and `dst` is above 0 at `(ci-1,cj)`, `(ci+1,cj)`, `(ci,cj-1)`
and `(ci,cj+1)`. So the spike ends at most at the least power of two above `s`; it need
not end strictly below `s`. -/
theorem diffuse_spreads_spike (fl : IEEE.Fluid) (rate : F64) (dst src : IEEE.Vektor)
    (D : Int) (aq s : ℚ) (k : Int) (ci cj : Int)
    (hs : dst.Shape D) (hN : 1 ≤ fl.size) (hD : fl.size + 2 ≤ D)
    (ha : fl.dt * rate * F64.ofInt (fl.size * fl.size) = F64.fin aq) (ha0 : 0 < aq)
    (hk : -1022 ≤ k ∧ k ≤ 1021)
    (hunder : -2 ≤ k ∨ (2 : ℚ) ^ (-1022 : Int) ≤ aq * (2 : ℚ) ^ (k + 2))
    (hover : 1 + 4 * aq ≤ (2 : ℚ) ^ (1023 : Int)
      ∧ (2 : ℚ) ^ k * (1 + 4 * aq) ≤ (2 : ℚ) ^ (1023 : Int))
    (hci : 1 ≤ ci ∧ ci ≤ fl.size) (hcj : 1 ≤ cj ∧ cj ≤ fl.size)
    (hsrc : src.Get ci cj = F64.fin s) (hrep : Rep s) (hspos : 0 < s)
    (hsk : s ≤ (2 : ℚ) ^ k)
    (hshare : 0 < F64.fin aq * (F64.fin s / (1 + 4 * F64.fin aq)) / (1 + 4 * F64.fin aq))
    (hsrc0 : ∀ i j, 1 ≤ i → i ≤ fl.size → 1 ≤ j → j ≤ fl.size → ¬ (i = ci ∧ j = cj) →
      src.Get i j = 0)
    (hdst : ∀ c d, (0 ≤ c ∧ c ≤ fl.size + 1) → (0 ≤ d ∧ d ≤ fl.size + 1) →
      dst.Get c d = 0) :
    (∃ q, (fl.diffuse 0 rate dst src).Get ci cj = F64.fin q ∧ 0 < q ∧ q ≤ (2 : ℚ) ^ k)
      ∧ 0 < (fl.diffuse 0 rate dst src).Get (ci - 1) cj
      ∧ 0 < (fl.diffuse 0 rate dst src).Get (ci + 1) cj
      ∧ 0 < (fl.diffuse 0 rate dst src).Get ci (cj - 1)
      ∧ 0 < (fl.diffuse 0 rate dst src).Get ci (cj + 1) := by
  have har : Rep aq := F64.rep_of_mul_eq_fin _ _ _ ha
  have hP := rep_scaled_coefficient aq k ha0.le har (Or.inr hunder)
  have hM := two_zpow_pos k
  have hl2 : 0 < rne (rne (aq * rne (s / denomQ aq)) / denomQ aq) := by
    rw [F64.spike_share_fin aq s k ha0.le har hk hover.1 hover.2 ⟨hspos.le, hsk⟩] at hshare
    exact (F64.pos_fin _).mp hshare
  have hl1 : 0 < rne (s / denomQ aq) := by
    have hd := denomQ_ge_one aq ha0.le
    have n1 : 0 ≤ rne (s / denomQ aq) := rne_nonneg _ (div_nonneg hspos.le (by linarith))
    rcases n1.lt_or_eq with h | h
    · exact h
    · rw [← h, mul_zero, rne_zero, zero_div, rne_zero] at hl2
      exact absurd hl2 (lt_irrefl _)
  have h0 : ∀ i j, 1 ≤ i → i ≤ fl.size → 1 ≤ j → j ≤ fl.size →
      F64.Within 0 ((2 : ℚ) ^ k) (src.Get i j) := by
    intro i j hi1 hi hj1 hj
    by_cases h : i = ci ∧ j = cj
    · rw [h.1, h.2]
      exact ⟨s, hsrc, hrep, hspos.le, hsk⟩
    · rw [hsrc0 i j hi1 hi hj1 hj h]
      exact F64.within_zero _ hM.le
  have step := fun t ht => IEEE.Fluid.diffuse_iteration_spike_f64 fl aq s t src D k ha0.le
    har hk hP hover.1 hover.2 hN hD ci cj hci hcj hsrc hrep ⟨hspos.le, hsk⟩ hl1 hl2 h0 ht
  obtain ⟨j1, c1, _⟩ := step dst ⟨hs, fun c d hc2 hd2 => by
    rw [hdst c d hc2 hd2]
    exact F64.within_zero _ hM.le⟩
  obtain ⟨j2, c2, n2⟩ := step _ j1
  have key := repeatN_invariant
    (fun t : IEEE.Vektor => (t.Shape D
      ∧ ∀ c d, (0 ≤ c ∧ c ≤ fl.size + 1) → (0 ≤ d ∧ d ≤ fl.size + 1) →
        F64.Within 0 ((2 : ℚ) ^ k) (t.Get c d))
      ∧ (∃ q, t.Get ci cj = F64.fin q ∧ rne (s / denomQ aq) ≤ q)
      ∧ (0 < t.Get (ci - 1) cj ∧ 0 < t.Get (ci + 1) cj ∧ 0 < t.Get ci (cj - 1)
        ∧ 0 < t.Get ci (cj + 1)))
    18
    (fun xx =>
      let xx := fl.diffuseSweep (F64.fin aq) xx src
      fl.setBnd 0 xx)
    _ ⟨j2, c2, n2 c1⟩
    (fun t ht => by
      obtain ⟨j3, c3, n3⟩ := step t ht.1
      exact ⟨j3, c3, n3 ht.2.1⟩)
  have e : repeatN 20 (fun xx =>
        let xx := fl.diffuseSweep (F64.fin aq) xx src
        fl.setBnd 0 xx) dst
      = repeatN 18 (fun xx =>
          let xx := fl.diffuseSweep (F64.fin aq) xx src
          fl.setBnd 0 xx)
        (fl.setBnd 0 (fl.diffuseSweep (F64.fin aq)
          (fl.setBnd 0 (fl.diffuseSweep (F64.fin aq) dst src)) src)) :=
    repeatN_two_more 18 _ dst
  rw [(IEEE.Fluid.diffuse_eq_f64 fl 0 rate dst src aq ha 0).1]
  rw [e]
  refine ⟨?_, key.2.2⟩
  obtain ⟨q, e1, l1⟩ := key.2.1
  obtain ⟨q', e2, _, _, u2⟩ := key.1.2 ci cj (by omega) (by omega)
  have hq : q = q' := F64.fin.inj (e1.symm.trans e2)
  exact ⟨q, e1, lt_of_lt_of_le hl1 l1, hq ▸ u2⟩

/-- Witness for C18, amended: `spikeFluid` (resolution 2, `dt = 0.001`),
`rate = 0.0001`, a zero destination grid and the source `spikeSource`, which holds 5 at
(1,1); the bound is `2^3 = 8`. -/
theorem diffuse_spreads_spike_witness :
    (∃ q, (IEEE.Fluid.spikeFluid.diffuse 0 0.0001 (IEEE.Vektor.New 16)
        IEEE.Fluid.spikeSource).Get 1 1 = F64.fin q ∧ 0 < q ∧ q ≤ (2 : ℚ) ^ (3 : Int))
      ∧ 0 < (IEEE.Fluid.spikeFluid.diffuse 0 0.0001 (IEEE.Vektor.New 16)
          IEEE.Fluid.spikeSource).Get (1 - 1) 1
      ∧ 0 < (IEEE.Fluid.spikeFluid.diffuse 0 0.0001 (IEEE.Vektor.New 16)
          IEEE.Fluid.spikeSource).Get (1 + 1) 1
      ∧ 0 < (IEEE.Fluid.spikeFluid.diffuse 0 0.0001 (IEEE.Vektor.New 16)
          IEEE.Fluid.spikeSource).Get 1 (1 - 1)
      ∧ 0 < (IEEE.Fluid.spikeFluid.diffuse 0 0.0001 (IEEE.Vektor.New 16)
          IEEE.Fluid.spikeSource).Get 1 (1 + 1) :=
  diffuse_spreads_spike IEEE.Fluid.spikeFluid 0.0001 (IEEE.Vektor.New 16)
    IEEE.Fluid.spikeSource 16 (7555786372591433/18889465931478580854784) 5 3 1 1
    (IEEE.Vektor.New_Shape_f64 16) (by decide) (by decide) (by decide!) (by norm_num)
    (by norm_num) (Or.inl (by norm_num)) (by norm_num) (by decide) (by decide)
    (by decide!) (rep_int 5 (by norm_num)) (by norm_num) (by norm_num) (by decide!)
    IEEE.Fluid.spikeSource_zero
    (fun c d _ _ => IEEE.Vektor.Get_of_allZero_f64 (IEEE.Fluid.New_allZero_f64 16) c d)

end Stam
